import Mathlib

/-!
# teqp: composition and construction of multi-fluid Helmholtz-energy models

A shallow embedding of `include/teqp/models/multifluid.hpp`.

* Coefficients read from a model description are rationals (`ℚ`); every value a JSON
  document can spell is one.
* The evaluation functions of the source are templates over the numeric type of `tau` and
  `delta`.  Here they are functions over an arbitrary field `S`, with the real power and the
  exponential of that numeric type passed in as `pw` and `ex`.
* A C++ exception is an `Except.error`; reading or slicing an array past its end, which the
  source leaves undefined, is the separate failure `Failure.undefined`.
-/

namespace teqp

/-- The ways in which a call can fail. -/
inductive Failure where
  /-- The exception `teqp::InvalidArgument` with its message. -/
  | InvalidArgument (what : String)
  /-- The exception `std::invalid_argument` with its message. -/
  | invalid_argument (what : String)
  /-- An exception of the JSON library: `at` on a missing key, or the conversion of a value
  that is not an array to an array of numbers. -/
  | json_exception
  /-- An array is read or sliced past its end; the source leaves this undefined. -/
  | undefined
  deriving DecidableEq, Repr

/-! ## Model assembly: `CorrespondingStatesContribution`, `DepartureContribution`, `MultiFluid` -/

section Assembly

variable {S : Type} [CommRing S] [Div S] {E D : Type}

/-- The class `CorrespondingStatesContribution`: one equation of state per component. -/
structure CorrespondingStatesContribution (E : Type) where
  EOSs : List E

/-- The method `CorrespondingStatesContribution::size`. -/
def CorrespondingStatesContribution.size (self : CorrespondingStatesContribution E) : Nat :=
  self.EOSs.length

/-- The method `CorrespondingStatesContribution::alphar`: the loop
`for i < molefracs.size(): alphar = alphar + molefracs[i] * EOSs[i].alphar(tau, delta)`.
`ev` is the evaluation `alphar(tau, delta)` of one stored equation of state. -/
def CorrespondingStatesContribution.alphar (ev : E → S → S → S)
    (self : CorrespondingStatesContribution E) (tau delta : S) (molefracs : List S) :
    Except Failure S :=
  (List.range molefracs.length).foldlM (fun alphar i =>
    match molefracs[i]?, self.EOSs[i]? with
    | some xi, some eos => pure (alphar + xi * ev eos tau delta)
    | _, _ => throw Failure.undefined) 0

/-- The class `DepartureContribution`: the weights `F(i, j)` and the matrix `funcs[i][j]` of
departure functions. -/
structure DepartureContribution (S D : Type) where
  F : Nat → Nat → S
  funcs : List (List D)

/-- The method `DepartureContribution::alphar`: the double loop over `i < N`, `i + 1 ≤ j < N`
with `N = molefracs.size()`, adding
`molefracs[i] * molefracs[j] * F(i, j) * funcs[i][j].alphar(tau, delta)`. -/
def DepartureContribution.alphar (ev : D → S → S → S) (self : DepartureContribution S D)
    (tau delta : S) (molefracs : List S) : Except Failure S :=
  (List.range molefracs.length).foldlM (fun alphar i =>
    (List.range' (i + 1) (molefracs.length - (i + 1))).foldlM (fun alphar j =>
      match molefracs[i]?, molefracs[j]?, (self.funcs[i]?).bind (fun row => row[j]?) with
      | some xi, some xj, some f => pure (alphar + xi * xj * self.F i j * ev f tau delta)
      | _, _, _ => throw Failure.undefined) alphar) 0

/-- The reducing functions of a model, `get_Tr` and `get_rhor`, as given functions of the mole
fractions. -/
structure ReducingFunctions (S : Type) where
  get_Tr : List S → S
  get_rhor : List S → S

/-- The class `MultiFluid`. -/
structure MultiFluid (S E D : Type) where
  redfunc : ReducingFunctions S
  corr : CorrespondingStatesContribution E
  dep : DepartureContribution S D

/-- The message of the arity check of `MultiFluid::alphar`. -/
def MultiFluid.wrong_size (loaded provided : Nat) : String :=
  "Wrong size of mole fractions; " ++ toString loaded ++ " are loaded but " ++
    toString provided ++ " were provided"

/-- The method `MultiFluid::alphar(T, rho, molefrac)`. -/
def MultiFluid.alphar (evE : E → S → S → S) (evD : D → S → S → S) (self : MultiFluid S E D)
    (T rho : S) (molefrac : List S) : Except Failure S :=
  if molefrac.length ≠ self.corr.size then
    throw (Failure.InvalidArgument (MultiFluid.wrong_size self.corr.size molefrac.length))
  else do
    let Tred := self.redfunc.get_Tr molefrac
    let rhored := self.redfunc.get_rhor molefrac
    let delta := rho / rhored
    let tau := Tred / T
    let c ← self.corr.alphar evE tau delta molefrac
    let d ← self.dep.alphar evD tau delta molefrac
    pure (c + d)

end Assembly

/-! ## Model descriptions

A term description is a JSON object.  Its members are arrays of numbers, numbers and strings;
`Json.null` is the value the JSON library gives a member that is not there. -/

/-- The JSON values that occur as members of a term description. -/
inductive Json where
  | null
  | number (q : ℚ)
  | string (s : String)
  | array (a : List ℚ)
  deriving DecidableEq

/-- A JSON object: its members in order. -/
abbrev Object := List (String × Json)

/-- The access `term[name]` on an object: the member, or `null` when there is none. -/
def member (term : Object) (name : String) : Json :=
  (term.lookup name).getD Json.null

/-- The access `term.at(name)`, which throws when there is no such member. -/
def member_at (term : Object) (name : String) : Except Failure Json :=
  match term.lookup name with
  | some v => pure v
  | none => throw Failure.json_exception

/-- The method `contains` of an object. -/
def contains (term : Object) (name : String) : Bool :=
  (term.lookup name).isSome

/-- The method `size` of a JSON value: 0 for `null`, the length of an array, 1 otherwise. -/
def Json.size : Json → Nat
  | Json.null => 0
  | Json.array a => a.length
  | _ => 1

/-- The method `empty` of a JSON value. -/
def Json.empty : Json → Bool
  | Json.null => true
  | Json.array a => a.isEmpty
  | _ => false

/-- Modelled from the spec: the helper `toeig`, whose header is not among the sources at
hand, applied to a JSON value.  It gives the array of the numbers of a coefficient array; the
conversion of a value that is not an array throws. -/
def toeig : Json → Except Failure (List ℚ)
  | Json.array a => pure a
  | _ => throw Failure.json_exception

/-- The conversion of a JSON value to `std::string`. -/
def Json.get_string : Json → Except Failure String
  | Json.string s => pure s
  | _ => throw Failure.json_exception

/-- The conversion `static_cast<int>` of a number and the element-wise `cast<int>()` of an
array: truncation toward zero when the truncated value is a value of `int`.  Outside of the
range of `int` the source conversion is undefined; the value here is the one that the
conversion instructions of x86 give there, the smallest `int`. -/
def cast_int (q : ℚ) : ℤ :=
  if -2 ^ 31 ≤ Int.tdiv q.num q.den ∧ Int.tdiv q.num q.den < 2 ^ 31 then Int.tdiv q.num q.den
  else -2 ^ 31

/-- The conversion of a JSON number to `int`. -/
def Json.get_int : Json → Except Failure ℤ
  | Json.number q => pure (cast_int q)
  | _ => throw Failure.json_exception

/-- The conversion of a JSON number to `double`. -/
def Json.get_double : Json → Except Failure ℚ
  | Json.number q => pure q
  | _ => throw Failure.json_exception

/-- Modelled from the spec: the test made by the helper `all_same_length` of
`json_tools.hpp`, a header that is not among the sources at hand: the sizes are all one and
the same size (equal length of all the arrays of a kind). -/
def lengths_all_same : List Nat → Bool
  | [] => false
  | s :: rest => rest.all (fun r => r == s)

/-- Modelled from the spec: the sizes that `all_same_length` compares, `j.at(k).size()` for
the members named in `ks`, in order. -/
def all_same_length.sizes (term : Object) : List String → Except Failure (List Nat)
  | [] => pure []
  | k :: ks => do
    let v ← member_at term k
    let rest ← all_same_length.sizes term ks
    pure (v.size :: rest)

/-- Modelled from the spec: the helper `all_same_length(term, ks)` of `json_tools.hpp`, a
header that is not among the sources at hand.  It tells whether the members named in `ks`
are all of equal length; it reads each of them with `at`. -/
def all_same_length (term : Object) (ks : List String) : Except Failure Bool := do
  let sizes ← all_same_length.sizes term ks
  pure (lengths_all_same sizes)

/-- The Eigen block `a.head(k)`: the first `k` entries; undefined when there are fewer. -/
def head {α : Type} (a : List α) (k : Nat) : Except Failure (List α) :=
  if k ≤ a.length then pure (a.take k) else throw Failure.undefined

/-- The Eigen block `a.tail(k)`: the last `k` entries; undefined when there are fewer. -/
def tail {α : Type} (a : List α) (k : Nat) : Except Failure (List α) :=
  if k ≤ a.length then pure (a.drop (a.length - k)) else throw Failure.undefined

/-! ## Term kinds and term containers -/

/-- The term `JustPowerEOSTerm`. -/
structure JustPowerEOSTerm where
  n : List ℚ
  t : List ℚ
  d : List ℚ
  deriving DecidableEq

/-- The term `PowerEOSTerm`. -/
structure PowerEOSTerm where
  n : List ℚ
  t : List ℚ
  d : List ℚ
  c : List ℚ
  l : List ℚ
  l_i : List ℤ
  deriving DecidableEq

/-- The term `GaussianEOSTerm`. -/
structure GaussianEOSTerm where
  n : List ℚ
  t : List ℚ
  d : List ℚ
  eta : List ℚ
  beta : List ℚ
  gamma : List ℚ
  epsilon : List ℚ
  deriving DecidableEq

/-- The term `GERG2004EOSTerm`. -/
structure GERG2004EOSTerm where
  n : List ℚ
  t : List ℚ
  d : List ℚ
  eta : List ℚ
  beta : List ℚ
  gamma : List ℚ
  epsilon : List ℚ
  deriving DecidableEq

/-- The term `NonAnalyticEOSTerm`. -/
structure NonAnalyticEOSTerm where
  n : List ℚ
  A : List ℚ
  B : List ℚ
  C : List ℚ
  D : List ℚ
  a : List ℚ
  b : List ℚ
  beta : List ℚ
  deriving DecidableEq

/-- The term `Lemmon2005EOSTerm`. -/
structure Lemmon2005EOSTerm where
  n : List ℚ
  t : List ℚ
  d : List ℚ
  m : List ℚ
  l : List ℚ
  l_i : List ℤ
  deriving DecidableEq

/-- The term `GaoBEOSTerm`. -/
structure GaoBEOSTerm where
  n : List ℚ
  t : List ℚ
  d : List ℚ
  eta : List ℚ
  beta : List ℚ
  gamma : List ℚ
  epsilon : List ℚ
  b : List ℚ
  deriving DecidableEq

/-- The term `ExponentialEOSTerm`. -/
structure ExponentialEOSTerm where
  n : List ℚ
  t : List ℚ
  d : List ℚ
  g : List ℚ
  l : List ℚ
  l_i : List ℤ
  deriving DecidableEq

/-- The term `DoubleExponentialEOSTerm`. -/
structure DoubleExponentialEOSTerm where
  n : List ℚ
  t : List ℚ
  d : List ℚ
  ld : List ℚ
  gd : List ℚ
  lt : List ℚ
  gt : List ℚ
  ld_i : List ℤ
  deriving DecidableEq

/-- The term `Chebyshev2DEOSTerm`: the coefficients `a` in one long array, to be read as a
matrix of `rows` by `cols`, and the rectangle of validity. -/
structure Chebyshev2DEOSTerm where
  a : List ℚ
  rows : ℤ
  cols : ℤ
  taumin : ℚ
  taumax : ℚ
  deltamin : ℚ
  deltamax : ℚ
  deriving DecidableEq

/-- One term of a container: any of the term kinds, `Null` being `NullEOSTerm`. -/
inductive EOSTerm where
  | JustPower (term : JustPowerEOSTerm)
  | Power (term : PowerEOSTerm)
  | Gaussian (term : GaussianEOSTerm)
  | GERG2004 (term : GERG2004EOSTerm)
  | NonAnalytic (term : NonAnalyticEOSTerm)
  | Lemmon2005 (term : Lemmon2005EOSTerm)
  | GaoB (term : GaoBEOSTerm)
  | Exponential (term : ExponentialEOSTerm)
  | DoubleExponential (term : DoubleExponentialEOSTerm)
  | Chebyshev2D (term : Chebyshev2DEOSTerm)
  | Null
  deriving DecidableEq

/-- The containers `EOSTerms` and `DepartureTerms`: the terms in the order in which they were
added. -/
abbrev EOSTerms := List EOSTerm

/-- The method `add_term` of a container. -/
def add_term (container : EOSTerms) (term : EOSTerm) : EOSTerms :=
  container ++ [term]

/-! ## Evaluation of terms and containers -/

section Evaluation

variable {S : Type} [Field S]

/-- Modelled from the spec: the evaluation of the plain power-law kind, the sum of
`n_i * tau^t_i * delta^d_i` over the entries of the term (the header
`multifluid_eosterms.hpp` with the source of the term kinds is not among the sources at
hand).  `pw x q` is the power `x^q` of the numeric type. -/
def JustPowerEOSTerm.alphar (pw : S → ℚ → S) (self : JustPowerEOSTerm) (tau delta : S) : S :=
  ((List.range self.n.length).map fun i =>
    (self.n.getD i 0 : S) * pw tau (self.t.getD i 0) * pw delta (self.d.getD i 0)).sum

/-- Modelled from the spec: the evaluation of the exponentially damped power-law kind, the sum
of `n_i * tau^t_i * delta^d_i * exp(-c_i * delta^l_i)` over the entries of the term, the
exponent `l_i` being the integer stored in `l_i`.  `ex` is the exponential of the numeric
type. -/
def PowerEOSTerm.alphar (pw : S → ℚ → S) (ex : S → S) (self : PowerEOSTerm) (tau delta : S) :
    S :=
  ((List.range self.n.length).map fun i =>
    (self.n.getD i 0 : S) * pw tau (self.t.getD i 0) * pw delta (self.d.getD i 0)
      * ex (-((self.c.getD i 0 : S) * delta ^ (self.l_i.getD i 0)))).sum

/-- Modelled from the spec: the evaluation of one term.  The null term is the additive
identity; the kinds for which the specification gives no formula are evaluated by the given
function `rest`. -/
def EOSTerm.alphar (pw : S → ℚ → S) (ex : S → S) (rest : EOSTerm → S → S → S)
    (term : EOSTerm) (tau delta : S) : S :=
  match term with
  | EOSTerm.JustPower p => p.alphar pw tau delta
  | EOSTerm.Power p => p.alphar pw ex tau delta
  | EOSTerm.Null => 0
  | other => rest other tau delta

/-- Modelled from the spec: the evaluation of a container, the sum of the evaluations of its
terms. -/
def EOSTermContainer.alphar (pw : S → ℚ → S) (ex : S → S) (rest : EOSTerm → S → S → S)
    (container : EOSTerms) (tau delta : S) : S :=
  (container.map fun term => term.alphar pw ex rest tau delta).sum

end Evaluation

/-! ## The power-law builders -/

/-- The lambda `eigorzero` of `build_power`: the member as an array when it is not empty,
`N` zeros otherwise. -/
def eigorzero (term : Object) (N : Nat) (name : String) : Except Failure (List ℚ) :=
  if !(member term name).empty then toeig (member term name)
  else pure (List.replicate N 0)

/-- The test `((eos.l_i.cast<double>() - eos.l).cwiseAbs() > 0.0).any()`. -/
def non_integer_entry (l_i : List ℤ) (l : List ℚ) : Bool :=
  (List.zipWith (fun (a : ℤ) (b : ℚ) => |(a : ℚ) - b|) l_i l).any (fun v => v > 0)

/-- The statements that `build_power` of `get_EOS_terms` and `build_power` of
`build_departure_function` have in common, from `eos.c = c` to the end: the two checks and
the choice between one plain term, a plain and a damped term, and one damped term.
`contiguous_lzero` is not set (and not read) when `l` is absent. -/
def build_power.add_terms (n t d c l : List ℚ) (Nlzero Nlnonzero : Nat)
    (contiguous_lzero : Bool) (container : EOSTerms) : Except Failure EOSTerms :=
  let eos : PowerEOSTerm := ⟨n, t, d, c, l, l.map cast_int⟩
  if Nlzero + Nlnonzero ≠ l.length then
    throw (Failure.invalid_argument "Somehow the l lengths don\x27t add up")
  else if non_integer_entry eos.l_i eos.l then
    throw (Failure.invalid_argument "Non-integer entry in l found")
  else if l.sum = 0 then
    pure (add_term container (EOSTerm.JustPower ⟨eos.n, eos.t, eos.d⟩))
  else if l.sum > 0 ∧ contiguous_lzero = true then do
    let pn ← head eos.n Nlzero
    let pt ← head eos.t Nlzero
    let pd ← head eos.d Nlzero
    let container := add_term container (EOSTerm.JustPower ⟨pn, pt, pd⟩)
    let en ← tail eos.n Nlnonzero
    let et ← tail eos.t Nlnonzero
    let ed ← tail eos.d Nlnonzero
    let ec ← tail eos.c Nlnonzero
    let el ← tail eos.l Nlnonzero
    let el_i ← tail eos.l_i Nlnonzero
    pure (add_term container (EOSTerm.Power ⟨en, et, ed, ec, el, el_i⟩))
  else
    pure (add_term container (EOSTerm.Power eos))

/-- The part of `build_power` that reads `l` when it is given: `c_i = 1` if `l_i > 0` and
zero otherwise for `i < N`, `contiguous_lzero = (l[0] == 0)`, and `Nlzero`, the number of
`i < N` with `l_i = 0`.  The loops read `l[i]` for every `i < N`. -/
def build_power.read_l (N : Nat) (l : List ℚ) : Except Failure (List ℚ × Bool × Nat) :=
  if l.length < N then throw Failure.undefined
  else
    match l.head? with
    | none => throw Failure.undefined
    | some l0 =>
      pure ((l.take N).map (fun li => if li > 0 then (1 : ℚ) else 0), decide (l0 = 0),
        (l.take N).countP (fun li => li = 0))

/-- The lambda `build_power` of `get_EOS_terms`. -/
def get_EOS_terms.build_power (term : Object) (container : EOSTerms) :
    Except Failure EOSTerms := do
  let N := (member term "n").size
  let n ← eigorzero term N "n"
  let t ← eigorzero term N "t"
  let d ← eigorzero term N "d"
  if (member term "l").empty then
    -- exponential part not included
    let l := List.replicate N (0 : ℚ)
    let c := List.replicate N (0 : ℚ)
    build_power.add_terms n t d c l 0 (l.length - 0) false container
  else
    let l ← toeig (member term "l")
    let (c, contiguous_lzero, Nlzero) ← build_power.read_l N l
    build_power.add_terms n t d c l Nlzero (l.length - Nlzero) contiguous_lzero container

/-- The lambda `build_power` of `build_departure_function`.  The members `n`, `t`, `d`, `l`
have been accessed with `term[...]` before `all_same_length` is called, so each of them is
there (as `null`, of size 0, if it was not given) and `at` does not throw. -/
def build_departure_function.build_power (term : Object) (dep : EOSTerms) :
    Except Failure EOSTerms := do
  let N := (member term "n").size
  -- no departure function is added if there are no coefficients provided
  if N = 0 then
    pure dep
  else
    let n ← eigorzero term N "n"
    let t ← eigorzero term N "t"
    let d ← eigorzero term N "d"
    let (c, l, contiguous_lzero, Nlzero) ←
      (if (member term "l").empty then
        if !lengths_all_same (["n", "t", "d"].map fun k => (member term k).size) then
          throw (Failure.invalid_argument
            "Lengths are not all identical in polynomial-like term")
        else
          pure (List.replicate N (0 : ℚ), List.replicate N (0 : ℚ), false, 0)
      else
        if !lengths_all_same (["n", "t", "d", "l"].map fun k => (member term k).size) then
          throw (Failure.invalid_argument "Lengths are not all identical in exponential term")
        else do
          let l ← toeig (member term "l")
          let (c, contiguous_lzero, Nlzero) ← build_power.read_l N l
          pure (c, l, contiguous_lzero, Nlzero) :
        Except Failure (List ℚ × List ℚ × Bool × Nat))
    match l.head?, l.getLast? with
    | some first, some last =>
      if first ≠ 0 ∧ last = 0 then
        throw (Failure.invalid_argument
          "If l_i has zero and non-zero values, the zero values need to come first")
      else
        build_power.add_terms n t d c l Nlzero (l.length - Nlzero) contiguous_lzero dep
    | _, _ => throw Failure.undefined

/-! ## `get_EOS_terms` -/

/-- The lambda `build_Lemmon2005` of `get_EOS_terms`. -/
def get_EOS_terms.build_Lemmon2005 (term : Object) : Except Failure Lemmon2005EOSTerm := do
  let n ← toeig (member term "n")
  let t ← toeig (member term "t")
  let d ← toeig (member term "d")
  let m ← toeig (member term "m")
  let l ← toeig (member term "l")
  let l_i := l.map cast_int
  if !(← all_same_length term ["n", "t", "d", "m", "l"]) then
    throw (Failure.invalid_argument "Lengths are not all identical in Lemmon2005 term")
  else if non_integer_entry l_i l then
    throw (Failure.invalid_argument "Non-integer entry in l found")
  else
    pure ⟨n, t, d, m, l, l_i⟩

/-- The lambda `build_gaussian` of `get_EOS_terms`. -/
def get_EOS_terms.build_gaussian (term : Object) : Except Failure GaussianEOSTerm := do
  let n ← toeig (member term "n")
  let t ← toeig (member term "t")
  let d ← toeig (member term "d")
  let eta ← toeig (member term "eta")
  let beta ← toeig (member term "beta")
  let gamma ← toeig (member term "gamma")
  let epsilon ← toeig (member term "epsilon")
  if !(← all_same_length term ["n", "t", "d", "eta", "beta", "gamma", "epsilon"]) then
    throw (Failure.invalid_argument "Lengths are not all identical in Gaussian term")
  else
    pure ⟨n, t, d, eta, beta, gamma, epsilon⟩

/-- The lambda `build_exponential` of `get_EOS_terms`. -/
def get_EOS_terms.build_exponential (term : Object) : Except Failure ExponentialEOSTerm := do
  let n ← toeig (member term "n")
  let t ← toeig (member term "t")
  let d ← toeig (member term "d")
  let g ← toeig (member term "g")
  let l ← toeig (member term "l")
  let l_i := l.map cast_int
  if !(← all_same_length term ["n", "t", "d", "g", "l"]) then
    throw (Failure.invalid_argument "Lengths are not all identical in exponential term")
  else
    pure ⟨n, t, d, g, l, l_i⟩

/-- The lambda `build_doubleexponential`, the same in `get_EOS_terms` and in
`build_departure_function`. -/
def build_doubleexponential (term : Object) : Except Failure DoubleExponentialEOSTerm := do
  if !(← all_same_length term ["n", "t", "d", "ld", "gd", "lt", "gt"]) then
    throw (Failure.invalid_argument "Lengths are not all identical in double exponential term")
  else
    let n ← (member_at term "n").bind toeig
    let t ← (member_at term "t").bind toeig
    let d ← (member_at term "d").bind toeig
    let ld ← (member_at term "ld").bind toeig
    let gd ← (member_at term "gd").bind toeig
    let lt ← (member_at term "lt").bind toeig
    let gt ← (member_at term "gt").bind toeig
    pure ⟨n, t, d, ld, gd, lt, gt, ld.map cast_int⟩

/-- The lambda `build_GaoB` of `get_EOS_terms`; the sign of `eta` is flipped. -/
def get_EOS_terms.build_GaoB (term : Object) : Except Failure GaoBEOSTerm := do
  let n ← toeig (member term "n")
  let t ← toeig (member term "t")
  let d ← toeig (member term "d")
  let eta ← toeig (member term "eta")
  let beta ← toeig (member term "beta")
  let gamma ← toeig (member term "gamma")
  let epsilon ← toeig (member term "epsilon")
  let b ← toeig (member term "b")
  if !(← all_same_length term ["n", "t", "d", "eta", "beta", "gamma", "epsilon", "b"]) then
    throw (Failure.invalid_argument "Lengths are not all identical in GaoB term")
  else
    pure ⟨n, t, d, eta.map (fun v => -v), beta, gamma, epsilon, b⟩

/-- The lambda `build_na` of `get_EOS_terms`, for non-analytic terms. -/
def get_EOS_terms.build_na (term : Object) : Except Failure NonAnalyticEOSTerm := do
  let n ← toeig (member term "n")
  let A ← toeig (member term "A")
  let B ← toeig (member term "B")
  let C ← toeig (member term "C")
  let D ← toeig (member term "D")
  let a ← toeig (member term "a")
  let b ← toeig (member term "b")
  let beta ← toeig (member term "beta")
  if !(← all_same_length term ["n", "A", "B", "C", "D", "a", "b", "beta"]) then
    throw (Failure.invalid_argument "Lengths are not all identical in nonanalytic term")
  else
    pure ⟨n, A, B, C, D, a, b, beta⟩

/-- The list `allowed_types` of `get_EOS_terms`. -/
def get_EOS_terms.allowed_types : List String :=
  ["ResidualHelmholtzPower", "ResidualHelmholtzGaussian", "ResidualHelmholtzNonAnalytic",
    "ResidualHelmholtzGaoB", "ResidualHelmholtzLemmon2005", "ResidualHelmholtzExponential",
    "ResidualHelmholtzDoubleExponential"]

/-- The lambda `isallowed` of `get_EOS_terms`. -/
def get_EOS_terms.isallowed (conventional_types : List String) (name : String) : Bool :=
  conventional_types.any (fun a => name == a)

/-- The first loop of `get_EOS_terms`: every term has an allowed type. -/
def get_EOS_terms.check_types (alphar : List Object) : Except Failure Unit :=
  alphar.forM fun term => do
    let type ← (member term "type").get_string
    if !get_EOS_terms.isallowed get_EOS_terms.allowed_types type then
      throw (Failure.invalid_argument ("Bad type:" ++ type ++ "; allowed types are: \x7b"
        ++ String.intercalate "," get_EOS_terms.allowed_types ++ "\x7d"))
    else
      pure ()

/-- The body of the second loop of `get_EOS_terms`: the term is built according to its type
and added to the container. -/
def get_EOS_terms.add (container : EOSTerms) (term : Object) : Except Failure EOSTerms := do
  let type ← (member term "type").get_string
  if type = "ResidualHelmholtzPower" then
    get_EOS_terms.build_power term container
  else if type = "ResidualHelmholtzGaussian" then
    (get_EOS_terms.build_gaussian term).map fun e => add_term container (EOSTerm.Gaussian e)
  else if type = "ResidualHelmholtzNonAnalytic" then
    (get_EOS_terms.build_na term).map fun e => add_term container (EOSTerm.NonAnalytic e)
  else if type = "ResidualHelmholtzLemmon2005" then
    (get_EOS_terms.build_Lemmon2005 term).map fun e =>
      add_term container (EOSTerm.Lemmon2005 e)
  else if type = "ResidualHelmholtzGaoB" then
    (get_EOS_terms.build_GaoB term).map fun e => add_term container (EOSTerm.GaoB e)
  else if type = "ResidualHelmholtzExponential" then
    (get_EOS_terms.build_exponential term).map fun e =>
      add_term container (EOSTerm.Exponential e)
  else if type = "ResidualHelmholtzDoubleExponential" then
    (build_doubleexponential term).map fun e =>
      add_term container (EOSTerm.DoubleExponential e)
  else
    throw (Failure.invalid_argument ("Bad term type: " ++ type))

/-- The function `get_EOS_terms`, applied to the array `j["EOS"][0]["alphar"]` of term
descriptions. -/
def get_EOS_terms (alphar : List Object) : Except Failure EOSTerms := do
  get_EOS_terms.check_types alphar
  alphar.foldlM get_EOS_terms.add []

/-! ## `build_departure_function` -/

/-- The Eigen block `a.head(k)` with an `int` count; undefined for a negative count. -/
def head_int {α : Type} (a : List α) (k : ℤ) : Except Failure (List α) :=
  if 0 ≤ k then head a k.toNat else throw Failure.undefined

/-- The Eigen block `a.tail(k)` with an `int` count; undefined for a negative count. -/
def tail_int {α : Type} (a : List α) (k : ℤ) : Except Failure (List α) :=
  if 0 ≤ k then tail a k.toNat else throw Failure.undefined

/-- The access `term[name]` on a constant object, undefined when there is no such member. -/
def member_const (term : Object) (name : String) : Except Failure Json :=
  match term.lookup name with
  | some v => pure v
  | none => throw Failure.undefined

/-- The power part that `build_GERG2004` and `build_GaussianExponential` build in the same
way: the first `Npower` entries of `n`, `t`, `d` and of `l` (zeros when `l` is not given),
with `c_i = 1` if `l_i > 0` and zero otherwise. -/
def build_departure_function.power_part (term : Object) (Npower : ℤ) :
    Except Failure PowerEOSTerm := do
  let n ← ((member_const term "n").bind toeig).bind fun a => head_int a Npower
  let t ← ((member_const term "t").bind toeig).bind fun a => head_int a Npower
  let d ← ((member_const term "d").bind toeig).bind fun a => head_int a Npower
  let l ←
    (if contains term "l" then
      ((member_const term "l").bind toeig).bind fun a => head_int a Npower
    else
      pure (n.map fun v => 0 * v) : Except Failure (List ℚ))
  let c := l.map fun li => if li > 0 then (1 : ℚ) else 0
  pure ⟨n, t, d, c, l, l.map cast_int⟩

/-- The last `k` entries of the seven arrays of a Gaussian part. -/
def build_departure_function.gaussian_part (term : Object) (k : ℤ) :
    Except Failure GaussianEOSTerm := do
  let n ← ((member_const term "n").bind toeig).bind fun a => tail_int a k
  let t ← ((member_const term "t").bind toeig).bind fun a => tail_int a k
  let d ← ((member_const term "d").bind toeig).bind fun a => tail_int a k
  let eta ← ((member_const term "eta").bind toeig).bind fun a => tail_int a k
  let beta ← ((member_const term "beta").bind toeig).bind fun a => tail_int a k
  let gamma ← ((member_const term "gamma").bind toeig).bind fun a => tail_int a k
  let epsilon ← ((member_const term "epsilon").bind toeig).bind fun a => tail_int a k
  pure ⟨n, t, d, eta, beta, gamma, epsilon⟩

/-- The lambda `build_GERG2004` of `build_departure_function`. -/
def build_departure_function.build_GERG2004 (term : Object) (dep : EOSTerms) :
    Except Failure EOSTerms := do
  if !(← all_same_length term ["n", "t", "d", "eta", "beta", "gamma", "epsilon"]) then
    throw (Failure.invalid_argument "Lengths are not all identical in GERG term")
  else
    let Npower ← (member_const term "Npower").bind Json.get_int
    let NGERG := ((← member_const term "n").size : ℤ) - Npower
    let eos ← build_departure_function.power_part term Npower
    let dep := add_term dep (EOSTerm.Power eos)
    let e ← build_departure_function.gaussian_part term NGERG
    pure (add_term dep (EOSTerm.GERG2004 ⟨e.n, e.t, e.d, e.eta, e.beta, e.gamma, e.epsilon⟩))

/-- The lambda `build_GaussianExponential` of `build_departure_function`. -/
def build_departure_function.build_GaussianExponential (term : Object) (dep : EOSTerms) :
    Except Failure EOSTerms := do
  if !(← all_same_length term ["n", "t", "d", "eta", "beta", "gamma", "epsilon"]) then
    throw (Failure.invalid_argument
      "Lengths are not all identical in Gaussian+Exponential term")
  else
    let Npower ← (member_const term "Npower").bind Json.get_int
    let NGauss := ((← member_const term "n").size : ℤ) - Npower
    let eos ← build_departure_function.power_part term Npower
    let dep := add_term dep (EOSTerm.Power eos)
    let e ← build_departure_function.gaussian_part term NGauss
    pure (add_term dep (EOSTerm.Gaussian e))

/-- The lambda `build_Chebyshev2D` of `build_departure_function`. -/
def build_departure_function.build_Chebyshev2D (term : Object) (dep : EOSTerms) :
    Except Failure EOSTerms := do
  let Ntau ← (member_at term "Ntau").bind Json.get_int
  let Ndelta ← (member_at term "Ndelta").bind Json.get_int
  let c ← (member_at term "a").bind toeig
  if (Ntau + 1) * (Ndelta + 1) ≠ (c.length : ℤ) then
    throw (Failure.invalid_argument ("Provided length [" ++ toString c.length
      ++ "] is not equal to (Ntau+1)*(Ndelta+1)"))
  else
    let taumin ← (member_at term "taumin").bind Json.get_double
    let taumax ← (member_at term "taumax").bind Json.get_double
    let deltamin ← (member_at term "deltamin").bind Json.get_double
    let deltamax ← (member_at term "deltamax").bind Json.get_double
    pure (add_term dep
      (EOSTerm.Chebyshev2D ⟨c, Ntau + 1, Ndelta + 1, taumin, taumax, deltamin, deltamax⟩))

/-- The list `options` in the error message of `build_departure_function`. -/
def build_departure_function.options : List String :=
  ["Exponential", "GERG-2004", "GERG-2008", "Gaussian+Exponential", "none",
    "DoubleExponential", "Chebyshev2D"]

/-- The function `build_departure_function`. -/
def build_departure_function (j : Object) : Except Failure EOSTerms := do
  let type ← (member_at j "type").bind Json.get_string
  let dep : EOSTerms := []
  if type = "Exponential" then
    build_departure_function.build_power j dep
  else if type = "DoubleExponential" then
    (build_doubleexponential j).map fun e => add_term dep (EOSTerm.DoubleExponential e)
  else if type = "GERG-2004" ∨ type = "GERG-2008" then
    build_departure_function.build_GERG2004 j dep
  else if type = "Gaussian+Exponential" then
    build_departure_function.build_GaussianExponential j dep
  else if type = "Chebyshev2D" then
    build_departure_function.build_Chebyshev2D j dep
  else if type = "none" then
    pure (add_term dep EOSTerm.Null)
  else
    throw (Failure.invalid_argument ("Bad departure term type: " ++ type
      ++ ". Options are \x7b" ++ String.intercalate "," build_departure_function.options
      ++ "\x7d"))

/-! ## Descriptions of power-law terms -/

/-- The member `l` of a description is the array `l`, an absent member counting as the empty
array. -/
def has_l (term : Object) (l : List ℚ) : Prop :=
  member term "l" = Json.array l ∨ (member term "l" = Json.null ∧ l = [])

/-- The description of a power-law term with the members `type`, `n`, `t`, `d` and `l`. -/
def power_term (type : String) (n t d l : List ℚ) : Object :=
  [("type", Json.string type), ("n", Json.array n), ("t", Json.array t), ("d", Json.array d),
    ("l", Json.array l)]

/-- The first entry of `alphar` in the description of `build_LJ126_TholJPCRD2016`
(`mie/lennardjones.hpp`). -/
def LJ126_TholJPCRD2016_power : Object :=
  [("d", Json.array [4, 1, 1, 2, 2, 3, 1, 1, 3, 2, 2, 5]),
    ("l", Json.array [0, 0, 0, 0, 0, 0, 1, 2, 2, 1, 2, 1]),
    ("n", Json.array [0.52080730e-2, 0.21862520e+1, -0.21610160e+1, 0.14527000e+1,
      -0.20417920e+1, 0.18695286e+0, -0.62086250e+0, -0.56883900e+0, -0.80055922e+0,
      0.10901431e+0, -0.49745610e+0, -0.90988445e-1]),
    ("t", Json.array [1.000, 0.320, 0.505, 0.672, 0.843, 0.898, 1.205, 1.786, 2.770, 1.786,
      2.590, 1.294]),
    ("type", Json.string "ResidualHelmholtzPower")]

/-! ## Direct access to one departure function -/

/-- The method `DepartureContribution::get_alpharij(i, j, tau, delta)`; `i` and `j` are of
type `int`. -/
def DepartureContribution.get_alpharij {S D : Type} (ev : D → S → S → S)
    (self : DepartureContribution S D) (i j : ℤ) (tau delta : S) : Except Failure S :=
  let N : ℤ := self.funcs.length
  if i < 0 ∨ j < 0 then
    throw (Failure.InvalidArgument "i or j is negative")
  else if i ≥ N ∨ j ≥ N then
    throw (Failure.InvalidArgument ("i or j is invalid; size is " ++ toString N))
  else
    match (self.funcs[i.toNat]?).bind (fun row => row[j.toNat]?) with
    | some f => pure (ev f tau delta)
    | none => throw Failure.undefined

/-! ## Identifiers of the components -/

/-- The members of `INFO` in the description of a pure fluid that the builders read. -/
structure FluidInfo where
  NAME : String
  CAS : String
  REFPROP_NAME : String
  ALIASES : List String

/-- The function `collect_identifiers`.  It returns a `std::map` with the keys `CAS`, `Name`
and `REFPROP`; a loop over a `std::map` visits the keys in increasing order, which is the
order of this list. -/
def collect_identifiers (pureJSON : List FluidInfo) : List (String × List String) :=
  [("CAS", pureJSON.map fun j => j.CAS), ("Name", pureJSON.map fun j => j.NAME),
    ("REFPROP", pureJSON.map fun j => j.REFPROP_NAME)]

/-- The two loops in the `try` block of `select_identifier`: `get_BIPdep` is called for every
pair `i < j` of identifiers.  The lookup `reducing::get_BIPdep` (with the collection and the
flags it is given) belongs to a header that is not among the sources at hand and is the
parameter `get_BIPdep`. -/
def select_identifier.all_pairs {B : Type} (get_BIPdep : String → String → Except Failure B)
    (identifiers : List String) : Except Failure Unit :=
  (List.range identifiers.length).foldlM (fun _ i =>
    (List.range' (i + 1) (identifiers.length - (i + 1))).foldlM (fun _ j =>
      match identifiers[i]?, identifiers[j]? with
      | some a, some b => (get_BIPdep a b).map fun _ => ()
      | _, _ => throw Failure.undefined) ()) ()

/-- The function `select_identifier`: the first key of `identifierset` for which no lookup
throws; whatever is thrown for a key is caught and the next key is tried. -/
def select_identifier {B : Type} (get_BIPdep : String → String → Except Failure B) :
    List (String × List String) → Except Failure String
  | [] => throw (Failure.invalid_argument "Unable to match any of the identifier options")
  | (key, identifiers) :: rest =>
    match select_identifier.all_pairs get_BIPdep identifiers with
    | Except.ok _ => pure key
    | Except.error _ => select_identifier get_BIPdep rest

/-- The binary-interaction lookup succeeds for every pair `i < j` of the identifiers. -/
def all_pairs_found {B : Type} (get_BIPdep : String → String → Except Failure B)
    (identifiers : List String) : Prop :=
  ∀ (i j : Nat) (a b : String), i < j → identifiers[i]? = some a → identifiers[j]? = some b →
    ∃ r, get_BIPdep a b = Except.ok r

/-! ## The reverse-lookup map of aliases -/

/-- A fluid file of the folder `dev/fluids`: its absolute path and its `INFO`. -/
structure FluidFile where
  path : String
  INFO : FluidInfo

/-- The member `INFO[k]` for the three keys that `build_alias_map` reads. -/
def FluidInfo.at (info : FluidInfo) (k : String) : String :=
  if k = "NAME" then info.NAME else if k = "CAS" then info.CAS else info.REFPROP_NAME

/-- The first inner loop of `build_alias_map`, over the keys `NAME`, `CAS`, `REFPROP_NAME`
of one file.  The map `aliasmap` is a `std::map`, here the list of its entries. -/
def build_alias_map.add_identifiers (path : String) (info : FluidInfo)
    (aliasmap : List (String × String)) : Except Failure (List (String × String)) :=
  ["NAME", "CAS", "REFPROP_NAME"].foldlM (fun aliasmap k =>
    let val := info.at k
    -- Skip REFPROP names that match the fluid itself
    if k = "REFPROP_NAME" ∧ val = info.NAME then pure aliasmap
    -- Skip invalid REFPROP names
    else if k = "REFPROP_NAME" ∧ val = "N/A" then pure aliasmap
    else if (aliasmap.lookup val).isSome then
      throw (Failure.invalid_argument
        ("Duplicated reverse lookup identifier [" ++ k ++ "] found in file:" ++ path))
    else pure (aliasmap ++ [(val, path)])) aliasmap

/-- The second inner loop of `build_alias_map`, over the aliases of one file. -/
def build_alias_map.add_aliases (path : String) (info : FluidInfo)
    (aliasmap : List (String × String)) : Except Failure (List (String × String)) :=
  info.ALIASES.foldlM (fun aliasmap an_alias =>
    if an_alias ≠ info.REFPROP_NAME ∧ an_alias ≠ info.NAME then
      if (aliasmap.lookup an_alias).isSome then
        throw (Failure.invalid_argument
          ("Duplicated alias [" ++ an_alias ++ "] found in file:" ++ path))
      else pure (aliasmap ++ [(an_alias, path)])
    else pure aliasmap) aliasmap

/-- The function `build_alias_map`, applied to the files of the folder in the order in which
`get_files_in_folder` gives them. -/
def build_alias_map (files : List FluidFile) : Except Failure (List (String × String)) :=
  files.foldlM (fun aliasmap f => do
    let aliasmap ← build_alias_map.add_identifiers f.path f.INFO aliasmap
    build_alias_map.add_aliases f.path f.INFO aliasmap) []

/-- The identifiers that `build_alias_map` enters for one file, in order: the `NAME`, the
`CAS`, the `REFPROP_NAME` unless it equals the `NAME` or is `N/A`, and every alias that
differs from the `REFPROP_NAME` and from the `NAME` of the file. -/
def registered (info : FluidInfo) : List String :=
  [info.NAME, info.CAS]
    ++ (if info.REFPROP_NAME = info.NAME ∨ info.REFPROP_NAME = "N/A" then []
        else [info.REFPROP_NAME])
    ++ info.ALIASES.filter (fun a => a ≠ info.REFPROP_NAME ∧ a ≠ info.NAME)

/-! ## Messages about a bad type -/

/-- Whether a failure is a `std::invalid_argument` whose message starts with the letter `B`,
as the two messages about a bad type do. -/
def Failure.starts_with_B : Failure → Bool
  | Failure.invalid_argument what => what.data.head? == some 'B'
  | _ => false

/-- No failure of a computation is a `std::invalid_argument` whose message starts with the
letter `B`. -/
def no_B {α : Type} (x : Except Failure α) : Prop :=
  ∀ e, x = Except.error e → e.starts_with_B = false

/-! ## Lengths of the arrays of a term -/

/-- The lengths of the coefficient arrays of a term, in the order of its members. -/
def EOSTerm.lengths : EOSTerm → List Nat
  | EOSTerm.JustPower p => [p.n.length, p.t.length, p.d.length]
  | EOSTerm.Power p =>
    [p.n.length, p.t.length, p.d.length, p.c.length, p.l.length, p.l_i.length]
  | EOSTerm.Gaussian p =>
    [p.n.length, p.t.length, p.d.length, p.eta.length, p.beta.length, p.gamma.length,
      p.epsilon.length]
  | EOSTerm.GERG2004 p =>
    [p.n.length, p.t.length, p.d.length, p.eta.length, p.beta.length, p.gamma.length,
      p.epsilon.length]
  | EOSTerm.NonAnalytic p =>
    [p.n.length, p.A.length, p.B.length, p.C.length, p.D.length, p.a.length, p.b.length,
      p.beta.length]
  | EOSTerm.Lemmon2005 p =>
    [p.n.length, p.t.length, p.d.length, p.m.length, p.l.length, p.l_i.length]
  | EOSTerm.GaoB p =>
    [p.n.length, p.t.length, p.d.length, p.eta.length, p.beta.length, p.gamma.length,
      p.epsilon.length, p.b.length]
  | EOSTerm.Exponential p =>
    [p.n.length, p.t.length, p.d.length, p.g.length, p.l.length, p.l_i.length]
  | EOSTerm.DoubleExponential p =>
    [p.n.length, p.t.length, p.d.length, p.ld.length, p.gd.length, p.lt.length, p.gt.length,
      p.ld_i.length]
  | EOSTerm.Chebyshev2D p => [p.a.length]
  | EOSTerm.Null => []

/-- All the coefficient arrays of the term have length `N`. -/
def EOSTerm.has_length (term : EOSTerm) (N : Nat) : Bool :=
  term.lengths.all fun k => k == N

/-! ## The matrix of departure functions -/

/-- The lambda `get_departure_json` of `get_departure_function_matrix`: the first element of
`depcollection` whose member `Name` is the string `Name`.  The elements are read through a
constant reference, so an element without the member `Name` makes the access undefined. -/
def get_departure_function_matrix.get_departure_json :
    List Object → String → Except Failure Object
  | [], Name => throw (Failure.invalid_argument ("Bad departure function name: " ++ Name))
  | el :: rest, Name => do
    let v ← member_const el "Name"
    if v = Json.string Name then pure el
    else get_departure_function_matrix.get_departure_json rest Name

/-- The access `components[i]` of a `std::vector`, undefined out of range. -/
def component_at (components : List String) (i : Nat) : Except Failure String :=
  match components.get? i with
  | some c => pure c
  | none => throw Failure.undefined

/-- The cell `funcs[i][j]` of a matrix of containers. -/
def cell (funcs : List (List EOSTerms)) (i j : Nat) : EOSTerms :=
  (funcs.getD i []).getD j []

/-- The assignment of `v` to the cell `funcs[i][j]`. -/
def set_cell (funcs : List (List EOSTerms)) (i j : Nat) (v : EOSTerms) :
    List (List EOSTerms) :=
  funcs.set i ((funcs.getD i []).set j v)

/-- The statement `std::string funcname = BIP.contains("function") ? BIP["function"] : ""`:
the conversion of a member that is not a string throws. -/
def get_departure_function_matrix.funcname (BIP : Object) : Except Failure String :=
  if contains BIP "function" then (member BIP "function").get_string else pure ""

/-- The body of the inner loop of `get_departure_function_matrix` for the pair `i < j`.
`get_BIPdep a b` stands for `reducing::get_BIPdep(BIPcollection, \x7ba, b\x7d, flags)`, whose
header is not among the sources at hand; it gives the entry `BIP` and the flag
`swap_needed`.  The record `funcsmeta`, which the statements about the matrix neither read
nor can be stopped by, is left out. -/
def get_departure_function_matrix.pair (depcollection : List Object)
    (get_BIPdep : String → String → Except Failure (Object × Bool)) (components : List String)
    (funcs : List (List EOSTerms)) (i j : Nat) : Except Failure (List (List EOSTerms)) := do
  let ci ← component_at components i
  let cj ← component_at components j
  let (BIP, _) ← get_BIPdep ci cj
  let funcname ← get_departure_function_matrix.funcname BIP
  if funcname ≠ "" then do
    let jj ← get_departure_function_matrix.get_departure_json depcollection funcname
    let fij ← build_departure_function jj
    let funcs := set_cell funcs i j fij
    let fji ← build_departure_function jj
    pure (set_cell funcs j i fji)
  else
    let funcs := set_cell funcs i j (add_term (cell funcs i j) EOSTerm.Null)
    pure (set_cell funcs j i (add_term (cell funcs j i) EOSTerm.Null))

/-- The function `get_departure_function_matrix`: the matrix `funcs` it returns.  The matrix
is allocated with `components.size()` rows of as many default (empty) containers, and the
pairs `i < j` are visited row by row. -/
def get_departure_function_matrix (depcollection : List Object)
    (get_BIPdep : String → String → Except Failure (Object × Bool)) (components : List String) :
    Except Failure (List (List EOSTerms)) :=
  let N := components.length
  let funcs : List (List EOSTerms) := List.replicate N (List.replicate N [])
  (List.range N).foldlM (fun funcs i =>
    (List.range' (i + 1) (N - (i + 1))).foldlM (fun funcs j =>
      get_departure_function_matrix.pair depcollection get_BIPdep components funcs i j) funcs)
    funcs

/-- The container of a pair of components as the specification describes it: the container
built from the departure description named by the `function` of the binary-interaction entry
of the pair when that name is not empty, and a container with the single null term
otherwise. -/
def pair_container (depcollection : List Object)
    (get_BIPdep : String → String → Except Failure (Object × Bool)) (ci cj : String) :
    Except Failure EOSTerms := do
  let (BIP, _) ← get_BIPdep ci cj
  let funcname ← get_departure_function_matrix.funcname BIP
  if funcname ≠ "" then do
    let jj ← get_departure_function_matrix.get_departure_json depcollection funcname
    build_departure_function jj
  else
    pure [EOSTerm.Null]

/-- The value of a computation that succeeds, and the given default otherwise. -/
def ok_or {α : Type} (x : Except Failure α) (d : α) : α :=
  match x with
  | Except.ok a => a
  | Except.error _ => d

/-- The pairs `a < b` that the loops of `get_departure_function_matrix` have dealt with when
they reach the pair `(i, s)`. -/
def visited (i s a b : Nat) : Prop :=
  a < b ∧ (a < i ∨ (a = i ∧ b < s))

instance (i s a b : Nat) : Decidable (visited i s a b) := by
  unfold visited
  infer_instance

/-- A matrix of `N` rows of `N` containers. -/
def square (N : Nat) (funcs : List (List EOSTerms)) : Prop :=
  funcs.length = N ∧ ∀ row ∈ funcs, row.length = N

/-- The state of the matrix when the loops reach the pair `(i, s)`: the cells of the pairs
dealt with hold the containers `C a b` of their pairs, in both orders of the indices, and the
other cells are empty. -/
def built_up_to (N : Nat) (C : Nat → Nat → EOSTerms) (i s : Nat)
    (funcs : List (List EOSTerms)) : Prop :=
  square N funcs ∧ ∀ a b, a < N → b < N →
    cell funcs a b = if visited i s a b then C a b else if visited i s b a then C b a else []

/-! ## PC-SAFT: coefficients, the matrix `kmat` and the mixture -/

/-- The coefficients of one fluid, `SAFTCoeffs`. -/
structure SAFTCoeffs where
  name : String
  m : ℚ
  sigma_Angstrom : ℚ
  epsilon_over_k : ℚ
  BibTeXKey : String
  mustar2 : ℚ
  nmu : ℚ
  Qstar2 : ℚ
  nQ : ℚ
  deriving DecidableEq

/-- A default-constructed `SAFTCoeffs`: the member initialisers of the structure. -/
def SAFTCoeffs.init : SAFTCoeffs :=
  ⟨"", -1, -1, -1, "", 0, 0, 0, 0⟩

/-- The method `insert_normal_fluid` of `PCSAFTLibrary`: the entry it inserts. -/
def PCSAFTLibrary.insert_normal_fluid (name : String) (m sigma_Angstrom epsilon_over_k : ℚ)
    (BibTeXKey : String) : String × SAFTCoeffs :=
  let coeff := SAFTCoeffs.init
  (name, ⟨name, m, sigma_Angstrom, epsilon_over_k, BibTeXKey, coeff.mustar2, coeff.nmu,
    coeff.Qstar2, coeff.nQ⟩)

/-- The map `coeffs` of a `PCSAFTLibrary` after its constructor. -/
def PCSAFTLibrary.coeffs : List (String × SAFTCoeffs) :=
  [PCSAFTLibrary.insert_normal_fluid "Methane" 1.0000 3.7039 150.03 "Gross-IECR-2001",
    PCSAFTLibrary.insert_normal_fluid "Ethane" 1.6069 3.5206 191.42 "Gross-IECR-2001",
    PCSAFTLibrary.insert_normal_fluid "Propane" 2.0020 3.6184 208.11 "Gross-IECR-2001"]

/-- The method `get_normal_fluid` of `PCSAFTLibrary`. -/
def PCSAFTLibrary.get_normal_fluid (name : String) : Except Failure SAFTCoeffs :=
  match PCSAFTLibrary.coeffs.lookup name with
  | some c => pure c
  | none => throw (Failure.invalid_argument ("Bad name:" ++ name))

/-- The method `get_coeffs` of `PCSAFTLibrary`. -/
def PCSAFTLibrary.get_coeffs : List String → Except Failure (List SAFTCoeffs)
  | [] => pure []
  | n :: names => do
    let c ← PCSAFTLibrary.get_normal_fluid n
    let rest ← PCSAFTLibrary.get_coeffs names
    pure (c :: rest)

/-- An `Eigen::ArrayXXd`: its numbers of rows and columns, and its coefficients in storage
order. -/
structure ArrayXXd where
  rows : Nat
  cols : Nat
  data : List ℚ
  deriving DecidableEq

/-- The default-constructed array `Eigen::ArrayXXd\x7b\x7d`, of no rows and no columns. -/
def ArrayXXd.empty : ArrayXXd :=
  ⟨0, 0, []⟩

/-- The array after `resize(rows, cols)` and `setZero()`. -/
def ArrayXXd.Zero (rows cols : Nat) : ArrayXXd :=
  ⟨rows, cols, List.replicate (rows * cols) 0⟩

/-- The method `check_kmat` of `PCSAFTMixture`, which gives the member `kmat` its final
value. -/
def PCSAFTMixture.check_kmat (kmat : ArrayXXd) (N : Nat) : Except Failure ArrayXXd :=
  if kmat.cols ≠ kmat.rows then
    throw (Failure.InvalidArgument "kmat rows and columns are not identical")
  else if kmat.cols = 0 then
    pure (ArrayXXd.Zero N N)
  else if kmat.cols ≠ N then
    throw (Failure.InvalidArgument
      "kmat needs to be a square matrix the same size as the number of components")
  else
    pure kmat

/-- The class `PCSAFTHardChainContribution`: its members. -/
structure PCSAFTHardChainContribution where
  m : List ℚ
  mminus1 : List ℚ
  sigma_Angstrom : List ℚ
  epsilon_over_k : List ℚ
  kmat : ArrayXXd
  deriving DecidableEq

/-- The class `DipolarContributionGrossVrabec` of `saft/polar_terms.hpp`: its members. -/
structure DipolarContributionGrossVrabec where
  m : List ℚ
  sigma_Angstrom : List ℚ
  epsilon_over_k : List ℚ
  mustar2 : List ℚ
  nmu : List ℚ
  has_a_polar : Bool
  deriving DecidableEq

/-- The constructor of `DipolarContributionGrossVrabec`. -/
def DipolarContributionGrossVrabec.make (m sigma_Angstrom epsilon_over_k mustar2 nmu : List ℚ) :
    Except Failure DipolarContributionGrossVrabec :=
  if m.length ≠ mustar2.length then
    throw (Failure.InvalidArgument "bad size of mustar2")
  else if m.length ≠ nmu.length then
    throw (Failure.InvalidArgument "bad size of n")
  else
    pure ⟨m, sigma_Angstrom, epsilon_over_k, mustar2, nmu,
      decide ((mustar2.map fun v => |v|).sum > 0)⟩

/-- The class `PCSAFTMixture`: its members.  `Q` is the class of the quadrupolar
contribution, `SAFTpolar::QuadrupolarContributionGross`, which is not among the sources at
hand. -/
structure PCSAFTMixture (Q : Type) where
  m : List ℚ
  mminus1 : List ℚ
  sigma_Angstrom : List ℚ
  epsilon_over_k : List ℚ
  names : List String
  kmat : ArrayXXd
  hardchain : PCSAFTHardChainContribution
  dipolar : Option DipolarContributionGrossVrabec
  quadrupolar : Option Q

/-- The method `build_dipolar` of `PCSAFTMixture`. -/
def PCSAFTMixture.build_dipolar (m sigma_Angstrom epsilon_over_k : List ℚ)
    (coeffs : List SAFTCoeffs) : Except Failure (Option DipolarContributionGrossVrabec) :=
  let mustar2 : List ℚ := coeffs.map fun coeff => coeff.mustar2
  let nmu : List ℚ := coeffs.map fun coeff => coeff.nmu
  if ((List.zipWith (fun (a b : ℚ) => a * b) mustar2 nmu).map fun v => |v|).sum = (0 : ℚ) then
    pure none
  else
    (DipolarContributionGrossVrabec.make m sigma_Angstrom epsilon_over_k mustar2 nmu).map some

/-- The method `build_quadrupolar` of `PCSAFTMixture`; `make_quadrupolar` is the constructor
of the quadrupolar contribution. -/
def PCSAFTMixture.build_quadrupolar {Q : Type}
    (make_quadrupolar : List ℚ → List ℚ → List ℚ → List ℚ → List ℚ → Except Failure Q)
    (m sigma_Angstrom epsilon_over_k : List ℚ) (coeffs : List SAFTCoeffs) :
    Except Failure (Option Q) :=
  let Qstar2 : List ℚ := coeffs.map fun coeff => coeff.Qstar2
  let nQ : List ℚ := coeffs.map fun coeff => coeff.nQ
  if ((List.zipWith (fun (a b : ℚ) => a * b) Qstar2 nQ).map fun v => |v|).sum = (0 : ℚ) then
    pure none
  else
    (make_quadrupolar m sigma_Angstrom epsilon_over_k Qstar2 nQ).map some

/-- The constructor `PCSAFTMixture(coeffs, kmat)`: the member `kmat` is initialised, then
`build_hardchain` (which calls `check_kmat` and fills the arrays), `build_dipolar` and
`build_quadrupolar` run in this order. -/
def PCSAFTMixture.from_coeffs {Q : Type}
    (make_quadrupolar : List ℚ → List ℚ → List ℚ → List ℚ → List ℚ → Except Failure Q)
    (coeffs : List SAFTCoeffs) (kmat : ArrayXXd) : Except Failure (PCSAFTMixture Q) := do
  let kmat ← PCSAFTMixture.check_kmat kmat coeffs.length
  let m := coeffs.map fun coeff => coeff.m
  let mminus1 := coeffs.map fun coeff => coeff.m - 1
  let sigma_Angstrom := coeffs.map fun coeff => coeff.sigma_Angstrom
  let epsilon_over_k := coeffs.map fun coeff => coeff.epsilon_over_k
  let names := coeffs.map fun coeff => coeff.name
  let hardchain : PCSAFTHardChainContribution :=
    ⟨m, mminus1, sigma_Angstrom, epsilon_over_k, kmat⟩
  let dipolar ← PCSAFTMixture.build_dipolar m sigma_Angstrom epsilon_over_k coeffs
  let quadrupolar ←
    PCSAFTMixture.build_quadrupolar make_quadrupolar m sigma_Angstrom epsilon_over_k coeffs
  pure ⟨m, mminus1, sigma_Angstrom, epsilon_over_k, names, kmat, hardchain, dipolar,
    quadrupolar⟩

/-- The constructor `PCSAFTMixture(names, kmat)`, which delegates to the constructor from
coefficients with the coefficients of the library. -/
def PCSAFTMixture.from_names {Q : Type}
    (make_quadrupolar : List ℚ → List ℚ → List ℚ → List ℚ → List ℚ → Except Failure Q)
    (names : List String) (kmat : ArrayXXd) : Except Failure (PCSAFTMixture Q) := do
  let coeffs ← PCSAFTLibrary.get_coeffs names
  PCSAFTMixture.from_coeffs make_quadrupolar coeffs kmat

/-! ## PC-SAFT: the factory -/

/-- A JSON value of any depth, as the specification of a model is. -/
inductive JsonValue where
  | null
  | number (q : ℚ)
  | string (s : String)
  | array (a : List JsonValue)
  | object (members : List (String × JsonValue))

/-- The method `contains` of a JSON value; a value that is not an object contains no key. -/
def JsonValue.contains : JsonValue → String → Bool
  | JsonValue.object members, key => (members.lookup key).isSome
  | _, _ => false

/-- The method `at` of a JSON value, which throws when the value is not an object or has no
such member. -/
def JsonValue.at : JsonValue → String → Except Failure JsonValue
  | JsonValue.object members, key =>
    match members.lookup key with
    | some v => pure v
    | none => throw Failure.json_exception
  | _, _ => throw Failure.json_exception

/-- The access `spec[key]` on a constant JSON value: it throws when the value is not an
object and is undefined when the object has no such member. -/
def JsonValue.index : JsonValue → String → Except Failure JsonValue
  | JsonValue.object members, key =>
    match members.lookup key with
    | some v => pure v
    | none => throw Failure.undefined
  | _, _ => throw Failure.json_exception

/-- The method `is_array` of a JSON value. -/
def JsonValue.is_array : JsonValue → Bool
  | JsonValue.array _ => true
  | _ => false

/-- The method `size` of a JSON value. -/
def JsonValue.size : JsonValue → Nat
  | JsonValue.null => 0
  | JsonValue.array a => a.length
  | JsonValue.object members => members.length
  | _ => 1

/-- The conversion of a JSON value to `std::string`. -/
def JsonValue.get_string : JsonValue → Except Failure String
  | JsonValue.string s => pure s
  | _ => throw Failure.json_exception

/-- The conversion of a JSON value to `double`. -/
def JsonValue.get_double : JsonValue → Except Failure ℚ
  | JsonValue.number q => pure q
  | _ => throw Failure.json_exception

/-- The conversion of the elements of a JSON array to strings, in order. -/
def JsonValue.get_strings.loop : List JsonValue → Except Failure (List String)
  | [] => pure []
  | v :: rest => do
    let s ← v.get_string
    let others ← JsonValue.get_strings.loop rest
    pure (s :: others)

/-- The conversion of a JSON value to `std::vector<std::string>`, which throws when the
value is not an array of strings. -/
def JsonValue.get_strings : JsonValue → Except Failure (List String)
  | JsonValue.array a => JsonValue.get_strings.loop a
  | _ => throw Failure.json_exception

/-- The values that a range-based `for` over a JSON value visits: the elements of an array,
the values of the members of an object, nothing for `null`, and the value itself
otherwise. -/
def JsonValue.elements : JsonValue → List JsonValue
  | JsonValue.null => []
  | JsonValue.array a => a
  | JsonValue.object members => members.map fun kv => kv.2
  | v => [v]

/-- The body of the loop of `PCSAFTfactory` over `spec["coeffs"]`: the coefficients read from
one element. -/
def PCSAFTfactory.read_coeff (j : JsonValue) : Except Failure SAFTCoeffs := do
  let c := SAFTCoeffs.init
  let name ← (j.at "name").bind JsonValue.get_string
  let m ← (j.at "m").bind JsonValue.get_double
  let sigma_Angstrom ← (j.at "sigma_Angstrom").bind JsonValue.get_double
  let epsilon_over_k ← (j.at "epsilon_over_k").bind JsonValue.get_double
  let BibTeXKey ← (j.at "BibTeXKey").bind JsonValue.get_string
  let (mustar2, nmu) ←
    (if j.contains "(mu^*)^2" && j.contains "nmu" then do
      let mustar2 ← (j.at "(mu^*)^2").bind JsonValue.get_double
      let nmu ← (j.at "nmu").bind JsonValue.get_double
      pure (mustar2, nmu)
    else
      pure (c.mustar2, c.nmu) : Except Failure (ℚ × ℚ))
  let (Qstar2, nQ) ←
    (if j.contains "(Q^*)^2" && j.contains "nQ" then do
      let Qstar2 ← (j.at "(Q^*)^2").bind JsonValue.get_double
      let nQ ← (j.at "nQ").bind JsonValue.get_double
      pure (Qstar2, nQ)
    else
      pure (c.Qstar2, c.nQ) : Except Failure (ℚ × ℚ))
  pure ⟨name, m, sigma_Angstrom, epsilon_over_k, BibTeXKey, mustar2, nmu, Qstar2, nQ⟩

/-- The loop of `PCSAFTfactory` over `spec["coeffs"]`, which appends the coefficients read
from each element to the vector `coeffs`. -/
def PCSAFTfactory.read_coeffs (items : JsonValue) : Except Failure (List SAFTCoeffs) :=
  items.elements.foldlM (fun coeffs j => do
    let c ← PCSAFTfactory.read_coeff j
    pure (coeffs ++ [c])) []

/-- The first statements of `PCSAFTfactory`: the optional `kmat`, which is built when the
specification contains a `kmat` that is an array and is not empty.  `build_square_matrix` is
the helper of this name of `json_tools.hpp`, a header that is not among the sources at
hand. -/
def PCSAFTfactory.kmat (build_square_matrix : JsonValue → Except Failure ArrayXXd)
    (spec : JsonValue) : Except Failure (Option ArrayXXd) :=
  if spec.contains "kmat" then do
    let v ← spec.at "kmat"
    if v.is_array && decide (v.size > 0) then
      let k ← (spec.index "kmat").bind build_square_matrix
      pure (some k)
    else
      pure none
  else
    pure none

/-- The function `PCSAFTfactory`; its first statements are `PCSAFTfactory.kmat`. -/
def PCSAFTfactory {Q : Type} (build_square_matrix : JsonValue → Except Failure ArrayXXd)
    (make_quadrupolar : List ℚ → List ℚ → List ℚ → List ℚ → List ℚ → Except Failure Q)
    (spec : JsonValue) : Except Failure (PCSAFTMixture Q) := do
  let kmat ← PCSAFTfactory.kmat build_square_matrix spec
  if spec.contains "names" then
    let names ← (spec.index "names").bind JsonValue.get_strings
    match kmat with
    | some k =>
      if k.rows ≠ names.length then
        throw (Failure.InvalidArgument ("Provided length of names of "
          ++ toString names.length ++ " does not match the dimension of the kmat of "
          ++ toString k.rows))
      else
        PCSAFTMixture.from_names make_quadrupolar names k
    | none => PCSAFTMixture.from_names make_quadrupolar names ArrayXXd.empty
  else if spec.contains "coeffs" then
    let coeffs ← (spec.index "coeffs").bind PCSAFTfactory.read_coeffs
    match kmat with
    | some k =>
      if k.rows ≠ coeffs.length then
        throw (Failure.InvalidArgument ("Provided length of coeffs of "
          ++ toString coeffs.length ++ " does not match the dimension of the kmat of "
          ++ toString k.rows))
      else
        PCSAFTMixture.from_coeffs make_quadrupolar coeffs k
    | none => PCSAFTMixture.from_coeffs make_quadrupolar coeffs ArrayXXd.empty
  else
    throw (Failure.invalid_argument "you must provide names or coeffs, but not both")

/-! ## PC-SAFT: evaluation and coefficient records -/

/-- The method `alphar` of `PCSAFTMixture`.  The evaluations of the contributions are given
functions: `hardchain_eval` gives `eta`, `alphar_hc` and `alphar_disp`, and `dipolar_eval`
and `quadrupolar_eval` give the member `alpha` of their results; `N_A` is the constant of
this name. -/
def PCSAFTMixture.alphar {S Q : Type} [Field S]
    (hardchain_eval : PCSAFTHardChainContribution → S → S → List S → Except Failure (S × S × S))
    (N_A : S)
    (dipolar_eval : DipolarContributionGrossVrabec → S → S → S → List S → Except Failure S)
    (quadrupolar_eval : Q → S → S → S → List S → Except Failure S)
    (self : PCSAFTMixture Q) (T rhomolar : S) (mole_fractions : List S) : Except Failure S := do
  let (eta, alphar_hc, alphar_disp) ← hardchain_eval self.hardchain T rhomolar mole_fractions
  let alphar := alphar_hc + alphar_disp
  let rho_A3 := rhomolar * N_A * ((1e-30 : ℚ) : S)
  let alphar ←
    (match self.dipolar with
    | some dipolar => do
      let alpha ← dipolar_eval dipolar T rho_A3 eta mole_fractions
      pure (alphar + alpha)
    | none => pure alphar : Except Failure S)
  let alphar ←
    (match self.quadrupolar with
    | some quadrupolar => do
      let alpha ← quadrupolar_eval quadrupolar T rho_A3 eta mole_fractions
      pure (alphar + alpha)
    | none => pure alphar : Except Failure S)
  pure alphar

/-- A coefficient record as the specification describes it: the name, `m`, `sigma_Angstrom`,
`epsilon_over_k`, the BibTeX key, and optionally the pair `(mu^*)^2` with `nmu` and the pair
`(Q^*)^2` with `nQ`. -/
structure CoefficientRecord where
  name : String
  m : ℚ
  sigma_Angstrom : ℚ
  epsilon_over_k : ℚ
  BibTeXKey : String
  dipole : Option (ℚ × ℚ)
  quadrupole : Option (ℚ × ℚ)

/-- The JSON form of a coefficient record, an element of `coeffs`. -/
def CoefficientRecord.to_json (r : CoefficientRecord) : JsonValue :=
  JsonValue.object
    ([("name", JsonValue.string r.name), ("m", JsonValue.number r.m),
        ("sigma_Angstrom", JsonValue.number r.sigma_Angstrom),
        ("epsilon_over_k", JsonValue.number r.epsilon_over_k),
        ("BibTeXKey", JsonValue.string r.BibTeXKey)]
      ++ (match r.dipole with
        | some (mustar2, nmu) =>
          [("(mu^*)^2", JsonValue.number mustar2), ("nmu", JsonValue.number nmu)]
        | none => [])
      ++ (match r.quadrupole with
        | some (Qstar2, nQ) =>
          [("(Q^*)^2", JsonValue.number Qstar2), ("nQ", JsonValue.number nQ)]
        | none => []))

/-- The `SAFTCoeffs` with the values of a coefficient record: a default-constructed
structure whose members are then assigned, those of an absent pair keeping their initial
value. -/
def CoefficientRecord.to_SAFTCoeffs (r : CoefficientRecord) : SAFTCoeffs :=
  let c := SAFTCoeffs.init
  ⟨r.name, r.m, r.sigma_Angstrom, r.epsilon_over_k, r.BibTeXKey,
    (match r.dipole with
      | some (mustar2, _) => mustar2
      | none => c.mustar2),
    (match r.dipole with
      | some (_, nmu) => nmu
      | none => c.nmu),
    (match r.quadrupole with
      | some (Qstar2, _) => Qstar2
      | none => c.Qstar2),
    (match r.quadrupole with
      | some (_, nQ) => nQ
      | none => c.nQ)⟩

/-! ## The C interface -/

/-- What the functions of the C interface catch: a `teqpcException` with its code and
message, or another `std::exception` with its message. -/
inductive Thrown where
  | teqpcException (code : ℤ) (msg : String)
  | exception (what : String)

/-- The function `exception_handler`: the error code it sets and the message it copies.  A
`teqpcException` is caught by reference and gives its code and its message.  Every other
`std::exception` is caught by value, as an object of the base class, whose `what()` is not
the message of the exception thrown but the one of the base class: "std::exception" with
the standard libraries of GCC and Clang.  The message buffer is taken to be long enough for
the message, `strcpy` not looking at `buffer_length`. -/
def exception_handler : Thrown → ℤ × String
  | Thrown.teqpcException code msg => (code, msg)
  | Thrown.exception _ => (9999, "std::exception")

/-- What the C interface calls and this file does not define: the parser of the JSON
library and `cppinterface::make_model`, each with the message of the exception it may throw,
the method `get_Arxy` of a model, and the message of the `std::out_of_range` of
`std::unordered_map::at`. -/
structure Interface (J M : Type) where
  parse : String → Except String J
  make_model : J → Except String M
  model_get_Arxy : M → ℤ → ℤ → ℚ → ℚ → List ℚ → Except Thrown ℚ
  out_of_range : String

/-- The globals of the C interface: the counter `next_index` and the map `library`, whose
keys are `unsigned long long`. -/
structure Globals (M : Type) where
  next_index : ℤ
  library : List (ℕ × M)

/-- The globals when the program starts. -/
def Globals.init {M : Type} : Globals M :=
  ⟨0, []⟩

/-- The values of `long long int`. -/
def is_long_long (z : ℤ) : Prop :=
  -2 ^ 63 ≤ z ∧ z < 2 ^ 63

instance (z : ℤ) : Decidable (is_long_long z) := by
  unfold is_long_long
  infer_instance

/-- The value of the atomic `long long int` after an addition, which wraps around. -/
def to_long_long (z : ℤ) : ℤ :=
  (z + 2 ^ 63) % 2 ^ 64 - 2 ^ 63

/-- The conversion of a `long long int` to the key type `unsigned long long int`. -/
def to_key (uuid : ℤ) : ℕ :=
  (uuid % 2 ^ 64).toNat

/-- The method `emplace` of the map, which inserts nothing when the key is there already. -/
def library_emplace {M : Type} (library : List (ℕ × M)) (key : ℕ) (model : M) :
    List (ℕ × M) :=
  if (library.lookup key).isSome then library else library ++ [(key, model)]

/-- The method `erase` of the map. -/
def library_erase {M : Type} (library : List (ℕ × M)) (key : ℕ) : List (ℕ × M) :=
  library.filter fun kv => kv.1 ≠ key

/-- What a function of the C interface leaves behind: the globals, the error code it
returns, and the contents of `*uuid`, `*val` and the message buffer. -/
structure Outcome (M : Type) where
  globals : Globals M
  errcode : ℤ
  uuid : ℤ
  val : ℚ
  errmsg : String

/-- The function `build_model`; `uuid`, `val` and `errmsg` are the contents of `*uuid`, of
the caller's `val` and of the message buffer before the call. -/
def build_model {J M : Type} (env : Interface J M) (g : Globals M) (j : String) (uuid : ℤ)
    (val : ℚ) (errmsg : String) : Outcome M :=
  match env.parse j with
  | Except.error what =>
    ⟨g, (exception_handler (Thrown.exception what)).1, uuid, val,
      (exception_handler (Thrown.exception what)).2⟩
  | Except.ok json =>
    let uid := g.next_index
    let next_index := to_long_long (g.next_index + 1)
    match env.make_model json with
    | Except.error what =>
      ⟨⟨next_index, g.library⟩,
        (exception_handler
          (Thrown.teqpcException 30 ("Unable to load with error:" ++ what))).1,
        uuid, val,
        (exception_handler
          (Thrown.teqpcException 30 ("Unable to load with error:" ++ what))).2⟩
    | Except.ok model =>
      ⟨⟨next_index, library_emplace g.library (to_key uid) model⟩, 0, uid, val, errmsg⟩

/-- The function `free_model`. -/
def free_model {M : Type} (g : Globals M) (uuid : ℤ) (uuid_out : ℤ) (val : ℚ)
    (errmsg : String) : Outcome M :=
  ⟨⟨g.next_index, library_erase g.library (to_key uuid)⟩, 0, uuid_out, val, errmsg⟩

/-- The function `get_Arxy`; `molefrac` is the array of `Ncomp` mole fractions. -/
def get_Arxy {J M : Type} (env : Interface J M) (g : Globals M) (uuid NT ND : ℤ) (T rho : ℚ)
    (molefrac : List ℚ) (uuid_out : ℤ) (val : ℚ) (errmsg : String) : Outcome M :=
  match g.library.lookup (to_key uuid) with
  | none =>
    ⟨g, (exception_handler (Thrown.exception env.out_of_range)).1, uuid_out, val,
      (exception_handler (Thrown.exception env.out_of_range)).2⟩
  | some model =>
    match env.model_get_Arxy model NT ND T rho molefrac with
    | Except.error e => ⟨g, (exception_handler e).1, uuid_out, val, (exception_handler e).2⟩
    | Except.ok v => ⟨g, 0, uuid_out, v, errmsg⟩

/-- A call of one of the three functions by a client. -/
inductive Call where
  | build_model (j : String)
  | free_model (uuid : ℤ)
  | get_Arxy (uuid NT ND : ℤ) (T rho : ℚ) (molefrac : List ℚ)

/-- One call made by a client that keeps `*uuid`, `val` and the message buffer in the
variables `uuid`, `val` and `errmsg`. -/
def Call.run {J M : Type} (env : Interface J M) (before : Outcome M) : Call → Outcome M
  | Call.build_model j =>
    teqp.build_model env before.globals j before.uuid before.val before.errmsg
  | Call.free_model uuid =>
    teqp.free_model before.globals uuid before.uuid before.val before.errmsg
  | Call.get_Arxy uuid NT ND T rho molefrac =>
    teqp.get_Arxy env before.globals uuid NT ND T rho molefrac before.uuid before.val
      before.errmsg

/-- The uuid that a call issues: the one a successful `build_model` stores. -/
def Call.issues {J M : Type} (env : Interface J M) (before : Outcome M) (call : Call)
    (uuid : ℤ) : Prop :=
  match call with
  | Call.build_model _ => (call.run env before).errcode = 0 ∧ (call.run env before).uuid = uuid
  | _ => False

/-- A sequence of calls: what the last of them leaves behind. -/
def run_calls {J M : Type} (env : Interface J M) (before : Outcome M) (calls : List Call) :
    Outcome M :=
  calls.foldl (fun o call => call.run env o) before

/-- No call of the sequence issues the uuid. -/
def never_issued {J M : Type} (env : Interface J M) (uuid : ℤ) :
    Outcome M → List Call → Prop
  | _, [] => True
  | before, call :: calls =>
    ¬ call.issues env before uuid ∧ never_issued env uuid (call.run env before) calls

/-! ## Forward-mode differentiation -/

/-- The dual number of forward-mode differentiation with the given value component and
derivative component. -/
def dual_number {K : Type} (value derivative : K) : DualNumber K :=
  (value, derivative)

/-- The quotient of two dual numbers. -/
def dual_div {K : Type} [Field K] (a b : DualNumber K) : DualNumber K :=
  a * b⁻¹

instance dual_number_div {K : Type} [Field K] : Div (DualNumber K) :=
  ⟨dual_div⟩

/-- The function `f'`, which is `f` evaluated on dual numbers, is right at the point `t` of
the curve `(tau, delta)` whose derivatives there are `dtau` and `ddelta`: its value component
is the plain value and its derivative component is the derivative of the plain evaluation
along the curve. -/
def forward_mode_at (f : ℝ → ℝ → ℝ) (f' : DualNumber ℝ → DualNumber ℝ → DualNumber ℝ)
    (tau delta : ℝ → ℝ) (dtau ddelta t : ℝ) : Prop :=
  (f' (dual_number (tau t) dtau) (dual_number (delta t) ddelta)).fst = f (tau t) (delta t)
    ∧ HasDerivAt (fun s => f (tau s) (delta s))
        (f' (dual_number (tau t) dtau) (dual_number (delta t) ddelta)).snd t

/-- The function `f'`, which is `f` evaluated on dual numbers, is right wherever `tau` and
`delta` are differentiable. -/
def forward_mode (f : ℝ → ℝ → ℝ) (f' : DualNumber ℝ → DualNumber ℝ → DualNumber ℝ) : Prop :=
  ∀ (tau delta : ℝ → ℝ) (dtau ddelta t : ℝ), HasDerivAt tau dtau t →
    HasDerivAt delta ddelta t → forward_mode_at f f' tau delta dtau ddelta t

/-! ## PC-SAFT: the hard-sphere term -/

/-- The entry `zeta[n]` of `PCSAFTHardChainContribution::eval` (Eqn. A.8):
`pi6 * rho_A3 * sum_i x_i * m_i * d_i^n`. -/
def PCSAFT.zeta {S : Type} [Field S] (pi6 rho_A3 : S) (mole_fractions m d : List S)
    (n : Nat) : S :=
  pi6 * rho_A3
    * (List.zipWith (fun a b => a * b) (List.zipWith (fun a b => a * b) mole_fractions m)
        (d.map fun di => di ^ n)).sum

/-- The function `get_alphar_hs` (Eqn. A.6) on the vector `zeta`, of which it reads the
entries 0 to 3; `lg` is the logarithm of the numeric type, and the base value of a plain
number is the number itself. -/
def get_alphar_hs {S : Type} [Field S] [DecidableEq S] (lg : S → S) (zeta : Nat → S) : S :=
  if zeta 3 = 0 then
    4 * zeta 3
  else
    let Upsilon := 1 - zeta 3
    1 / zeta 0 * (3 * zeta 1 * zeta 2 / Upsilon
      + zeta 2 * zeta 2 * zeta 2 / zeta 3 / Upsilon / Upsilon
      + (zeta 2 * zeta 2 * zeta 2 / (zeta 3 * zeta 3) - zeta 0) * lg (1 - zeta 3))

/-! ## Polar contributions: the three-body integrals and the quadrupolar term -/

/-- The table `c_0` of `get_JDD_3ijk`. -/
def get_JDD_3ijk.c_0 : List ℚ := [-0.0646774, 0.1975882, -0.8087562, 0.6902849, 0.0]

/-- The table `c_1` of `get_JDD_3ijk`. -/
def get_JDD_3ijk.c_1 : List ℚ := [-0.9520876, 2.9924258, -2.3802636, -0.2701261, 0.0]

/-- The table `c_2` of `get_JDD_3ijk`. -/
def get_JDD_3ijk.c_2 : List ℚ := [-0.6260979, 1.2924686, 1.6542783, -3.4396744, 0.0]

/-- The function `get_JDD_3ijk` (Eq. 11 of Gross and Vrabec), the three-body integral of the
dipolar term; the loop reads the tables at `n < 5` only. -/
def get_JDD_3ijk {S : Type} [Field S] (eta : S) (mijk : ℚ) : S :=
  (List.range 5).foldl (fun summer n =>
    let cnijk := get_JDD_3ijk.c_0.getD n 0 + (mijk - 1) / mijk * get_JDD_3ijk.c_1.getD n 0
      + (mijk - 1) / mijk * (mijk - 2) / mijk * get_JDD_3ijk.c_2.getD n 0
    summer + (cnijk : S) * eta ^ n) 0

/-- The table `c_0` of `get_JQQ_3ijk`. -/
def get_JQQ_3ijk.c_0 : List ℚ := [0.5000437, 6.5318692, -16.014780, 14.425970, 0.0]

/-- The table `c_1` of `get_JQQ_3ijk`. -/
def get_JQQ_3ijk.c_1 : List ℚ := [2.0002094, -6.7838658, 20.383246, -10.895984, 0.0]

/-- The table `c_2` of `get_JQQ_3ijk`. -/
def get_JQQ_3ijk.c_2 : List ℚ := [3.1358271, 7.2475888, 3.0759478, 0.0, 0.0]

/-- The function `get_JQQ_3ijk` (Eq. 13 of Gross and Vrabec), the three-body integral of the
quadrupolar term. -/
def get_JQQ_3ijk {S : Type} [Field S] (eta : S) (mijk : ℚ) : S :=
  (List.range 5).foldl (fun summer n =>
    let cnijk := get_JQQ_3ijk.c_0.getD n 0 + (mijk - 1) / mijk * get_JQQ_3ijk.c_1.getD n 0
      + (mijk - 1) / mijk * (mijk - 2) / mijk * get_JQQ_3ijk.c_2.getD n 0
    summer + (cnijk : S) * eta ^ n) 0

/-- The access `a[i]` of an array, undefined out of range. -/
def array_at {α : Type} (a : List α) (i : Nat) : Except Failure α :=
  match a.get? i with
  | some v => pure v
  | none => throw Failure.undefined

/-- The class `QuadrupolarContributionGrossVrabec`: its members. -/
structure QuadrupolarContributionGrossVrabec where
  m : List ℚ
  sigma_Angstrom : List ℚ
  epsilon_over_k : List ℚ
  Qstar2 : List ℚ
  nQ : List ℚ
  has_a_polar : Bool
  deriving DecidableEq

/-- The method `get_alpha3QQ` of `QuadrupolarContributionGrossVrabec`.  `cbrt` is
`pow(., 1.0/3.0)` on `double` and `pi` the constant `EIGEN_PI`. -/
def QuadrupolarContributionGrossVrabec.get_alpha3QQ {S : Type} [Field S] (cbrt : ℚ → ℚ)
    (pi : S) (self : QuadrupolarContributionGrossVrabec) (T rhoN_A3 eta : S)
    (mole_fractions : List S) : Except Failure S := do
  let x := mole_fractions
  let sigma := self.sigma_Angstrom
  let N := mole_fractions.length
  let summer ← (List.range N).foldlM (fun summer i =>
    (List.range N).foldlM (fun summer j =>
      (List.range N).foldlM (fun summer k => do
        let ninjnk := (← array_at self.nQ i) * (← array_at self.nQ j) * (← array_at self.nQ k)
        if ninjnk > 0 then
          -- Lorentz-Berthelot mixing rules for sigma
          let sigmaij := ((← array_at sigma i) + (← array_at sigma j)) / 2
          let sigmaik := ((← array_at sigma i) + (← array_at sigma k)) / 2
          let sigmajk := ((← array_at sigma j) + (← array_at sigma k)) / 2
          let mijk := min
            (cbrt ((← array_at self.m i) * (← array_at self.m j) * (← array_at self.m k))) 2
          pure (summer + (← array_at x i) * (← array_at x j) * (← array_at x k)
            * ((← array_at self.epsilon_over_k i) : S) / T
            * ((← array_at self.epsilon_over_k j) : S) / T
            * ((← array_at self.epsilon_over_k k) : S) / T
            * ((((← array_at sigma i) * (← array_at sigma j) * (← array_at sigma k)) ^ 5 : ℚ) : S)
            / (((sigmaij * sigmaik * sigmajk) ^ 3 : ℚ) : S)
            * (ninjnk : S)
            * ((← array_at self.Qstar2 i) : S) * ((← array_at self.Qstar2 j) : S)
            * ((← array_at self.Qstar2 k) : S) * get_JDD_3ijk eta mijk)
        else
          pure summer) summer) summer) (0 : S)
  pure (-4 * pi ^ 2 / 3 * (3 / 4) ^ 3 * rhoN_A3 ^ 2 * summer)

/-- The third-order quadrupolar term as the specification gives it:
`-(4 pi^2 / 3) (3/4)^3 rho^2` times the sum over `i`, `j`, `k` of
`x_i x_j x_k (eps_i/T) (eps_j/T) (eps_k/T) (sigma_i sigma_j sigma_k)^5
/ (sigma_ij sigma_ik sigma_jk)^3 nQ_i nQ_j nQ_k Q*2_i Q*2_j Q*2_k` times the
quadrupole-quadrupole integral `get_JQQ_3ijk(eta, m_ijk)`. -/
def alpha3QQ_spec {S : Type} [Field S] (cbrt : ℚ → ℚ) (pi : S)
    (self : QuadrupolarContributionGrossVrabec) (T rho eta : S) (x : List S) : S :=
  let sigma := fun i => self.sigma_Angstrom.getD i 0
  let eps := fun i => self.epsilon_over_k.getD i 0
  let nQ := fun i => self.nQ.getD i 0
  let Q := fun i => self.Qstar2.getD i 0
  let m := fun i => self.m.getD i 0
  (-(4 * pi ^ 2 / 3) * (3 / 4) ^ 3 * rho ^ 2)
    * ((List.range x.length).map fun i =>
        ((List.range x.length).map fun j =>
          ((List.range x.length).map fun k =>
            x.getD i 0 * x.getD j 0 * x.getD k 0
              * ((eps i : S) / T) * ((eps j : S) / T) * ((eps k : S) / T)
              * (((sigma i * sigma j * sigma k) ^ 5
                  / (((sigma i + sigma j) / 2) * ((sigma i + sigma k) / 2)
                    * ((sigma j + sigma k) / 2)) ^ 3 : ℚ) : S)
              * ((nQ i * nQ j * nQ k : ℚ) : S) * ((Q i * Q j * Q k : ℚ) : S)
              * get_JQQ_3ijk eta (min (cbrt (m i * m j * m k)) 2)).sum).sum).sum

/-! ## The lookup of a departure function by name or alias -/

/-- The comparison `el == name` of a JSON value with a `std::string`: the value is a string
with these characters. -/
def JsonValue.eq_string : JsonValue → String → Bool
  | JsonValue.string s, name => s == name
  | _, _ => false

/-- The first loop of `get_departure_json`: the first element whose `Name` is `name`. -/
def get_departure_json.by_name : List JsonValue → String → Except Failure (Option JsonValue)
  | [], _ => pure none
  | el :: rest, name => do
    let v ← el.at "Name"
    if v.eq_string name then pure (some el) else get_departure_json.by_name rest name

/-- The second loop of `get_departure_json`: the first element one of whose `aliases` is
`name`. -/
def get_departure_json.by_alias : List JsonValue → String → Except Failure (Option JsonValue)
  | [], _ => pure none
  | el :: rest, name => do
    let aliases ← el.at "aliases"
    if aliases.elements.any (fun a => a.eq_string name) then pure (some el)
    else get_departure_json.by_alias rest name

/-- The function `get_departure_json(name, path)`.  `is_regular_file` and `load_a_JSON_file`
stand for `std::filesystem::is_regular_file` and for the loader of this name, which are not
among the sources at hand. -/
def get_departure_json (is_regular_file : String → Bool)
    (load_a_JSON_file : String → Except Failure JsonValue) (name path : String) :
    Except Failure JsonValue := do
  let filepath :=
    if is_regular_file path then path
    else path ++ "/dev/mixtures/mixture_departure_functions.json"
  let j ← load_a_JSON_file filepath
  -- First pass, direct name lookup
  match ← get_departure_json.by_name j.elements name with
  | some el => pure el
  | none =>
    -- Second pass, iterate over aliases
    match ← get_departure_json.by_alias j.elements name with
    | some el => pure el
    | none =>
      throw (Failure.invalid_argument
        ("Could not match the name: " ++ name ++ "when looking up departure function"))

/-- A member of a term description as the builders read it: `null`, a number, a string or an
array of numbers; other values are no part of a term description. -/
def JsonValue.to_Json : JsonValue → Option Json
  | JsonValue.null => some Json.null
  | JsonValue.number q => some (Json.number q)
  | JsonValue.string s => some (Json.string s)
  | JsonValue.array a =>
    (a.mapM fun v =>
      match v with
      | JsonValue.number q => some q
      | _ => none).map Json.array
  | JsonValue.object _ => none

/-- The element of a collection of departure functions as a term description: its members
that are members of a term description, in order. -/
def description_of : JsonValue → Object
  | JsonValue.object members =>
    members.filterMap fun kv => (kv.2.to_Json).map fun v => (kv.1, v)
  | _ => []

/-! ## The Lennard-Jones equation of state of Johnson et al. (1993) -/

/-- The member `gamma` of `LJ126Johnson1993`. -/
def LJ126Johnson1993.gamma : ℚ := 3

/-- The member `x` of `LJ126Johnson1993`: the coefficients, with the placeholder at index 0. -/
def LJ126Johnson1993.x : List ℚ :=
  [0.0,
    0.8623085097507421,
    2.976218765822098,
    -8.402230115796038,
    0.1054136629203555,
    -0.8564583828174598,
    1.582759470107601,
    0.7639421948305453,
    1.753173414312048,
    2.798291772190376e03,
    -4.8394220260857657e-2,
    0.9963265197721935,
    -3.698000291272493e01,
    2.084012299434647e01,
    8.305402124717285e01,
    -9.574799715203068e02,
    -1.477746229234994e02,
    6.398607852471505e01,
    1.603993673294834e01,
    6.805916615864377e01,
    -2.791293578795945e03,
    -6.245128304568454,
    -8.116836104958410e03,
    1.488735559561229e01,
    -1.059346754655084e04,
    -1.131607632802822e02,
    -8.867771540418822e03,
    -3.986982844450543e01,
    -4.689270299917261e03,
    2.593535277438717e02,
    -2.694523589434903e03,
    -7.218487631550215e02,
    1.721802063863269e02]

/-- The entry `x[k]` as a number of the type of the evaluation. -/
def LJ126Johnson1993.x_at {S : Type} [Field S] (k : Nat) : S :=
  ((LJ126Johnson1993.x.getD k 0 : ℚ) : S)

/-- The helper `POW2` of `LJ126Johnson1993`. -/
def LJ126Johnson1993.POW2 {S : Type} [Field S] (x : S) : S := x * x

/-- The helper `POW3` of `LJ126Johnson1993`. -/
def LJ126Johnson1993.POW3 {S : Type} [Field S] (x : S) : S := LJ126Johnson1993.POW2 x * x

/-- The helper `POW4` of `LJ126Johnson1993`. -/
def LJ126Johnson1993.POW4 {S : Type} [Field S] (x : S) : S :=
  LJ126Johnson1993.POW2 x * LJ126Johnson1993.POW2 x

/-- The function `LJ126Johnson1993::get_ai` (Table 5); `sqrt` stands for the square root of
the numeric type. -/
def LJ126Johnson1993.get_ai {S : Type} [Field S] (sqrt : S → S) (i : ℤ) (Tstar : S) :
    Except Failure S :=
  open LJ126Johnson1993 in
  if i = 1 then
    pure (x_at 1 * Tstar + x_at 2 * sqrt Tstar + x_at 3 + x_at 4 / Tstar + x_at 5 / POW2 Tstar)
  else if i = 2 then
    pure (x_at 6 * Tstar + x_at 7 + x_at 8 / Tstar + x_at 9 / POW2 Tstar)
  else if i = 3 then
    pure (x_at 10 * Tstar + x_at 11 + x_at 12 / Tstar)
  else if i = 4 then
    pure (x_at 13)
  else if i = 5 then
    pure (x_at 14 / Tstar + x_at 15 / POW2 Tstar)
  else if i = 6 then
    pure (x_at 16 / Tstar)
  else if i = 7 then
    pure (x_at 17 / Tstar + x_at 18 / POW2 Tstar)
  else if i = 8 then
    pure (x_at 19 / POW2 Tstar)
  else
    throw (Failure.InvalidArgument "i is not possible in get_ai")

/-- The function `LJ126Johnson1993::get_bi` (Table 6). -/
def LJ126Johnson1993.get_bi {S : Type} [Field S] (i : ℤ) (Tstar : S) : Except Failure S :=
  open LJ126Johnson1993 in
  if i = 1 then
    pure (x_at 20 / POW2 Tstar + x_at 21 / POW3 Tstar)
  else if i = 2 then
    pure (x_at 22 / POW2 Tstar + x_at 23 / POW4 Tstar)
  else if i = 3 then
    pure (x_at 24 / POW2 Tstar + x_at 25 / POW3 Tstar)
  else if i = 4 then
    pure (x_at 26 / POW2 Tstar + x_at 27 / POW4 Tstar)
  else if i = 5 then
    pure (x_at 28 / POW2 Tstar + x_at 29 / POW3 Tstar)
  else if i = 6 then
    pure (x_at 30 / POW2 Tstar + x_at 31 / POW3 Tstar + x_at 32 / POW4 Tstar)
  else
    throw (Failure.InvalidArgument "i is not possible in get_bi")

/-- The function `LJ126Johnson1993::get_Gi` (Table 7).  The recursion of the source is run
with a bound on the number of calls: `none` when the bound is used up before the call with
`i == 1` is reached.  `powi` stands for the integer power of `teqp/types.hpp`. -/
def LJ126Johnson1993.get_Gi {S : Type} [Field S] (powi : S → ℤ → S) :
    Nat → ℤ → S → S → Option S
  | 0, _, _, _ => none
  | calls + 1, i, F, rhostar =>
    if i = 1 then
      some ((1 - F) / (2 * ((LJ126Johnson1993.gamma : ℚ) : S)))
    else
      match LJ126Johnson1993.get_Gi powi calls (i - 1) F rhostar with
      | none => none
      | some G =>
        -- Recursive definition of the other terms
        some (-(F * powi rhostar (2 * (i - 1)) - 2 * (((i - 1 : ℤ)) : S) * G)
          / (2 * ((LJ126Johnson1993.gamma : ℚ) : S)))

/-- The first loop of `LJ126Johnson1993::get_alphar`, over the indices still to be visited. -/
def LJ126Johnson1993.get_alphar.loop_a {S : Type} [Field S] (sqrt : S → S)
    (powi : S → ℤ → S) (Tstar rhostar : S) : List Nat → S → Except Failure S
  | [], summer => pure summer
  | i :: rest, summer => do
    let a ← LJ126Johnson1993.get_ai sqrt (i : ℤ) Tstar
    LJ126Johnson1993.get_alphar.loop_a sqrt powi Tstar rhostar rest
      (summer + a * powi rhostar (i : ℤ) / (((i : ℤ)) : S))

/-- The second loop of `LJ126Johnson1993::get_alphar`, over the indices still to be visited;
`none` when a call of `get_Gi` does not return within `calls` calls. -/
def LJ126Johnson1993.get_alphar.loop_b {S : Type} [Field S] (powi : S → ℤ → S) (calls : Nat)
    (Tstar F rhostar : S) : List Nat → S → Option (Except Failure S)
  | [], summer => some (Except.ok summer)
  | i :: rest, summer =>
    match LJ126Johnson1993.get_bi (i : ℤ) Tstar with
    | Except.error e => some (Except.error e)
    | Except.ok b =>
      match LJ126Johnson1993.get_Gi powi calls (i : ℤ) F rhostar with
      | none => none
      | some G =>
        LJ126Johnson1993.get_alphar.loop_b powi calls Tstar F rhostar rest (summer + b * G)

/-- The function `LJ126Johnson1993::get_alphar`; `ex` stands for the exponential of the
numeric type, `calls` bounds the calls of each `get_Gi`. -/
def LJ126Johnson1993.get_alphar {S : Type} [Field S] (sqrt ex : S → S) (powi : S → ℤ → S)
    (calls : Nat) (Tstar rhostar : S) : Option (Except Failure S) :=
  let F := ex (-((LJ126Johnson1993.gamma : ℚ) : S) * LJ126Johnson1993.POW2 rhostar)
  match LJ126Johnson1993.get_alphar.loop_a sqrt powi Tstar rhostar (List.range' 1 8) 0 with
  | Except.error e => some (Except.error e)
  | Except.ok summer =>
    LJ126Johnson1993.get_alphar.loop_b powi calls Tstar F rhostar (List.range' 1 6) summer

/-! ## The compressibility factors `C1` and `C2` of PC-SAFT -/

/-- The function `C1` (Eqn. A.11, inverted); `pow` with an integer literal as exponent is the
power of the field. -/
def C1 {S : Type} [Field S] (eta mbar : S) : S :=
  1 / (1
    + mbar * (8 * eta - 2 * eta * eta) / (1 - eta) ^ 4
    + (1 - mbar) * (20 * eta - 27 * eta * eta + 12 * eta ^ 3 - 2 * eta ^ 4)
      / ((1 - eta) * (2 - eta)) ^ 2)

/-- The function `C2` (Eqn. A.31). -/
def C2 {S : Type} [Field S] (eta mbar : S) : S :=
  -(C1 eta mbar) ^ 2 * (
    mbar * (-4 * eta * eta + 20 * eta + 8) / (1 - eta) ^ 5
    + (1 - mbar) * (2 * eta * eta * eta + 12 * eta * eta - 48 * eta + 40)
      / ((1 - eta) * (2 - eta)) ^ 3)

/-- The number of calls of `build_model` in the sequence whose JSON parses. -/
def parsed_calls {J M : Type} (env : Interface J M) : List Call → ℕ
  | [] => 0
  | Call.build_model j :: calls =>
    (match env.parse j with
      | Except.ok _ => 1
      | Except.error _ => 0) + parsed_calls env calls
  | _ :: calls => parsed_calls env calls

/-- The uuids that the successful calls of `build_model` in the sequence return, in the
order of the calls. -/
def issued_uuids {J M : Type} (env : Interface J M) : Outcome M → List Call → List ℤ
  | _, [] => []
  | before, Call.build_model j :: calls =>
    if ((Call.build_model j).run env before).errcode = 0 then
      ((Call.build_model j).run env before).uuid
        :: issued_uuids env ((Call.build_model j).run env before) calls
    else issued_uuids env ((Call.build_model j).run env before) calls
  | before, call :: calls => issued_uuids env (call.run env before) calls

/-- An environment of the C interface in which every string parses and every model is
constructed. -/
def accepting_interface : Interface Unit Unit :=
  ⟨fun _ => Except.ok (), fun _ => Except.ok (), fun _ _ _ _ _ _ => Except.ok 1,
    "key not found"⟩

/-! ## The dipolar term of `MultipolarContributionGrossVrabec` -/

/-- The table `a_0` of `get_JDD_2ij`. -/
def get_JDD_2ij.a_0 : List ℚ := [0.3043504, -0.1358588, 1.4493329, 0.3556977, -2.0653308]

/-- The table `a_1` of `get_JDD_2ij`. -/
def get_JDD_2ij.a_1 : List ℚ := [0.9534641, -1.8396383, 2.0131180, -7.3724958, 8.2374135]

/-- The table `a_2` of `get_JDD_2ij`. -/
def get_JDD_2ij.a_2 : List ℚ := [-1.1610080, 4.5258607, 0.9751222, -12.281038, 5.9397575]

/-- The table `b_0` of `get_JDD_2ij`. -/
def get_JDD_2ij.b_0 : List ℚ := [0.2187939, -1.1896431, 1.1626889, 0, 0]

/-- The table `b_1` of `get_JDD_2ij`. -/
def get_JDD_2ij.b_1 : List ℚ := [-0.5873164, 1.2489132, -0.5085280, 0, 0]

/-- The table `b_2` of `get_JDD_2ij`. -/
def get_JDD_2ij.b_2 : List ℚ := [3.4869576, -14.915974, 15.372022, 0, 0]

/-- The function `get_JDD_2ij` (Eq. 10 of Gross and Vrabec), the two-body integral of the
dipolar term; the loop reads the tables at `n < 5` only. -/
def get_JDD_2ij {S : Type} [Field S] (eta : S) (mij : ℚ) (Tstarij : S) : S :=
  (List.range 5).foldl (fun summer n =>
    let anij := get_JDD_2ij.a_0.getD n 0 + (mij - 1) / mij * get_JDD_2ij.a_1.getD n 0
      + (mij - 1) / mij * (mij - 2) / mij * get_JDD_2ij.a_2.getD n 0
    let bnij := get_JDD_2ij.b_0.getD n 0 + (mij - 1) / mij * get_JDD_2ij.b_1.getD n 0
      + (mij - 1) / mij * (mij - 2) / mij * get_JDD_2ij.b_2.getD n 0
    summer + ((anij : S) + (bnij : S) / Tstarij) * eta ^ n) 0

/-- The method `get_alpha2DD` of `DipolarContributionGrossVrabec` (Eq. 8).  `sqrt` is the
square root on `double` and `pi` the constant `EIGEN_PI`. -/
def DipolarContributionGrossVrabec.get_alpha2DD {S : Type} [Field S] (sqrt : ℚ → ℚ) (pi : S)
    (self : DipolarContributionGrossVrabec) (T rhoN_A3 eta : S) (mole_fractions : List S) :
    Except Failure S := do
  let x := mole_fractions
  let sigma := self.sigma_Angstrom
  let N := mole_fractions.length
  let summer ← (List.range N).foldlM (fun summer i =>
    (List.range N).foldlM (fun summer j => do
      let ninj := (← array_at self.nmu i) * (← array_at self.nmu j)
      if ninj > 0 then
        -- Lorentz-Berthelot mixing rules
        let epskij := sqrt ((← array_at self.epsilon_over_k i) * (← array_at self.epsilon_over_k j))
        let sigmaij := ((← array_at sigma i) + (← array_at sigma j)) / 2
        let Tstarij := T / (epskij : S)
        let mij := min (sqrt ((← array_at self.m i) * (← array_at self.m j))) 2
        pure (summer + (← array_at x i) * (← array_at x j)
          * ((← array_at self.epsilon_over_k i) : S) / T
          * ((← array_at self.epsilon_over_k j) : S) / T
          * ((((← array_at sigma i) * (← array_at sigma j) / sigmaij) ^ 3 : ℚ) : S)
          * (ninj : S)
          * ((← array_at self.mustar2 i) : S) * ((← array_at self.mustar2 j) : S)
          * get_JDD_2ij eta mij Tstarij)
      else
        pure summer) summer) (0 : S)
  pure (-pi * rhoN_A3 * summer)

/-- The method `get_alpha3DD` of `DipolarContributionGrossVrabec` (Eq. 9).  `cbrt` is
`pow(., 1.0/3.0)` on `double` and `pi` the constant `EIGEN_PI`. -/
def DipolarContributionGrossVrabec.get_alpha3DD {S : Type} [Field S] (cbrt : ℚ → ℚ) (pi : S)
    (self : DipolarContributionGrossVrabec) (T rhoN_A3 eta : S) (mole_fractions : List S) :
    Except Failure S := do
  let x := mole_fractions
  let sigma := self.sigma_Angstrom
  let N := mole_fractions.length
  let summer ← (List.range N).foldlM (fun summer i =>
    (List.range N).foldlM (fun summer j =>
      (List.range N).foldlM (fun summer k => do
        let ninjnk :=
          (← array_at self.nmu i) * (← array_at self.nmu j) * (← array_at self.nmu k)
        if ninjnk > 0 then
          -- Lorentz-Berthelot mixing rules for sigma
          let sigmaij := ((← array_at sigma i) + (← array_at sigma j)) / 2
          let sigmaik := ((← array_at sigma i) + (← array_at sigma k)) / 2
          let sigmajk := ((← array_at sigma j) + (← array_at sigma k)) / 2
          let mijk := min
            (cbrt ((← array_at self.m i) * (← array_at self.m j) * (← array_at self.m k))) 2
          pure (summer + (← array_at x i) * (← array_at x j) * (← array_at x k)
            * ((← array_at self.epsilon_over_k i) : S) / T
            * ((← array_at self.epsilon_over_k j) : S) / T
            * ((← array_at self.epsilon_over_k k) : S) / T
            * ((((← array_at sigma i) * (← array_at sigma j) * (← array_at sigma k)) ^ 3 : ℚ) : S)
            / ((sigmaij * sigmaik * sigmajk : ℚ) : S)
            * (ninjnk : S)
            * ((← array_at self.mustar2 i) : S) * ((← array_at self.mustar2 j) : S)
            * ((← array_at self.mustar2 k) : S) * get_JDD_3ijk eta mijk)
        else
          pure summer) summer) summer) (0 : S)
  pure (-4 * pi ^ 2 / 3 * rhoN_A3 ^ 2 * summer)

/-- The constructor of `QuadrupolarContributionGrossVrabec`. -/
def QuadrupolarContributionGrossVrabec.make
    (m sigma_Angstrom epsilon_over_k Qstar2 nQ : List ℚ) :
    Except Failure QuadrupolarContributionGrossVrabec :=
  if m.length ≠ Qstar2.length then
    throw (Failure.InvalidArgument "bad size of mustar2")
  else if m.length ≠ nQ.length then
    throw (Failure.InvalidArgument "bad size of n")
  else
    pure ⟨m, sigma_Angstrom, epsilon_over_k, Qstar2, nQ,
      decide ((Qstar2.map fun v => |v|).sum > 0)⟩

/-- The class `MultipolarContributionGrossVrabec`: its members. -/
structure MultipolarContributionGrossVrabec where
  di : Option DipolarContributionGrossVrabec
  quad : Option QuadrupolarContributionGrossVrabec
  deriving DecidableEq

/-- The constructor of `MultipolarContributionGrossVrabec`. -/
def MultipolarContributionGrossVrabec.make
    (m sigma_Angstrom epsilon_over_k mustar2 nmu Qstar2 nQ : List ℚ) :
    Except Failure MultipolarContributionGrossVrabec := do
  let di ←
    if nmu.sum > 0 then
      (DipolarContributionGrossVrabec.make m sigma_Angstrom epsilon_over_k mustar2 nmu).map some
    else pure none
  let quad ←
    if nQ.sum > 0 then
      (QuadrupolarContributionGrossVrabec.make m sigma_Angstrom epsilon_over_k Qstar2 nQ).map
        some
    else pure none
  pure ⟨di, quad⟩

/-- The first block of `MultipolarContributionGrossVrabec::eval`: the terms `alpha2DD`,
`alpha3DD` and `alphaDD`, which stay zero unless the dipolar part is present and has a polar
component.  The quotient is the one of the field; whether the divisor `alpha2DD` is zero is
the matter of the theorems. -/
def MultipolarContributionGrossVrabec.eval_dipolar {S : Type} [Field S] (sqrt cbrt : ℚ → ℚ)
    (pi : S) (self : MultipolarContributionGrossVrabec) (T rho_A3 eta : S)
    (mole_fractions : List S) : Except Failure (S × S × S) :=
  match self.di with
  | some di =>
    if di.has_a_polar then do
      let alpha2DD ← di.get_alpha2DD sqrt pi T rho_A3 eta mole_fractions
      let alpha3DD ← di.get_alpha3DD cbrt pi T rho_A3 eta mole_fractions
      let alphaDD := alpha2DD / (1 - alpha3DD / alpha2DD)
      pure (alpha2DD, alpha3DD, alphaDD)
    else pure (0, 0, 0)
  | none => pure (0, 0, 0)

/-! ## Theorems -/

/-- A loop whose every step adds `g i` to the accumulator returns the start value plus the
sum of the `g i`. -/
theorem foldlM_add_ok {S : Type} [CommRing S]
    (step : S → Nat → Except Failure S) (g : Nat → S) (l : List Nat)
    (h : ∀ i ∈ l, ∀ acc, step acc i = Except.ok (acc + g i)) (a : S) :
    l.foldlM step a = Except.ok (a + (l.map g).sum) := by
  induction l generalizing a with
  | nil => simp [pure, Except.pure]
  | cons i l ih =>
    have hi := h i (List.mem_cons_self i l)
    have hl : ∀ j ∈ l, ∀ acc, step acc j = Except.ok (acc + g j) :=
      fun j hj => h j (List.mem_cons_of_mem i hj)
    rw [List.foldlM_cons, hi a]
    show l.foldlM step (a + g i) = _
    rw [ih hl]
    simp [add_assoc]

/-- A sum over `List.range N` as a sum over `Fin N`. -/
theorem sum_range_eq_sum_fin {S : Type} [CommRing S] (N : Nat) (g : Nat → S) (f : Fin N → S)
    (h : ∀ i : Fin N, g i = f i) : ((List.range N).map g).sum = ∑ i, f i := by
  have h1 : ((List.range N).map g).sum = ∑ i in Finset.range N, g i := rfl
  rw [h1, Finset.sum_range]
  exact Finset.sum_congr rfl (fun i _ => h i)

/-- A sum over the indices `i + 1 ≤ j < N` as a sum over `Fin N` restricted to `i < j`. -/
theorem sum_above_eq_sum_fin {S : Type} [CommRing S]
    (N i : Nat) (hi : i < N) (g : Nat → S) (f : Fin N → S)
    (h : ∀ j : Fin N, g j = f j) :
    ((List.range' (i + 1) (N - (i + 1))).map g).sum
      = ∑ j : Fin N, if i < (j : Nat) then f j else 0 := by
  rw [← sum_range_eq_sum_fin N (fun j => if i < j then g j else 0)
    (fun j => if i < (j : Nat) then f j else 0) (fun j => by simp only [h j])]
  have hsplit : List.range N = List.range' 0 (i + 1) ++ List.range' (i + 1) (N - (i + 1)) := by
    rw [List.range_eq_range']
    have := List.range'_append_1 0 (i + 1) (N - (i + 1))
    rw [Nat.zero_add] at this
    rw [this]
    congr 1
    omega
  rw [hsplit, List.map_append, List.sum_append]
  have hlow : ((List.range' 0 (i + 1)).map (fun j => if i < j then g j else 0)).sum = 0 := by
    apply List.sum_eq_zero
    intro v hv
    obtain ⟨j, hj, rfl⟩ := List.mem_map.mp hv
    have := (List.mem_range'_1.mp hj).2
    rw [if_neg (by omega)]
  have hhigh : (List.range' (i + 1) (N - (i + 1))).map (fun j => if i < j then g j else 0)
      = (List.range' (i + 1) (N - (i + 1))).map g := by
    apply List.map_congr_left
    intro j hj
    have := (List.mem_range'_1.mp hj).1
    rw [if_pos (by omega)]
  rw [hlow, hhigh, zero_add]

/-- The corresponding-states loop on a model with `N` components and `N` mole fractions. -/
theorem corresponding_states_alphar_ofFn {S E : Type} [CommRing S] (ev : E → S → S → S) (N : Nat)
    (EOS : Fin N → E) (tau delta : S) (x : Fin N → S) :
    CorrespondingStatesContribution.alphar ev ⟨List.ofFn EOS⟩ tau delta (List.ofFn x)
      = Except.ok (∑ i, x i * ev (EOS i) tau delta) := by
  unfold CorrespondingStatesContribution.alphar
  rw [foldlM_add_ok _ (fun i => if h : i < N then x ⟨i, h⟩ * ev (EOS ⟨i, h⟩) tau delta else 0)]
  · rw [zero_add, List.length_ofFn,
      sum_range_eq_sum_fin N _ (fun i => x i * ev (EOS i) tau delta)]
    intro i
    simp
  · intro i hi acc
    have hiN : i < N := by simpa using hi
    simp [List.getElem?_ofFn, List.ofFnNthVal, hiN, pure, Except.pure]

/-- The departure loop on a model with `N` components and `N` mole fractions. -/
theorem departure_alphar_ofFn {S D : Type} [CommRing S]
    (ev : D → S → S → S) (N : Nat) (F : Nat → Nat → S)
    (Dep : Fin N → Fin N → D) (tau delta : S) (x : Fin N → S) :
    DepartureContribution.alphar ev ⟨F, List.ofFn fun i => List.ofFn (Dep i)⟩ tau delta
        (List.ofFn x)
      = Except.ok (∑ i : Fin N, ∑ j : Fin N,
          if i < j then x i * x j * F i j * ev (Dep i j) tau delta else 0) := by
  unfold DepartureContribution.alphar
  rw [foldlM_add_ok _ (fun i => if h : i < N then
      ∑ j : Fin N, if i < (j : Nat) then x ⟨i, h⟩ * x j * F i j * ev (Dep ⟨i, h⟩ j) tau delta
        else 0 else 0)]
  · rw [zero_add, List.length_ofFn, sum_range_eq_sum_fin N _ (fun i => ∑ j : Fin N,
      if i < j then x i * x j * F i j * ev (Dep i j) tau delta else 0)]
    intro i
    simp only [dif_pos i.isLt, Fin.lt_def, Fin.eta]
  · intro i hi acc
    have hiN : i < N := by simpa using hi
    rw [List.length_ofFn, foldlM_add_ok _ (fun j => if h : j < N then
      x ⟨i, hiN⟩ * x ⟨j, h⟩ * F i j * ev (Dep ⟨i, hiN⟩ ⟨j, h⟩) tau delta else 0)]
    · rw [dif_pos hiN, sum_above_eq_sum_fin N i hiN _
        (fun j => x ⟨i, hiN⟩ * x j * F i j * ev (Dep ⟨i, hiN⟩ j) tau delta)]
      intro j
      simp
    · intro j hj acc'
      have hjN : j < N := by
        have := (List.mem_range'_1.mp hj).2
        omega
      simp [List.getElem?_ofFn, List.ofFnNthVal, hiN, hjN, pure, Except.pure]

/-- A loop whose steps fail only with `Failure.undefined` fails only with
`Failure.undefined`. -/
theorem foldlM_error_undefined {S : Type} {ι : Type} (step : S → ι → Except Failure S) (l : List ι)
    (h : ∀ acc i e, step acc i = Except.error e → e = Failure.undefined) (a : S) (e : Failure)
    (he : l.foldlM step a = Except.error e) : e = Failure.undefined := by
  induction l generalizing a with
  | nil => simp [pure, Except.pure] at he
  | cons i l ih =>
    rw [List.foldlM_cons] at he
    cases hs : step a i with
    | error e' =>
      rw [hs] at he
      have : e' = e := by simpa [bind, Except.bind] using he
      exact this ▸ h a i e' hs
    | ok b =>
      rw [hs] at he
      exact ih b he

/-- The corresponding-states loop fails only by reading past the end of an array. -/
theorem corresponding_states_alphar_error {S E : Type} [CommRing S] (ev : E → S → S → S)
    (c : CorrespondingStatesContribution E) (tau delta : S) (x : List S) (e : Failure)
    (he : c.alphar ev tau delta x = Except.error e) : e = Failure.undefined := by
  refine foldlM_error_undefined _ _ ?_ 0 e he
  intro acc i e' h'
  cases hx : x[i]? <;> cases hE : c.EOSs[i]? <;>
    simp [hx, hE, pure, Except.pure, throw, throwThe, MonadExceptOf.throw] at h' <;>
    exact h'.symm

/-- The departure loop fails only by reading past the end of an array. -/
theorem departure_alphar_error {S D : Type} [CommRing S]
    (ev : D → S → S → S) (d : DepartureContribution S D)
    (tau delta : S) (x : List S) (e : Failure)
    (he : d.alphar ev tau delta x = Except.error e) : e = Failure.undefined := by
  refine foldlM_error_undefined _ _ ?_ 0 e he
  intro acc i e' h'
  refine foldlM_error_undefined _ _ ?_ acc e' h'
  intro acc' j e'' h''
  cases hx : x[i]? <;> cases hy : x[j]? <;>
    cases hf : (d.funcs[i]?).bind (fun row => row[j]?) <;>
    simp [hx, hy, hf, pure, Except.pure, throw, throwThe, MonadExceptOf.throw] at h'' <;>
    exact h''.symm

/-- C1: on a model with `N` components (equations of state `EOS i`, weights `F`, departure
functions `Dep i j`, each list of the model being the list of its `N` entries) and a
mole-fraction vector `x` of length `N`, `MultiFluid::alphar(T, rho, x)` returns
`Σ_i x_i * EOS_i(tau, delta) + Σ_{i<j} x_i * x_j * F(i,j) * Dep_ij(tau, delta)` with
`tau = Tr(x) / T` and `delta = rho / rhor(x)`. -/
theorem MultiFluid_alphar_composition {S E D : Type} [CommRing S] [Div S]
    (evE : E → S → S → S) (evD : D → S → S → S) (N : Nat)
    (redfunc : ReducingFunctions S) (EOS : Fin N → E) (F : Nat → Nat → S)
    (Dep : Fin N → Fin N → D) (T rho : S) (x : Fin N → S) :
    MultiFluid.alphar evE evD
        ⟨redfunc, ⟨List.ofFn EOS⟩, ⟨F, List.ofFn fun i => List.ofFn (Dep i)⟩⟩ T rho (List.ofFn x)
      = Except.ok
        ((∑ i, x i * evE (EOS i) (redfunc.get_Tr (List.ofFn x) / T)
            (rho / redfunc.get_rhor (List.ofFn x)))
          + ∑ i : Fin N, ∑ j : Fin N, if i < j then
              x i * x j * F i j * evD (Dep i j) (redfunc.get_Tr (List.ofFn x) / T)
                (rho / redfunc.get_rhor (List.ofFn x))
            else 0) := by
  unfold MultiFluid.alphar
  simp only [CorrespondingStatesContribution.size, List.length_ofFn, ne_eq, not_true_eq_false,
    if_false]
  rw [corresponding_states_alphar_ofFn, departure_alphar_ofFn]
  rfl

/-- C2: `MultiFluid::alphar(T, rho, x)` fails with `teqp::InvalidArgument` if and only if the
length of `x` differs from the number of components; and when it differs the result is that
error with a message made of the two sizes only, whatever the reducing functions, the terms,
the weights, `T` and `rho` are: nothing else has been evaluated. -/
theorem MultiFluid_alphar_arity {S E D : Type} [CommRing S] [Div S]
    (evE : E → S → S → S) (evD : D → S → S → S)
    (m : MultiFluid S E D) (T rho : S) (x : List S) :
    ((∃ what, m.alphar evE evD T rho x = Except.error (Failure.InvalidArgument what))
        ↔ x.length ≠ m.corr.size)
      ∧ (x.length ≠ m.corr.size →
          m.alphar evE evD T rho x
            = Except.error (Failure.InvalidArgument
                (MultiFluid.wrong_size m.corr.size x.length))) := by
  have hne : x.length ≠ m.corr.size →
      m.alphar evE evD T rho x
        = Except.error (Failure.InvalidArgument
            (MultiFluid.wrong_size m.corr.size x.length)) := by
    intro h
    unfold MultiFluid.alphar
    rw [if_pos h]
    rfl
  refine ⟨⟨?_, fun h => ⟨_, hne h⟩⟩, hne⟩
  rintro ⟨what, hw⟩ heq
  unfold MultiFluid.alphar at hw
  rw [if_neg (not_not.mpr heq)] at hw
  cases hc : m.corr.alphar evE (m.redfunc.get_Tr x / T) (rho / m.redfunc.get_rhor x) x with
  | error e =>
    have := corresponding_states_alphar_error _ _ _ _ _ _ hc
    subst this
    simp [hc, bind, Except.bind] at hw
  | ok c =>
    cases hd : m.dep.alphar evD (m.redfunc.get_Tr x / T) (rho / m.redfunc.get_rhor x) x with
    | error e =>
      have := departure_alphar_error _ _ _ _ _ _ hd
      subst this
      simp [hc, hd, bind, Except.bind] at hw
    | ok d =>
      simp [hc, hd, bind, Except.bind, pure, Except.pure] at hw

/-- C2, at a model with two components and mole-fraction vectors of lengths 0, 1 and 3. -/
theorem MultiFluid_alphar_arity_witness :
    ∀ x ∈ [[], [1], [1, 2, 3]],
      x.length ≠ (⟨[(), ()]⟩ : CorrespondingStatesContribution Unit).size
      ∧ MultiFluid.alphar (fun _ tau delta => tau * delta) (fun _ tau delta => tau * delta)
          (⟨⟨fun _ => 1, fun _ => 1⟩, ⟨[(), ()]⟩, ⟨fun _ _ => 1, [[(), ()], [(), ()]]⟩⟩ :
            MultiFluid ℚ Unit Unit) 300 1 x
        = Except.error (Failure.InvalidArgument (MultiFluid.wrong_size 2 x.length)) := by
  intro x hx
  have hlen : x.length ≠ (⟨[(), ()]⟩ : CorrespondingStatesContribution Unit).size := by
    simp only [List.mem_cons, List.mem_singleton, List.not_mem_nil, or_false] at hx
    rcases hx with rfl | rfl | rfl <;> decide
  exact ⟨hlen,
    (MultiFluid_alphar_arity (fun _ tau delta => tau * delta) (fun _ tau delta => tau * delta)
      (⟨⟨fun _ => 1, fun _ => 1⟩, ⟨[(), ()]⟩, ⟨fun _ _ => 1, [[(), ()], [(), ()]]⟩⟩ :
        MultiFluid ℚ Unit Unit) 300 1 x).2 hlen⟩


/-! ### The power-law builders -/

theorem cast_int_range (q : ℚ) : -2 ^ 31 ≤ cast_int q ∧ cast_int q < 2 ^ 31 := by
  unfold cast_int
  split_ifs with h
  · exact h
  · constructor <;> norm_num

theorem cast_int_intCast (z : ℤ) (h1 : -2 ^ 31 ≤ z) (h2 : z < 2 ^ 31) :
    cast_int (z : ℚ) = z := by
  unfold cast_int
  rw [Rat.num_intCast, Rat.den_intCast]
  simp only [Nat.cast_one, Int.tdiv_one]
  rw [if_pos ⟨h1, h2⟩]

theorem cast_int_eq_self_iff (q : ℚ) :
    ((cast_int q : ℤ) : ℚ) = q ↔ ∃ z : ℤ, -2 ^ 31 ≤ z ∧ z < 2 ^ 31 ∧ (z : ℚ) = q := by
  constructor
  · intro h
    exact ⟨_, (cast_int_range q).1, (cast_int_range q).2, h⟩
  · rintro ⟨z, h1, h2, rfl⟩
    rw [cast_int_intCast z h1 h2]

theorem non_integer_entry_iff (l : List ℚ) :
    non_integer_entry (l.map cast_int) l = true
      ↔ ∃ x ∈ l, ¬ ∃ z : ℤ, -2 ^ 31 ≤ z ∧ z < 2 ^ 31 ∧ (z : ℚ) = x := by
  unfold non_integer_entry
  rw [List.zipWith_map_left, List.any_eq_true]
  constructor
  · rintro ⟨v, hv, hpos⟩
    rw [List.zipWith_same, List.mem_map] at hv
    obtain ⟨x, hx, rfl⟩ := hv
    refine ⟨x, hx, fun hz => ?_⟩
    have := (cast_int_eq_self_iff x).mpr hz
    simp [this] at hpos
  · rintro ⟨x, hx, hz⟩
    refine ⟨|((cast_int x : ℤ) : ℚ) - x|, ?_, ?_⟩
    · rw [List.zipWith_same, List.mem_map]
      exact ⟨x, hx, rfl⟩
    · have hne : ((cast_int x : ℤ) : ℚ) ≠ x := fun h => hz ((cast_int_eq_self_iff x).mp h)
      simpa using sub_ne_zero.mpr hne

theorem add_terms_eq (n t d c l : List ℚ) (Nlzero : Nat) (contiguous_lzero : Bool)
    (container : EOSTerms) (ht : t.length = n.length) (hd : d.length = n.length)
    (hc : c.length = n.length) (hl : l.length = n.length) (hN : Nlzero ≤ n.length) :
    build_power.add_terms n t d c l Nlzero (l.length - Nlzero) contiguous_lzero container
      = if non_integer_entry (l.map cast_int) l = true then
          Except.error (Failure.invalid_argument "Non-integer entry in l found")
        else if l.sum = 0 then
          Except.ok (container ++ [EOSTerm.JustPower ⟨n, t, d⟩])
        else if 0 < l.sum ∧ contiguous_lzero = true then
          Except.ok (container ++ [EOSTerm.JustPower
              ⟨n.take Nlzero, t.take Nlzero, d.take Nlzero⟩,
            EOSTerm.Power ⟨n.drop Nlzero, t.drop Nlzero, d.drop Nlzero, c.drop Nlzero,
              l.drop Nlzero, (l.map cast_int).drop Nlzero⟩])
        else
          Except.ok (container ++ [EOSTerm.Power ⟨n, t, d, c, l, l.map cast_int⟩]) := by
  have h1 : Nlzero + (l.length - Nlzero) = l.length := by omega
  have h2 : l.length - Nlzero ≤ n.length := by omega
  have h3 : n.length - (n.length - Nlzero) = Nlzero := by omega
  unfold build_power.add_terms
  simp only [h1, ne_eq, not_true_eq_false, if_false]
  split_ifs with ha hb hc'
  · rfl
  · rfl
  · simp [head, tail, ht, hd, hc, hl, hN, h2, h3, add_term, bind, Except.bind, pure, Except.pure]
  · rfl

theorem Json_size_array (a : List ℚ) : (Json.array a).size = a.length := rfl

theorem eigorzero_array (term : Object) (N : Nat) (name : String) (a : List ℚ)
    (h : member term name = Json.array a) (hlen : a.length = N) :
    eigorzero term N name = Except.ok a := by
  unfold eigorzero
  rw [h]
  cases a with
  | nil =>
    simp only [List.length_nil] at hlen
    subst hlen
    simp [Json.empty, pure, Except.pure]
  | cons x xs => simp [Json.empty, toeig, pure, Except.pure]

theorem has_l_empty (term : Object) (l : List ℚ) (h : has_l term l) :
    (member term "l").empty = l.isEmpty := by
  rcases h with h | ⟨h, rfl⟩ <;> simp [h, Json.empty]

theorem has_l_toeig (term : Object) (l : List ℚ) (h : has_l term l) (hne : l ≠ []) :
    toeig (member term "l") = Except.ok l := by
  rcases h with h | ⟨_, rfl⟩
  · simp [h, toeig, pure, Except.pure]
  · exact absurd rfl hne

theorem has_l_size (term : Object) (l : List ℚ) (h : has_l term l) :
    (member term "l").size = l.length := by
  rcases h with h | ⟨h, rfl⟩ <;> simp [h, Json.size]

theorem read_l_eq (N : Nat) (l : List ℚ) (hne : l ≠ []) (hlen : l.length = N) :
    build_power.read_l N l
      = Except.ok (l.map (fun li => if li > 0 then (1 : ℚ) else 0),
          decide (l.head? = some 0), l.countP (fun li => li = 0)) := by
  subst hlen
  cases l with
  | nil => exact absurd rfl hne
  | cons x xs =>
    simp [build_power.read_l, pure, Except.pure]

theorem get_EOS_terms_build_power_eq (term : Object) (container : EOSTerms)
    (n t d l : List ℚ) (hn : member term "n" = Json.array n)
    (ht : member term "t" = Json.array t) (hd : member term "d" = Json.array d)
    (hl : has_l term l) (htn : t.length = n.length) (hdn : d.length = n.length)
    (hln : l = [] ∨ l.length = n.length) :
    get_EOS_terms.build_power term container
      = if l = [] then
          build_power.add_terms n t d (List.replicate n.length 0) (List.replicate n.length 0)
            0 ((List.replicate n.length (0 : ℚ)).length - 0) false container
        else
          build_power.add_terms n t d (l.map (fun li => if li > 0 then (1 : ℚ) else 0)) l
            (l.countP (fun li => li = 0)) (l.length - l.countP (fun li => li = 0))
            (decide (l.head? = some 0)) container := by
  unfold get_EOS_terms.build_power
  simp only [hn, Json_size_array, eigorzero_array term n.length "n" n hn rfl,
    eigorzero_array term n.length "t" t ht htn, eigorzero_array term n.length "d" d hd hdn,
    has_l_empty term l hl, bind, Except.bind]
  by_cases hl0 : l = []
  · subst hl0
    simp
  · have hlen : l.length = n.length := hln.resolve_left hl0
    have hemp : l.isEmpty = false := by
      cases l with
      | nil => exact absurd rfl hl0
      | cons x xs => rfl
    rw [if_neg hl0]
    simp only [hemp, Bool.false_eq_true, if_false, has_l_toeig term l hl hl0,
      read_l_eq n.length l hl0 hlen]

theorem build_departure_function_build_power_eq (term : Object) (dep : EOSTerms)
    (n t d l : List ℚ) (hn : member term "n" = Json.array n)
    (ht : member term "t" = Json.array t) (hd : member term "d" = Json.array d)
    (hl : has_l term l) (htn : t.length = n.length) (hdn : d.length = n.length)
    (hln : l = [] ∨ l.length = n.length) :
    build_departure_function.build_power term dep
      = if n = [] then Except.ok dep
        else if l = [] then
          build_power.add_terms n t d (List.replicate n.length 0) (List.replicate n.length 0)
            0 ((List.replicate n.length (0 : ℚ)).length - 0) false dep
        else if l.head? ≠ some 0 ∧ l.getLast? = some 0 then
          Except.error (Failure.invalid_argument
            "If l_i has zero and non-zero values, the zero values need to come first")
        else
          build_power.add_terms n t d (l.map (fun li => if li > 0 then (1 : ℚ) else 0)) l
            (l.countP (fun li => li = 0)) (l.length - l.countP (fun li => li = 0))
            (decide (l.head? = some 0)) dep := by
  unfold build_departure_function.build_power
  simp only [hn, Json_size_array]
  by_cases hn0 : n = []
  · subst hn0
    simp [pure, Except.pure]
  · have hnpos : n.length ≠ 0 := fun h => hn0 (List.length_eq_zero.mp h)
    rw [if_neg hn0]
    simp only [hnpos, if_false, eigorzero_array term n.length "n" n hn rfl,
      eigorzero_array term n.length "t" t ht htn, eigorzero_array term n.length "d" d hd hdn,
      has_l_empty term l hl, bind, Except.bind, List.map, hn, ht, hd, has_l_size term l hl,
      Json_size_array]
    by_cases hl0 : l = []
    · subst hl0
      rw [if_pos rfl]
      have hh : (List.replicate n.length (0 : ℚ)).head? = some 0 := by
        rw [List.head?_replicate, if_neg hnpos]
      have hg : (List.replicate n.length (0 : ℚ)).getLast? = some 0 := by
        rw [List.getLast?_replicate, if_neg hnpos]
      simp [lengths_all_same, htn, hdn, pure, Except.pure, hh, hg]
    · have hlen : l.length = n.length := hln.resolve_left hl0
      have hemp : l.isEmpty = false := by
        cases l with
        | nil => exact absurd rfl hl0
        | cons x xs => rfl
      rw [if_neg hl0]
      simp only [hemp, Bool.false_eq_true, if_false, has_l_toeig term l hl hl0,
        read_l_eq n.length l hl0 hlen, lengths_all_same, htn, hdn, hlen]
      obtain ⟨first, hfirst⟩ : ∃ first, l.head? = some first := by
        cases l with
        | nil => exact absurd rfl hl0
        | cons x xs => exact ⟨x, rfl⟩
      obtain ⟨last, hlast⟩ : ∃ last, l.getLast? = some last := by
        rw [List.getLast?_eq_getLast _ hl0]
        exact ⟨_, rfl⟩
      simp [hfirst, hlast, pure, Except.pure, hlen]
      split_ifs <;> rfl


/-- The facts about an array `l` made of `k ≥ 1` zeros followed by positive integers of the
type `int` that the builders use. -/
theorem leading_zeros_facts (k : Nat) (lpos : List ℤ) (hk : 1 ≤ k) (hm : 1 ≤ lpos.length)
    (hpos : ∀ z ∈ lpos, 0 < z) (hint : ∀ z ∈ lpos, z < 2 ^ 31) (l : List ℚ)
    (hl : l = List.replicate k 0 ++ lpos.map (Int.cast : ℤ → ℚ)) :
    l ≠ [] ∧ l.length = k + lpos.length ∧ l.head? = some 0
      ∧ l.countP (fun li => li = 0) = k
      ∧ l.map (fun li => if li > 0 then (1 : ℚ) else 0)
          = List.replicate k 0 ++ List.replicate lpos.length 1
      ∧ non_integer_entry (l.map cast_int) l = false
      ∧ 0 < l.sum
      ∧ l.drop k = lpos.map (Int.cast : ℤ → ℚ)
      ∧ (l.map cast_int).drop k = lpos := by
  subst hl
  obtain ⟨k', rfl⟩ : ∃ k', k = k' + 1 := ⟨k - 1, by omega⟩
  have hsum : ∀ (m : List ℤ), (∀ z ∈ m, 0 < z) → 1 ≤ m.length →
      0 < (m.map (Int.cast : ℤ → ℚ)).sum := by
    intro m
    induction m with
    | nil => intro _ h; simp at h
    | cons z m ih =>
      intro hz _
      have hz0 : (0 : ℚ) < z := by exact_mod_cast hz z (List.mem_cons_self z m)
      have hrest : (0 : ℚ) ≤ (m.map (Int.cast : ℤ → ℚ)).sum := by
        apply List.sum_nonneg
        intro x hx
        obtain ⟨y, hy, rfl⟩ := List.mem_map.mp hx
        have := hz y (List.mem_cons_of_mem z hy)
        exact_mod_cast this.le
      simp only [List.map_cons, List.sum_cons]
      linarith
  refine ⟨by simp [List.replicate_succ], by simp, by simp [List.replicate_succ], ?_, ?_, ?_, ?_,
    ?_, ?_⟩
  · rw [List.countP_append, List.countP_replicate]
    have : List.countP (fun li => decide (li = 0)) (lpos.map (Int.cast : ℤ → ℚ)) = 0 := by
      rw [List.countP_eq_zero]
      intro x hx
      obtain ⟨y, hy, rfl⟩ := List.mem_map.mp hx
      have := hpos y hy
      simp
      omega
    simp [this]
  · rw [List.map_append, List.map_replicate, List.map_map]
    have h0 : (if (0 : ℚ) > 0 then (1 : ℚ) else 0) = 0 := by simp
    rw [h0]
    congr 1
    rw [List.eq_replicate_iff]
    refine ⟨by simp, ?_⟩
    intro b hb
    obtain ⟨y, hy, rfl⟩ := List.mem_map.mp hb
    have : (0 : ℚ) < y := by exact_mod_cast hpos y hy
    simp [this]
  · rw [Bool.eq_false_iff]
    intro h
    obtain ⟨x, hx, hz⟩ := (non_integer_entry_iff _).mp h
    rcases List.mem_append.mp hx with hx | hx
    · exact hz ⟨0, by norm_num, by norm_num, by simp [(List.mem_replicate.mp hx).2]⟩
    · obtain ⟨y, hy, rfl⟩ := List.mem_map.mp hx
      have hy0 := hpos y hy
      exact hz ⟨y, by norm_num; omega, hint y hy, rfl⟩
  · rw [List.sum_append, List.sum_replicate]
    simpa using hsum lpos hpos hm
  · rw [List.drop_append_of_le_length (by simp)]
    simp
  · rw [List.map_append, List.drop_append_of_le_length (by simp)]
    have hcast : (lpos.map (Int.cast : ℤ → ℚ)).map cast_int = lpos := by
      rw [List.map_map]
      conv_rhs => rw [← List.map_id lpos]
      apply List.map_congr_left
      intro y hy
      have hy0 := hpos y hy
      simp only [Function.comp_apply, id_eq]
      exact cast_int_intCast y (by norm_num; omega) (hint y hy)
    simp [hcast]

/-- C6: for a power-law description whose array `l` is `k ≥ 1` zeros followed by `m ≥ 1`
positive integers that are values of `int`, that is, below `2^31` (`n`, `t`, `d` having
`k + m` entries), `build_power`, in `get_EOS_terms` and in `build_departure_function`,
succeeds and appends exactly two terms in this order: a plain power-law term with the first
`k` entries of `n`, `t`, `d`, and a damped term with the last `m` entries of `n`, `t`, `d`,
`l` and every `c_i = 1`. -/
theorem build_power_leading_zeros (term : Object) (container : EOSTerms) (n t d : List ℚ)
    (k : Nat) (lpos : List ℤ) (hn : member term "n" = Json.array n)
    (ht : member term "t" = Json.array t) (hd : member term "d" = Json.array d)
    (hl : member term "l" = Json.array (List.replicate k 0 ++ lpos.map (Int.cast : ℤ → ℚ)))
    (hk : 1 ≤ k) (hm : 1 ≤ lpos.length) (hpos : ∀ z ∈ lpos, 0 < z)
    (hint : ∀ z ∈ lpos, z < 2 ^ 31)
    (hnl : n.length = k + lpos.length) (htl : t.length = k + lpos.length)
    (hdl : d.length = k + lpos.length) :
    get_EOS_terms.build_power term container
        = Except.ok (container ++ [EOSTerm.JustPower ⟨n.take k, t.take k, d.take k⟩,
            EOSTerm.Power ⟨n.drop k, t.drop k, d.drop k, List.replicate lpos.length 1,
              lpos.map (Int.cast : ℤ → ℚ), lpos⟩])
      ∧ build_departure_function.build_power term container
        = Except.ok (container ++ [EOSTerm.JustPower ⟨n.take k, t.take k, d.take k⟩,
            EOSTerm.Power ⟨n.drop k, t.drop k, d.drop k, List.replicate lpos.length 1,
              lpos.map (Int.cast : ℤ → ℚ), lpos⟩]) := by
  obtain ⟨hne, hlen, hhead, hcount, hc, hint, hsum, hdrop, hdropi⟩ :=
    leading_zeros_facts k lpos hk hm hpos hint _ rfl
  have hn0 : n ≠ [] := by
    intro h
    rw [h] at hnl
    simp at hnl
    omega
  have hadd : ∀ cont : EOSTerms,
      build_power.add_terms n t d
          ((List.replicate k 0 ++ lpos.map (Int.cast : ℤ → ℚ)).map
            (fun li => if li > 0 then (1 : ℚ) else 0))
          (List.replicate k 0 ++ lpos.map (Int.cast : ℤ → ℚ))
          ((List.replicate k 0 ++ lpos.map (Int.cast : ℤ → ℚ)).countP (fun li => li = 0))
          ((List.replicate k 0 ++ lpos.map (Int.cast : ℤ → ℚ)).length
            - (List.replicate k 0 ++ lpos.map (Int.cast : ℤ → ℚ)).countP (fun li => li = 0))
          (decide ((List.replicate k 0 ++ lpos.map (Int.cast : ℤ → ℚ)).head? = some 0)) cont
        = Except.ok (cont ++ [EOSTerm.JustPower ⟨n.take k, t.take k, d.take k⟩,
            EOSTerm.Power ⟨n.drop k, t.drop k, d.drop k, List.replicate lpos.length 1,
              lpos.map (Int.cast : ℤ → ℚ), lpos⟩]) := by
    intro cont
    rw [add_terms_eq n t d _ _ _ _ cont (by omega) (by omega)
      (by rw [List.length_map]; omega) (by omega) (by rw [hcount]; omega)]
    rw [hint, hcount, hdrop, hdropi, hc, List.drop_left' (by simp), hhead]
    have hsum' : 0 < (lpos.map (Int.cast : ℤ → ℚ)).sum := by simpa using hsum
    simp [hsum', hsum'.ne']
  constructor
  · rw [get_EOS_terms_build_power_eq term container n t d _ hn ht hd (Or.inl hl)
      (by omega) (by omega) (Or.inr (by omega)), if_neg hne]
    exact hadd container
  · rw [build_departure_function_build_power_eq term container n t d _ hn ht hd (Or.inl hl)
      (by omega) (by omega) (Or.inr (by omega)), if_neg hn0, if_neg hne, if_neg]
    · exact hadd container
    · rw [hhead]
      simp

/-- When every entry of `l` is zero, the common part of the builders adds one plain term. -/
theorem add_terms_zeros (n t d c l : List ℚ) (Nlzero : Nat)
    (contiguous_lzero : Bool) (container : EOSTerms) (ht : t.length = n.length)
    (hd : d.length = n.length) (hc : c.length = n.length) (hl : l.length = n.length)
    (hN : Nlzero ≤ n.length) (hzero : ∀ x ∈ l, x = 0) :
    build_power.add_terms n t d c l Nlzero (l.length - Nlzero) contiguous_lzero container
      = Except.ok (container ++ [EOSTerm.JustPower ⟨n, t, d⟩]) := by
  rw [add_terms_eq n t d c l Nlzero contiguous_lzero container ht hd hc hl hN]
  have hint : non_integer_entry (l.map cast_int) l = false := by
    rw [Bool.eq_false_iff]
    intro h
    obtain ⟨x, hx, hz⟩ := (non_integer_entry_iff _).mp h
    exact hz ⟨0, by norm_num, by norm_num, by simp [hzero x hx]⟩
  have hsum : l.sum = 0 := List.sum_eq_zero hzero
  simp [hint, hsum]

/-- The common part of the builders fails with the non-integer error exactly when `l` has an
entry that is not an integer of the type `int`. -/
theorem add_terms_non_integer (n t d c l : List ℚ) (Nlzero : Nat)
    (contiguous_lzero : Bool) (container : EOSTerms) (ht : t.length = n.length)
    (hd : d.length = n.length) (hc : c.length = n.length) (hl : l.length = n.length)
    (hN : Nlzero ≤ n.length) :
    build_power.add_terms n t d c l Nlzero (l.length - Nlzero) contiguous_lzero container
        = Except.error (Failure.invalid_argument "Non-integer entry in l found")
      ↔ ∃ x ∈ l, ¬ ∃ z : ℤ, -2 ^ 31 ≤ z ∧ z < 2 ^ 31 ∧ (z : ℚ) = x := by
  rw [add_terms_eq n t d c l Nlzero contiguous_lzero container ht hd hc hl hN,
    ← non_integer_entry_iff]
  split_ifs with h1 h2 h3 <;> simp [h1]

/-- C8: for a power-law description with arrays `n`, `t`, `d` of one length and `l` of that
length (or empty, or absent), `build_power` of `get_EOS_terms` fails with the non-integer
error if and only if some entry of `l` is not an integer that is a value of `int` (from
`-2^31` to `2^31 - 1`), and so does `build_power` of `build_departure_function` when the
description passes its ordering check.  These are the entries that differ from their
conversion to `int`. -/
theorem build_power_non_integer (term : Object) (container : EOSTerms) (n t d l : List ℚ)
    (hn : member term "n" = Json.array n) (ht : member term "t" = Json.array t)
    (hd : member term "d" = Json.array d) (hl : has_l term l)
    (htn : t.length = n.length) (hdn : d.length = n.length)
    (hln : l = [] ∨ l.length = n.length) :
    (get_EOS_terms.build_power term container
          = Except.error (Failure.invalid_argument "Non-integer entry in l found")
        ↔ ∃ x ∈ l, ¬ ∃ z : ℤ, -2 ^ 31 ≤ z ∧ z < 2 ^ 31 ∧ (z : ℚ) = x)
      ∧ (¬ (l.head? ≠ some 0 ∧ l.getLast? = some 0) →
          (build_departure_function.build_power term container
              = Except.error (Failure.invalid_argument "Non-integer entry in l found")
            ↔ ∃ x ∈ l, ¬ ∃ z : ℤ, -2 ^ 31 ≤ z ∧ z < 2 ^ 31 ∧ (z : ℚ) = x))
      ∧ ((∃ x ∈ l, ¬ ∃ z : ℤ, -2 ^ 31 ≤ z ∧ z < 2 ^ 31 ∧ (z : ℚ) = x)
          ↔ ∃ x ∈ l, ((cast_int x : ℤ) : ℚ) ≠ x) := by
  have hcast : (∃ x ∈ l, ¬ ∃ z : ℤ, -2 ^ 31 ≤ z ∧ z < 2 ^ 31 ∧ (z : ℚ) = x)
      ↔ ∃ x ∈ l, ((cast_int x : ℤ) : ℚ) ≠ x := by
    constructor
    · rintro ⟨x, hx, h⟩
      exact ⟨x, hx, fun e => h ((cast_int_eq_self_iff x).mp e)⟩
    · rintro ⟨x, hx, h⟩
      exact ⟨x, hx, fun e => h ((cast_int_eq_self_iff x).mpr e)⟩
  have hzeros : ∀ cont : EOSTerms,
      build_power.add_terms n t d (List.replicate n.length 0) (List.replicate n.length 0) 0
          ((List.replicate n.length (0 : ℚ)).length - 0) false cont
        = Except.ok (cont ++ [EOSTerm.JustPower ⟨n, t, d⟩]) := fun cont =>
    add_terms_zeros n t d _ _ 0 false cont htn hdn (by simp) (by simp)
      (Nat.zero_le _) (fun x hx => (List.mem_replicate.mp hx).2)
  have hnon : ∀ cont : EOSTerms, l ≠ [] →
      (build_power.add_terms n t d (l.map (fun li => if li > 0 then (1 : ℚ) else 0)) l
          (l.countP (fun li => li = 0)) (l.length - l.countP (fun li => li = 0))
          (decide (l.head? = some 0)) cont
        = Except.error (Failure.invalid_argument "Non-integer entry in l found")
      ↔ ∃ x ∈ l, ¬ ∃ z : ℤ, -2 ^ 31 ≤ z ∧ z < 2 ^ 31 ∧ (z : ℚ) = x) := fun cont hl0 =>
    add_terms_non_integer n t d _ l _ _ cont htn hdn
      (by rw [List.length_map]; exact hln.resolve_left hl0) (hln.resolve_left hl0)
      (by rw [← hln.resolve_left hl0]; exact List.countP_le_length _)
  refine ⟨?_, ?_, hcast⟩
  · rw [get_EOS_terms_build_power_eq term container n t d l hn ht hd hl htn hdn hln]
    by_cases hl0 : l = []
    · rw [if_pos hl0, hzeros]
      subst hl0
      simp
    · rw [if_neg hl0]
      exact hnon container hl0
  · intro hord
    rw [build_departure_function_build_power_eq term container n t d l hn ht hd hl htn hdn hln]
    by_cases hl0 : l = []
    · have : ¬ ∃ x ∈ l, ¬ ∃ z : ℤ, -2 ^ 31 ≤ z ∧ z < 2 ^ 31 ∧ (z : ℚ) = x := by
        subst hl0
        simp
      by_cases hn0 : n = []
      · rw [if_pos hn0]
        simpa using this
      · rw [if_neg hn0, if_pos hl0, hzeros]
        simpa using this
    · have hn0 : n ≠ [] := by
        intro h
        apply hl0
        have := hln.resolve_left hl0
        rw [h] at this
        exact List.length_eq_zero.mp this
      rw [if_neg hn0, if_neg hl0, if_neg hord]
      exact hnon container hl0

/-- A damped term whose every `c_i` is zero has the value of the plain term with the same
`n`, `t`, `d`, in any numeric type whose exponential is 1 at 0. -/
theorem PowerEOSTerm_alphar_c_zero {S : Type} [Field S] (pw : S → ℚ → S) (ex : S → S)
    (hex : ex 0 = 1) (n t d l : List ℚ) (l_i : List ℤ) (N : Nat) (tau delta : S) :
    PowerEOSTerm.alphar pw ex ⟨n, t, d, List.replicate N 0, l, l_i⟩ tau delta
      = JustPowerEOSTerm.alphar pw ⟨n, t, d⟩ tau delta := by
  unfold PowerEOSTerm.alphar JustPowerEOSTerm.alphar
  congr 1
  apply List.map_congr_left
  intro i _
  have hc : (List.replicate N (0 : ℚ)).getD i 0 = 0 := by
    rw [List.getD_eq_getElem?_getD, List.getElem?_replicate]
    split_ifs <;> rfl
  simp only [hc, Rat.cast_zero, zero_mul, neg_zero, hex, mul_one]


/-- C3: with `l = [0, 1, 0]` (and `n = t = d = [1, 1, 1]`) both builders accept the
description and build a plain term from the first two entries and a damped term from the
last one, so the entry with `l_i = 1` loses its damping factor: at `tau = delta = 1` the
container evaluates to 3, the unsplit damped term to `2 + exp(-1)`, and the two differ. -/
theorem build_power_split_changes_value (rest : EOSTerm → ℝ → ℝ → ℝ) :
    get_EOS_terms [power_term "ResidualHelmholtzPower" [1, 1, 1] [1, 1, 1] [1, 1, 1] [0, 1, 0]]
        = Except.ok [EOSTerm.JustPower ⟨[1, 1], [1, 1], [1, 1]⟩,
            EOSTerm.Power ⟨[1], [1], [1], [0], [0], [0]⟩]
      ∧ build_departure_function
          (power_term "Exponential" [1, 1, 1] [1, 1, 1] [1, 1, 1] [0, 1, 0])
        = Except.ok [EOSTerm.JustPower ⟨[1, 1], [1, 1], [1, 1]⟩,
            EOSTerm.Power ⟨[1], [1], [1], [0], [0], [0]⟩]
      ∧ EOSTermContainer.alphar (fun x q => x ^ (q : ℝ)) Real.exp rest
          [EOSTerm.JustPower ⟨[1, 1], [1, 1], [1, 1]⟩,
            EOSTerm.Power ⟨[1], [1], [1], [0], [0], [0]⟩] 1 1 = 3
      ∧ EOSTermContainer.alphar (fun x q => x ^ (q : ℝ)) Real.exp rest
          [EOSTerm.Power ⟨[1, 1, 1], [1, 1, 1], [1, 1, 1], [0, 1, 0], [0, 1, 0], [0, 1, 0]⟩]
          1 1 = 2 + Real.exp (-1)
      ∧ (3 : ℝ) ≠ 2 + Real.exp (-1) := by
  refine ⟨?_, ?_, ?_, ?_, ?_⟩
  · simp [get_EOS_terms, get_EOS_terms.check_types, get_EOS_terms.isallowed,
      get_EOS_terms.allowed_types, get_EOS_terms.add, Json.get_string,
      get_EOS_terms.build_power, power_term, member, List.lookup, Json.size, eigorzero,
      Json.empty, toeig, build_power.read_l, build_power.add_terms, non_integer_entry,
      cast_int, head, tail, add_term, bind, Except.bind, pure, Except.pure]
  · simp [build_departure_function, member_at, Json.get_string,
      build_departure_function.build_power, lengths_all_same, power_term, member, List.lookup,
      Json.size, eigorzero, Json.empty, toeig, build_power.read_l, build_power.add_terms,
      non_integer_entry, cast_int, head, tail, add_term, bind, Except.bind, pure, Except.pure]
  · simp [EOSTermContainer.alphar, EOSTerm.alphar, JustPowerEOSTerm.alphar,
      PowerEOSTerm.alphar, List.range_succ]
    norm_num
  · simp [EOSTermContainer.alphar, EOSTerm.alphar, JustPowerEOSTerm.alphar,
      PowerEOSTerm.alphar, List.range_succ]
    ring
  · have : Real.exp (-1) < 1 := by
      rw [Real.exp_lt_one_iff]
      norm_num
    linarith

/-- C4: `build_departure_function` accepts an `Exponential` description with `l = [0, 1, 0]`
and one with `l = [1, 0, 1]`, although in both a non-zero entry of `l` precedes a zero entry:
its ordering check compares the first and the last entry only. -/
theorem build_departure_function_accepts_misplaced_zero :
    build_departure_function (power_term "Exponential" [1, 1, 1] [1, 1, 1] [1, 1, 1] [0, 1, 0])
        = Except.ok [EOSTerm.JustPower ⟨[1, 1], [1, 1], [1, 1]⟩,
            EOSTerm.Power ⟨[1], [1], [1], [0], [0], [0]⟩]
      ∧ build_departure_function
          (power_term "Exponential" [1, 1, 1] [1, 1, 1] [1, 1, 1] [1, 0, 1])
        = Except.ok [EOSTerm.Power
            ⟨[1, 1, 1], [1, 1, 1], [1, 1, 1], [1, 0, 1], [1, 0, 1], [1, 0, 1]⟩] := by
  constructor <;>
  simp [build_departure_function, member_at, Json.get_string,
    build_departure_function.build_power, lengths_all_same, power_term, member, List.lookup,
    Json.size, eigorzero, Json.empty, toeig, build_power.read_l, build_power.add_terms,
    non_integer_entry, cast_int, head, tail, add_term, bind, Except.bind, pure, Except.pure]

/-- C5: `get_EOS_terms` accepts a `ResidualHelmholtzPower` description whose arrays `n`
(two entries), `t` and `d` (one entry each) differ in length, and builds a term from them;
`build_departure_function` rejects the same arrays. -/
theorem get_EOS_terms_accepts_unequal_lengths :
    get_EOS_terms [[("type", Json.string "ResidualHelmholtzPower"), ("n", Json.array [1, 1]),
        ("t", Json.array [1]), ("d", Json.array [1])]]
        = Except.ok [EOSTerm.JustPower ⟨[1, 1], [1], [1]⟩]
      ∧ build_departure_function [("type", Json.string "Exponential"),
          ("n", Json.array [1, 1]), ("t", Json.array [1]), ("d", Json.array [1])]
        = Except.error (Failure.invalid_argument
            "Lengths are not all identical in polynomial-like term") := by
  constructor
  · simp [get_EOS_terms, get_EOS_terms.check_types, get_EOS_terms.isallowed,
      get_EOS_terms.allowed_types, get_EOS_terms.add, Json.get_string,
      get_EOS_terms.build_power, member, List.lookup, Json.size, eigorzero,
      Json.empty, toeig, build_power.read_l, build_power.add_terms, non_integer_entry,
      cast_int, head, tail, add_term, bind, Except.bind, pure, Except.pure]
  · simp [build_departure_function, member_at, Json.get_string,
      build_departure_function.build_power, lengths_all_same, member, List.lookup,
      Json.size, eigorzero, Json.empty, toeig, bind, Except.bind, pure, Except.pure, throw,
      throwThe, MonadExceptOf.throw]

/-- The conversion to `int` of 3000000000, which is not a value of `int`. -/
theorem cast_int_out_of_range : cast_int 3000000000 = -2 ^ 31 := by
  have hnum : (3000000000 : ℚ).num = 3000000000 := rfl
  have hden : (3000000000 : ℚ).den = 1 := rfl
  rw [cast_int, hnum, hden]
  norm_num

/-- C6, as stated, fails: `l = [0, 3000000000]` is one zero followed by one positive
integer, but 3000000000 is not a value of `int` and its conversion to `int` differs from it.
Both builders fail with the non-integer error and append no term. -/
theorem build_power_leading_zeros_out_of_range :
    get_EOS_terms.build_power
        (power_term "ResidualHelmholtzPower" [1, 1] [1, 1] [1, 1] [0, 3000000000]) []
        = Except.error (Failure.invalid_argument "Non-integer entry in l found")
      ∧ build_departure_function.build_power
          (power_term "Exponential" [1, 1] [1, 1] [1, 1] [0, 3000000000]) []
        = Except.error (Failure.invalid_argument "Non-integer entry in l found")
      ∧ get_EOS_terms
          [power_term "ResidualHelmholtzPower" [1, 1] [1, 1] [1, 1] [0, 3000000000]]
        = Except.error (Failure.invalid_argument "Non-integer entry in l found")
      ∧ build_departure_function
          (power_term "Exponential" [1, 1] [1, 1] [1, 1] [0, 3000000000])
        = Except.error (Failure.invalid_argument "Non-integer entry in l found") := by
  have hc := cast_int_out_of_range
  have hc0 : cast_int 0 = 0 := by
    have := cast_int_intCast 0 (by norm_num) (by norm_num)
    simpa using this
  refine ⟨?_, ?_, ?_, ?_⟩
  · simp [get_EOS_terms.build_power, power_term, member, List.lookup, Json.size, eigorzero,
      Json.empty, toeig, build_power.read_l, build_power.add_terms, non_integer_entry,
      hc, hc0, head, tail, add_term, bind, Except.bind, pure, Except.pure, throw, throwThe,
      MonadExceptOf.throw]
    norm_num
  · simp [build_departure_function.build_power, lengths_all_same, power_term, member,
      List.lookup, Json.size, eigorzero, Json.empty, toeig, build_power.read_l,
      build_power.add_terms, non_integer_entry, hc, hc0, head, tail, add_term, bind,
      Except.bind, pure, Except.pure, throw, throwThe, MonadExceptOf.throw]
    norm_num
  · simp [get_EOS_terms, get_EOS_terms.check_types, get_EOS_terms.isallowed,
      get_EOS_terms.allowed_types, get_EOS_terms.add, Json.get_string,
      get_EOS_terms.build_power, power_term, member, List.lookup, Json.size, eigorzero,
      Json.empty, toeig, build_power.read_l, build_power.add_terms, non_integer_entry,
      hc, hc0, head, tail, add_term, bind, Except.bind, pure, Except.pure, throw, throwThe,
      MonadExceptOf.throw]
    norm_num
  · simp [build_departure_function, member_at, Json.get_string,
      build_departure_function.build_power, lengths_all_same, power_term, member, List.lookup,
      Json.size, eigorzero, Json.empty, toeig, build_power.read_l, build_power.add_terms,
      non_integer_entry, hc, hc0, head, tail, add_term, bind, Except.bind, pure, Except.pure,
      throw, throwThe, MonadExceptOf.throw]
    norm_num

/-- C8, as stated, fails: the one entry of `l = [3000000000]` is an exact integer and the
description passes the length and ordering checks, but 3000000000 is not a value of `int`,
so it differs from its conversion to `int` and both builders fail with the non-integer
error. -/
theorem build_power_non_integer_out_of_range :
    (∀ x ∈ ([3000000000] : List ℚ), ∃ z : ℤ, (z : ℚ) = x)
      ∧ ¬ (([3000000000] : List ℚ).head? ≠ some 0 ∧ ([3000000000] : List ℚ).getLast? = some 0)
      ∧ get_EOS_terms [power_term "ResidualHelmholtzPower" [1] [1] [1] [3000000000]]
        = Except.error (Failure.invalid_argument "Non-integer entry in l found")
      ∧ build_departure_function (power_term "Exponential" [1] [1] [1] [3000000000])
        = Except.error (Failure.invalid_argument "Non-integer entry in l found") := by
  have hc := cast_int_out_of_range
  refine ⟨?_, ?_, ?_, ?_⟩
  · intro x hx
    rw [List.mem_singleton] at hx
    exact ⟨3000000000, by rw [hx]; norm_num⟩
  · simp
  · simp [get_EOS_terms, get_EOS_terms.check_types, get_EOS_terms.isallowed,
      get_EOS_terms.allowed_types, get_EOS_terms.add, Json.get_string,
      get_EOS_terms.build_power, power_term, member, List.lookup, Json.size, eigorzero,
      Json.empty, toeig, build_power.read_l, build_power.add_terms, non_integer_entry,
      hc, head, tail, add_term, bind, Except.bind, pure, Except.pure, throw, throwThe,
      MonadExceptOf.throw]
    norm_num
  · simp [build_departure_function, member_at, Json.get_string,
      build_departure_function.build_power, lengths_all_same, power_term, member, List.lookup,
      Json.size, eigorzero, Json.empty, toeig, build_power.read_l, build_power.add_terms,
      non_integer_entry, hc, head, tail, add_term, bind, Except.bind, pure, Except.pure,
      throw, throwThe, MonadExceptOf.throw]
    norm_num

/-- C6, at the power-law term of the Lennard-Jones model, `l = [0,0,0,0,0,0,1,2,2,1,2,1]`. -/
theorem build_power_leading_zeros_witness :
    get_EOS_terms.build_power LJ126_TholJPCRD2016_power []
        = Except.ok ([] ++ [EOSTerm.JustPower
            ⟨List.take 6 [0.52080730e-2, 0.21862520e+1, -0.21610160e+1, 0.14527000e+1,
                -0.20417920e+1, 0.18695286e+0, -0.62086250e+0, -0.56883900e+0, -0.80055922e+0,
                0.10901431e+0, -0.49745610e+0, -0.90988445e-1],
              List.take 6 [1.000, 0.320, 0.505, 0.672, 0.843, 0.898, 1.205, 1.786, 2.770,
                1.786, 2.590, 1.294],
              List.take 6 [4, 1, 1, 2, 2, 3, 1, 1, 3, 2, 2, 5]⟩,
            EOSTerm.Power
              ⟨List.drop 6 [0.52080730e-2, 0.21862520e+1, -0.21610160e+1, 0.14527000e+1,
                -0.20417920e+1, 0.18695286e+0, -0.62086250e+0, -0.56883900e+0, -0.80055922e+0,
                0.10901431e+0, -0.49745610e+0, -0.90988445e-1],
              List.drop 6 [1.000, 0.320, 0.505, 0.672, 0.843, 0.898, 1.205, 1.786, 2.770,
                1.786, 2.590, 1.294],
              List.drop 6 [4, 1, 1, 2, 2, 3, 1, 1, 3, 2, 2, 5],
              List.replicate [1, 2, 2, 1, 2, 1].length 1,
              [1, 2, 2, 1, 2, 1].map (Int.cast : ℤ → ℚ), [1, 2, 2, 1, 2, 1]⟩]) :=
  (build_power_leading_zeros LJ126_TholJPCRD2016_power [] _ _ _ 6 [1, 2, 2, 1, 2, 1]
    rfl rfl rfl (by simp [LJ126_TholJPCRD2016_power, member, List.lookup, List.replicate])
    (by decide) (by decide) (by decide) (by decide) (by decide) (by decide) (by decide)).1

/-- C7, as stated, fails for `build_departure_function`: on an `Exponential` description whose
arrays are empty it adds no term at all, so the container it returns is empty and not a
single plain power-law term. -/
theorem build_departure_function_empty_description :
    build_departure_function (power_term "Exponential" [] [] [] []) = Except.ok []
      ∧ build_departure_function (power_term "Exponential" [] [] [] [])
        ≠ Except.ok [EOSTerm.JustPower ⟨[], [], []⟩] := by
  have h : build_departure_function (power_term "Exponential" [] [] [] []) = Except.ok [] := by
    simp [build_departure_function, member_at, Json.get_string,
      build_departure_function.build_power, power_term, member, List.lookup, Json.size,
      bind, Except.bind, pure, Except.pure]
  refine ⟨h, ?_⟩
  rw [h]
  intro h'
  cases h'

/-- C7, amended: for a power-law description with arrays `n`, `t`, `d` of one length whose
`l` is entirely zero and of that length (or empty, or absent), `build_power` of
`get_EOS_terms` adds the single plain term with the given `n`, `t`, `d`; `build_power` of
`build_departure_function` adds the same term when `n` is not empty and no term when it is.
Over the reals, at every `tau` and `delta`, what was added has the value of the unsplit
damped term with the same `n`, `t`, `d`, zero `l` and `c_i = 0`; and the container built
from `n = [1]`, `t = [1]`, `d = [1]`, `l = [0]` evaluates to 1 at `tau = delta = 1`. -/
theorem build_power_all_zero (term : Object) (container : EOSTerms) (n t d l : List ℚ)
    (hn : member term "n" = Json.array n) (ht : member term "t" = Json.array t)
    (hd : member term "d" = Json.array d) (hl : has_l term l)
    (htn : t.length = n.length) (hdn : d.length = n.length)
    (hln : l = [] ∨ l.length = n.length) (hzero : ∀ x ∈ l, x = 0) :
    get_EOS_terms.build_power term container
        = Except.ok (container ++ [EOSTerm.JustPower ⟨n, t, d⟩])
      ∧ build_departure_function.build_power term container
        = Except.ok (container ++ if n = [] then [] else [EOSTerm.JustPower ⟨n, t, d⟩])
      ∧ (∀ (rest : EOSTerm → ℝ → ℝ → ℝ) (tau delta : ℝ),
          EOSTermContainer.alphar (fun x q => x ^ (q : ℝ)) Real.exp rest
              [EOSTerm.JustPower ⟨n, t, d⟩] tau delta
            = EOSTermContainer.alphar (fun x q => x ^ (q : ℝ)) Real.exp rest
              [EOSTerm.Power ⟨n, t, d, List.replicate n.length 0, List.replicate n.length 0,
                List.replicate n.length 0⟩] tau delta
          ∧ EOSTermContainer.alphar (fun x q => x ^ (q : ℝ)) Real.exp rest
              (if n = [] then [] else [EOSTerm.JustPower ⟨n, t, d⟩]) tau delta
            = EOSTermContainer.alphar (fun x q => x ^ (q : ℝ)) Real.exp rest
              [EOSTerm.Power ⟨n, t, d, List.replicate n.length 0, List.replicate n.length 0,
                List.replicate n.length 0⟩] tau delta)
      ∧ (∀ rest : EOSTerm → ℝ → ℝ → ℝ,
          get_EOS_terms [power_term "ResidualHelmholtzPower" [1] [1] [1] [0]]
            = Except.ok [EOSTerm.JustPower ⟨[1], [1], [1]⟩]
          ∧ EOSTermContainer.alphar (fun x q => x ^ (q : ℝ)) Real.exp rest
              [EOSTerm.JustPower ⟨[1], [1], [1]⟩] 1 1 = 1) := by
  have hzeros : ∀ cont : EOSTerms,
      build_power.add_terms n t d (List.replicate n.length 0) (List.replicate n.length 0) 0
          ((List.replicate n.length (0 : ℚ)).length - 0) false cont
        = Except.ok (cont ++ [EOSTerm.JustPower ⟨n, t, d⟩]) := fun cont =>
    add_terms_zeros n t d _ _ 0 false cont htn hdn (by simp) (by simp)
      (Nat.zero_le _) (fun x hx => (List.mem_replicate.mp hx).2)
  have hgiven : ∀ cont : EOSTerms, l ≠ [] →
      build_power.add_terms n t d (l.map (fun li => if li > 0 then (1 : ℚ) else 0)) l
          (l.countP (fun li => li = 0)) (l.length - l.countP (fun li => li = 0))
          (decide (l.head? = some 0)) cont
        = Except.ok (cont ++ [EOSTerm.JustPower ⟨n, t, d⟩]) := fun cont hl0 =>
    add_terms_zeros n t d _ l _ _ cont htn hdn
      (by rw [List.length_map]; exact hln.resolve_left hl0) (hln.resolve_left hl0)
      (by rw [← hln.resolve_left hl0]; exact List.countP_le_length _) hzero
  have hvalue : ∀ (rest : EOSTerm → ℝ → ℝ → ℝ) (tau delta : ℝ),
      EOSTermContainer.alphar (fun x q => x ^ (q : ℝ)) Real.exp rest
          [EOSTerm.JustPower ⟨n, t, d⟩] tau delta
        = EOSTermContainer.alphar (fun x q => x ^ (q : ℝ)) Real.exp rest
          [EOSTerm.Power ⟨n, t, d, List.replicate n.length 0, List.replicate n.length 0,
            List.replicate n.length 0⟩] tau delta := by
    intro rest tau delta
    simp only [EOSTermContainer.alphar, EOSTerm.alphar, List.map_cons, List.map_nil,
      PowerEOSTerm_alphar_c_zero _ _ Real.exp_zero]
  refine ⟨?_, ?_, fun rest tau delta => ⟨hvalue rest tau delta, ?_⟩, fun rest => ⟨?_, ?_⟩⟩
  · rw [get_EOS_terms_build_power_eq term container n t d l hn ht hd hl htn hdn hln]
    by_cases hl0 : l = []
    · rw [if_pos hl0, hzeros]
    · rw [if_neg hl0, hgiven container hl0]
  · rw [build_departure_function_build_power_eq term container n t d l hn ht hd hl htn hdn hln]
    by_cases hn0 : n = []
    · rw [if_pos hn0, if_pos hn0, List.append_nil]
    · rw [if_neg hn0, if_neg hn0]
      by_cases hl0 : l = []
      · rw [if_pos hl0, hzeros]
      · have hhead : l.head? = some 0 := by
          cases l with
          | nil => exact absurd rfl hl0
          | cons x xs => simp [hzero x (List.mem_cons_self x xs)]
        rw [if_neg hl0, if_neg (by simp [hhead]), hgiven container hl0]
  · by_cases hn0 : n = []
    · rw [if_pos hn0, ← hvalue rest tau delta]
      subst hn0
      simp [EOSTermContainer.alphar, EOSTerm.alphar, JustPowerEOSTerm.alphar]
    · rw [if_neg hn0]
      exact hvalue rest tau delta
  · simp [get_EOS_terms, get_EOS_terms.check_types, get_EOS_terms.isallowed,
      get_EOS_terms.allowed_types, get_EOS_terms.add, Json.get_string,
      get_EOS_terms.build_power, power_term, member, List.lookup, Json.size, eigorzero,
      Json.empty, toeig, build_power.read_l, build_power.add_terms, non_integer_entry,
      cast_int, head, tail, add_term, bind, Except.bind, pure, Except.pure]
  · simp [EOSTermContainer.alphar, EOSTerm.alphar, JustPowerEOSTerm.alphar, List.range_succ]

/-- C7, amended, at the description `n = [1]`, `t = [1]`, `d = [1]`, `l = [0]`. -/
theorem build_power_all_zero_witness :
    get_EOS_terms.build_power (power_term "ResidualHelmholtzPower" [1] [1] [1] [0]) []
        = Except.ok ([] ++ [EOSTerm.JustPower ⟨[1], [1], [1]⟩])
      ∧ build_departure_function.build_power (power_term "Exponential" [1] [1] [1] [0]) []
        = Except.ok ([] ++ if ([1] : List ℚ) = [] then [] else
            [EOSTerm.JustPower ⟨[1], [1], [1]⟩]) :=
  ⟨(build_power_all_zero (power_term "ResidualHelmholtzPower" [1] [1] [1] [0]) [] [1] [1] [1]
      [0] rfl rfl rfl (Or.inl rfl) rfl rfl (Or.inr rfl) (by simp)).1,
    (build_power_all_zero (power_term "Exponential" [1] [1] [1] [0]) [] [1] [1] [1]
      [0] rfl rfl rfl (Or.inl rfl) rfl rfl (Or.inr rfl) (by simp)).2.1⟩

/-- C8, at the description `n = t = d = [1, 1]`, `l = [0, 1/2]`: both builders fail with the
non-integer error. -/
theorem build_power_non_integer_witness :
    get_EOS_terms.build_power (power_term "ResidualHelmholtzPower" [1, 1] [1, 1] [1, 1]
        [0, 1 / 2]) []
        = Except.error (Failure.invalid_argument "Non-integer entry in l found")
      ∧ build_departure_function.build_power (power_term "Exponential" [1, 1] [1, 1] [1, 1]
          [0, 1 / 2]) []
        = Except.error (Failure.invalid_argument "Non-integer entry in l found") := by
  have hhalf : ∃ x ∈ ([0, 1 / 2] : List ℚ),
      ¬ ∃ z : ℤ, -2 ^ 31 ≤ z ∧ z < 2 ^ 31 ∧ (z : ℚ) = x := by
    refine ⟨1 / 2, by simp, ?_⟩
    rintro ⟨z, _, _, hz⟩
    have h2 : ((2 * z : ℤ) : ℚ) = ((1 : ℤ) : ℚ) := by
      push_cast
      linarith
    have h3 : 2 * z = 1 := by exact_mod_cast h2
    omega
  exact ⟨(build_power_non_integer (power_term "ResidualHelmholtzPower" [1, 1] [1, 1] [1, 1]
      [0, 1 / 2]) [] [1, 1] [1, 1] [1, 1] [0, 1 / 2] rfl rfl rfl (Or.inl rfl) rfl rfl
      (Or.inr rfl)).1.mpr hhalf,
    ((build_power_non_integer (power_term "Exponential" [1, 1] [1, 1] [1, 1]
      [0, 1 / 2]) [] [1, 1] [1, 1] [1, 1] [0, 1 / 2] rfl rfl rfl (Or.inl rfl) rfl rfl
      (Or.inr rfl)).2.1 (by simp)).mpr hhalf⟩

/-- C9: `get_EOS_terms` accepts a `ResidualHelmholtzExponential` description with
`l = [1/2]` and a `ResidualHelmholtzDoubleExponential` description with `ld = [1/2]`; the
terms it builds hold the non-integer value next to its truncation `l_i = [0]`, `ld_i = [0]`.
The same `l` in a `ResidualHelmholtzLemmon2005` description is rejected. -/
theorem get_EOS_terms_accepts_non_integer :
    get_EOS_terms [[("type", Json.string "ResidualHelmholtzExponential"),
        ("n", Json.array [1]), ("t", Json.array [1]), ("d", Json.array [1]),
        ("g", Json.array [1]), ("l", Json.array [1 / 2])]]
        = Except.ok [EOSTerm.Exponential ⟨[1], [1], [1], [1], [1 / 2], [0]⟩]
      ∧ get_EOS_terms [[("type", Json.string "ResidualHelmholtzDoubleExponential"),
          ("n", Json.array [1]), ("t", Json.array [1]), ("d", Json.array [1]),
          ("ld", Json.array [1 / 2]), ("gd", Json.array [1]), ("lt", Json.array [1]),
          ("gt", Json.array [1])]]
        = Except.ok [EOSTerm.DoubleExponential ⟨[1], [1], [1], [1 / 2], [1], [1], [1], [0]⟩]
      ∧ get_EOS_terms [[("type", Json.string "ResidualHelmholtzLemmon2005"),
          ("n", Json.array [1]), ("t", Json.array [1]), ("d", Json.array [1]),
          ("m", Json.array [1]), ("l", Json.array [1 / 2])]]
        = Except.error (Failure.invalid_argument "Non-integer entry in l found") := by
  have hhalf : cast_int 2⁻¹ = 0 := by
    have hnum : ((2 : ℚ)⁻¹).num = 1 := by simp
    have hden : ((2 : ℚ)⁻¹).den = 2 := by simp
    rw [cast_int, hnum, hden]
    decide
  refine ⟨?_, ?_, ?_⟩
  · simp [get_EOS_terms, get_EOS_terms.check_types, get_EOS_terms.isallowed,
      get_EOS_terms.allowed_types, get_EOS_terms.add, Json.get_string,
      get_EOS_terms.build_exponential, all_same_length, member_at, lengths_all_same, member,
      List.lookup, Json.size, toeig, hhalf, all_same_length.sizes, add_term, bind, Except.bind, pure,
      Except.pure, Except.map]
  · simp [get_EOS_terms, get_EOS_terms.check_types, get_EOS_terms.isallowed,
      get_EOS_terms.allowed_types, get_EOS_terms.add, Json.get_string,
      build_doubleexponential, all_same_length, member_at, lengths_all_same, member,
      List.lookup, Json.size, toeig, hhalf, all_same_length.sizes, add_term, bind, Except.bind, pure,
      Except.pure, Except.map]
  · simp [get_EOS_terms, get_EOS_terms.check_types, get_EOS_terms.isallowed,
      get_EOS_terms.allowed_types, get_EOS_terms.add, Json.get_string,
      get_EOS_terms.build_Lemmon2005, all_same_length, member_at, lengths_all_same, member,
      List.lookup, Json.size, toeig, hhalf, all_same_length.sizes, non_integer_entry, add_term, bind,
      Except.bind, pure, Except.pure, Except.map, throw, throwThe, MonadExceptOf.throw]

/-- C10: `get_EOS_terms` accepts a `ResidualHelmholtzPower` description with `l = [1, 0, 0]`
and builds one damped term from it; `build_departure_function` rejects the same arrays. -/
theorem get_EOS_terms_accepts_nonzero_before_zero :
    get_EOS_terms [power_term "ResidualHelmholtzPower" [1, 1, 1] [1, 1, 1] [1, 1, 1] [1, 0, 0]]
        = Except.ok [EOSTerm.Power
            ⟨[1, 1, 1], [1, 1, 1], [1, 1, 1], [1, 0, 0], [1, 0, 0], [1, 0, 0]⟩]
      ∧ build_departure_function
          (power_term "Exponential" [1, 1, 1] [1, 1, 1] [1, 1, 1] [1, 0, 0])
        = Except.error (Failure.invalid_argument
            "If l_i has zero and non-zero values, the zero values need to come first") := by
  constructor
  · simp [get_EOS_terms, get_EOS_terms.check_types, get_EOS_terms.isallowed,
      get_EOS_terms.allowed_types, get_EOS_terms.add, Json.get_string,
      get_EOS_terms.build_power, power_term, member, List.lookup, Json.size, eigorzero,
      Json.empty, toeig, build_power.read_l, build_power.add_terms, non_integer_entry,
      cast_int, head, tail, add_term, bind, Except.bind, pure, Except.pure]
  · simp [build_departure_function, member_at, Json.get_string,
      build_departure_function.build_power, lengths_all_same, power_term, member, List.lookup,
      Json.size, eigorzero, Json.empty, toeig, build_power.read_l, bind, Except.bind, pure,
      Except.pure, throw, throwThe, MonadExceptOf.throw]

/-! ### Direct access and single-component models -/

/-- C15: on an `N x N` departure matrix (`Dep a b` stored at `[a][b]`),
`get_alpharij(i, j, tau, delta)` fails with `teqp::InvalidArgument` if and only if `i < 0`,
`j < 0`, `i >= N` or `j >= N`; at every other `(i, j)`, the diagonal included, it returns the
value of the container stored at `[i][j]`. -/
theorem get_alpharij_index_check {S D : Type} (ev : D → S → S → S) (N : Nat)
    (F : Nat → Nat → S) (Dep : Fin N → Fin N → D) (tau delta : S) :
    (∀ i j : ℤ,
        (∃ what, DepartureContribution.get_alpharij ev
            ⟨F, List.ofFn fun a => List.ofFn (Dep a)⟩ i j tau delta
              = Except.error (Failure.InvalidArgument what))
          ↔ (i < 0 ∨ j < 0 ∨ i ≥ N ∨ j ≥ N))
      ∧ ∀ a b : Fin N,
          DepartureContribution.get_alpharij ev ⟨F, List.ofFn fun a => List.ofFn (Dep a)⟩
              ((a : Nat) : ℤ) ((b : Nat) : ℤ) tau delta
            = Except.ok (ev (Dep a b) tau delta) := by
  have hin : ∀ a b : Fin N,
      DepartureContribution.get_alpharij ev ⟨F, List.ofFn fun a => List.ofFn (Dep a)⟩
          ((a : Nat) : ℤ) ((b : Nat) : ℤ) tau delta
        = Except.ok (ev (Dep a b) tau delta) := by
    intro a b
    have ha : ¬ (((a : Nat) : ℤ) < 0 ∨ ((b : Nat) : ℤ) < 0) := by omega
    have hb : ¬ (((a : Nat) : ℤ) ≥ (N : ℤ) ∨ ((b : Nat) : ℤ) ≥ (N : ℤ)) := by
      have := a.isLt
      have := b.isLt
      omega
    simp only [DepartureContribution.get_alpharij, List.length_ofFn, ha, hb, if_false,
      Int.toNat_ofNat, List.getElem?_ofFn, List.ofFnNthVal, a.isLt, b.isLt, dif_pos,
      Option.bind, Fin.eta]
    rfl
  refine ⟨fun i j => ⟨?_, ?_⟩, hin⟩
  · rintro ⟨what, hw⟩
    by_contra hcon
    have h0i : 0 ≤ i := by omega
    have h0j : 0 ≤ j := by omega
    have hiN : i.toNat < N := by omega
    have hjN : j.toNat < N := by omega
    have := hin ⟨i.toNat, hiN⟩ ⟨j.toNat, hjN⟩
    simp only [Int.toNat_of_nonneg h0i, Int.toNat_of_nonneg h0j] at this
    rw [this] at hw
    cases hw
  · intro h
    by_cases hneg : i < 0 ∨ j < 0
    · exact ⟨_, by simp only [DepartureContribution.get_alpharij, hneg, if_true]; rfl⟩
    · have hge : i ≥ (N : ℤ) ∨ j ≥ (N : ℤ) := by omega
      exact ⟨_, by
        simp only [DepartureContribution.get_alpharij, List.length_ofFn, hneg, hge, if_true,
          if_false]
        rfl⟩

/-- C16: in a model with a single component the departure contribution is zero at every
`tau`, `delta` and mole-fraction vector `[x0]`, whatever the departure matrix holds, and
`MultiFluid::alphar(T, rho, [x0])` is `x0 * EOS_0(Tr / T, rho / rhor)`. -/
theorem single_component_alphar {S E D : Type} [CommRing S] [Div S] (evE : E → S → S → S)
    (evD : D → S → S → S) (redfunc : ReducingFunctions S) (e : E)
    (dep : DepartureContribution S D) (T rho x0 : S) :
    (∀ tau delta : S, dep.alphar evD tau delta [x0] = Except.ok 0)
      ∧ MultiFluid.alphar evE evD ⟨redfunc, ⟨[e]⟩, dep⟩ T rho [x0]
        = Except.ok (x0 * evE e (redfunc.get_Tr [x0] / T) (rho / redfunc.get_rhor [x0])) := by
  have hdep : ∀ tau delta : S, dep.alphar evD tau delta [x0] = Except.ok 0 := by
    intro tau delta
    simp [DepartureContribution.alphar, List.range_succ, pure, Except.pure, bind, Except.bind]
  refine ⟨hdep, ?_⟩
  simp [MultiFluid.alphar, CorrespondingStatesContribution.size, hdep,
    CorrespondingStatesContribution.alphar, List.range_succ, bind, Except.bind, pure,
    Except.pure]

/-! ### Selection of the identifiers -/

/-- A loop over a list that keeps no state succeeds exactly when every step succeeds. -/
theorem foldlM_unit_ok {ι : Type} (f : ι → Except Failure Unit) (l : List ι) :
    l.foldlM (fun _ x => f x) () = Except.ok () ↔ ∀ x ∈ l, f x = Except.ok () := by
  induction l with
  | nil => simp [pure, Except.pure]
  | cons x l ih =>
    rw [List.foldlM_cons]
    cases hx : f x with
    | error e =>
      constructor
      · intro h
        simp [bind, Except.bind] at h
      · intro h
        have := h x (List.mem_cons_self x l)
        rw [hx] at this
        cases this
    | ok u =>
      cases u
      show l.foldlM (fun _ x => f x) () = Except.ok () ↔ _
      rw [ih]
      constructor
      · intro h y hy
        rcases List.mem_cons.mp hy with rfl | hy
        · exact hx
        · exact h y hy
      · intro h y hy
        exact h y (List.mem_cons_of_mem x hy)

/-- The loops of `select_identifier` succeed exactly when every pair is found. -/
theorem all_pairs_ok_iff {B : Type} (get_BIPdep : String → String → Except Failure B)
    (identifiers : List String) :
    select_identifier.all_pairs get_BIPdep identifiers = Except.ok ()
      ↔ all_pairs_found get_BIPdep identifiers := by
  unfold select_identifier.all_pairs all_pairs_found
  rw [foldlM_unit_ok]
  constructor
  · intro h i j a b hij ha hb
    have hjlt : j < identifiers.length := by
      by_contra hcon
      rw [List.getElem?_eq_none (by omega)] at hb
      cases hb
    have hi := h i (List.mem_range.mpr (by omega))
    rw [foldlM_unit_ok] at hi
    have hj := hi j (List.mem_range'_1.mpr ⟨by omega, by omega⟩)
    simp only [ha, hb] at hj
    cases hg : get_BIPdep a b with
    | error e => simp [hg, Except.map] at hj
    | ok r => exact ⟨r, rfl⟩
  · intro h i hi
    rw [foldlM_unit_ok]
    intro j hj
    have hi' : i < identifiers.length := List.mem_range.mp hi
    have hj' := List.mem_range'_1.mp hj
    have hjlt : j < identifiers.length := by omega
    obtain ⟨r, hr⟩ := h i j identifiers[i] identifiers[j] (by omega)
      (List.getElem?_eq_getElem hi') (List.getElem?_eq_getElem hjlt)
    simp [List.getElem?_eq_getElem hi', List.getElem?_eq_getElem hjlt, hr, Except.map]

/-- One step of `select_identifier`. -/
theorem select_identifier_cons {B : Type} (get_BIPdep : String → String → Except Failure B)
    (key : String) (identifiers : List String) (rest : List (String × List String)) :
    (all_pairs_found get_BIPdep identifiers →
        select_identifier get_BIPdep ((key, identifiers) :: rest) = Except.ok key)
      ∧ (¬ all_pairs_found get_BIPdep identifiers →
        select_identifier get_BIPdep ((key, identifiers) :: rest)
          = select_identifier get_BIPdep rest) := by
  constructor
  · intro h
    rw [select_identifier, (all_pairs_ok_iff get_BIPdep identifiers).mpr h]
    rfl
  · intro h
    rw [select_identifier]
    cases hp : select_identifier.all_pairs get_BIPdep identifiers with
    | error e => rfl
    | ok u =>
      cases u
      exact absurd ((all_pairs_ok_iff get_BIPdep identifiers).mp hp) h

/-- C13: on the identifiers of the components, `select_identifier` returns the first of the
keys `CAS`, `Name`, `REFPROP` (the order of the keys of the `std::map`) under which the
binary-interaction lookup succeeds for every pair `i < j`; it fails, with its
`invalid_argument`, exactly when no key does; with fewer than two components it returns
`CAS`. -/
theorem select_identifier_first_match {B : Type}
    (get_BIPdep : String → String → Except Failure B) (pureJSON : List FluidInfo) :
    ("CAS" < "Name" ∧ "Name" < "REFPROP")
      ∧ (all_pairs_found get_BIPdep (pureJSON.map fun j => j.CAS) →
          select_identifier get_BIPdep (collect_identifiers pureJSON) = Except.ok "CAS")
      ∧ (¬ all_pairs_found get_BIPdep (pureJSON.map fun j => j.CAS) →
          all_pairs_found get_BIPdep (pureJSON.map fun j => j.NAME) →
          select_identifier get_BIPdep (collect_identifiers pureJSON) = Except.ok "Name")
      ∧ (¬ all_pairs_found get_BIPdep (pureJSON.map fun j => j.CAS) →
          ¬ all_pairs_found get_BIPdep (pureJSON.map fun j => j.NAME) →
          all_pairs_found get_BIPdep (pureJSON.map fun j => j.REFPROP_NAME) →
          select_identifier get_BIPdep (collect_identifiers pureJSON) = Except.ok "REFPROP")
      ∧ ((∃ e, select_identifier get_BIPdep (collect_identifiers pureJSON) = Except.error e)
          ↔ (¬ all_pairs_found get_BIPdep (pureJSON.map fun j => j.CAS)
            ∧ ¬ all_pairs_found get_BIPdep (pureJSON.map fun j => j.NAME)
            ∧ ¬ all_pairs_found get_BIPdep (pureJSON.map fun j => j.REFPROP_NAME)))
      ∧ (¬ all_pairs_found get_BIPdep (pureJSON.map fun j => j.CAS) →
          ¬ all_pairs_found get_BIPdep (pureJSON.map fun j => j.NAME) →
          ¬ all_pairs_found get_BIPdep (pureJSON.map fun j => j.REFPROP_NAME) →
          select_identifier get_BIPdep (collect_identifiers pureJSON)
            = Except.error (Failure.invalid_argument
                "Unable to match any of the identifier options"))
      ∧ (pureJSON.length < 2 →
          select_identifier get_BIPdep (collect_identifiers pureJSON) = Except.ok "CAS") := by
  have hC := select_identifier_cons get_BIPdep "CAS" (pureJSON.map fun j => j.CAS)
    [("Name", pureJSON.map fun j => j.NAME), ("REFPROP", pureJSON.map fun j => j.REFPROP_NAME)]
  have hN := select_identifier_cons get_BIPdep "Name" (pureJSON.map fun j => j.NAME)
    [("REFPROP", pureJSON.map fun j => j.REFPROP_NAME)]
  have hR := select_identifier_cons get_BIPdep "REFPROP"
    (pureJSON.map fun j => j.REFPROP_NAME) []
  have hnil : select_identifier get_BIPdep []
      = Except.error (Failure.invalid_argument
          "Unable to match any of the identifier options") := rfl
  have h1 : all_pairs_found get_BIPdep (pureJSON.map fun j => j.CAS) →
      select_identifier get_BIPdep (collect_identifiers pureJSON) = Except.ok "CAS" := hC.1
  have h2 : ¬ all_pairs_found get_BIPdep (pureJSON.map fun j => j.CAS) →
      all_pairs_found get_BIPdep (pureJSON.map fun j => j.NAME) →
      select_identifier get_BIPdep (collect_identifiers pureJSON) = Except.ok "Name" :=
    fun a b => (hC.2 a).trans (hN.1 b)
  have h3 : ¬ all_pairs_found get_BIPdep (pureJSON.map fun j => j.CAS) →
      ¬ all_pairs_found get_BIPdep (pureJSON.map fun j => j.NAME) →
      all_pairs_found get_BIPdep (pureJSON.map fun j => j.REFPROP_NAME) →
      select_identifier get_BIPdep (collect_identifiers pureJSON) = Except.ok "REFPROP" :=
    fun a b c => ((hC.2 a).trans (hN.2 b)).trans (hR.1 c)
  have h4 : ¬ all_pairs_found get_BIPdep (pureJSON.map fun j => j.CAS) →
      ¬ all_pairs_found get_BIPdep (pureJSON.map fun j => j.NAME) →
      ¬ all_pairs_found get_BIPdep (pureJSON.map fun j => j.REFPROP_NAME) →
      select_identifier get_BIPdep (collect_identifiers pureJSON)
        = Except.error (Failure.invalid_argument
            "Unable to match any of the identifier options") :=
    fun a b c => (((hC.2 a).trans (hN.2 b)).trans (hR.2 c)).trans hnil
  refine ⟨⟨by rw [String.lt_iff_toList_lt]; decide, by rw [String.lt_iff_toList_lt]; decide⟩, h1, h2, h3, ⟨?_, fun ⟨a, b, c⟩ => ⟨_, h4 a b c⟩⟩, h4, ?_⟩
  · rintro ⟨e, he⟩
    by_cases a : all_pairs_found get_BIPdep (pureJSON.map fun j => j.CAS)
    · rw [h1 a] at he
      cases he
    · by_cases b : all_pairs_found get_BIPdep (pureJSON.map fun j => j.NAME)
      · rw [h2 a b] at he
        cases he
      · by_cases c : all_pairs_found get_BIPdep (pureJSON.map fun j => j.REFPROP_NAME)
        · rw [h3 a b c] at he
          cases he
        · exact ⟨a, b, c⟩
  · intro hlen
    apply h1
    intro i j a b hij _ hb
    have hj : j < (pureJSON.map fun j => j.CAS).length := by
      by_contra hcon
      rw [List.getElem?_eq_none (by omega)] at hb
      cases hb
    rw [List.length_map] at hj
    omega

/-- C13, at two components whose pair is found under the names but not under the CAS
numbers: the key `Name` is selected. -/
theorem select_identifier_first_match_witness :
    select_identifier
        (fun a b => if a = "Methane" ∧ b = "Ethane" then Except.ok ()
          else Except.error Failure.json_exception)
        (collect_identifiers [⟨"Methane", "74-82-8", "METHANE", []⟩,
          ⟨"Ethane", "74-84-0", "ETHANE", []⟩])
      = Except.ok "Name" :=
  (select_identifier_first_match
    (fun a b => if a = "Methane" ∧ b = "Ethane" then Except.ok ()
      else Except.error Failure.json_exception)
    [⟨"Methane", "74-82-8", "METHANE", []⟩, ⟨"Ethane", "74-84-0", "ETHANE", []⟩]).2.2.1
    (fun h => by
      have hok := (all_pairs_ok_iff _ _).mpr h
      have herr : select_identifier.all_pairs
          (fun a b => if a = "Methane" ∧ b = "Ethane" then Except.ok ()
            else Except.error Failure.json_exception)
          ["74-82-8", "74-84-0"]
          = Except.error Failure.json_exception := rfl
      exact absurd (herr.symm.trans hok) (by intro h'; cases h'))
    ((all_pairs_ok_iff _ _).mp rfl)

/-! ### The reverse-lookup map -/

/-- The result of a `bind` is a value exactly when both parts give a value. -/
theorem bind_eq_ok {α β : Type} (x : Except Failure α) (f : α → Except Failure β) (b : β) :
    x >>= f = Except.ok b ↔ ∃ a, x = Except.ok a ∧ f a = Except.ok b := by
  cases x with
  | error e => simp [bind, Except.bind]
  | ok a => simp [bind, Except.bind]

/-- A loop whose every step appends to a map the new keys of its item, and fails on a key
that is in the map already, succeeds exactly when all the keys it enters are distinct and
new; the map then has all of them appended in order. -/
theorem insert_loop_ok {X : Type} (step : List (String × String) → X →
      Except Failure (List (String × String)))
    (keys : X → List String) (p : X → String)
    (hstep : ∀ m x m', step m x = Except.ok m'
      ↔ (m' = m ++ (keys x).map (fun v => (v, p x)) ∧ (keys x).Nodup
        ∧ ∀ v ∈ keys x, v ∉ m.map Prod.fst))
    (xs : List X) (m m' : List (String × String)) :
    xs.foldlM step m = Except.ok m'
      ↔ (m' = m ++ xs.flatMap (fun x => (keys x).map (fun v => (v, p x)))
        ∧ (xs.flatMap keys).Nodup ∧ ∀ v ∈ xs.flatMap keys, v ∉ m.map Prod.fst) := by
  induction xs generalizing m with
  | nil => simp [pure, Except.pure, eq_comm]
  | cons x xs ih =>
    rw [List.foldlM_cons, bind_eq_ok]
    simp only [hstep, ih, List.flatMap_cons, List.nodup_append, List.mem_append]
    constructor
    · rintro ⟨m1, ⟨rfl, hnd, hnew⟩, rfl, hnd', hnew'⟩
      refine ⟨by simp, ⟨hnd, hnd', ?_⟩, ?_⟩
      · intro v hv hv'
        apply hnew' v hv'
        simp [hv]
      · intro v hv
        rcases hv with hv | hv
        · exact hnew v hv
        · intro hm
          apply hnew' v hv
          simp only [List.map_append, List.mem_append]
          exact Or.inl hm
    · rintro ⟨rfl, ⟨hnd, hnd', hdis⟩, hnew⟩
      refine ⟨_, ⟨rfl, hnd, fun v hv => hnew v (Or.inl hv)⟩, by simp, hnd', ?_⟩
      intro v hv hm
      simp only [List.map_append, List.mem_append, List.map_map] at hm
      rcases hm with hm | hm
      · exact hnew v (Or.inr hv) hm
      · have : v ∈ keys x := by
          simpa [Function.comp_def] using hm
        exact hdis this hv

/-- One step of an insertion loop: the value is skipped under the condition `c`, and entered
if it is not in the map. -/
theorem insert_step_ok (c : Prop) [Decidable c] (msg v path : String)
    (m m' : List (String × String)) :
    (if c then pure m
      else if (m.lookup v).isSome then throw (Failure.invalid_argument msg)
      else pure (m ++ [(v, path)]) : Except Failure (List (String × String))) = Except.ok m'
      ↔ (m' = m ++ (if c then [] else [v]).map (fun u => (u, path))
        ∧ (if c then [] else [v]).Nodup
        ∧ ∀ u ∈ (if c then [] else [v]), u ∉ m.map Prod.fst) := by
  by_cases hc : c
  · simp [hc, pure, Except.pure, eq_comm]
  · simp only [hc, if_false, List.map_cons, List.map_nil, List.nodup_singleton, true_and,
      List.mem_singleton, forall_eq]
    by_cases hin : (m.lookup v).isSome = true
    · have hmem : v ∈ m.map Prod.fst := by
        obtain ⟨q, hq, hk⟩ := List.lookup_isSome_iff.mp hin
        exact List.mem_map.mpr ⟨q, hq, (beq_iff_eq.mp hk).symm⟩
      simp [hin, hmem, throw, throwThe, MonadExceptOf.throw]
    · have hmem : v ∉ m.map Prod.fst := by
        intro h
        obtain ⟨q, hq, hk⟩ := List.mem_map.mp h
        exact hin (List.lookup_isSome_iff.mpr ⟨q, hq, by simp [hk]⟩)
      simp [hin, hmem, pure, Except.pure, eq_comm]

/-- Both loops of `build_alias_map` over one file enter the identifiers that the file
registers. -/
theorem add_file_ok (path : String) (info : FluidInfo) (m m' : List (String × String)) :
    (build_alias_map.add_identifiers path info m
        >>= build_alias_map.add_aliases path info) = Except.ok m'
      ↔ (m' = m ++ (registered info).map (fun v => (v, path)) ∧ (registered info).Nodup
        ∧ ∀ v ∈ registered info, v ∉ m.map Prod.fst) := by
  have h1 : ∀ m m' : List (String × String),
      build_alias_map.add_identifiers path info m = Except.ok m'
        ↔ (m' = m ++ ([info.NAME, info.CAS]
              ++ (if info.REFPROP_NAME = info.NAME ∨ info.REFPROP_NAME = "N/A" then []
                  else [info.REFPROP_NAME])).map (fun v => (v, path))
          ∧ ([info.NAME, info.CAS]
              ++ (if info.REFPROP_NAME = info.NAME ∨ info.REFPROP_NAME = "N/A" then []
                  else [info.REFPROP_NAME])).Nodup
          ∧ ∀ v ∈ [info.NAME, info.CAS]
              ++ (if info.REFPROP_NAME = info.NAME ∨ info.REFPROP_NAME = "N/A" then []
                  else [info.REFPROP_NAME]), v ∉ m.map Prod.fst) := by
    intro m m'
    unfold build_alias_map.add_identifiers
    rw [insert_loop_ok _
      (fun k => if (k = "REFPROP_NAME" ∧ info.at k = info.NAME)
        ∨ (k = "REFPROP_NAME" ∧ info.at k = "N/A") then [] else [info.at k])
      (fun _ => path)]
    · simp [FluidInfo.at]
    · intro m k m'
      have key : (if k = "REFPROP_NAME" ∧ info.at k = info.NAME then pure m
          else if k = "REFPROP_NAME" ∧ info.at k = "N/A" then pure m
          else if (m.lookup (info.at k)).isSome then
            throw (Failure.invalid_argument ("Duplicated reverse lookup identifier [" ++ k
              ++ "] found in file:" ++ path))
          else pure (m ++ [(info.at k, path)]) : Except Failure (List (String × String)))
          = (if (k = "REFPROP_NAME" ∧ info.at k = info.NAME)
              ∨ (k = "REFPROP_NAME" ∧ info.at k = "N/A") then pure m
            else if (m.lookup (info.at k)).isSome then
              throw (Failure.invalid_argument ("Duplicated reverse lookup identifier [" ++ k
                ++ "] found in file:" ++ path))
            else pure (m ++ [(info.at k, path)])) := by
        by_cases ha : k = "REFPROP_NAME" ∧ info.at k = info.NAME
        · rw [if_pos ha, if_pos (Or.inl ha)]
        · by_cases hb : k = "REFPROP_NAME" ∧ info.at k = "N/A"
          · rw [if_neg ha, if_pos hb, if_pos (Or.inr hb)]
          · have hab : ¬ ((k = "REFPROP_NAME" ∧ info.at k = info.NAME)
                ∨ (k = "REFPROP_NAME" ∧ info.at k = "N/A")) := fun h => h.elim ha hb
            simp only [if_neg ha, if_neg hb, if_neg hab]
      show (if k = "REFPROP_NAME" ∧ info.at k = info.NAME then pure m
          else if k = "REFPROP_NAME" ∧ info.at k = "N/A" then pure m
          else if (m.lookup (info.at k)).isSome then
            throw (Failure.invalid_argument ("Duplicated reverse lookup identifier [" ++ k
              ++ "] found in file:" ++ path))
          else pure (m ++ [(info.at k, path)]) : Except Failure (List (String × String)))
          = Except.ok m' ↔ _
      rw [key]
      exact insert_step_ok _ _ _ _ _ _
  have hfilter : ∀ l : List String,
      l.flatMap (fun a => if a ≠ info.REFPROP_NAME ∧ a ≠ info.NAME then [a] else [])
        = l.filter (fun a => a ≠ info.REFPROP_NAME ∧ a ≠ info.NAME) := by
    intro l
    induction l with
    | nil => rfl
    | cons a l ih =>
      rw [List.flatMap_cons, ih]
      by_cases h : a ≠ info.REFPROP_NAME ∧ a ≠ info.NAME
      · simp [List.filter_cons, h]
      · simp [List.filter_cons, h]
  have hmap : ∀ l : List String,
      l.flatMap (fun a => (if a ≠ info.REFPROP_NAME ∧ a ≠ info.NAME then [a] else []).map
          (fun v => (v, path)))
        = (l.filter (fun a => a ≠ info.REFPROP_NAME ∧ a ≠ info.NAME)).map
          (fun v => (v, path)) := by
    intro l
    rw [← hfilter, List.map_flatMap]
  have h2 : ∀ m m' : List (String × String),
      build_alias_map.add_aliases path info m = Except.ok m'
        ↔ (m' = m ++ (info.ALIASES.filter
              (fun a => a ≠ info.REFPROP_NAME ∧ a ≠ info.NAME)).map (fun v => (v, path))
          ∧ (info.ALIASES.filter (fun a => a ≠ info.REFPROP_NAME ∧ a ≠ info.NAME)).Nodup
          ∧ ∀ v ∈ info.ALIASES.filter (fun a => a ≠ info.REFPROP_NAME ∧ a ≠ info.NAME),
              v ∉ m.map Prod.fst) := by
    intro m m'
    unfold build_alias_map.add_aliases
    rw [insert_loop_ok _
      (fun a => if a ≠ info.REFPROP_NAME ∧ a ≠ info.NAME then [a] else [])
      (fun _ => path), hfilter, hmap]
    intro m a m'
    have key : (if a ≠ info.REFPROP_NAME ∧ a ≠ info.NAME then
          if (m.lookup a).isSome then
            throw (Failure.invalid_argument ("Duplicated alias [" ++ a ++ "] found in file:"
              ++ path))
          else pure (m ++ [(a, path)])
        else pure m : Except Failure (List (String × String)))
        = (if ¬ (a ≠ info.REFPROP_NAME ∧ a ≠ info.NAME) then pure m
          else if (m.lookup a).isSome then
            throw (Failure.invalid_argument ("Duplicated alias [" ++ a ++ "] found in file:"
              ++ path))
          else pure (m ++ [(a, path)])) := by
      by_cases h : a ≠ info.REFPROP_NAME ∧ a ≠ info.NAME
      · rw [if_pos h, if_neg (not_not.mpr h)]
      · rw [if_neg h, if_pos h]
    have keys : (if a ≠ info.REFPROP_NAME ∧ a ≠ info.NAME then [a] else [])
        = (if ¬ (a ≠ info.REFPROP_NAME ∧ a ≠ info.NAME) then [] else [a]) := by
      by_cases h : a ≠ info.REFPROP_NAME ∧ a ≠ info.NAME
      · rw [if_pos h, if_neg (not_not.mpr h)]
      · rw [if_neg h, if_pos h]
    show (if a ≠ info.REFPROP_NAME ∧ a ≠ info.NAME then
          if (m.lookup a).isSome then
            throw (Failure.invalid_argument ("Duplicated alias [" ++ a ++ "] found in file:"
              ++ path))
          else pure (m ++ [(a, path)])
        else pure m : Except Failure (List (String × String))) = Except.ok m' ↔ _
    rw [key, keys]
    exact insert_step_ok _ _ _ _ _ _
  have hfold : (build_alias_map.add_identifiers path info m
        >>= build_alias_map.add_aliases path info)
      = [true, false].foldlM (fun m (b : Bool) =>
          if b then build_alias_map.add_identifiers path info m
          else build_alias_map.add_aliases path info m) m := by
    cases hx : build_alias_map.add_identifiers path info m with
    | error e => simp [List.foldlM, hx, bind, Except.bind]
    | ok m1 =>
      cases hy : build_alias_map.add_aliases path info m1 with
      | error e => simp [List.foldlM, hx, hy, bind, Except.bind]
      | ok m2 => simp [List.foldlM, hx, hy, bind, Except.bind, pure, Except.pure]
  rw [hfold, insert_loop_ok _
    (fun b : Bool => if b then [info.NAME, info.CAS]
        ++ (if info.REFPROP_NAME = info.NAME ∨ info.REFPROP_NAME = "N/A" then []
            else [info.REFPROP_NAME])
      else info.ALIASES.filter (fun a => a ≠ info.REFPROP_NAME ∧ a ≠ info.NAME))
    (fun _ => path)]
  · simp [registered]
  · intro m b m'
    cases b
    · simpa using h2 m m'
    · simpa using h1 m m'

/-- The function `build_alias_map` returns a map exactly when the identifiers that the
files register are all distinct; the map then holds each of them with the path of its
file. -/
theorem build_alias_map_ok_iff (files : List FluidFile) (aliasmap : List (String × String)) :
    build_alias_map files = Except.ok aliasmap
      ↔ (aliasmap = files.flatMap (fun f => (registered f.INFO).map (fun v => (v, f.path)))
        ∧ (files.flatMap fun f => registered f.INFO).Nodup) := by
  unfold build_alias_map
  rw [insert_loop_ok _ (fun f => registered f.INFO) (fun f => f.path)]
  · simp
  · intro m f m'
    exact add_file_ok f.path f.INFO m m'

/-- C14, as stated, fails: two files that both declare the alias `N/A`, the first with the
`REFPROP_NAME` `N/A`, are accepted, and the map that is returned sends `N/A` to the second
file only. -/
theorem build_alias_map_shared_alias_accepted :
    build_alias_map [⟨"/fluids/A.json", ⟨"A", "1-00-0", "N/A", ["N/A"]⟩⟩,
        ⟨"/fluids/B.json", ⟨"B", "2-00-0", "RB", ["N/A"]⟩⟩]
      = Except.ok [("A", "/fluids/A.json"), ("1-00-0", "/fluids/A.json"),
          ("B", "/fluids/B.json"), ("2-00-0", "/fluids/B.json"), ("RB", "/fluids/B.json"),
          ("N/A", "/fluids/B.json")] := by
  rfl

/-- C14, amended: `build_alias_map` succeeds exactly when the identifiers that the files
register are all distinct, where a file registers its `NAME`, its `CAS`, its `REFPROP_NAME`
unless that equals its `NAME` or is `N/A`, and each of its aliases that differs from its own
`NAME` and `REFPROP_NAME`; the map then holds every registered identifier with the path of
the file that registers it.  So it fails whenever two different files register one
identifier, and in a map that is returned each key was registered by one file only. -/
theorem build_alias_map_registered (files : List FluidFile) :
    (∀ aliasmap, build_alias_map files = Except.ok aliasmap
        ↔ (aliasmap = files.flatMap (fun f => (registered f.INFO).map (fun v => (v, f.path)))
          ∧ (files.flatMap fun f => registered f.INFO).Nodup))
      ∧ (∀ (i j : Nat) (f g : FluidFile) (X : String), i < j → files[i]? = some f →
          files[j]? = some g → X ∈ registered f.INFO → X ∈ registered g.INFO →
          ∃ e, build_alias_map files = Except.error e)
      ∧ (∀ (aliasmap : List (String × String)) (i j : Nat) (f g : FluidFile) (X : String),
          build_alias_map files = Except.ok aliasmap → files[i]? = some f →
          files[j]? = some g → X ∈ registered f.INFO → X ∈ registered g.INFO → i = j) := by
  have hdis : ∀ (i j : Nat) (f g : FluidFile) (X : String), i < j → files[i]? = some f →
      files[j]? = some g → X ∈ registered f.INFO → X ∈ registered g.INFO →
      ¬ (files.flatMap fun f => registered f.INFO).Nodup := by
    intro i j f g X hij hf hg hXf hXg hnd
    rw [List.nodup_flatMap] at hnd
    have hj : j < files.length := by
      by_contra hcon
      rw [List.getElem?_eq_none (by omega)] at hg
      cases hg
    have hi : i < files.length := by omega
    have hpair := List.pairwise_iff_getElem.mp hnd.2 i j hi hj hij
    rw [List.getElem?_eq_getElem hi] at hf
    rw [List.getElem?_eq_getElem hj] at hg
    cases hf
    cases hg
    exact hpair hXf hXg
  refine ⟨build_alias_map_ok_iff files, ?_, ?_⟩
  · intro i j f g X hij hf hg hXf hXg
    cases hr : build_alias_map files with
    | error e => exact ⟨e, rfl⟩
    | ok aliasmap =>
      exact absurd ((build_alias_map_ok_iff files aliasmap).mp hr).2
        (hdis i j f g X hij hf hg hXf hXg)
  · intro aliasmap i j f g X hr hf hg hXf hXg
    have hnd := ((build_alias_map_ok_iff files aliasmap).mp hr).2
    rcases Nat.lt_trichotomy i j with h | h | h
    · exact absurd hnd (hdis i j f g X h hf hg hXf hXg)
    · exact h
    · exact absurd hnd (hdis j i g f X h hg hf hXg hXf)

/-- C14, amended, at two files that both declare the alias `X`: the construction fails. -/
theorem build_alias_map_registered_witness :
    ∃ e, build_alias_map [⟨"/fluids/A.json", ⟨"A", "1-00-0", "RA", ["X"]⟩⟩,
        ⟨"/fluids/B.json", ⟨"B", "2-00-0", "RB", ["X"]⟩⟩] = Except.error e :=
  (build_alias_map_registered [⟨"/fluids/A.json", ⟨"A", "1-00-0", "RA", ["X"]⟩⟩,
      ⟨"/fluids/B.json", ⟨"B", "2-00-0", "RB", ["X"]⟩⟩]).2.1 0 1
    ⟨"/fluids/A.json", ⟨"A", "1-00-0", "RA", ["X"]⟩⟩
    ⟨"/fluids/B.json", ⟨"B", "2-00-0", "RB", ["X"]⟩⟩ "X" (by decide) rfl rfl
    (by decide) (by decide)

/-! ### The messages about a bad type -/

theorem no_B_ok {α : Type} (a : α) : no_B (Except.ok a : Except Failure α) := by
  intro e h
  cases h

theorem no_B_error {α : Type} (e : Failure) (h : e.starts_with_B = false) :
    no_B (Except.error e : Except Failure α) := by
  intro e' h'
  cases h'
  exact h

theorem no_B_throw {α : Type} (e : Failure) (h : e.starts_with_B = false) :
    no_B (throw e : Except Failure α) :=
  no_B_error e h

theorem no_B_pure {α : Type} (a : α) : no_B (pure a : Except Failure α) :=
  no_B_ok a

theorem no_B_bind {α β : Type} (x : Except Failure α) (f : α → Except Failure β)
    (hx : no_B x) (hf : ∀ a, no_B (f a)) : no_B (x >>= f) := by
  cases x with
  | error e =>
    intro e' h'
    exact hx e' (by simpa [bind, Except.bind] using h')
  | ok a => exact hf a

theorem no_B_bind_fn {α β : Type} (x : Except Failure α) (f : α → Except Failure β)
    (hx : no_B x) (hf : ∀ a, no_B (f a)) : no_B (x.bind f) :=
  no_B_bind x f hx hf

theorem no_B_map {α β : Type} (x : Except Failure α) (f : α → β) (hx : no_B x) :
    no_B (x.map f) := by
  cases x with
  | error e =>
    intro e' h'
    exact hx e' (by simpa [Except.map] using h')
  | ok a => exact no_B_ok _

theorem no_B_toeig (v : Json) : no_B (toeig v) := by
  cases v <;> first | exact no_B_ok _ | exact no_B_error _ rfl

theorem no_B_member_at (term : Object) (k : String) : no_B (member_at term k) := by
  unfold member_at
  split
  · exact no_B_ok _
  · exact no_B_error _ rfl

theorem no_B_member_const (term : Object) (k : String) : no_B (member_const term k) := by
  unfold member_const
  split
  · exact no_B_ok _
  · exact no_B_error _ rfl

theorem no_B_get_int (v : Json) : no_B v.get_int := by
  cases v <;> first | exact no_B_ok _ | exact no_B_error _ rfl

theorem no_B_get_double (v : Json) : no_B v.get_double := by
  cases v <;> first | exact no_B_ok _ | exact no_B_error _ rfl

theorem no_B_sizes (term : Object) (ks : List String) :
    no_B (all_same_length.sizes term ks) := by
  induction ks with
  | nil => exact no_B_ok _
  | cons k ks ih =>
    unfold all_same_length.sizes
    refine no_B_bind _ _ (no_B_member_at _ _) (fun v => ?_)
    exact no_B_bind _ _ ih (fun _ => no_B_ok _)

theorem no_B_all_same_length (term : Object) (ks : List String) :
    no_B (all_same_length term ks) := by
  unfold all_same_length
  exact no_B_bind _ _ (no_B_sizes _ _) (fun _ => no_B_ok _)

theorem no_B_head {α : Type} (a : List α) (k : Nat) : no_B (head a k) := by
  unfold head
  split
  · exact no_B_ok _
  · exact no_B_error _ rfl

theorem no_B_tail {α : Type} (a : List α) (k : Nat) : no_B (tail a k) := by
  unfold tail
  split
  · exact no_B_ok _
  · exact no_B_error _ rfl

theorem no_B_head_int {α : Type} (a : List α) (k : ℤ) : no_B (head_int a k) := by
  unfold head_int
  split
  · exact no_B_head _ _
  · exact no_B_error _ rfl

theorem no_B_tail_int {α : Type} (a : List α) (k : ℤ) : no_B (tail_int a k) := by
  unfold tail_int
  split
  · exact no_B_tail _ _
  · exact no_B_error _ rfl

theorem no_B_eigorzero (term : Object) (N : Nat) (name : String) :
    no_B (eigorzero term N name) := by
  unfold eigorzero
  split
  · exact no_B_toeig _
  · exact no_B_ok _

theorem no_B_read_l (N : Nat) (l : List ℚ) : no_B (build_power.read_l N l) := by
  unfold build_power.read_l
  split
  · exact no_B_error _ rfl
  · split
    · exact no_B_error _ rfl
    · exact no_B_ok _

theorem no_B_add_terms (n t d c l : List ℚ) (Nlzero Nlnonzero : Nat)
    (contiguous_lzero : Bool) (container : EOSTerms) :
    no_B (build_power.add_terms n t d c l Nlzero Nlnonzero contiguous_lzero container) := by
  unfold build_power.add_terms
  dsimp only
  split_ifs
  · apply no_B_throw
    decide
  · apply no_B_throw
    decide
  · exact no_B_pure _
  · refine no_B_bind _ _ (no_B_head _ _) (fun _ => ?_)
    refine no_B_bind _ _ (no_B_head _ _) (fun _ => ?_)
    refine no_B_bind _ _ (no_B_head _ _) (fun _ => ?_)
    refine no_B_bind _ _ (no_B_tail _ _) (fun _ => ?_)
    refine no_B_bind _ _ (no_B_tail _ _) (fun _ => ?_)
    refine no_B_bind _ _ (no_B_tail _ _) (fun _ => ?_)
    refine no_B_bind _ _ (no_B_tail _ _) (fun _ => ?_)
    refine no_B_bind _ _ (no_B_tail _ _) (fun _ => ?_)
    refine no_B_bind _ _ (no_B_tail _ _) (fun _ => ?_)
    exact no_B_pure _
  · exact no_B_pure _

theorem no_B_EOS_build_power (term : Object) (container : EOSTerms) :
    no_B (get_EOS_terms.build_power term container) := by
  unfold get_EOS_terms.build_power
  refine no_B_bind _ _ (no_B_eigorzero _ _ _) (fun _ => ?_)
  refine no_B_bind _ _ (no_B_eigorzero _ _ _) (fun _ => ?_)
  refine no_B_bind _ _ (no_B_eigorzero _ _ _) (fun _ => ?_)
  split
  · exact no_B_add_terms _ _ _ _ _ _ _ _ _
  · refine no_B_bind _ _ (no_B_toeig _) (fun _ => ?_)
    refine no_B_bind _ _ (no_B_read_l _ _) (fun _ => ?_)
    exact no_B_add_terms _ _ _ _ _ _ _ _ _

theorem no_B_build_gaussian (term : Object) : no_B (get_EOS_terms.build_gaussian term) := by
  unfold get_EOS_terms.build_gaussian
  repeat refine no_B_bind _ _ (no_B_toeig _) (fun _ => ?_)
  refine no_B_bind _ _ (no_B_all_same_length _ _) (fun _ => ?_)
  split
  · apply no_B_throw
    decide
  · exact no_B_pure _

theorem no_B_build_na (term : Object) : no_B (get_EOS_terms.build_na term) := by
  unfold get_EOS_terms.build_na
  repeat refine no_B_bind _ _ (no_B_toeig _) (fun _ => ?_)
  refine no_B_bind _ _ (no_B_all_same_length _ _) (fun _ => ?_)
  split
  · apply no_B_throw
    decide
  · exact no_B_pure _

theorem no_B_build_GaoB (term : Object) : no_B (get_EOS_terms.build_GaoB term) := by
  unfold get_EOS_terms.build_GaoB
  repeat refine no_B_bind _ _ (no_B_toeig _) (fun _ => ?_)
  refine no_B_bind _ _ (no_B_all_same_length _ _) (fun _ => ?_)
  split
  · apply no_B_throw
    decide
  · exact no_B_pure _

theorem no_B_build_exponential (term : Object) :
    no_B (get_EOS_terms.build_exponential term) := by
  unfold get_EOS_terms.build_exponential
  repeat refine no_B_bind _ _ (no_B_toeig _) (fun _ => ?_)
  refine no_B_bind _ _ (no_B_all_same_length _ _) (fun _ => ?_)
  split
  · apply no_B_throw
    decide
  · exact no_B_pure _

theorem no_B_build_Lemmon2005 (term : Object) :
    no_B (get_EOS_terms.build_Lemmon2005 term) := by
  unfold get_EOS_terms.build_Lemmon2005
  repeat refine no_B_bind _ _ (no_B_toeig _) (fun _ => ?_)
  refine no_B_bind _ _ (no_B_all_same_length _ _) (fun _ => ?_)
  split
  · apply no_B_throw
    decide
  · split
    · apply no_B_throw
      decide
    · exact no_B_pure _

theorem no_B_at_toeig (term : Object) (k : String) :
    no_B ((member_at term k).bind toeig) :=
  no_B_bind_fn _ _ (no_B_member_at _ _) (fun _ => no_B_toeig _)

theorem no_B_build_doubleexponential (term : Object) :
    no_B (build_doubleexponential term) := by
  unfold build_doubleexponential
  refine no_B_bind _ _ (no_B_all_same_length _ _) (fun _ => ?_)
  split
  · apply no_B_throw
    decide
  · repeat refine no_B_bind _ _ (no_B_at_toeig _ _) (fun _ => ?_)
    exact no_B_pure _

theorem no_B_departure_build_power (term : Object) (dep : EOSTerms) :
    no_B (build_departure_function.build_power term dep) := by
  unfold build_departure_function.build_power
  dsimp only
  by_cases hN : (member term "n").size = 0
  · rw [if_pos hN]
    exact no_B_pure _
  · rw [if_neg hN]
    refine no_B_bind _ _ (no_B_eigorzero _ _ _) (fun _ => ?_)
    refine no_B_bind _ _ (no_B_eigorzero _ _ _) (fun _ => ?_)
    refine no_B_bind _ _ (no_B_eigorzero _ _ _) (fun _ => ?_)
    refine no_B_bind _ _ ?_ (fun r => ?_)
    · by_cases hl : (member term "l").empty = true
      · rw [if_pos hl]
        split
        · apply no_B_throw
          decide
        · exact no_B_pure _
      · rw [if_neg hl]
        split
        · apply no_B_throw
          decide
        · refine no_B_bind _ _ (no_B_toeig _) (fun _ => ?_)
          refine no_B_bind _ _ (no_B_read_l _ _) (fun _ => ?_)
          exact no_B_pure _
    · obtain ⟨c, l, contiguous_lzero, Nlzero⟩ := r
      dsimp only
      split
      · split
        · apply no_B_throw
          decide
        · exact no_B_add_terms _ _ _ _ _ _ _ _ _
      · apply no_B_throw
        rfl

theorem no_B_const_head (term : Object) (k : String) (p : ℤ) :
    no_B (((member_const term k).bind toeig).bind fun a => head_int a p) :=
  no_B_bind_fn _ _ (no_B_bind_fn _ _ (no_B_member_const _ _) (fun _ => no_B_toeig _))
    (fun _ => no_B_head_int _ _)

theorem no_B_const_tail (term : Object) (k : String) (p : ℤ) :
    no_B (((member_const term k).bind toeig).bind fun a => tail_int a p) :=
  no_B_bind_fn _ _ (no_B_bind_fn _ _ (no_B_member_const _ _) (fun _ => no_B_toeig _))
    (fun _ => no_B_tail_int _ _)

theorem no_B_power_part (term : Object) (Npower : ℤ) :
    no_B (build_departure_function.power_part term Npower) := by
  unfold build_departure_function.power_part
  refine no_B_bind _ _ (no_B_const_head _ _ _) (fun _ => ?_)
  refine no_B_bind _ _ (no_B_const_head _ _ _) (fun _ => ?_)
  refine no_B_bind _ _ (no_B_const_head _ _ _) (fun _ => ?_)
  refine no_B_bind _ _ ?_ (fun _ => no_B_pure _)
  split
  · exact no_B_const_head _ _ _
  · exact no_B_pure _

theorem no_B_gaussian_part (term : Object) (k : ℤ) :
    no_B (build_departure_function.gaussian_part term k) := by
  unfold build_departure_function.gaussian_part
  repeat refine no_B_bind _ _ (no_B_const_tail _ _ _) (fun _ => ?_)
  exact no_B_pure _

theorem no_B_build_GERG2004 (term : Object) (dep : EOSTerms) :
    no_B (build_departure_function.build_GERG2004 term dep) := by
  unfold build_departure_function.build_GERG2004
  refine no_B_bind _ _ (no_B_all_same_length _ _) (fun _ => ?_)
  split
  · apply no_B_throw
    decide
  · refine no_B_bind _ _ (no_B_bind_fn _ _ (no_B_member_const _ _) no_B_get_int) (fun _ => ?_)
    refine no_B_bind _ _ (no_B_member_const _ _) (fun _ => ?_)
    refine no_B_bind _ _ (no_B_power_part _ _) (fun _ => ?_)
    refine no_B_bind _ _ (no_B_gaussian_part _ _) (fun _ => ?_)
    exact no_B_pure _

theorem no_B_build_GaussianExponential (term : Object) (dep : EOSTerms) :
    no_B (build_departure_function.build_GaussianExponential term dep) := by
  unfold build_departure_function.build_GaussianExponential
  refine no_B_bind _ _ (no_B_all_same_length _ _) (fun _ => ?_)
  split
  · apply no_B_throw
    decide
  · refine no_B_bind _ _ (no_B_bind_fn _ _ (no_B_member_const _ _) no_B_get_int) (fun _ => ?_)
    refine no_B_bind _ _ (no_B_member_const _ _) (fun _ => ?_)
    refine no_B_bind _ _ (no_B_power_part _ _) (fun _ => ?_)
    refine no_B_bind _ _ (no_B_gaussian_part _ _) (fun _ => ?_)
    exact no_B_pure _

theorem no_B_at_double (term : Object) (k : String) :
    no_B ((member_at term k).bind Json.get_double) :=
  no_B_bind_fn _ _ (no_B_member_at _ _) no_B_get_double

theorem no_B_build_Chebyshev2D (term : Object) (dep : EOSTerms) :
    no_B (build_departure_function.build_Chebyshev2D term dep) := by
  unfold build_departure_function.build_Chebyshev2D
  refine no_B_bind _ _ (no_B_bind_fn _ _ (no_B_member_at _ _) no_B_get_int) (fun _ => ?_)
  refine no_B_bind _ _ (no_B_bind_fn _ _ (no_B_member_at _ _) no_B_get_int) (fun _ => ?_)
  refine no_B_bind _ _ (no_B_at_toeig _ _) (fun c => ?_)
  split
  · apply no_B_throw
    simp [Failure.starts_with_B, String.data_append]
  · repeat refine no_B_bind _ _ (no_B_at_double _ _) (fun _ => ?_)
    exact no_B_pure _

/-- The two messages about a bad type start with the letter `B`. -/
theorem bad_type_starts_with_B (head rest : String) (h : head.data.head? = some 'B') :
    (Failure.invalid_argument (head ++ rest)).starts_with_B = true := by
  cases hd : head.data with
  | nil => simp [hd] at h
  | cons c cs =>
    simp only [hd, List.head?_cons, Option.some.injEq] at h
    simp [Failure.starts_with_B, String.data_append, hd, h]

/-- For a type of its dispatch, `build_departure_function` does not give a message that
starts with the letter `B`; for any other type it gives the message about a bad type. -/
theorem build_departure_function_dispatch (j : Object) (type : String)
    (htype : member_at j "type" = Except.ok (Json.string type)) :
    (type ∈ ["Exponential", "GERG-2004", "GERG-2008", "Gaussian+Exponential", "none",
        "DoubleExponential", "Chebyshev2D"] → no_B (build_departure_function j))
      ∧ (type ∉ ["Exponential", "GERG-2004", "GERG-2008", "Gaussian+Exponential", "none",
          "DoubleExponential", "Chebyshev2D"] →
        build_departure_function j = Except.error (Failure.invalid_argument
          ("Bad departure term type: " ++ type ++ ". Options are \x7b"
            ++ String.intercalate "," ["Exponential", "GERG-2004", "GERG-2008",
              "Gaussian+Exponential", "none", "DoubleExponential", "Chebyshev2D"]
            ++ "\x7d"))) := by
  have hunfold : build_departure_function j
      = (if type = "Exponential" then build_departure_function.build_power j []
        else if type = "DoubleExponential" then
          (build_doubleexponential j).map fun e => add_term [] (EOSTerm.DoubleExponential e)
        else if type = "GERG-2004" ∨ type = "GERG-2008" then
          build_departure_function.build_GERG2004 j []
        else if type = "Gaussian+Exponential" then
          build_departure_function.build_GaussianExponential j []
        else if type = "Chebyshev2D" then build_departure_function.build_Chebyshev2D j []
        else if type = "none" then pure (add_term [] EOSTerm.Null)
        else throw (Failure.invalid_argument ("Bad departure term type: " ++ type
          ++ ". Options are \x7b" ++ String.intercalate "," build_departure_function.options
          ++ "\x7d"))) := by
    unfold build_departure_function
    rw [htype]
    rfl
  rw [hunfold]
  constructor
  · intro hmem
    split_ifs
    · exact no_B_departure_build_power _ _
    · exact no_B_map _ _ (no_B_build_doubleexponential _)
    · exact no_B_build_GERG2004 _ _
    · exact no_B_build_GaussianExponential _ _
    · exact no_B_build_Chebyshev2D _ _
    · exact no_B_pure _
    · simp only [List.mem_cons, List.mem_singleton, List.not_mem_nil, or_false] at hmem
      tauto
  · intro hmem
    simp only [List.mem_cons, List.mem_singleton, List.not_mem_nil, or_false, not_or] at hmem
    obtain ⟨h1, h2, h3, h4, h5, h6, h7⟩ := hmem
    simp only [h1, h2, h3, h4, h5, h6, h7, if_false, or_self]
    rfl

/-- For an allowed type, the body of the second loop of `get_EOS_terms` does not give a
message that starts with the letter `B`: the fallback branch is not reached. -/
theorem no_B_get_EOS_terms_add (container : EOSTerms) (term : Object) (type : String)
    (htype : member term "type" = Json.string type)
    (hallowed : type ∈ get_EOS_terms.allowed_types) :
    no_B (get_EOS_terms.add container term) := by
  have hunfold : get_EOS_terms.add container term
      = (if type = "ResidualHelmholtzPower" then get_EOS_terms.build_power term container
        else if type = "ResidualHelmholtzGaussian" then
          (get_EOS_terms.build_gaussian term).map fun e =>
            add_term container (EOSTerm.Gaussian e)
        else if type = "ResidualHelmholtzNonAnalytic" then
          (get_EOS_terms.build_na term).map fun e =>
            add_term container (EOSTerm.NonAnalytic e)
        else if type = "ResidualHelmholtzLemmon2005" then
          (get_EOS_terms.build_Lemmon2005 term).map fun e =>
            add_term container (EOSTerm.Lemmon2005 e)
        else if type = "ResidualHelmholtzGaoB" then
          (get_EOS_terms.build_GaoB term).map fun e => add_term container (EOSTerm.GaoB e)
        else if type = "ResidualHelmholtzExponential" then
          (get_EOS_terms.build_exponential term).map fun e =>
            add_term container (EOSTerm.Exponential e)
        else if type = "ResidualHelmholtzDoubleExponential" then
          (build_doubleexponential term).map fun e =>
            add_term container (EOSTerm.DoubleExponential e)
        else throw (Failure.invalid_argument ("Bad term type: " ++ type))) := by
    unfold get_EOS_terms.add
    rw [htype]
    rfl
  rw [hunfold]
  split_ifs
  · exact no_B_EOS_build_power _ _
  · exact no_B_map _ _ (no_B_build_gaussian _)
  · exact no_B_map _ _ (no_B_build_na _)
  · exact no_B_map _ _ (no_B_build_Lemmon2005 _)
  · exact no_B_map _ _ (no_B_build_GaoB _)
  · exact no_B_map _ _ (no_B_build_exponential _)
  · exact no_B_map _ _ (no_B_build_doubleexponential _)
  · simp only [get_EOS_terms.allowed_types, List.mem_cons, List.mem_singleton,
      List.not_mem_nil, or_false] at hallowed
    tauto

theorem no_B_get_EOS_terms_loop (alphar : List Object) (container : EOSTerms)
    (h : ∀ term ∈ alphar, ∃ type, member term "type" = Json.string type
      ∧ type ∈ get_EOS_terms.allowed_types) :
    no_B (alphar.foldlM get_EOS_terms.add container) := by
  induction alphar generalizing container with
  | nil => exact no_B_pure _
  | cons term rest ih =>
    rw [List.foldlM_cons]
    obtain ⟨type, htype, hallowed⟩ := h term (List.mem_cons_self term rest)
    refine no_B_bind _ _ (no_B_get_EOS_terms_add _ _ type htype hallowed) (fun c => ?_)
    exact ih c (fun t ht => h t (List.mem_cons_of_mem term ht))

/-- The first loop of `get_EOS_terms` succeeds when every type is allowed, and fails with
the message about the first type that is not. -/
theorem check_types_eq (alphar : List Object)
    (hstr : ∀ term ∈ alphar, ∃ type, member term "type" = Json.string type) :
    ((∀ term ∈ alphar, ∀ type, member term "type" = Json.string type →
          type ∈ get_EOS_terms.allowed_types) →
        get_EOS_terms.check_types alphar = Except.ok ())
      ∧ ((∃ term ∈ alphar, ∃ type, member term "type" = Json.string type
          ∧ type ∉ get_EOS_terms.allowed_types) →
        ∃ term ∈ alphar, ∃ type, member term "type" = Json.string type
          ∧ type ∉ get_EOS_terms.allowed_types
          ∧ get_EOS_terms.check_types alphar = Except.error (Failure.invalid_argument
            ("Bad type:" ++ type ++ "; allowed types are: \x7b"
              ++ String.intercalate "," get_EOS_terms.allowed_types ++ "\x7d"))) := by
  have hallowed : ∀ type : String,
      get_EOS_terms.isallowed get_EOS_terms.allowed_types type = true
        ↔ type ∈ get_EOS_terms.allowed_types := by
    intro type
    unfold get_EOS_terms.isallowed
    rw [List.any_eq_true]
    constructor
    · rintro ⟨x, hx, hxe⟩
      rw [beq_iff_eq] at hxe
      exact hxe ▸ hx
    · intro h
      exact ⟨type, h, beq_self_eq_true type⟩
  have hcons : ∀ (term : Object) (rest : List Object) (type : String),
      member term "type" = Json.string type →
      get_EOS_terms.check_types (term :: rest)
        = if type ∈ get_EOS_terms.allowed_types then get_EOS_terms.check_types rest
          else Except.error (Failure.invalid_argument
            ("Bad type:" ++ type ++ "; allowed types are: \x7b"
              ++ String.intercalate "," get_EOS_terms.allowed_types ++ "\x7d")) := by
    intro term rest type htype
    by_cases h : type ∈ get_EOS_terms.allowed_types
    · have h' := (hallowed type).mpr h
      simp [get_EOS_terms.check_types, List.forM, htype, Json.get_string, h', h, bind,
        Except.bind, pure, Except.pure]
    · have h' : get_EOS_terms.isallowed get_EOS_terms.allowed_types type = false := by
        rw [Bool.eq_false_iff]
        exact fun hh => h ((hallowed type).mp hh)
      simp [get_EOS_terms.check_types, List.forM, htype, Json.get_string, h', h, bind,
        Except.bind, pure, Except.pure, throw, throwThe, MonadExceptOf.throw]
  induction alphar with
  | nil =>
    refine ⟨fun _ => rfl, ?_⟩
    rintro ⟨term, hterm, _⟩
    cases hterm
  | cons term rest ih =>
    obtain ⟨type, htype⟩ := hstr term (List.mem_cons_self term rest)
    have ih' := ih (fun t ht => hstr t (List.mem_cons_of_mem term ht))
    rw [hcons term rest type htype]
    constructor
    · intro h
      rw [if_pos (h term (List.mem_cons_self term rest) type htype)]
      exact ih'.1 (fun t ht => h t (List.mem_cons_of_mem term ht))
    · rintro ⟨bad, hbad, btype, hbtype, hnot⟩
      by_cases hthis : type ∈ get_EOS_terms.allowed_types
      · rw [if_pos hthis]
        have hrest : bad ∈ rest := by
          rcases List.mem_cons.mp hbad with rfl | h
          · rw [htype] at hbtype
            cases hbtype
            exact absurd hthis hnot
          · exact h
        obtain ⟨b, hb, ty, hty, hn, hr⟩ := ih'.2 ⟨bad, hrest, btype, hbtype, hnot⟩
        exact ⟨b, List.mem_cons_of_mem term hb, ty, hty, hn, hr⟩
      · rw [if_neg hthis]
        exact ⟨term, List.mem_cons_self term rest, type, htype, hthis, rfl⟩

/-- C11: for a description with a string `type`, `build_departure_function` gives its
bad-type error, whose message lists `Exponential`, `GERG-2004`, `GERG-2008`,
`Gaussian+Exponential`, `none`, `DoubleExponential`, `Chebyshev2D`, if and only if the type is
none of the seven types of its dispatch.  `get_EOS_terms`, on terms with string types, gives
its bad-type error, whose message lists the seven allowed types, if and only if some term
has a type that is not among them, whatever the other terms are; and when every type is
allowed it never gives the message `Bad term type` of the fallback branch. -/
theorem bad_type_error_iff :
    (∀ (j : Object) (type : String), member_at j "type" = Except.ok (Json.string type) →
        (build_departure_function j = Except.error (Failure.invalid_argument
            ("Bad departure term type: " ++ type ++ ". Options are \x7b"
              ++ String.intercalate "," ["Exponential", "GERG-2004", "GERG-2008",
                "Gaussian+Exponential", "none", "DoubleExponential", "Chebyshev2D"]
              ++ "\x7d"))
          ↔ type ∉ ["Exponential", "DoubleExponential", "GERG-2004", "GERG-2008",
              "Gaussian+Exponential", "Chebyshev2D", "none"]))
      ∧ (∀ alphar : List Object,
          (∀ term ∈ alphar, ∃ type, member term "type" = Json.string type) →
          ((∃ type, get_EOS_terms alphar = Except.error (Failure.invalid_argument
              ("Bad type:" ++ type ++ "; allowed types are: \x7b"
                ++ String.intercalate "," ["ResidualHelmholtzPower",
                  "ResidualHelmholtzGaussian", "ResidualHelmholtzNonAnalytic",
                  "ResidualHelmholtzGaoB", "ResidualHelmholtzLemmon2005",
                  "ResidualHelmholtzExponential", "ResidualHelmholtzDoubleExponential"]
                ++ "\x7d")))
            ↔ ∃ term ∈ alphar, ∃ type, member term "type" = Json.string type
                ∧ type ∉ ["ResidualHelmholtzPower", "ResidualHelmholtzGaussian",
                  "ResidualHelmholtzNonAnalytic", "ResidualHelmholtzLemmon2005",
                  "ResidualHelmholtzGaoB", "ResidualHelmholtzExponential",
                  "ResidualHelmholtzDoubleExponential"])
          ∧ ((∀ term ∈ alphar, ∀ type, member term "type" = Json.string type →
                type ∈ ["ResidualHelmholtzPower", "ResidualHelmholtzGaussian",
                  "ResidualHelmholtzNonAnalytic", "ResidualHelmholtzLemmon2005",
                  "ResidualHelmholtzGaoB", "ResidualHelmholtzExponential",
                  "ResidualHelmholtzDoubleExponential"]) →
              ∀ type, get_EOS_terms alphar
                ≠ Except.error (Failure.invalid_argument ("Bad term type: " ++ type)))) := by
  have hset : ∀ type : String,
      type ∈ ["ResidualHelmholtzPower", "ResidualHelmholtzGaussian",
          "ResidualHelmholtzNonAnalytic", "ResidualHelmholtzLemmon2005",
          "ResidualHelmholtzGaoB", "ResidualHelmholtzExponential",
          "ResidualHelmholtzDoubleExponential"]
        ↔ type ∈ get_EOS_terms.allowed_types := by
    intro type
    simp only [get_EOS_terms.allowed_types, List.mem_cons, List.mem_singleton,
      List.not_mem_nil, or_false]
    tauto
  have hdep : ∀ type : String,
      type ∈ ["Exponential", "DoubleExponential", "GERG-2004", "GERG-2008",
          "Gaussian+Exponential", "Chebyshev2D", "none"]
        ↔ type ∈ ["Exponential", "GERG-2004", "GERG-2008", "Gaussian+Exponential", "none",
          "DoubleExponential", "Chebyshev2D"] := by
    intro type
    simp only [List.mem_cons, List.mem_singleton, List.not_mem_nil, or_false]
    tauto
  have hnoB : ∀ alphar : List Object,
      (∀ term ∈ alphar, ∃ type, member term "type" = Json.string type) →
      (∀ term ∈ alphar, ∀ type, member term "type" = Json.string type →
        type ∈ get_EOS_terms.allowed_types) → no_B (get_EOS_terms alphar) := by
    intro alphar hstr hall
    unfold get_EOS_terms
    rw [(check_types_eq alphar hstr).1 hall]
    refine no_B_bind _ _ (no_B_ok _) (fun _ => no_B_get_EOS_terms_loop _ _ ?_)
    intro term hterm
    obtain ⟨type, htype⟩ := hstr term hterm
    exact ⟨type, htype, hall term hterm type htype⟩
  refine ⟨fun j type htype => ⟨?_, ?_⟩, fun alphar hstr => ⟨⟨?_, ?_⟩, ?_⟩⟩
  · intro herr hmem
    have hB := (build_departure_function_dispatch j type htype).1 ((hdep type).mp hmem) _ herr
    simp [Failure.starts_with_B, String.data_append] at hB
  · intro hmem
    exact (build_departure_function_dispatch j type htype).2
      (fun h => hmem ((hdep type).mpr h))
  · rintro ⟨type, herr⟩
    by_contra hcon
    have hall : ∀ term ∈ alphar, ∀ type, member term "type" = Json.string type →
        type ∈ get_EOS_terms.allowed_types := by
      intro term hterm ty hty
      by_contra hnot
      exact hcon ⟨term, hterm, ty, hty, fun h => hnot ((hset ty).mp h)⟩
    have hB := hnoB alphar hstr hall _ herr
    simp [Failure.starts_with_B, String.data_append] at hB
  · rintro ⟨term, hterm, type, htype, hnot⟩
    obtain ⟨b, _, ty, _, _, hr⟩ := (check_types_eq alphar hstr).2
      ⟨term, hterm, type, htype, fun h => hnot ((hset type).mpr h)⟩
    refine ⟨ty, ?_⟩
    unfold get_EOS_terms
    rw [hr]
    rfl
  · intro hall type herr
    have hB := hnoB alphar hstr
      (fun term hterm ty hty => (hset ty).mp (hall term hterm ty hty)) _ herr
    simp [Failure.starts_with_B, String.data_append] at hB

/-- C11, at a departure description of type `Foo`: the bad-type error with the list of the
seven types. -/
theorem bad_type_error_iff_witness :
    build_departure_function [("type", Json.string "Foo")]
      = Except.error (Failure.invalid_argument
          ("Bad departure term type: " ++ "Foo" ++ ". Options are \x7b"
            ++ String.intercalate "," ["Exponential", "GERG-2004", "GERG-2008",
              "Gaussian+Exponential", "none", "DoubleExponential", "Chebyshev2D"]
            ++ "\x7d")) :=
  (bad_type_error_iff.1 [("type", Json.string "Foo")] "Foo" rfl).mpr (by decide)

/-! ### Lengths of the arrays of the terms -/

theorem head_length {α : Type} (a b : List α) (k : Nat) (h : head a k = Except.ok b) :
    b.length = k ∧ b = a.take k ∧ k ≤ a.length := by
  unfold head at h
  split_ifs at h with hk
  · simp only [pure, Except.pure, Except.ok.injEq] at h
    subst h
    exact ⟨by simp [hk], rfl, hk⟩

theorem tail_length {α : Type} (a b : List α) (k : Nat) (h : tail a k = Except.ok b) :
    b.length = k ∧ b = a.drop (a.length - k) ∧ k ≤ a.length := by
  unfold tail at h
  split_ifs at h with hk
  · simp only [pure, Except.pure, Except.ok.injEq] at h
    subst h
    refine ⟨?_, rfl, hk⟩
    rw [List.length_drop]
    omega

theorem head_int_length {α : Type} (a b : List α) (k : ℤ) (h : head_int a k = Except.ok b) :
    b.length = k.toNat := by
  unfold head_int at h
  split_ifs at h with hk
  · exact (head_length a b _ h).1

theorem tail_int_length {α : Type} (a b : List α) (k : ℤ) (h : tail_int a k = Except.ok b) :
    b.length = k.toNat := by
  unfold tail_int at h
  split_ifs at h with hk
  · exact (tail_length a b _ h).1

theorem const_head_length (term : Object) (k : String) (p : ℤ) (b : List ℚ)
    (h : ((member_const term k).bind toeig).bind (fun a => head_int a p) = Except.ok b) :
    b.length = p.toNat := by
  obtain ⟨a, _, ha⟩ := (bind_eq_ok _ _ _).mp h
  exact head_int_length a b p ha

theorem const_tail_length (term : Object) (k : String) (p : ℤ) (b : List ℚ)
    (h : ((member_const term k).bind toeig).bind (fun a => tail_int a p) = Except.ok b) :
    b.length = p.toNat := by
  obtain ⟨a, _, ha⟩ := (bind_eq_ok _ _ _).mp h
  exact tail_int_length a b p ha

theorem power_part_length (term : Object) (Npower : ℤ) (eos : PowerEOSTerm)
    (h : build_departure_function.power_part term Npower = Except.ok eos) :
    (EOSTerm.Power eos).has_length Npower.toNat = true := by
  unfold build_departure_function.power_part at h
  obtain ⟨n, hn, h⟩ := (bind_eq_ok _ _ _).mp h
  obtain ⟨t, ht, h⟩ := (bind_eq_ok _ _ _).mp h
  obtain ⟨d, hd, h⟩ := (bind_eq_ok _ _ _).mp h
  obtain ⟨l, hl, h⟩ := (bind_eq_ok _ _ _).mp h
  have hn' := const_head_length term "n" Npower n hn
  have ht' := const_head_length term "t" Npower t ht
  have hd' := const_head_length term "d" Npower d hd
  have hl' : l.length = Npower.toNat := by
    split_ifs at hl
    · exact const_head_length term "l" Npower l hl
    · simp only [pure, Except.pure, Except.ok.injEq] at hl
      subst hl
      simpa using hn'
  simp only [pure, Except.pure, Except.ok.injEq] at h
  subst h
  simp [EOSTerm.has_length, EOSTerm.lengths, hn', ht', hd', hl']

theorem gaussian_part_length (term : Object) (k : ℤ) (e : GaussianEOSTerm)
    (h : build_departure_function.gaussian_part term k = Except.ok e) :
    (EOSTerm.Gaussian e).has_length k.toNat = true
      ∧ (EOSTerm.GERG2004 ⟨e.n, e.t, e.d, e.eta, e.beta, e.gamma, e.epsilon⟩).has_length
          k.toNat = true := by
  unfold build_departure_function.gaussian_part at h
  obtain ⟨n, hn, h⟩ := (bind_eq_ok _ _ _).mp h
  obtain ⟨t, ht, h⟩ := (bind_eq_ok _ _ _).mp h
  obtain ⟨d, hd, h⟩ := (bind_eq_ok _ _ _).mp h
  obtain ⟨eta, heta, h⟩ := (bind_eq_ok _ _ _).mp h
  obtain ⟨beta, hbeta, h⟩ := (bind_eq_ok _ _ _).mp h
  obtain ⟨gamma, hgamma, h⟩ := (bind_eq_ok _ _ _).mp h
  obtain ⟨epsilon, hepsilon, h⟩ := (bind_eq_ok _ _ _).mp h
  have hn' := const_tail_length term "n" k n hn
  have ht' := const_tail_length term "t" k t ht
  have hd' := const_tail_length term "d" k d hd
  have heta' := const_tail_length term "eta" k eta heta
  have hbeta' := const_tail_length term "beta" k beta hbeta
  have hgamma' := const_tail_length term "gamma" k gamma hgamma
  have hepsilon' := const_tail_length term "epsilon" k epsilon hepsilon
  simp only [pure, Except.pure, Except.ok.injEq] at h
  subst h
  simp [EOSTerm.has_length, EOSTerm.lengths, hn', ht', hd', heta', hbeta', hgamma', hepsilon']

theorem add_terms_lengths (n t d c l : List ℚ) (Nlzero Nlnonzero : Nat)
    (contiguous_lzero : Bool) (container r : EOSTerms)
    (h : build_power.add_terms n t d c l Nlzero Nlnonzero contiguous_lzero container
      = Except.ok r)
    (ht : t.length = n.length) (hd : d.length = n.length) (hc : c.length = n.length)
    (hl : l.length = n.length) :
    ∀ x ∈ r, x ∈ container ∨ ∃ N, x.has_length N = true := by
  unfold build_power.add_terms at h
  dsimp only at h
  split_ifs at h with h1 h2 h3 h4
  · simp only [pure, Except.pure, Except.ok.injEq, add_term] at h
    subst h
    intro x hx
    rcases List.mem_append.mp hx with hx | hx
    · exact Or.inl hx
    · rw [List.mem_singleton] at hx
      subst hx
      exact Or.inr ⟨n.length, by simp [EOSTerm.has_length, EOSTerm.lengths, ht, hd]⟩
  · obtain ⟨pn, hpn, h⟩ := (bind_eq_ok _ _ _).mp h
    obtain ⟨pt, hpt, h⟩ := (bind_eq_ok _ _ _).mp h
    obtain ⟨pd, hpd, h⟩ := (bind_eq_ok _ _ _).mp h
    obtain ⟨en, hen, h⟩ := (bind_eq_ok _ _ _).mp h
    obtain ⟨et, het, h⟩ := (bind_eq_ok _ _ _).mp h
    obtain ⟨ed, hed, h⟩ := (bind_eq_ok _ _ _).mp h
    obtain ⟨ec, hec, h⟩ := (bind_eq_ok _ _ _).mp h
    obtain ⟨el, hel, h⟩ := (bind_eq_ok _ _ _).mp h
    obtain ⟨el_i, hel_i, h⟩ := (bind_eq_ok _ _ _).mp h
    simp only [pure, Except.pure, Except.ok.injEq, add_term] at h
    subst h
    intro x hx
    rcases List.mem_append.mp hx with hx | hx
    · rcases List.mem_append.mp hx with hx | hx
      · exact Or.inl hx
      · rw [List.mem_singleton] at hx
        subst hx
        exact Or.inr ⟨Nlzero, by
          simp [EOSTerm.has_length, EOSTerm.lengths, (head_length _ _ _ hpn).1,
            (head_length _ _ _ hpt).1, (head_length _ _ _ hpd).1]⟩
    · rw [List.mem_singleton] at hx
      subst hx
      exact Or.inr ⟨Nlnonzero, by
        simp [EOSTerm.has_length, EOSTerm.lengths, (tail_length _ _ _ hen).1,
          (tail_length _ _ _ het).1, (tail_length _ _ _ hed).1, (tail_length _ _ _ hec).1,
          (tail_length _ _ _ hel).1, (tail_length _ _ _ hel_i).1]⟩
  · simp only [pure, Except.pure, Except.ok.injEq, add_term] at h
    subst h
    intro x hx
    rcases List.mem_append.mp hx with hx | hx
    · exact Or.inl hx
    · rw [List.mem_singleton] at hx
      subst hx
      exact Or.inr ⟨n.length, by simp [EOSTerm.has_length, EOSTerm.lengths, ht, hd, hc, hl]⟩

theorem eigorzero_ok (term : Object) (N : Nat) (name : String) (a : List ℚ)
    (h : eigorzero term N name = Except.ok a) :
    (member term name = Json.array a ∧ (member term name).size = a.length)
      ∨ ((member term name).size = 0 ∧ a = List.replicate N 0) := by
  unfold eigorzero at h
  cases hm : member term name with
  | null =>
    rw [hm] at h
    simp only [Json.empty, Bool.not_true, Bool.false_eq_true, if_false, pure, Except.pure,
      Except.ok.injEq] at h
    exact Or.inr ⟨rfl, h.symm⟩
  | number q =>
    rw [hm] at h
    simp [Json.empty, toeig, throw, throwThe, MonadExceptOf.throw] at h
  | string s =>
    rw [hm] at h
    simp [Json.empty, toeig, throw, throwThe, MonadExceptOf.throw] at h
  | array x =>
    rw [hm] at h
    cases x with
    | nil =>
      simp only [Json.empty, List.isEmpty_nil, Bool.not_true, Bool.false_eq_true, if_false,
        pure, Except.pure, Except.ok.injEq] at h
      exact Or.inr ⟨rfl, h.symm⟩
    | cons y ys =>
      simp only [Json.empty, List.isEmpty_cons, Bool.not_false, if_true, toeig, pure,
        Except.pure, Except.ok.injEq] at h
      subst h
      exact Or.inl ⟨rfl, rfl⟩

theorem eigorzero_length (term : Object) (N : Nat) (name : String) (a : List ℚ)
    (h : eigorzero term N name = Except.ok a) (hsize : (member term name).size = N) :
    a.length = N := by
  rcases eigorzero_ok term N name a h with ⟨_, h2⟩ | ⟨_, h2⟩
  · rw [← h2, hsize]
  · rw [h2, List.length_replicate]

theorem toeig_ok (v : Json) (a : List ℚ) (h : toeig v = Except.ok a) : v = Json.array a := by
  cases v with
  | array x =>
    simp only [toeig, pure, Except.pure, Except.ok.injEq] at h
    rw [h]
  | null => simp [toeig, throw, throwThe, MonadExceptOf.throw] at h
  | number q => simp [toeig, throw, throwThe, MonadExceptOf.throw] at h
  | string s => simp [toeig, throw, throwThe, MonadExceptOf.throw] at h

theorem read_l_length (N : Nat) (l c : List ℚ) (b : Bool) (k : Nat)
    (h : build_power.read_l N l = Except.ok (c, b, k)) (hl : l.length = N) :
    c.length = N := by
  unfold build_power.read_l at h
  split_ifs at h with h1
  cases hh : l.head? with
  | none =>
    rw [hh] at h
    simp [throw, throwThe, MonadExceptOf.throw] at h
  | some l0 =>
    rw [hh] at h
    simp only [pure, Except.pure, Except.ok.injEq, Prod.mk.injEq] at h
    rw [← h.1, List.length_map, List.length_take, hl, min_self]

theorem departure_build_power_lengths (term : Object) (dep r : EOSTerms)
    (h : build_departure_function.build_power term dep = Except.ok r) :
    ∀ x ∈ r, x ∈ dep ∨ ∃ N, x.has_length N = true := by
  unfold build_departure_function.build_power at h
  dsimp only at h
  by_cases hN : (member term "n").size = 0
  · rw [if_pos hN] at h
    simp only [pure, Except.pure, Except.ok.injEq] at h
    subst h
    exact fun x hx => Or.inl hx
  · rw [if_neg hN] at h
    obtain ⟨n, hn, h⟩ := (bind_eq_ok _ _ _).mp h
    obtain ⟨t, ht, h⟩ := (bind_eq_ok _ _ _).mp h
    obtain ⟨d, hd, h⟩ := (bind_eq_ok _ _ _).mp h
    obtain ⟨⟨c, l, contiguous_lzero, Nlzero⟩, hcl, h⟩ := (bind_eq_ok _ _ _).mp h
    have hn' := eigorzero_length term _ "n" n hn rfl
    have key : t.length = n.length ∧ d.length = n.length ∧ c.length = n.length
        ∧ l.length = n.length := by
      split_ifs at hcl with hempty hsame hsame
      · simp only [pure, Except.pure, Except.ok.injEq, Prod.mk.injEq] at hcl
        simp [lengths_all_same] at hsame
        refine ⟨?_, ?_, ?_, ?_⟩
        · rw [hn']; exact eigorzero_length term _ "t" t ht hsame.1
        · rw [hn']; exact eigorzero_length term _ "d" d hd hsame.2
        · rw [hn', ← hcl.1, List.length_replicate]
        · rw [hn', ← hcl.2.1, List.length_replicate]
      · obtain ⟨l', hl', hcl⟩ := (bind_eq_ok _ _ _).mp hcl
        obtain ⟨⟨c', b', k'⟩, hread, hcl⟩ := (bind_eq_ok _ _ _).mp hcl
        simp only [pure, Except.pure, Except.ok.injEq, Prod.mk.injEq] at hcl
        simp [lengths_all_same] at hsame
        have hlen : l'.length = (member term "n").size := by
          have := toeig_ok _ _ hl'
          rw [← hsame.2.2, this]
          rfl
        refine ⟨?_, ?_, ?_, ?_⟩
        · rw [hn']; exact eigorzero_length term _ "t" t ht hsame.1
        · rw [hn']; exact eigorzero_length term _ "d" d hd hsame.2.1
        · rw [hn', ← hcl.1]; exact read_l_length _ _ _ _ _ hread hlen
        · rw [hn', ← hcl.2.1]; exact hlen
    dsimp only at h
    cases hh : l.head? with
    | none =>
      rw [hh] at h
      simp [throw, throwThe, MonadExceptOf.throw] at h
    | some first =>
      cases hg : l.getLast? with
      | none =>
        rw [hh, hg] at h
        simp [throw, throwThe, MonadExceptOf.throw] at h
      | some last =>
        rw [hh, hg] at h
        dsimp only at h
        split_ifs at h with hbad
        exact add_terms_lengths n t d c l _ _ _ dep r h key.1 key.2.1 key.2.2.1 key.2.2.2

theorem at_toeig_ok (term : Object) (k : String) (a : List ℚ)
    (h : (member_at term k).bind toeig = Except.ok a) :
    term.lookup k = some (Json.array a) := by
  obtain ⟨v, hv, ha⟩ := (bind_eq_ok _ _ _).mp h
  unfold member_at at hv
  cases hk : term.lookup k with
  | none =>
    rw [hk] at hv
    simp [throw, throwThe, MonadExceptOf.throw] at hv
  | some w =>
    rw [hk] at hv
    simp only [pure, Except.pure, Except.ok.injEq] at hv
    rw [hv, toeig_ok v a ha]

theorem doubleexponential_lengths (term : Object) (e : DoubleExponentialEOSTerm)
    (h : build_doubleexponential term = Except.ok e) :
    (EOSTerm.DoubleExponential e).has_length e.n.length = true := by
  unfold build_doubleexponential at h
  obtain ⟨b, hb, h⟩ := (bind_eq_ok _ _ _).mp h
  cases b with
  | false => simp [throw, throwThe, MonadExceptOf.throw] at h
  | true =>
    simp only [Bool.not_true, Bool.false_eq_true, if_false] at h
    obtain ⟨n, hn, h⟩ := (bind_eq_ok _ _ _).mp h
    obtain ⟨t, ht, h⟩ := (bind_eq_ok _ _ _).mp h
    obtain ⟨d, hd, h⟩ := (bind_eq_ok _ _ _).mp h
    obtain ⟨ld, hld, h⟩ := (bind_eq_ok _ _ _).mp h
    obtain ⟨gd, hgd, h⟩ := (bind_eq_ok _ _ _).mp h
    obtain ⟨lt, hlt, h⟩ := (bind_eq_ok _ _ _).mp h
    obtain ⟨gt, hgt, h⟩ := (bind_eq_ok _ _ _).mp h
    simp only [pure, Except.pure, Except.ok.injEq] at h
    subst h
    simp [all_same_length, all_same_length.sizes, member_at, at_toeig_ok _ _ _ hn,
      at_toeig_ok _ _ _ ht, at_toeig_ok _ _ _ hd, at_toeig_ok _ _ _ hld,
      at_toeig_ok _ _ _ hgd, at_toeig_ok _ _ _ hlt, at_toeig_ok _ _ _ hgt, Json.size,
      lengths_all_same, bind, Except.bind, pure, Except.pure] at hb
    simp [EOSTerm.has_length, EOSTerm.lengths, hb]

theorem GERG2004_lengths (term : Object) (dep r : EOSTerms)
    (h : build_departure_function.build_GERG2004 term dep = Except.ok r) :
    ∀ x ∈ r, x ∈ dep ∨ ∃ N, x.has_length N = true := by
  unfold build_departure_function.build_GERG2004 at h
  obtain ⟨b, hb, h⟩ := (bind_eq_ok _ _ _).mp h
  cases b with
  | false => simp [throw, throwThe, MonadExceptOf.throw] at h
  | true =>
    simp only [Bool.not_true, Bool.false_eq_true, if_false] at h
    obtain ⟨Npower, hNpower, h⟩ := (bind_eq_ok _ _ _).mp h
    obtain ⟨vn, hvn, h⟩ := (bind_eq_ok _ _ _).mp h
    obtain ⟨eos, heos, h⟩ := (bind_eq_ok _ _ _).mp h
    obtain ⟨e, he, h⟩ := (bind_eq_ok _ _ _).mp h
    simp only [pure, Except.pure, Except.ok.injEq, add_term] at h
    subst h
    intro x hx
    simp only [List.append_assoc, List.mem_append, List.mem_cons, List.mem_singleton,
      List.not_mem_nil, or_false] at hx
    rcases hx with hx | hx | hx
    · exact Or.inl hx
    · subst hx
      exact Or.inr ⟨_, power_part_length _ _ _ heos⟩
    · subst hx
      exact Or.inr ⟨_, (gaussian_part_length _ _ _ he).2⟩

theorem GaussianExponential_lengths (term : Object) (dep r : EOSTerms)
    (h : build_departure_function.build_GaussianExponential term dep = Except.ok r) :
    ∀ x ∈ r, x ∈ dep ∨ ∃ N, x.has_length N = true := by
  unfold build_departure_function.build_GaussianExponential at h
  obtain ⟨b, hb, h⟩ := (bind_eq_ok _ _ _).mp h
  cases b with
  | false => simp [throw, throwThe, MonadExceptOf.throw] at h
  | true =>
    simp only [Bool.not_true, Bool.false_eq_true, if_false] at h
    obtain ⟨Npower, hNpower, h⟩ := (bind_eq_ok _ _ _).mp h
    obtain ⟨vn, hvn, h⟩ := (bind_eq_ok _ _ _).mp h
    obtain ⟨eos, heos, h⟩ := (bind_eq_ok _ _ _).mp h
    obtain ⟨e, he, h⟩ := (bind_eq_ok _ _ _).mp h
    simp only [pure, Except.pure, Except.ok.injEq, add_term] at h
    subst h
    intro x hx
    simp only [List.append_assoc, List.mem_append, List.mem_cons, List.mem_singleton,
      List.not_mem_nil, or_false] at hx
    rcases hx with hx | hx | hx
    · exact Or.inl hx
    · subst hx
      exact Or.inr ⟨_, power_part_length _ _ _ heos⟩
    · subst hx
      exact Or.inr ⟨_, (gaussian_part_length _ _ _ he).1⟩

theorem Chebyshev2D_lengths (term : Object) (dep r : EOSTerms)
    (h : build_departure_function.build_Chebyshev2D term dep = Except.ok r) :
    ∀ x ∈ r, x ∈ dep ∨ ∃ N, x.has_length N = true := by
  unfold build_departure_function.build_Chebyshev2D at h
  obtain ⟨Ntau, _, h⟩ := (bind_eq_ok _ _ _).mp h
  obtain ⟨Ndelta, _, h⟩ := (bind_eq_ok _ _ _).mp h
  obtain ⟨c, _, h⟩ := (bind_eq_ok _ _ _).mp h
  by_cases hc : (Ntau + 1) * (Ndelta + 1) ≠ (c.length : ℤ)
  · rw [if_pos hc] at h
    simp [throw, throwThe, MonadExceptOf.throw] at h
  · rw [if_neg hc] at h
    obtain ⟨taumin, _, h⟩ := (bind_eq_ok _ _ _).mp h
    obtain ⟨taumax, _, h⟩ := (bind_eq_ok _ _ _).mp h
    obtain ⟨deltamin, _, h⟩ := (bind_eq_ok _ _ _).mp h
    obtain ⟨deltamax, _, h⟩ := (bind_eq_ok _ _ _).mp h
    simp only [pure, Except.pure, Except.ok.injEq, add_term] at h
    subst h
    intro x hx
    rcases List.mem_append.mp hx with hx | hx
    · exact Or.inl hx
    · rw [List.mem_singleton] at hx
      subst hx
      exact Or.inr ⟨c.length, by simp [EOSTerm.has_length, EOSTerm.lengths]⟩

theorem build_departure_function_terms_lengths (j : Object) (dep : EOSTerms)
    (h : build_departure_function j = Except.ok dep) :
    ∀ term ∈ dep, ∃ N, term.has_length N = true := by
  unfold build_departure_function at h
  obtain ⟨type, _, h⟩ := (bind_eq_ok _ _ _).mp h
  dsimp only at h
  have hnil : ∀ r : EOSTerms, (∀ x ∈ r, x ∈ ([] : EOSTerms) ∨ ∃ N, x.has_length N = true) →
      ∀ x ∈ r, ∃ N, x.has_length N = true := by
    intro r hr x hx
    rcases hr x hx with h0 | h0
    · exact absurd h0 (List.not_mem_nil x)
    · exact h0
  by_cases h1 : type = "Exponential"
  · rw [if_pos h1] at h
    exact hnil dep (departure_build_power_lengths j [] dep h)
  rw [if_neg h1] at h
  by_cases h2 : type = "DoubleExponential"
  · rw [if_pos h2] at h
    cases hb : build_doubleexponential j with
    | error e =>
      rw [hb] at h
      simp [Except.map] at h
    | ok e =>
      rw [hb] at h
      simp only [Except.map, Except.ok.injEq, add_term, List.nil_append] at h
      subst h
      intro x hx
      rw [List.mem_singleton] at hx
      subst hx
      exact ⟨_, doubleexponential_lengths j e hb⟩
  rw [if_neg h2] at h
  by_cases h3 : type = "GERG-2004" ∨ type = "GERG-2008"
  · rw [if_pos h3] at h
    exact hnil dep (GERG2004_lengths j [] dep h)
  rw [if_neg h3] at h
  by_cases h4 : type = "Gaussian+Exponential"
  · rw [if_pos h4] at h
    exact hnil dep (GaussianExponential_lengths j [] dep h)
  rw [if_neg h4] at h
  by_cases h5 : type = "Chebyshev2D"
  · rw [if_pos h5] at h
    exact hnil dep (Chebyshev2D_lengths j [] dep h)
  rw [if_neg h5] at h
  by_cases h6 : type = "none"
  · rw [if_pos h6] at h
    simp only [pure, Except.pure, Except.ok.injEq, add_term, List.nil_append] at h
    subst h
    intro x hx
    rw [List.mem_singleton] at hx
    subst hx
    exact ⟨0, rfl⟩
  rw [if_neg h6] at h
  simp [throw, throwThe, MonadExceptOf.throw] at h

theorem const_head_eq (term : Object) (k : String) (a : List ℚ) (p : ℤ)
    (ha : term.lookup k = some (Json.array a)) (h0 : 0 ≤ p) (hp : p.toNat ≤ a.length) :
    ((member_const term k).bind toeig).bind (fun a => head_int a p)
      = Except.ok (a.take p.toNat) := by
  simp [member_const, ha, toeig, head_int, head, h0, hp, Except.bind, pure, Except.pure]

theorem const_tail_eq (term : Object) (k : String) (a : List ℚ) (p : ℤ)
    (ha : term.lookup k = some (Json.array a)) (h0 : 0 ≤ p) (hp : p.toNat ≤ a.length) :
    ((member_const term k).bind toeig).bind (fun a => tail_int a p)
      = Except.ok (a.drop (a.length - p.toNat)) := by
  simp [member_const, ha, toeig, tail_int, tail, h0, hp, Except.bind, pure, Except.pure]

theorem power_part_eq (term : Object) (n t d lP : List ℚ) (Npower : ℤ)
    (hn : term.lookup "n" = some (Json.array n)) (ht : term.lookup "t" = some (Json.array t))
    (hd : term.lookup "d" = some (Json.array d)) (h0 : 0 ≤ Npower)
    (hPn : Npower.toNat ≤ n.length) (hPt : Npower.toNat ≤ t.length)
    (hPd : Npower.toNat ≤ d.length)
    (hl : (term.lookup "l" = none ∧ lP = List.replicate Npower.toNat 0)
      ∨ ∃ l, term.lookup "l" = some (Json.array l) ∧ Npower.toNat ≤ l.length
          ∧ lP = l.take Npower.toNat) :
    build_departure_function.power_part term Npower
      = Except.ok ⟨n.take Npower.toNat, t.take Npower.toNat, d.take Npower.toNat,
          lP.map (fun li => if li > 0 then (1 : ℚ) else 0), lP, lP.map cast_int⟩ := by
  unfold build_departure_function.power_part
  rw [const_head_eq term "n" n Npower hn h0 hPn, const_head_eq term "t" t Npower ht h0 hPt,
    const_head_eq term "d" d Npower hd h0 hPd]
  rcases hl with ⟨hl, hlP⟩ | ⟨l, hl, hPl, hlP⟩
  · have hmap : (List.take Npower.toNat n).map (fun v => 0 * v)
        = List.replicate Npower.toNat (0 : ℚ) := by
      rw [List.eq_replicate_iff]
      refine ⟨by simp [hPn], ?_⟩
      intro b hb
      obtain ⟨a, _, rfl⟩ := List.mem_map.mp hb
      exact zero_mul a
    simp only [contains, hl, Option.isSome_none, Bool.false_eq_true, if_false, bind,
      Except.bind, pure, Except.pure, hmap, hlP]
  · have hc : contains term "l" = true := by simp [contains, hl]
    simp only [hc, if_true, const_head_eq term "l" l Npower hl h0 hPl, hlP]
    rfl

theorem gaussian_part_eq (term : Object) (n t d eta beta gamma epsilon : List ℚ) (Npower : ℤ)
    (hn : term.lookup "n" = some (Json.array n)) (ht : term.lookup "t" = some (Json.array t))
    (hd : term.lookup "d" = some (Json.array d))
    (heta : term.lookup "eta" = some (Json.array eta))
    (hbeta : term.lookup "beta" = some (Json.array beta))
    (hgamma : term.lookup "gamma" = some (Json.array gamma))
    (hepsilon : term.lookup "epsilon" = some (Json.array epsilon))
    (htn : t.length = n.length) (hdn : d.length = n.length) (hetan : eta.length = n.length)
    (hbetan : beta.length = n.length) (hgamman : gamma.length = n.length)
    (hepsilonn : epsilon.length = n.length) (h0 : 0 ≤ Npower) (hN : Npower ≤ n.length) :
    build_departure_function.gaussian_part term ((n.length : ℤ) - Npower)
      = Except.ok ⟨n.drop Npower.toNat, t.drop Npower.toNat, d.drop Npower.toNat,
          eta.drop Npower.toNat, beta.drop Npower.toNat, gamma.drop Npower.toNat,
          epsilon.drop Npower.toNat⟩ := by
  have hk0 : 0 ≤ (n.length : ℤ) - Npower := by omega
  have hk : ∀ a : List ℚ, a.length = n.length →
      ((n.length : ℤ) - Npower).toNat ≤ a.length
        ∧ a.length - ((n.length : ℤ) - Npower).toNat = Npower.toNat := by
    intro a ha
    omega
  unfold build_departure_function.gaussian_part
  rw [const_tail_eq term "n" n _ hn hk0 (hk n rfl).1,
    const_tail_eq term "t" t _ ht hk0 (hk t htn).1,
    const_tail_eq term "d" d _ hd hk0 (hk d hdn).1,
    const_tail_eq term "eta" eta _ heta hk0 (hk eta hetan).1,
    const_tail_eq term "beta" beta _ hbeta hk0 (hk beta hbetan).1,
    const_tail_eq term "gamma" gamma _ hgamma hk0 (hk gamma hgamman).1,
    const_tail_eq term "epsilon" epsilon _ hepsilon hk0 (hk epsilon hepsilonn).1,
    (hk n rfl).2, (hk t htn).2, (hk d hdn).2, (hk eta hetan).2, (hk beta hbetan).2,
    (hk gamma hgamman).2, (hk epsilon hepsilonn).2]
  rfl

theorem all_same_length_seven (term : Object) (n t d eta beta gamma epsilon : List ℚ)
    (hn : term.lookup "n" = some (Json.array n)) (ht : term.lookup "t" = some (Json.array t))
    (hd : term.lookup "d" = some (Json.array d))
    (heta : term.lookup "eta" = some (Json.array eta))
    (hbeta : term.lookup "beta" = some (Json.array beta))
    (hgamma : term.lookup "gamma" = some (Json.array gamma))
    (hepsilon : term.lookup "epsilon" = some (Json.array epsilon))
    (htn : t.length = n.length) (hdn : d.length = n.length) (hetan : eta.length = n.length)
    (hbetan : beta.length = n.length) (hgamman : gamma.length = n.length)
    (hepsilonn : epsilon.length = n.length) :
    all_same_length term ["n", "t", "d", "eta", "beta", "gamma", "epsilon"]
      = Except.ok true := by
  simp [all_same_length, all_same_length.sizes, member_at, hn, ht, hd, heta, hbeta, hgamma,
    hepsilon, Json.size, lengths_all_same, bind, Except.bind, pure, Except.pure, htn, hdn,
    hetan, hbetan, hgamman, hepsilonn]

theorem GERG_parts_eq (term : Object) (dep : EOSTerms)
    (n t d eta beta gamma epsilon lP : List ℚ) (Npower : ℤ)
    (hn : term.lookup "n" = some (Json.array n)) (ht : term.lookup "t" = some (Json.array t))
    (hd : term.lookup "d" = some (Json.array d))
    (heta : term.lookup "eta" = some (Json.array eta))
    (hbeta : term.lookup "beta" = some (Json.array beta))
    (hgamma : term.lookup "gamma" = some (Json.array gamma))
    (hepsilon : term.lookup "epsilon" = some (Json.array epsilon))
    (htn : t.length = n.length) (hdn : d.length = n.length) (hetan : eta.length = n.length)
    (hbetan : beta.length = n.length) (hgamman : gamma.length = n.length)
    (hepsilonn : epsilon.length = n.length)
    (hNpower : (member_const term "Npower").bind Json.get_int = Except.ok Npower)
    (h0 : 0 ≤ Npower) (hN : Npower ≤ (n.length : ℤ))
    (hl : (term.lookup "l" = none ∧ lP = List.replicate Npower.toNat 0)
      ∨ ∃ l, term.lookup "l" = some (Json.array l) ∧ Npower.toNat ≤ l.length
          ∧ lP = l.take Npower.toNat) :
    build_departure_function.build_GERG2004 term dep
        = Except.ok (dep ++ [EOSTerm.Power ⟨n.take Npower.toNat, t.take Npower.toNat,
              d.take Npower.toNat, lP.map (fun li => if li > 0 then (1 : ℚ) else 0), lP,
              lP.map cast_int⟩,
            EOSTerm.GERG2004 ⟨n.drop Npower.toNat, t.drop Npower.toNat, d.drop Npower.toNat,
              eta.drop Npower.toNat, beta.drop Npower.toNat, gamma.drop Npower.toNat,
              epsilon.drop Npower.toNat⟩])
      ∧ build_departure_function.build_GaussianExponential term dep
        = Except.ok (dep ++ [EOSTerm.Power ⟨n.take Npower.toNat, t.take Npower.toNat,
              d.take Npower.toNat, lP.map (fun li => if li > 0 then (1 : ℚ) else 0), lP,
              lP.map cast_int⟩,
            EOSTerm.Gaussian ⟨n.drop Npower.toNat, t.drop Npower.toNat, d.drop Npower.toNat,
              eta.drop Npower.toNat, beta.drop Npower.toNat, gamma.drop Npower.toNat,
              epsilon.drop Npower.toNat⟩]) := by
  have hP : Npower.toNat ≤ n.length := by omega
  have hconst : member_const term "n" = Except.ok (Json.array n) := by
    simp [member_const, hn, pure, Except.pure]
  have hpow := power_part_eq term n t d lP Npower hn ht hd h0 hP (htn ▸ hP) (hdn ▸ hP) hl
  have hgauss := gaussian_part_eq term n t d eta beta gamma epsilon Npower hn ht hd heta hbeta
    hgamma hepsilon htn hdn hetan hbetan hgamman hepsilonn h0 hN
  have hall := all_same_length_seven term n t d eta beta gamma epsilon hn ht hd heta hbeta
    hgamma hepsilon htn hdn hetan hbetan hgamman hepsilonn
  constructor
  · unfold build_departure_function.build_GERG2004
    simp only [hall, hNpower, hconst]
    simp only [Json.size, hpow, hgauss, bind, Except.bind, pure, Except.pure, add_term,
      Bool.not_true, Bool.false_eq_true, if_false, List.append_assoc, List.singleton_append]
  · unfold build_departure_function.build_GaussianExponential
    simp only [hall, hNpower, hconst]
    simp only [Json.size, hpow, hgauss, bind, Except.bind, pure, Except.pure, add_term,
      Bool.not_true, Bool.false_eq_true, if_false, List.append_assoc, List.singleton_append]

/-- C17: every term of a container that `build_departure_function` returns has all its
coefficient arrays of one common length.  For a description of type `GERG-2004`, `GERG-2008`
or `Gaussian+Exponential` whose seven arrays `n`, `t`, `d`, `eta`, `beta`, `gamma`, `epsilon`
have `N` entries each, with `0 ≤ Npower ≤ N` and `l` either not given or an array of at least
`Npower` entries, the function returns two terms: the power part, made of the first `Npower`
entries of `n`, `t`, `d` and `l` (zeros when `l` is not given) with `c` and `l_i` computed from
`l`, all of length `Npower`, and the Gaussian part, made of the entries of the seven arrays
after the first `Npower`, all of length `N - Npower`. -/
theorem build_departure_function_array_lengths :
    (∀ (j : Object) (dep : EOSTerms), build_departure_function j = Except.ok dep →
        ∀ term ∈ dep, ∃ N, term.has_length N = true)
      ∧ (∀ (j : Object) (type : String) (n t d eta beta gamma epsilon lP : List ℚ)
          (Npower : ℤ),
          j.lookup "type" = some (Json.string type) →
          type ∈ ["GERG-2004", "GERG-2008", "Gaussian+Exponential"] →
          j.lookup "n" = some (Json.array n) → j.lookup "t" = some (Json.array t) →
          j.lookup "d" = some (Json.array d) → j.lookup "eta" = some (Json.array eta) →
          j.lookup "beta" = some (Json.array beta) →
          j.lookup "gamma" = some (Json.array gamma) →
          j.lookup "epsilon" = some (Json.array epsilon) →
          t.length = n.length → d.length = n.length → eta.length = n.length →
          beta.length = n.length → gamma.length = n.length → epsilon.length = n.length →
          (member_const j "Npower").bind Json.get_int = Except.ok Npower →
          0 ≤ Npower → Npower ≤ (n.length : ℤ) →
          ((j.lookup "l" = none ∧ lP = List.replicate Npower.toNat 0)
            ∨ ∃ l, j.lookup "l" = some (Json.array l) ∧ Npower.toNat ≤ l.length
                ∧ lP = l.take Npower.toNat) →
          ∃ power gauss : EOSTerm,
            build_departure_function j = Except.ok [power, gauss]
              ∧ power = EOSTerm.Power ⟨n.take Npower.toNat, t.take Npower.toNat,
                  d.take Npower.toNat, lP.map (fun li => if li > 0 then (1 : ℚ) else 0), lP,
                  lP.map cast_int⟩
              ∧ gauss = (if type = "Gaussian+Exponential" then
                  EOSTerm.Gaussian ⟨n.drop Npower.toNat, t.drop Npower.toNat,
                    d.drop Npower.toNat, eta.drop Npower.toNat, beta.drop Npower.toNat,
                    gamma.drop Npower.toNat, epsilon.drop Npower.toNat⟩
                else
                  EOSTerm.GERG2004 ⟨n.drop Npower.toNat, t.drop Npower.toNat,
                    d.drop Npower.toNat, eta.drop Npower.toNat, beta.drop Npower.toNat,
                    gamma.drop Npower.toNat, epsilon.drop Npower.toNat⟩)
              ∧ power.has_length Npower.toNat = true
              ∧ gauss.has_length (n.length - Npower.toNat) = true) := by
  refine ⟨build_departure_function_terms_lengths, ?_⟩
  intro j type n t d eta beta gamma epsilon lP Npower htype hmem hn ht hd heta hbeta hgamma
    hepsilon htn hdn hetan hbetan hgamman hepsilonn hNpower h0 hN hl
  obtain ⟨hG, hGE⟩ := GERG_parts_eq j [] n t d eta beta gamma epsilon lP Npower hn ht hd heta
    hbeta hgamma hepsilon htn hdn hetan hbetan hgamman hepsilonn hNpower h0 hN hl
  have hP : Npower.toNat ≤ n.length := by omega
  have hlP : lP.length = Npower.toNat := by
    rcases hl with ⟨_, h⟩ | ⟨l, _, hle, h⟩
    · rw [h, List.length_replicate]
    · rw [h, List.length_take, min_eq_left hle]
  have htype' : (member_at j "type").bind Json.get_string = Except.ok type := by
    simp [member_at, htype, Json.get_string, Except.bind, pure, Except.pure]
  refine ⟨_, _, ?_, rfl, rfl, ?_, ?_⟩
  · unfold build_departure_function
    simp only [htype']
    simp only [List.mem_cons, List.mem_singleton, List.not_mem_nil, or_false] at hmem
    rcases hmem with h | h | h
    · subst h
      simpa [bind, Except.bind] using hG
    · subst h
      simpa [bind, Except.bind] using hG
    · subst h
      simpa [bind, Except.bind] using hGE
  · simp [EOSTerm.has_length, EOSTerm.lengths, hP, htn, hdn, hlP]
  · split_ifs <;>
      simp [EOSTerm.has_length, EOSTerm.lengths, htn, hdn, hetan, hbetan, hgamman, hepsilonn]

/-- C17, at a `GERG-2008` description with three entries and `Npower = 1`: the power part
holds the first entry and the GERG part the two others. -/
theorem build_departure_function_array_lengths_witness :
    ∃ power gauss : EOSTerm,
      build_departure_function [("type", Json.string "GERG-2008"), ("Npower", Json.number 1),
          ("n", Json.array [1, 2, 3]), ("t", Json.array [4, 5, 6]), ("d", Json.array [1, 1, 2]),
          ("eta", Json.array [0, 1, 1]), ("beta", Json.array [0, 2, 2]),
          ("gamma", Json.array [0, 3, 3]), ("epsilon", Json.array [0, 4, 4])]
        = Except.ok [power, gauss]
      ∧ power = EOSTerm.Power ⟨[1], [4], [1], [0], [0], [0]⟩
      ∧ gauss = EOSTerm.GERG2004 ⟨[2, 3], [5, 6], [1, 2], [1, 1], [2, 2], [3, 3], [4, 4]⟩
      ∧ power.has_length 1 = true ∧ gauss.has_length 2 = true := by
  have h := build_departure_function_array_lengths.2
    [("type", Json.string "GERG-2008"), ("Npower", Json.number 1),
      ("n", Json.array [1, 2, 3]), ("t", Json.array [4, 5, 6]), ("d", Json.array [1, 1, 2]),
      ("eta", Json.array [0, 1, 1]), ("beta", Json.array [0, 2, 2]),
      ("gamma", Json.array [0, 3, 3]), ("epsilon", Json.array [0, 4, 4])]
    "GERG-2008" [1, 2, 3] [4, 5, 6] [1, 1, 2] [0, 1, 1] [0, 2, 2] [0, 3, 3] [0, 4, 4] [0] 1
    rfl (by decide) rfl rfl rfl rfl rfl rfl rfl rfl rfl rfl rfl rfl rfl
    (by simp [member_const, List.lookup, Json.get_int, cast_int, Except.bind, pure,
      Except.pure])
    (by decide) (by decide) (Or.inl ⟨rfl, rfl⟩)
  simpa using h

/-! ### The matrix of departure functions -/

theorem set_cell_length (funcs : List (List EOSTerms)) (i j : Nat) (v : EOSTerms) :
    (set_cell funcs i j v).length = funcs.length := by
  simp [set_cell]

theorem foldlM_ok_all {σ ι : Type} (step : σ → ι → Except Failure σ) (l : List ι) :
    ∀ (init r : σ), l.foldlM step init = Except.ok r →
      ∀ x ∈ l, ∃ s s', step s x = Except.ok s' := by
  induction l with
  | nil => intro init r _ x hx; exact absurd hx (List.not_mem_nil x)
  | cons y ys ih =>
    intro init r h x hx
    rw [List.foldlM_cons] at h
    obtain ⟨s1, hs1, h⟩ := (bind_eq_ok _ _ _).mp h
    rcases List.mem_cons.mp hx with hx | hx
    · subst hx
      exact ⟨init, s1, hs1⟩
    · exact ih s1 r h x hx

theorem cell_set_cell_ne (funcs : List (List EOSTerms)) (i j a b : Nat) (v : EOSTerms)
    (h : ¬ (a = i ∧ b = j)) : cell (set_cell funcs i j v) a b = cell funcs a b := by
  unfold cell set_cell
  simp only [List.getD_eq_getElem?_getD, List.getElem?_set]
  by_cases hai : i = a
  · subst hai
    have hb : ¬ j = b := fun hjb => h ⟨rfl, hjb.symm⟩
    by_cases hlt : i < funcs.length
    · simp [hlt, List.getElem?_set, hb]
    · have hnone : funcs[i]? = none := List.getElem?_eq_none (not_lt.mp hlt)
      simp [hlt, hnone]
  · simp [hai]

theorem cell_set_cell_eq (N : Nat) (funcs : List (List EOSTerms)) (i j : Nat) (v : EOSTerms)
    (hsq : square N funcs) (hi : i < N) (hj : j < N) :
    cell (set_cell funcs i j v) i j = v := by
  have hlen : i < funcs.length := by rw [hsq.1]; exact hi
  have hrow : (funcs[i]).length = N := hsq.2 _ (List.getElem_mem _)
  unfold cell set_cell
  simp [List.getD_eq_getElem?_getD, List.getElem?_set, hlen, hrow, hj]

theorem square_set_cell (N : Nat) (funcs : List (List EOSTerms)) (i j : Nat) (v : EOSTerms)
    (hsq : square N funcs) : square N (set_cell funcs i j v) := by
  refine ⟨by rw [set_cell_length]; exact hsq.1, ?_⟩
  intro row hrow
  unfold set_cell at hrow
  rcases List.mem_or_eq_of_mem_set hrow with h | h
  · exact hsq.2 row h
  · rw [h, List.length_set]
    by_cases hlt : i < funcs.length
    · rw [List.getD_eq_getElem?_getD, List.getElem?_eq_getElem hlt]
      exact hsq.2 _ (List.getElem_mem _)
    · rw [List.set_eq_of_length_le (not_lt.mp hlt)] at hrow
      have hlen := hsq.2 row hrow
      rw [h, List.length_set] at hlen
      exact hlen

theorem pair_eq (depcollection : List Object)
    (get_BIPdep : String → String → Except Failure (Object × Bool)) (components : List String)
    (funcs : List (List EOSTerms)) (i j : Nat) (ci cj : String)
    (hci : component_at components i = Except.ok ci)
    (hcj : component_at components j = Except.ok cj)
    (hij : cell funcs i j = []) (hji : cell funcs j i = []) (hne : i ≠ j) :
    get_departure_function_matrix.pair depcollection get_BIPdep components funcs i j
      = (pair_container depcollection get_BIPdep ci cj).map
          (fun c => set_cell (set_cell funcs i j c) j i c) := by
  have hji' : ∀ v, cell (set_cell funcs i j v) j i = [] := by
    intro v
    rw [cell_set_cell_ne funcs i j j i v (fun h => hne h.2), hji]
  unfold get_departure_function_matrix.pair pair_container
  rw [hci, hcj]
  simp only [bind, Except.bind]
  cases hg : get_BIPdep ci cj with
  | error e => rfl
  | ok p =>
    obtain ⟨BIP, sw⟩ := p
    dsimp only
    cases hf : get_departure_function_matrix.funcname BIP with
    | error e => rfl
    | ok funcname =>
      dsimp only
      by_cases hname : funcname ≠ ""
      · simp only [if_pos hname]
        cases hjj : get_departure_function_matrix.get_departure_json depcollection funcname with
        | error e => rfl
        | ok jj =>
          dsimp only
          cases hb : build_departure_function jj with
          | error e => rfl
          | ok c => rfl
      · simp only [if_neg hname, hij, hji', add_term, List.nil_append]
        rfl

theorem component_at_eq (components : List String) (i : Nat) (hi : i < components.length) :
    component_at components i = Except.ok (components.getD i "") := by
  unfold component_at
  rw [List.get?_eq_getElem?, List.getElem?_eq_getElem hi, List.getD_eq_getElem?_getD,
    List.getElem?_eq_getElem hi]
  rfl

theorem component_at_ok (components : List String) (i : Nat) (c : String)
    (h : component_at components i = Except.ok c) :
    i < components.length ∧ c = components.getD i "" := by
  by_cases hi : i < components.length
  · rw [component_at_eq components i hi] at h
    exact ⟨hi, (Except.ok.inj h).symm⟩
  · unfold component_at at h
    rw [List.get?_eq_getElem?, List.getElem?_eq_none (not_lt.mp hi)] at h
    simp [throw, throwThe, MonadExceptOf.throw] at h

theorem pair_ok_imp (depcollection : List Object)
    (get_BIPdep : String → String → Except Failure (Object × Bool)) (components : List String)
    (funcs funcs' : List (List EOSTerms)) (i j : Nat)
    (h : get_departure_function_matrix.pair depcollection get_BIPdep components funcs i j
      = Except.ok funcs') :
    ∃ c, pair_container depcollection get_BIPdep (components.getD i "") (components.getD j "")
      = Except.ok c := by
  unfold get_departure_function_matrix.pair at h
  obtain ⟨ci, hci, h⟩ := (bind_eq_ok _ _ _).mp h
  obtain ⟨cj, hcj, h⟩ := (bind_eq_ok _ _ _).mp h
  obtain ⟨⟨BIP, sw⟩, hg, h⟩ := (bind_eq_ok _ _ _).mp h
  obtain ⟨funcname, hf, h⟩ := (bind_eq_ok _ _ _).mp h
  rw [(component_at_ok _ _ _ hci).2] at hg
  rw [(component_at_ok _ _ _ hcj).2] at hg
  dsimp only at h
  by_cases hname : funcname ≠ ""
  · rw [if_pos hname] at h
    obtain ⟨jj, hjj, h⟩ := (bind_eq_ok _ _ _).mp h
    obtain ⟨fij, hfij, h⟩ := (bind_eq_ok _ _ _).mp h
    refine ⟨fij, ?_⟩
    unfold pair_container
    simp only [hg, hf, bind, Except.bind, if_pos hname, hjj, hfij]
  · refine ⟨[EOSTerm.Null], ?_⟩
    unfold pair_container
    simp only [hg, hf, bind, Except.bind, if_neg hname]
    rfl

theorem inner_loop_ok (depcollection : List Object)
    (get_BIPdep : String → String → Except Failure (Object × Bool)) (components : List String)
    (C : Nat → Nat → EOSTerms) (i : Nat)
    (hC : ∀ b, i < b → b < components.length →
      pair_container depcollection get_BIPdep (components.getD i "") (components.getD b "")
        = Except.ok (C i b)) :
    ∀ (n s : Nat) (funcs : List (List EOSTerms)), i < s → s + n = components.length →
      built_up_to components.length C i s funcs →
      ∃ funcs', (List.range' s n).foldlM (fun funcs j =>
          get_departure_function_matrix.pair depcollection get_BIPdep components funcs i j)
            funcs = Except.ok funcs'
        ∧ built_up_to components.length C i components.length funcs' := by
  intro n
  induction n with
  | zero =>
    intro s funcs _ hs hinv
    have hs' : s = components.length := by omega
    subst hs'
    exact ⟨funcs, rfl, hinv⟩
  | succ n ih =>
    intro s funcs his hs hinv
    have hsN : s < components.length := by omega
    have hiN : i < components.length := by omega
    have hcell1 : cell funcs i s = [] := by
      rw [hinv.2 i s hiN hsN]
      have h1 : ¬ visited i s i s := by unfold visited; omega
      have h2 : ¬ visited i s s i := by unfold visited; omega
      rw [if_neg h1, if_neg h2]
    have hcell2 : cell funcs s i = [] := by
      rw [hinv.2 s i hsN hiN]
      have h1 : ¬ visited i s i s := by unfold visited; omega
      have h2 : ¬ visited i s s i := by unfold visited; omega
      rw [if_neg h2, if_neg h1]
    have hstep := pair_eq depcollection get_BIPdep components funcs i s _ _
      (component_at_eq components i hiN) (component_at_eq components s hsN) hcell1 hcell2
      (Nat.ne_of_lt his)
    rw [hC s his hsN] at hstep
    have hsq1 := square_set_cell _ funcs i s (C i s) hinv.1
    have hsq2 := square_set_cell _ _ s i (C i s) hsq1
    have hinv' : built_up_to components.length C i (s + 1)
        (set_cell (set_cell funcs i s (C i s)) s i (C i s)) := by
      refine ⟨hsq2, ?_⟩
      intro a b ha hb
      by_cases hab1 : a = s ∧ b = i
      · obtain ⟨rfl, rfl⟩ := hab1
        rw [cell_set_cell_eq _ _ a b _ hsq1 ha hb]
        have h1 : ¬ visited b (a + 1) a b := by unfold visited; omega
        have h2 : visited b (a + 1) b a := by unfold visited; omega
        rw [if_neg h1, if_pos h2]
      · rw [cell_set_cell_ne _ s i a b _ hab1]
        by_cases hab2 : a = i ∧ b = s
        · obtain ⟨rfl, rfl⟩ := hab2
          rw [cell_set_cell_eq _ _ a b _ hinv.1 ha hb]
          have h1 : visited a (b + 1) a b := by unfold visited; omega
          rw [if_pos h1]
        · rw [cell_set_cell_ne _ i s a b _ hab2, hinv.2 a b ha hb]
          have h1 : visited i (s + 1) a b ↔ visited i s a b := by unfold visited; omega
          have h2 : visited i (s + 1) b a ↔ visited i s b a := by unfold visited; omega
          simp only [h1, h2]
    obtain ⟨funcs', hfold, hfinal⟩ := ih (s + 1) _ (by omega) (by omega) hinv'
    refine ⟨funcs', ?_, hfinal⟩
    rw [List.range'_succ, List.foldlM_cons, hstep]
    exact hfold

theorem outer_loop_ok (depcollection : List Object)
    (get_BIPdep : String → String → Except Failure (Object × Bool)) (components : List String)
    (C : Nat → Nat → EOSTerms)
    (hC : ∀ a b, a < b → b < components.length →
      pair_container depcollection get_BIPdep (components.getD a "") (components.getD b "")
        = Except.ok (C a b)) :
    ∀ k, k ≤ components.length →
      ∃ funcs', (List.range k).foldlM (fun funcs i =>
          (List.range' (i + 1) (components.length - (i + 1))).foldlM (fun funcs j =>
            get_departure_function_matrix.pair depcollection get_BIPdep components funcs i j)
              funcs)
          (List.replicate components.length (List.replicate components.length []))
            = Except.ok funcs'
        ∧ built_up_to components.length C k (k + 1) funcs' := by
  intro k
  induction k with
  | zero =>
    intro _
    refine ⟨_, rfl, ⟨List.length_replicate _ _, ?_⟩, ?_⟩
    · intro row hrow
      rw [List.eq_of_mem_replicate hrow, List.length_replicate]
    · intro a b ha hb
      have h1 : ¬ visited 0 (0 + 1) a b := by unfold visited; omega
      have h2 : ¬ visited 0 (0 + 1) b a := by unfold visited; omega
      rw [if_neg h1, if_neg h2]
      simp [cell, List.getD_eq_getElem?_getD, List.getElem?_replicate, ha, hb]
  | succ k ih =>
    intro hk
    obtain ⟨funcs_k, hfold, hinv⟩ := ih (by omega)
    obtain ⟨funcs', hinner, hinv'⟩ := inner_loop_ok depcollection get_BIPdep components C k
      (fun b hb hbN => hC k b hb hbN) (components.length - (k + 1)) (k + 1) funcs_k (by omega)
      (by omega) hinv
    refine ⟨funcs', ?_, hinv'.1, ?_⟩
    · rw [List.range_succ, List.foldlM_append, hfold]
      simp only [bind, Except.bind, List.foldlM_cons, List.foldlM_nil]
      rw [hinner]
      rfl
    · intro a b ha hb
      rw [hinv'.2 a b ha hb]
      have h1 : visited k components.length a b ↔ visited (k + 1) (k + 1 + 1) a b := by
        unfold visited; omega
      have h2 : visited k components.length b a ↔ visited (k + 1) (k + 1 + 1) b a := by
        unfold visited; omega
      simp only [h1, h2]

theorem check_kmat_ok_iff (kmat k : ArrayXXd) (N : Nat) :
    PCSAFTMixture.check_kmat kmat N = Except.ok k
      ↔ kmat.cols = kmat.rows ∧ (kmat.cols = 0 ∨ kmat.cols = N)
          ∧ k = (if kmat.cols = 0 then ArrayXXd.Zero N N else kmat) := by
  unfold PCSAFTMixture.check_kmat
  by_cases h1 : kmat.cols = kmat.rows
  · rw [if_neg (not_not.mpr h1)]
    by_cases h2 : kmat.cols = 0
    · rw [if_pos h2, if_pos h2]
      simp only [pure, Except.pure, Except.ok.injEq]
      exact ⟨fun h => ⟨h1, Or.inl h2, h.symm⟩, fun h => h.2.2.symm⟩
    · rw [if_neg h2, if_neg h2]
      by_cases h3 : kmat.cols = N
      · rw [if_neg (not_not.mpr h3)]
        simp only [pure, Except.pure, Except.ok.injEq]
        exact ⟨fun h => ⟨h1, Or.inr h3, h.symm⟩, fun h => h.2.2.symm⟩
      · rw [if_pos h3]
        constructor
        · intro h
          simp [throw, throwThe, MonadExceptOf.throw] at h
        · rintro ⟨_, h | h, _⟩
          · exact absurd h h2
          · exact absurd h h3
  · rw [if_pos h1]
    constructor
    · intro h
      simp [throw, throwThe, MonadExceptOf.throw] at h
    · rintro ⟨h, _⟩
      exact absurd h h1

theorem build_dipolar_ok (coeffs : List SAFTCoeffs) (sigma_Angstrom epsilon_over_k : List ℚ) :
    ∃ d, PCSAFTMixture.build_dipolar (coeffs.map fun coeff => coeff.m) sigma_Angstrom
      epsilon_over_k coeffs = Except.ok d := by
  unfold PCSAFTMixture.build_dipolar
  dsimp only
  split_ifs with h
  · exact ⟨none, rfl⟩
  · unfold DipolarContributionGrossVrabec.make
    simp only [List.length_map, ne_eq, not_true_eq_false, if_false, pure, Except.pure,
      Except.map]
    exact ⟨_, rfl⟩

theorem build_quadrupolar_none {Q : Type}
    (make_quadrupolar : List ℚ → List ℚ → List ℚ → List ℚ → List ℚ → Except Failure Q)
    (m sigma_Angstrom epsilon_over_k : List ℚ) (coeffs : List SAFTCoeffs)
    (h : ∀ c ∈ coeffs, c.Qstar2 * c.nQ = 0) :
    PCSAFTMixture.build_quadrupolar make_quadrupolar m sigma_Angstrom epsilon_over_k coeffs
      = Except.ok none := by
  unfold PCSAFTMixture.build_quadrupolar
  dsimp only
  have hsum : ((List.zipWith (fun (a b : ℚ) => a * b) (coeffs.map fun coeff => coeff.Qstar2)
      (coeffs.map fun coeff => coeff.nQ)).map fun v => |v|).sum = (0 : ℚ) := by
    apply List.sum_eq_zero
    intro x hx
    simp only [List.zipWith_map_left, List.zipWith_map_right, List.zipWith_same,
      List.mem_map] at hx
    obtain ⟨v, ⟨c, hc, rfl⟩, rfl⟩ := hx
    rw [h c hc, abs_zero]
  rw [if_pos hsum]
  rfl

theorem from_coeffs_ok_iff {Q : Type}
    (make_quadrupolar : List ℚ → List ℚ → List ℚ → List ℚ → List ℚ → Except Failure Q)
    (coeffs : List SAFTCoeffs) (kmat : ArrayXXd) :
    ((∃ model, PCSAFTMixture.from_coeffs make_quadrupolar coeffs kmat = Except.ok model)
        ↔ (kmat.cols = kmat.rows ∧ (kmat.cols = 0 ∨ kmat.cols = coeffs.length))
          ∧ ∃ q, PCSAFTMixture.build_quadrupolar make_quadrupolar
              (coeffs.map fun coeff => coeff.m) (coeffs.map fun coeff => coeff.sigma_Angstrom)
              (coeffs.map fun coeff => coeff.epsilon_over_k) coeffs = Except.ok q)
      ∧ ∀ model, PCSAFTMixture.from_coeffs make_quadrupolar coeffs kmat = Except.ok model →
          model.kmat = (if kmat.cols = 0 then ArrayXXd.Zero coeffs.length coeffs.length
            else kmat)
          ∧ model.hardchain.kmat = model.kmat ∧ model.m.length = coeffs.length
          ∧ model.names = coeffs.map fun coeff => coeff.name := by
  have hfwd : ∀ model, PCSAFTMixture.from_coeffs make_quadrupolar coeffs kmat
      = Except.ok model →
      (kmat.cols = kmat.rows ∧ (kmat.cols = 0 ∨ kmat.cols = coeffs.length))
        ∧ (∃ q, PCSAFTMixture.build_quadrupolar make_quadrupolar
          (coeffs.map fun coeff => coeff.m) (coeffs.map fun coeff => coeff.sigma_Angstrom)
          (coeffs.map fun coeff => coeff.epsilon_over_k) coeffs = Except.ok q)
        ∧ model.kmat = (if kmat.cols = 0 then ArrayXXd.Zero coeffs.length coeffs.length
            else kmat)
        ∧ model.hardchain.kmat = model.kmat ∧ model.m.length = coeffs.length
        ∧ model.names = coeffs.map fun coeff => coeff.name := by
    intro model h
    unfold PCSAFTMixture.from_coeffs at h
    obtain ⟨k, hk, h⟩ := (bind_eq_ok _ _ _).mp h
    dsimp only at h
    obtain ⟨d, hd, h⟩ := (bind_eq_ok _ _ _).mp h
    obtain ⟨q, hq, h⟩ := (bind_eq_ok _ _ _).mp h
    simp only [pure, Except.pure, Except.ok.injEq] at h
    subst h
    obtain ⟨h1, h2, h3⟩ := (check_kmat_ok_iff kmat k coeffs.length).mp hk
    exact ⟨⟨h1, h2⟩, ⟨q, hq⟩, h3, rfl, List.length_map _ _, rfl⟩
  refine ⟨⟨fun ⟨model, h⟩ => ⟨(hfwd model h).1, (hfwd model h).2.1⟩, ?_⟩,
    fun model h => (hfwd model h).2.2⟩
  rintro ⟨⟨h1, h2⟩, q, hq⟩
  obtain ⟨d, hd⟩ := build_dipolar_ok coeffs (coeffs.map fun coeff => coeff.sigma_Angstrom)
    (coeffs.map fun coeff => coeff.epsilon_over_k)
  have hk := (check_kmat_ok_iff kmat _ coeffs.length).mpr ⟨h1, h2, rfl⟩
  unfold PCSAFTMixture.from_coeffs
  simp only [hk, hd, hq, bind, Except.bind, pure, Except.pure]
  exact ⟨_, rfl⟩

theorem get_normal_fluid_ok (n : String) :
    ((∃ c, PCSAFTLibrary.get_normal_fluid n = Except.ok c)
        ↔ n ∈ ["Methane", "Ethane", "Propane"])
      ∧ ∀ c, PCSAFTLibrary.get_normal_fluid n = Except.ok c → c.Qstar2 * c.nQ = 0 := by
  have hM : PCSAFTLibrary.get_normal_fluid "Methane"
      = Except.ok ⟨"Methane", 1.0000, 3.7039, 150.03, "Gross-IECR-2001", 0, 0, 0, 0⟩ := rfl
  have hE : PCSAFTLibrary.get_normal_fluid "Ethane"
      = Except.ok ⟨"Ethane", 1.6069, 3.5206, 191.42, "Gross-IECR-2001", 0, 0, 0, 0⟩ := rfl
  have hP : PCSAFTLibrary.get_normal_fluid "Propane"
      = Except.ok ⟨"Propane", 2.0020, 3.6184, 208.11, "Gross-IECR-2001", 0, 0, 0, 0⟩ := rfl
  by_cases h1 : n = "Methane"
  · subst h1
    refine ⟨⟨fun _ => by decide, fun _ => ⟨_, hM⟩⟩, ?_⟩
    intro c hc
    rw [← Except.ok.inj (hM.symm.trans hc)]
    exact mul_zero _
  by_cases h2 : n = "Ethane"
  · subst h2
    refine ⟨⟨fun _ => by decide, fun _ => ⟨_, hE⟩⟩, ?_⟩
    intro c hc
    rw [← Except.ok.inj (hE.symm.trans hc)]
    exact mul_zero _
  by_cases h3 : n = "Propane"
  · subst h3
    refine ⟨⟨fun _ => by decide, fun _ => ⟨_, hP⟩⟩, ?_⟩
    intro c hc
    rw [← Except.ok.inj (hP.symm.trans hc)]
    exact mul_zero _
  have hnone : PCSAFTLibrary.get_normal_fluid n
      = Except.error (Failure.invalid_argument ("Bad name:" ++ n)) := by
    have b1 : (n == "Methane") = false := beq_false_of_ne h1
    have b2 : (n == "Ethane") = false := beq_false_of_ne h2
    have b3 : (n == "Propane") = false := beq_false_of_ne h3
    simp only [PCSAFTLibrary.get_normal_fluid, PCSAFTLibrary.coeffs,
      PCSAFTLibrary.insert_normal_fluid, List.lookup, b1, b2, b3]
    rfl
  refine ⟨⟨?_, ?_⟩, ?_⟩
  · rintro ⟨c, hc⟩
    rw [hnone] at hc
    cases hc
  · intro hmem
    simp only [List.mem_cons, List.mem_singleton, List.not_mem_nil, or_false] at hmem
    rcases hmem with h | h | h
    · exact absurd h h1
    · exact absurd h h2
    · exact absurd h h3
  · intro c hc
    rw [hnone] at hc
    cases hc

theorem get_coeffs_ok (names : List String) :
    ((∃ coeffs, PCSAFTLibrary.get_coeffs names = Except.ok coeffs)
        ↔ ∀ n ∈ names, n ∈ ["Methane", "Ethane", "Propane"])
      ∧ ∀ coeffs, PCSAFTLibrary.get_coeffs names = Except.ok coeffs →
          coeffs.length = names.length ∧ ∀ c ∈ coeffs, c.Qstar2 * c.nQ = 0 := by
  induction names with
  | nil =>
    refine ⟨⟨fun _ n hn => absurd hn (List.not_mem_nil n), fun _ => ⟨[], rfl⟩⟩, ?_⟩
    intro coeffs h
    simp only [PCSAFTLibrary.get_coeffs, pure, Except.pure, Except.ok.injEq] at h
    subst h
    exact ⟨rfl, fun c hc => absurd hc (List.not_mem_nil c)⟩
  | cons n names ih =>
    have hsplit : ∀ coeffs, PCSAFTLibrary.get_coeffs (n :: names) = Except.ok coeffs ↔
        ∃ c rest, PCSAFTLibrary.get_normal_fluid n = Except.ok c
          ∧ PCSAFTLibrary.get_coeffs names = Except.ok rest ∧ coeffs = c :: rest := by
      intro coeffs
      rw [PCSAFTLibrary.get_coeffs]
      constructor
      · intro h
        obtain ⟨c, hc, h⟩ := (bind_eq_ok _ _ _).mp h
        obtain ⟨rest, hrest, h⟩ := (bind_eq_ok _ _ _).mp h
        simp only [pure, Except.pure, Except.ok.injEq] at h
        exact ⟨c, rest, hc, hrest, h.symm⟩
      · rintro ⟨c, rest, hc, hrest, rfl⟩
        simp only [hc, hrest, bind, Except.bind, pure, Except.pure]
    refine ⟨⟨?_, ?_⟩, ?_⟩
    · rintro ⟨coeffs, h⟩
      obtain ⟨c, rest, hc, hrest, _⟩ := (hsplit coeffs).mp h
      intro x hx
      rcases List.mem_cons.mp hx with hx | hx
      · rw [hx]
        exact (get_normal_fluid_ok n).1.mp ⟨c, hc⟩
      · exact ih.1.mp ⟨rest, hrest⟩ x hx
    · intro hall
      obtain ⟨c, hc⟩ := (get_normal_fluid_ok n).1.mpr (hall n (List.mem_cons_self _ _))
      obtain ⟨rest, hrest⟩ := ih.1.mpr (fun x hx => hall x (List.mem_cons_of_mem _ hx))
      exact ⟨c :: rest, (hsplit _).mpr ⟨c, rest, hc, hrest, rfl⟩⟩
    · intro coeffs h
      obtain ⟨c, rest, hc, hrest, rfl⟩ := (hsplit coeffs).mp h
      obtain ⟨hlen, hzero⟩ := ih.2 rest hrest
      refine ⟨by simp [hlen], ?_⟩
      intro x hx
      rcases List.mem_cons.mp hx with hx | hx
      · rw [hx]
        exact (get_normal_fluid_ok n).2 c hc
      · exact hzero x hx

theorem from_names_ok_iff {Q : Type}
    (make_quadrupolar : List ℚ → List ℚ → List ℚ → List ℚ → List ℚ → Except Failure Q)
    (names : List String) (kmat : ArrayXXd) :
    ((∃ model, PCSAFTMixture.from_names make_quadrupolar names kmat = Except.ok model)
        ↔ (∀ n ∈ names, n ∈ ["Methane", "Ethane", "Propane"])
          ∧ kmat.cols = kmat.rows ∧ (kmat.cols = 0 ∨ kmat.cols = names.length))
      ∧ ∀ model, PCSAFTMixture.from_names make_quadrupolar names kmat = Except.ok model →
          model.kmat = (if kmat.cols = 0 then ArrayXXd.Zero names.length names.length
            else kmat)
          ∧ model.hardchain.kmat = model.kmat ∧ model.m.length = names.length := by
  have hfwd : ∀ model, PCSAFTMixture.from_names make_quadrupolar names kmat
      = Except.ok model →
      ((∀ n ∈ names, n ∈ ["Methane", "Ethane", "Propane"])
          ∧ kmat.cols = kmat.rows ∧ (kmat.cols = 0 ∨ kmat.cols = names.length))
        ∧ model.kmat = (if kmat.cols = 0 then ArrayXXd.Zero names.length names.length
            else kmat)
        ∧ model.hardchain.kmat = model.kmat ∧ model.m.length = names.length := by
    intro model h
    unfold PCSAFTMixture.from_names at h
    obtain ⟨coeffs, hcoeffs, h⟩ := (bind_eq_ok _ _ _).mp h
    obtain ⟨hlen, _⟩ := (get_coeffs_ok names).2 coeffs hcoeffs
    have hshape := (from_coeffs_ok_iff make_quadrupolar coeffs kmat).1.mp ⟨model, h⟩
    have hprops := (from_coeffs_ok_iff make_quadrupolar coeffs kmat).2 model h
    rw [hlen] at hshape hprops
    exact ⟨⟨(get_coeffs_ok names).1.mp ⟨coeffs, hcoeffs⟩, hshape.1⟩, hprops.1, hprops.2.1,
      hprops.2.2.1⟩
  refine ⟨⟨fun ⟨model, h⟩ => (hfwd model h).1, ?_⟩, fun model h => (hfwd model h).2⟩
  rintro ⟨hnames, hshape⟩
  obtain ⟨coeffs, hcoeffs⟩ := (get_coeffs_ok names).1.mpr hnames
  obtain ⟨hlen, hzero⟩ := (get_coeffs_ok names).2 coeffs hcoeffs
  rw [← hlen] at hshape
  obtain ⟨model, hmodel⟩ := (from_coeffs_ok_iff make_quadrupolar coeffs kmat).1.mpr
    ⟨hshape, none, build_quadrupolar_none make_quadrupolar _ _ _ coeffs hzero⟩
  refine ⟨model, ?_⟩
  unfold PCSAFTMixture.from_names
  rw [hcoeffs]
  exact hmodel

theorem factory_kmat_omitted (build_square_matrix : JsonValue → Except Failure ArrayXXd)
    (members : List (String × JsonValue)) (h : members.lookup "kmat" = none) :
    PCSAFTfactory.kmat build_square_matrix (JsonValue.object members) = Except.ok none := by
  simp [PCSAFTfactory.kmat, JsonValue.contains, h, pure, Except.pure]

theorem factory_kmat_null (build_square_matrix : JsonValue → Except Failure ArrayXXd)
    (members : List (String × JsonValue)) (v : JsonValue)
    (hv : v = JsonValue.null ∨ v = JsonValue.array []) :
    PCSAFTfactory.kmat build_square_matrix (JsonValue.object (("kmat", v) :: members))
      = Except.ok none := by
  rcases hv with rfl | rfl <;>
    simp [PCSAFTfactory.kmat, JsonValue.contains, JsonValue.at, List.lookup,
      JsonValue.is_array, JsonValue.size, bind, Except.bind, pure, Except.pure]

theorem factory_kmat_nonempty (build_square_matrix : JsonValue → Except Failure ArrayXXd)
    (spec : JsonValue) (a : List JsonValue)
    (h : spec.at "kmat" = Except.ok (JsonValue.array a)) (ha : a ≠ []) :
    PCSAFTfactory.kmat build_square_matrix spec
      = (build_square_matrix (JsonValue.array a)).map some := by
  cases spec with
  | object members =>
    cases hl : members.lookup "kmat" with
    | none => simp [JsonValue.at, hl, throw, throwThe, MonadExceptOf.throw] at h
    | some v =>
      simp only [JsonValue.at, hl, pure, Except.pure, Except.ok.injEq] at h
      subst h
      have hpos : 0 < a.length := List.length_pos.mpr ha
      simp only [PCSAFTfactory.kmat, JsonValue.contains, hl, Option.isSome_some, if_true,
        JsonValue.at, JsonValue.index, JsonValue.is_array, JsonValue.size, hpos, decide_True,
        Bool.and_self, bind, Except.bind, pure, Except.pure]
      cases build_square_matrix (JsonValue.array a) <;> rfl
  | null => simp [JsonValue.at, throw, throwThe, MonadExceptOf.throw] at h
  | number q => simp [JsonValue.at, throw, throwThe, MonadExceptOf.throw] at h
  | string s => simp [JsonValue.at, throw, throwThe, MonadExceptOf.throw] at h
  | array b => simp [JsonValue.at, throw, throwThe, MonadExceptOf.throw] at h

theorem factory_kmat_null_as_omitted {Q : Type}
    (build_square_matrix : JsonValue → Except Failure ArrayXXd)
    (make_quadrupolar : List ℚ → List ℚ → List ℚ → List ℚ → List ℚ → Except Failure Q)
    (members : List (String × JsonValue)) (v : JsonValue)
    (hv : v = JsonValue.null ∨ v = JsonValue.array [])
    (h : members.lookup "kmat" = none) :
    PCSAFTfactory build_square_matrix make_quadrupolar
        (JsonValue.object (("kmat", v) :: members))
      = PCSAFTfactory build_square_matrix make_quadrupolar (JsonValue.object members) := by
  have hnames : List.lookup "names" (("kmat", v) :: members) = List.lookup "names" members :=
    rfl
  have hcoeffs : List.lookup "coeffs" (("kmat", v) :: members)
      = List.lookup "coeffs" members := rfl
  unfold PCSAFTfactory
  rw [factory_kmat_null build_square_matrix members v hv,
    factory_kmat_omitted build_square_matrix members h]
  simp only [JsonValue.contains, JsonValue.index, hnames, hcoeffs]

theorem factory_kmat_dimension {Q : Type}
    (build_square_matrix : JsonValue → Except Failure ArrayXXd)
    (make_quadrupolar : List ℚ → List ℚ → List ℚ → List ℚ → List ℚ → Except Failure Q)
    (spec : JsonValue) (a : List JsonValue) (model : PCSAFTMixture Q)
    (hkmat : spec.at "kmat" = Except.ok (JsonValue.array a)) (ha : a ≠ [])
    (h : PCSAFTfactory build_square_matrix make_quadrupolar spec = Except.ok model) :
    ∃ k, build_square_matrix (JsonValue.array a) = Except.ok k ∧ k.rows = model.m.length
      ∧ k.cols = model.m.length := by
  unfold PCSAFTfactory at h
  rw [factory_kmat_nonempty build_square_matrix spec a hkmat ha] at h
  obtain ⟨kmat, hk, h⟩ := (bind_eq_ok _ _ _).mp h
  cases hb : build_square_matrix (JsonValue.array a) with
  | error e =>
    rw [hb] at hk
    simp [Except.map] at hk
  | ok k =>
    rw [hb] at hk
    simp only [Except.map, Except.ok.injEq] at hk
    subst hk
    refine ⟨k, rfl, ?_⟩
    by_cases hn : spec.contains "names" = true
    · rw [if_pos hn] at h
      obtain ⟨names, _, h⟩ := (bind_eq_ok _ _ _).mp h
      dsimp only at h
      by_cases hrows : k.rows ≠ names.length
      · rw [if_pos hrows] at h
        simp [throw, throwThe, MonadExceptOf.throw] at h
      · rw [if_neg hrows] at h
        have hshape := (from_names_ok_iff make_quadrupolar names k).1.mp ⟨model, h⟩
        have hprops := (from_names_ok_iff make_quadrupolar names k).2 model h
        rw [hprops.2.2]
        exact ⟨not_not.mp hrows, hshape.2.1.trans (not_not.mp hrows)⟩
    · rw [if_neg hn] at h
      by_cases hc : spec.contains "coeffs" = true
      · rw [if_pos hc] at h
        obtain ⟨coeffs, _, h⟩ := (bind_eq_ok _ _ _).mp h
        dsimp only at h
        by_cases hrows : k.rows ≠ coeffs.length
        · rw [if_pos hrows] at h
          simp [throw, throwThe, MonadExceptOf.throw] at h
        · rw [if_neg hrows] at h
          have hshape := (from_coeffs_ok_iff make_quadrupolar coeffs k).1.mp ⟨model, h⟩
          have hprops := (from_coeffs_ok_iff make_quadrupolar coeffs k).2 model h
          rw [hprops.2.2.1]
          exact ⟨not_not.mp hrows, hshape.1.1.trans (not_not.mp hrows)⟩
      · rw [if_neg hc] at h
        simp [throw, throwThe, MonadExceptOf.throw] at h

/-- C18: the construction of a PC-SAFT mixture from the coefficients of `N` components whose
quadrupolar contribution is absent, and from `N` names of the library, succeeds exactly when
`kmat` has no rows and no columns (as the omitted `kmat` has) or is `N` by `N`; every other
shape, among them 2 by 20 for two components, fails.  A model that is built holds the `N` by
`N` zero matrix when `kmat` was empty and `kmat` itself otherwise.  Through `PCSAFTfactory`,
a `kmat` that is `null` or an empty array gives the same result as a specification without
`kmat`, and when the `kmat` is a non-empty array a model is returned only if the matrix
built from it has as many rows and columns as the model has components. -/
theorem PCSAFT_kmat_shape {Q : Type}
    (build_square_matrix : JsonValue → Except Failure ArrayXXd)
    (make_quadrupolar : List ℚ → List ℚ → List ℚ → List ℚ → List ℚ → Except Failure Q) :
    (∀ (coeffs : List SAFTCoeffs) (kmat : ArrayXXd), (∀ c ∈ coeffs, c.Qstar2 * c.nQ = 0) →
        ((∃ model, PCSAFTMixture.from_coeffs make_quadrupolar coeffs kmat = Except.ok model)
          ↔ (kmat.rows = 0 ∧ kmat.cols = 0)
            ∨ (kmat.rows = coeffs.length ∧ kmat.cols = coeffs.length)))
      ∧ (∀ (coeffs : List SAFTCoeffs) (kmat : ArrayXXd) (model : PCSAFTMixture Q),
          PCSAFTMixture.from_coeffs make_quadrupolar coeffs kmat = Except.ok model →
          ((kmat.rows = 0 ∧ kmat.cols = 0)
            ∨ (kmat.rows = coeffs.length ∧ kmat.cols = coeffs.length))
          ∧ model.kmat = (if kmat.cols = 0 then ArrayXXd.Zero coeffs.length coeffs.length
              else kmat)
          ∧ model.hardchain.kmat = model.kmat)
      ∧ (∀ (names : List String) (kmat : ArrayXXd),
          (∀ n ∈ names, n ∈ ["Methane", "Ethane", "Propane"]) →
          ((∃ model, PCSAFTMixture.from_names make_quadrupolar names kmat = Except.ok model)
            ↔ (kmat.rows = 0 ∧ kmat.cols = 0)
              ∨ (kmat.rows = names.length ∧ kmat.cols = names.length)))
      ∧ (∀ (names : List String) (kmat : ArrayXXd) (model : PCSAFTMixture Q),
          PCSAFTMixture.from_names make_quadrupolar names kmat = Except.ok model →
          model.kmat = (if kmat.cols = 0 then ArrayXXd.Zero names.length names.length
              else kmat)
          ∧ model.hardchain.kmat = model.kmat)
      ∧ (∀ (members : List (String × JsonValue)) (v : JsonValue),
          v = JsonValue.null ∨ v = JsonValue.array [] → members.lookup "kmat" = none →
          PCSAFTfactory build_square_matrix make_quadrupolar
              (JsonValue.object (("kmat", v) :: members))
            = PCSAFTfactory build_square_matrix make_quadrupolar (JsonValue.object members))
      ∧ (∀ (spec : JsonValue) (a : List JsonValue) (model : PCSAFTMixture Q),
          spec.at "kmat" = Except.ok (JsonValue.array a) → a ≠ [] →
          PCSAFTfactory build_square_matrix make_quadrupolar spec = Except.ok model →
          ∃ k, build_square_matrix (JsonValue.array a) = Except.ok k
            ∧ k.rows = model.m.length ∧ k.cols = model.m.length) := by
  refine ⟨?_, ?_, ?_, ?_, ?_, ?_⟩
  · intro coeffs kmat hzero
    rw [(from_coeffs_ok_iff make_quadrupolar coeffs kmat).1]
    have hq : ∃ q, PCSAFTMixture.build_quadrupolar make_quadrupolar
        (coeffs.map fun coeff => coeff.m) (coeffs.map fun coeff => coeff.sigma_Angstrom)
        (coeffs.map fun coeff => coeff.epsilon_over_k) coeffs = Except.ok q :=
      ⟨none, build_quadrupolar_none make_quadrupolar _ _ _ coeffs hzero⟩
    constructor
    · rintro ⟨⟨h1, h2⟩, _⟩
      omega
    · intro h
      exact ⟨⟨by omega, by omega⟩, hq⟩
  · intro coeffs kmat model h
    have hshape := (from_coeffs_ok_iff make_quadrupolar coeffs kmat).1.mp ⟨model, h⟩
    have hprops := (from_coeffs_ok_iff make_quadrupolar coeffs kmat).2 model h
    exact ⟨by omega, hprops.1, hprops.2.1⟩
  · intro names kmat hnames
    rw [(from_names_ok_iff make_quadrupolar names kmat).1]
    constructor
    · rintro ⟨_, h1, h2⟩
      omega
    · intro h
      exact ⟨hnames, by omega, by omega⟩
  · intro names kmat model h
    have hprops := (from_names_ok_iff make_quadrupolar names kmat).2 model h
    exact ⟨hprops.1, hprops.2.1⟩
  · intro members v hv hmem
    exact factory_kmat_null_as_omitted build_square_matrix make_quadrupolar members v hv hmem
  · intro spec a model hkmat ha h
    exact factory_kmat_dimension build_square_matrix make_quadrupolar spec a model hkmat ha h

/-- C18, at the two components with `m = 1, 2`, `sigma = 0.9, 1.1`, `epsilon/k = 120, 130`
and a `kmat` of 2 rows and 20 columns: no model is built. -/
theorem PCSAFT_kmat_shape_witness :
    ¬ ∃ model, PCSAFTMixture.from_coeffs (fun _ _ _ _ _ => Except.ok ())
        [⟨"", 1, 0.9, 120, "", 0, 0, 0, 0⟩, ⟨"", 2, 1.1, 130, "", 0, 0, 0, 0⟩]
        (ArrayXXd.Zero 2 20) = Except.ok model :=
  fun h => absurd (((PCSAFT_kmat_shape (fun _ => Except.ok ArrayXXd.empty)
      (fun _ _ _ _ _ => Except.ok ())).1
      [⟨"", 1, 0.9, 120, "", 0, 0, 0, 0⟩, ⟨"", 2, 1.1, 130, "", 0, 0, 0, 0⟩]
      (ArrayXXd.Zero 2 20)
      (by intro c hc; simp at hc; rcases hc with rfl | rfl <;> simp)).mp h) (by decide)

/-! ### PC-SAFT: the factory and the constructor from coefficients -/

theorem read_coeff_to_json (r : CoefficientRecord) :
    PCSAFTfactory.read_coeff r.to_json = Except.ok r.to_SAFTCoeffs := by
  obtain ⟨name, m, sigma, eps, key, dipole, quadrupole⟩ := r
  rcases dipole with _ | ⟨mustar2, nmu⟩ <;> rcases quadrupole with _ | ⟨Qstar2, nQ⟩ <;>
    simp [PCSAFTfactory.read_coeff, CoefficientRecord.to_json,
      CoefficientRecord.to_SAFTCoeffs, JsonValue.at, JsonValue.contains, List.lookup,
      JsonValue.get_string, JsonValue.get_double, SAFTCoeffs.init, bind, Except.bind, pure,
      Except.pure]

theorem read_coeffs_loop (records : List CoefficientRecord) :
    ∀ acc : List SAFTCoeffs,
      (records.map CoefficientRecord.to_json).foldlM (fun coeffs j => do
          let c ← PCSAFTfactory.read_coeff j
          pure (coeffs ++ [c])) acc
        = Except.ok (acc ++ records.map CoefficientRecord.to_SAFTCoeffs) := by
  induction records with
  | nil =>
    intro acc
    simp [pure, Except.pure]
  | cons r records ih =>
    intro acc
    rw [List.map_cons, List.foldlM_cons, read_coeff_to_json]
    simp only [bind, Except.bind, pure, Except.pure]
    have h := ih (acc ++ [r.to_SAFTCoeffs])
    simp only [bind, Except.bind, pure, Except.pure] at h
    rw [h, List.map_cons, List.append_assoc, List.singleton_append]

theorem read_coeffs_to_json (records : List CoefficientRecord) :
    PCSAFTfactory.read_coeffs (JsonValue.array (records.map CoefficientRecord.to_json))
      = Except.ok (records.map CoefficientRecord.to_SAFTCoeffs) := by
  unfold PCSAFTfactory.read_coeffs
  rw [JsonValue.elements, read_coeffs_loop records []]
  rfl

/-- C19: for every list of coefficient records, `PCSAFTfactory` applied to a specification
whose `coeffs` are the JSON forms of the records, and which has neither `names` nor `kmat`,
does what the constructor of `PCSAFTMixture` does with the `SAFTCoeffs` of the same values
and the default (empty) `kmat`: both fail in the same way or both give the same model, so
that `alphar(T, rho, x)` of the two is the same for all `T`, `rho` and `x`, whatever the
evaluations of the contributions are. -/
theorem PCSAFTfactory_coeffs_same_alphar {S Q : Type} [Field S]
    (build_square_matrix : JsonValue → Except Failure ArrayXXd)
    (make_quadrupolar : List ℚ → List ℚ → List ℚ → List ℚ → List ℚ → Except Failure Q)
    (hardchain_eval : PCSAFTHardChainContribution → S → S → List S → Except Failure (S × S × S))
    (N_A : S)
    (dipolar_eval : DipolarContributionGrossVrabec → S → S → S → List S → Except Failure S)
    (quadrupolar_eval : Q → S → S → S → List S → Except Failure S)
    (records : List CoefficientRecord) (members : List (String × JsonValue))
    (hcoeffs : members.lookup "coeffs"
      = some (JsonValue.array (records.map CoefficientRecord.to_json)))
    (hnames : members.lookup "names" = none) (hkmat : members.lookup "kmat" = none) :
    PCSAFTfactory build_square_matrix make_quadrupolar (JsonValue.object members)
        = PCSAFTMixture.from_coeffs make_quadrupolar
            (records.map CoefficientRecord.to_SAFTCoeffs) ArrayXXd.empty
      ∧ ∀ (T rho : S) (x : List S),
        (PCSAFTfactory build_square_matrix make_quadrupolar (JsonValue.object members)
            >>= fun model => model.alphar hardchain_eval N_A dipolar_eval quadrupolar_eval
              T rho x)
          = (PCSAFTMixture.from_coeffs make_quadrupolar
              (records.map CoefficientRecord.to_SAFTCoeffs) ArrayXXd.empty
            >>= fun model => model.alphar hardchain_eval N_A dipolar_eval quadrupolar_eval
              T rho x) := by
  have h : PCSAFTfactory build_square_matrix make_quadrupolar (JsonValue.object members)
      = PCSAFTMixture.from_coeffs make_quadrupolar
          (records.map CoefficientRecord.to_SAFTCoeffs) ArrayXXd.empty := by
    unfold PCSAFTfactory
    rw [factory_kmat_omitted build_square_matrix members hkmat]
    simp only [JsonValue.contains, JsonValue.index, hnames, hcoeffs, Option.isSome_none,
      Option.isSome_some, Bool.false_eq_true, if_false, if_true, bind, Except.bind, pure,
      Except.pure, read_coeffs_to_json]
  exact ⟨h, fun T rho x => by rw [h]⟩

/-- C19, at the record of acetone with its dipole: the factory and the constructor give the
same result. -/
theorem PCSAFTfactory_coeffs_same_alphar_witness :
    PCSAFTfactory (fun _ => Except.ok ArrayXXd.empty) (fun _ _ _ _ _ => Except.ok ())
        (JsonValue.object [("coeffs", JsonValue.array [CoefficientRecord.to_json
          ⟨"acetone", 2.7447, 3.2742, 232.99, "Gross-IECR-2001", some (1.9, 1), none⟩])])
      = PCSAFTMixture.from_coeffs (fun _ _ _ _ _ => Except.ok ())
          [CoefficientRecord.to_SAFTCoeffs
            ⟨"acetone", 2.7447, 3.2742, 232.99, "Gross-IECR-2001", some (1.9, 1), none⟩]
          ArrayXXd.empty :=
  (PCSAFTfactory_coeffs_same_alphar (fun _ => Except.ok ArrayXXd.empty)
    (fun _ _ _ _ _ => Except.ok ()) (fun _ (_ : ℚ) _ _ => Except.ok (0, 0, 0)) (0 : ℚ)
    (fun _ _ _ _ _ => Except.ok 0) (fun _ _ _ _ _ => Except.ok 0)
    [⟨"acetone", 2.7447, 3.2742, 232.99, "Gross-IECR-2001", some (1.9, 1), none⟩]
    [("coeffs", JsonValue.array [CoefficientRecord.to_json
      ⟨"acetone", 2.7447, 3.2742, 232.99, "Gross-IECR-2001", some (1.9, 1), none⟩])]
    rfl rfl rfl).1

/-! ### The C interface -/

theorem to_key_injective (a b : ℤ) (ha : is_long_long a) (hb : is_long_long b)
    (h : to_key a = to_key b) : a = b := by
  unfold is_long_long at ha hb
  unfold to_key at h
  norm_num at ha hb
  have h' : a % 2 ^ 64 = b % 2 ^ 64 := by
    have h1 := congrArg (Int.ofNat) h
    simp only [Int.ofNat_eq_coe] at h1
    rw [Int.toNat_of_nonneg (Int.emod_nonneg _ (by norm_num)),
      Int.toNat_of_nonneg (Int.emod_nonneg _ (by norm_num))] at h1
    exact h1
  norm_num at h'
  omega

theorem is_long_long_to_long_long (z : ℤ) : is_long_long (to_long_long z) := by
  unfold is_long_long to_long_long
  norm_num
  omega

theorem lookup_emplace_some {M : Type} (library : List (ℕ × M)) (k key : ℕ) (model x : M)
    (h : library.lookup k = some x) :
    (library_emplace library key model).lookup k = some x := by
  unfold library_emplace
  split_ifs
  · exact h
  · rw [List.lookup_append, h]
    rfl

theorem lookup_emplace_self {M : Type} (library : List (ℕ × M)) (key : ℕ) (model : M) :
    ∃ x, (library_emplace library key model).lookup key = some x := by
  unfold library_emplace
  by_cases h : (library.lookup key).isSome = true
  · rw [if_pos h]
    exact Option.isSome_iff_exists.mp h
  · rw [if_neg h, List.lookup_append]
    have hnone : library.lookup key = none := by
      cases hl : library.lookup key with
      | none => rfl
      | some x => rw [hl] at h; exact absurd rfl h
    rw [hnone]
    exact ⟨model, by simp [List.lookup]⟩

theorem lookup_emplace_ne {M : Type} (library : List (ℕ × M)) (k key : ℕ) (model : M)
    (h : k ≠ key) : (library_emplace library key model).lookup k = library.lookup k := by
  unfold library_emplace
  split_ifs
  · rfl
  · rw [List.lookup_append]
    have hk : (k == key) = false := beq_false_of_ne h
    simp [List.lookup, hk]

theorem lookup_erase {M : Type} (library : List (ℕ × M)) (k key : ℕ) :
    (library_erase library key).lookup k = if k = key then none else library.lookup k := by
  unfold library_erase
  induction library with
  | nil => simp
  | cons kv rest ih =>
    obtain ⟨k', m⟩ := kv
    by_cases hk' : k' = key
    · subst hk'
      rw [List.filter_cons_of_neg (by simp), ih]
      by_cases hk : k = k'
      · simp [hk]
      · have hb : (k == k') = false := beq_false_of_ne hk
        simp [hk, List.lookup, hb]
    · rw [List.filter_cons_of_pos (by simpa using hk')]
      by_cases hk : k = k'
      · subst hk
        simp [List.lookup, hk']
      · have hb : (k == k') = false := beq_false_of_ne hk
        simp only [List.lookup, hb, ih]

theorem call_run_next_index {J M : Type} (env : Interface J M) (before : Outcome M)
    (call : Call) (h : is_long_long before.globals.next_index) :
    is_long_long (call.run env before).globals.next_index := by
  cases call with
  | build_model j =>
    simp only [Call.run, build_model]
    cases env.parse j with
    | error what => exact h
    | ok json =>
      dsimp only
      cases env.make_model json with
      | error what => exact is_long_long_to_long_long _
      | ok model => exact is_long_long_to_long_long _
  | free_model uuid => exact h
  | get_Arxy uuid NT ND T rho molefrac =>
    simp only [Call.run, get_Arxy]
    cases before.globals.library.lookup (to_key uuid) with
    | none => exact h
    | some model =>
      dsimp only
      cases env.model_get_Arxy model NT ND T rho molefrac with
      | error e => exact h
      | ok v => exact h

theorem get_Arxy_globals {J M : Type} (env : Interface J M) (g : Globals M) (uuid NT ND : ℤ)
    (T rho : ℚ) (molefrac : List ℚ) (uuid_out : ℤ) (val : ℚ) (errmsg : String) :
    (get_Arxy env g uuid NT ND T rho molefrac uuid_out val errmsg).globals = g := by
  unfold get_Arxy
  cases g.library.lookup (to_key uuid) with
  | none => rfl
  | some model =>
    dsimp only
    cases env.model_get_Arxy model NT ND T rho molefrac with
    | error e => rfl
    | ok v => rfl

theorem build_model_ok {J M : Type} (env : Interface J M) (g : Globals M) (j : String)
    (uuid : ℤ) (val : ℚ) (errmsg : String)
    (h : (build_model env g j uuid val errmsg).errcode = 0) :
    ∃ json model, env.parse j = Except.ok json ∧ env.make_model json = Except.ok model
      ∧ build_model env g j uuid val errmsg
        = ⟨⟨to_long_long (g.next_index + 1),
            library_emplace g.library (to_key g.next_index) model⟩,
          0, g.next_index, val, errmsg⟩ := by
  unfold build_model at h ⊢
  cases hp : env.parse j with
  | error what =>
    rw [hp] at h
    simp [exception_handler] at h
  | ok json =>
    rw [hp] at h
    dsimp only at h ⊢
    cases hm : env.make_model json with
    | error what =>
      rw [hm] at h
      simp [exception_handler] at h
    | ok model => exact ⟨json, model, rfl, hm, rfl⟩

theorem build_model_library {J M : Type} (env : Interface J M) (g : Globals M) (j : String)
    (uuid : ℤ) (val : ℚ) (errmsg : String) :
    (build_model env g j uuid val errmsg).globals.library = g.library
      ∨ ∃ model, (build_model env g j uuid val errmsg).errcode = 0
          ∧ (build_model env g j uuid val errmsg).uuid = g.next_index
          ∧ (build_model env g j uuid val errmsg).globals.library
            = library_emplace g.library (to_key g.next_index) model := by
  unfold build_model
  cases env.parse j with
  | error what => exact Or.inl rfl
  | ok json =>
    dsimp only
    cases env.make_model json with
    | error what => exact Or.inl rfl
    | ok model => exact Or.inr ⟨model, rfl, rfl, rfl⟩

theorem run_keeps_model {J M : Type} (env : Interface J M) (uid : ℤ) (model : M)
    (huid : is_long_long uid) :
    ∀ (calls : List Call) (before : Outcome M),
      before.globals.library.lookup (to_key uid) = some model →
      (∀ uuid, Call.free_model uuid ∈ calls → is_long_long uuid ∧ uuid ≠ uid) →
      (run_calls env before calls).globals.library.lookup (to_key uid) = some model := by
  intro calls
  induction calls with
  | nil => intro before h _; exact h
  | cons call calls ih =>
    intro before h hfree
    unfold run_calls
    rw [List.foldl_cons]
    refine ih (call.run env before) ?_ (fun uuid hu => hfree uuid (List.mem_cons_of_mem _ hu))
    cases call with
    | build_model j =>
      simp only [Call.run]
      rcases build_model_library env before.globals j before.uuid before.val before.errmsg
        with hl | ⟨m, _, _, hl⟩
      · rw [hl]; exact h
      · rw [hl]; exact lookup_emplace_some _ _ _ _ _ h
    | free_model uuid =>
      obtain ⟨hrange, hne⟩ := hfree uuid (List.mem_cons_self _ _)
      have hkey : to_key uid ≠ to_key uuid :=
        fun hk => hne (to_key_injective uid uuid huid hrange hk).symm
      simp only [Call.run, free_model]
      rw [lookup_erase, if_neg hkey]
      exact h
    | get_Arxy uuid NT ND T rho molefrac =>
      simp only [Call.run]
      rw [get_Arxy_globals]
      exact h

theorem run_keeps_absent {J M : Type} (env : Interface J M) (uuid : ℤ)
    (huuid : is_long_long uuid) :
    ∀ (calls : List Call) (before : Outcome M),
      before.globals.library.lookup (to_key uuid) = none →
      is_long_long before.globals.next_index →
      never_issued env uuid before calls →
      (run_calls env before calls).globals.library.lookup (to_key uuid) = none := by
  intro calls
  induction calls with
  | nil => intro before h _ _; exact h
  | cons call calls ih =>
    intro before h hnext hnever
    unfold run_calls
    rw [List.foldl_cons]
    obtain ⟨hnot, hrest⟩ := hnever
    refine ih (call.run env before) ?_ (call_run_next_index env before call hnext) hrest
    cases call with
    | build_model j =>
      simp only [Call.issues, Call.run] at hnot
      simp only [Call.run]
      rcases build_model_library env before.globals j before.uuid before.val before.errmsg
        with hl | ⟨m, hcode, huid, hl⟩
      · rw [hl]; exact h
      · rw [hl]
        have hne : uuid ≠ before.globals.next_index := fun he => hnot ⟨hcode, huid.trans he.symm⟩
        have hkey : to_key uuid ≠ to_key before.globals.next_index :=
          fun hk => hne (to_key_injective _ _ huuid hnext hk)
        rw [lookup_emplace_ne _ _ _ _ hkey]
        exact h
    | free_model uuid' =>
      simp only [Call.run, free_model]
      rw [lookup_erase]
      split_ifs
      · rfl
      · exact h
    | get_Arxy uuid' NT ND T rho molefrac =>
      simp only [Call.run]
      rw [get_Arxy_globals]
      exact h

theorem get_Arxy_absent {J M : Type} (env : Interface J M) (g : Globals M) (uuid NT ND : ℤ)
    (T rho : ℚ) (molefrac : List ℚ) (uuid_out : ℤ) (val : ℚ) (errmsg : String)
    (h : g.library.lookup (to_key uuid) = none) :
    get_Arxy env g uuid NT ND T rho molefrac uuid_out val errmsg
      = ⟨g, 9999, uuid_out, val, "std::exception"⟩ := by
  unfold get_Arxy
  rw [h]
  rfl

/-- C20: a uuid that a successful `build_model` (return code 0) has stored stays a key of the
library, with one and the same model, through every sequence of calls that does not free
it, and `get_Arxy` on a key of the library returns 0 and stores the value whenever the
model gives one.  `free_model` returns 0 for every uuid; after it, and through every
sequence of calls in which no `build_model` issues that uuid again, `get_Arxy` on the uuid
returns the error code 9999 and leaves `val` as it was; the same holds, from the start of
the program, for every uuid that no call has issued. -/
theorem uuid_valid_until_freed {J M : Type} (env : Interface J M) :
    (∀ (before : Outcome M) (j : String), is_long_long before.globals.next_index →
        ((Call.build_model j).run env before).errcode = 0 →
        ∃ model, ∀ calls : List Call,
          (∀ uuid, Call.free_model uuid ∈ calls →
            is_long_long uuid ∧ uuid ≠ ((Call.build_model j).run env before).uuid) →
          (run_calls env ((Call.build_model j).run env before) calls).globals.library.lookup
              (to_key ((Call.build_model j).run env before).uuid) = some model)
      ∧ (∀ (before : Outcome M) (uuid NT ND : ℤ) (T rho : ℚ) (molefrac : List ℚ) (model : M)
          (v : ℚ), before.globals.library.lookup (to_key uuid) = some model →
          env.model_get_Arxy model NT ND T rho molefrac = Except.ok v →
          ((Call.get_Arxy uuid NT ND T rho molefrac).run env before).errcode = 0
            ∧ ((Call.get_Arxy uuid NT ND T rho molefrac).run env before).val = v)
      ∧ (∀ (before : Outcome M) (uuid : ℤ),
          ((Call.free_model uuid).run env before).errcode = 0)
      ∧ (∀ (before : Outcome M) (uuid : ℤ) (calls : List Call), is_long_long uuid →
          is_long_long before.globals.next_index →
          never_issued env uuid ((Call.free_model uuid).run env before) calls →
          ∀ (NT ND : ℤ) (T rho : ℚ) (molefrac : List ℚ),
            ((Call.get_Arxy uuid NT ND T rho molefrac).run env
                (run_calls env ((Call.free_model uuid).run env before) calls)).errcode = 9999
              ∧ ((Call.get_Arxy uuid NT ND T rho molefrac).run env
                (run_calls env ((Call.free_model uuid).run env before) calls)).val
                = (run_calls env ((Call.free_model uuid).run env before) calls).val)
      ∧ (∀ (start : Outcome M) (uuid : ℤ) (calls : List Call), is_long_long uuid →
          start.globals.next_index = 0 → start.globals.library = [] →
          never_issued env uuid start calls →
          ∀ (NT ND : ℤ) (T rho : ℚ) (molefrac : List ℚ),
            ((Call.get_Arxy uuid NT ND T rho molefrac).run env
                (run_calls env start calls)).errcode = 9999
              ∧ ((Call.get_Arxy uuid NT ND T rho molefrac).run env
                (run_calls env start calls)).val = (run_calls env start calls).val) := by
  refine ⟨?_, ?_, ?_, ?_, ?_⟩
  · intro before j hnext hcode
    simp only [Call.run] at hcode ⊢
    obtain ⟨json, model, _, _, heq⟩ := build_model_ok env before.globals j before.uuid
      before.val before.errmsg hcode
    obtain ⟨x, hx⟩ := lookup_emplace_self before.globals.library
      (to_key before.globals.next_index) model
    refine ⟨x, fun calls hfree => ?_⟩
    rw [heq] at hfree ⊢
    exact run_keeps_model env _ x hnext calls _ hx hfree
  · intro before uuid NT ND T rho molefrac model v hl hv
    simp only [Call.run, get_Arxy, hl, hv, and_self]
  · intro before uuid
    rfl
  · intro before uuid calls huuid hnext hnever NT ND T rho molefrac
    have habsent := run_keeps_absent env uuid huuid calls
      ((Call.free_model uuid).run env before)
      (by simp only [Call.run, free_model]; rw [lookup_erase, if_pos rfl]) hnext hnever
    simp only [Call.run] at habsent ⊢
    rw [get_Arxy_absent env _ uuid NT ND T rho molefrac _ _ _ habsent]
    exact ⟨rfl, rfl⟩
  · intro start uuid calls huuid hnext hlib hnever NT ND T rho molefrac
    have habsent := run_keeps_absent env uuid huuid calls start
      (by rw [hlib]; rfl) (by rw [hnext]; unfold is_long_long; norm_num) hnever
    simp only [Call.run]
    rw [get_Arxy_absent env _ uuid NT ND T rho molefrac _ _ _ habsent]
    exact ⟨rfl, rfl⟩

/-- C20, at the start of the program and the uuid 7 after one model has been built: the
uuid 7 has not been issued, `get_Arxy` returns 9999 and `val` keeps its value. -/
theorem uuid_valid_until_freed_witness :
    ((Call.get_Arxy 7 0 0 300 1 [1]).run
        (⟨fun _ => Except.ok (), fun _ => Except.ok (), fun _ _ _ _ _ _ => Except.ok 1,
          "key not found"⟩ : Interface Unit Unit)
        (run_calls ⟨fun _ => Except.ok (), fun _ => Except.ok (),
            fun _ _ _ _ _ _ => Except.ok 1, "key not found"⟩
          ⟨Globals.init, 0, -1, -1, ""⟩ [Call.build_model "PR"])).errcode = 9999
      ∧ ((Call.get_Arxy 7 0 0 300 1 [1]).run
        (⟨fun _ => Except.ok (), fun _ => Except.ok (), fun _ _ _ _ _ _ => Except.ok 1,
          "key not found"⟩ : Interface Unit Unit)
        (run_calls ⟨fun _ => Except.ok (), fun _ => Except.ok (),
            fun _ _ _ _ _ _ => Except.ok 1, "key not found"⟩
          ⟨Globals.init, 0, -1, -1, ""⟩ [Call.build_model "PR"])).val
        = (run_calls (⟨fun _ => Except.ok (), fun _ => Except.ok (),
            fun _ _ _ _ _ _ => Except.ok 1, "key not found"⟩ : Interface Unit Unit)
          ⟨Globals.init, 0, -1, -1, ""⟩ [Call.build_model "PR"]).val :=
  (uuid_valid_until_freed (⟨fun _ => Except.ok (), fun _ => Except.ok (),
      fun _ _ _ _ _ _ => Except.ok 1, "key not found"⟩ : Interface Unit Unit)).2.2.2.2
    ⟨Globals.init, 0, -1, -1, ""⟩ 7 [Call.build_model "PR"]
    (by unfold is_long_long; norm_num) rfl rfl
    ⟨fun h => by simp [Call.issues, Call.run, build_model, Globals.init] at h, trivial⟩
    0 0 300 1 [1]

/-! ### Forward-mode differentiation -/

theorem forward_mode_sum {N : Nat} (x : Fin N → ℝ) (f : Fin N → ℝ → ℝ → ℝ)
    (f' : Fin N → DualNumber ℝ → DualNumber ℝ → DualNumber ℝ)
    (tau delta : ℝ → ℝ) (dtau ddelta t : ℝ)
    (h : ∀ i, x i ≠ 0 → forward_mode_at (f i) (f' i) tau delta dtau ddelta t) :
    forward_mode_at (fun a b => ∑ i, x i * f i a b)
      (fun a b => ∑ i, TrivSqZeroExt.inl (x i) * f' i a b) tau delta dtau ddelta t := by
  have hterm : ∀ i, (TrivSqZeroExt.inl (x i) * f' i (dual_number (tau t) dtau)
        (dual_number (delta t) ddelta)).fst = x i * f i (tau t) (delta t)
      ∧ HasDerivAt (fun s => x i * f i (tau s) (delta s))
        (TrivSqZeroExt.inl (x i) * f' i (dual_number (tau t) dtau)
          (dual_number (delta t) ddelta)).snd t := by
    intro i
    by_cases hx : x i = 0
    · simp [hx, hasDerivAt_const]
    · obtain ⟨h1, h2⟩ := h i hx
      constructor
      · rw [TrivSqZeroExt.fst_mul, TrivSqZeroExt.fst_inl, h1]
      · have h3 := h2.const_mul (x i)
        rw [DualNumber.snd_mul, TrivSqZeroExt.fst_inl, TrivSqZeroExt.snd_inl, zero_mul,
          add_zero]
        exact h3
  constructor
  · show (∑ i, TrivSqZeroExt.inl (x i) * f' i _ _).fst = _
    rw [TrivSqZeroExt.fst_sum]
    exact Finset.sum_congr rfl (fun i _ => (hterm i).1)
  · show HasDerivAt _ (∑ i, TrivSqZeroExt.inl (x i) * f' i _ _).snd t
    rw [TrivSqZeroExt.snd_sum]
    exact HasDerivAt.sum (fun i _ => (hterm i).2)

theorem corresponding_states_forward_mode {E : Type} (evE : E → ℝ → ℝ → ℝ)
    (evE' : E → DualNumber ℝ → DualNumber ℝ → DualNumber ℝ) (N : Nat) (EOS : Fin N → E)
    (x : Fin N → ℝ) (tau delta : ℝ → ℝ) (dtau ddelta t : ℝ)
    (hE : ∀ i, forward_mode_at (evE (EOS i)) (evE' (EOS i)) tau delta dtau ddelta t) :
    forward_mode_at
      (fun a b => ok_or
        (CorrespondingStatesContribution.alphar evE ⟨List.ofFn EOS⟩ a b (List.ofFn x)) 0)
      (fun a b => ok_or
        (CorrespondingStatesContribution.alphar evE' ⟨List.ofFn EOS⟩ a b
          (List.ofFn fun i => TrivSqZeroExt.inl (x i))) 0)
      tau delta dtau ddelta t := by
  simp only [corresponding_states_alphar_ofFn, ok_or]
  exact forward_mode_sum x (fun i => evE (EOS i)) (fun i => evE' (EOS i)) tau delta dtau ddelta
    t (fun i _ => hE i)

theorem departure_forward_mode {D : Type} (evD : D → ℝ → ℝ → ℝ)
    (evD' : D → DualNumber ℝ → DualNumber ℝ → DualNumber ℝ) (N : Nat) (F : Nat → Nat → ℝ)
    (Dep : Fin N → Fin N → D) (x : Fin N → ℝ) (tau delta : ℝ → ℝ) (dtau ddelta t : ℝ)
    (hD : ∀ i j, i < j →
      forward_mode_at (evD (Dep i j)) (evD' (Dep i j)) tau delta dtau ddelta t) :
    forward_mode_at
      (fun a b => ok_or
        (DepartureContribution.alphar evD ⟨F, List.ofFn fun i => List.ofFn (Dep i)⟩ a b
          (List.ofFn x)) 0)
      (fun a b => ok_or
        (DepartureContribution.alphar evD'
          ⟨fun i j => TrivSqZeroExt.inl (F i j), List.ofFn fun i => List.ofFn (Dep i)⟩ a b
          (List.ofFn fun i => TrivSqZeroExt.inl (x i))) 0)
      tau delta dtau ddelta t := by
  simp only [departure_alphar_ofFn, ok_or]
  have hplain : (fun a b : ℝ => ∑ i : Fin N, ∑ j : Fin N,
        if i < j then x i * x j * F i j * evD (Dep i j) a b else 0)
      = fun a b => ∑ i : Fin N, (1 : ℝ) * ∑ j : Fin N,
        (if i < j then x i * x j * F i j else 0) * evD (Dep i j) a b := by
    funext a b
    refine Finset.sum_congr rfl (fun i _ => ?_)
    rw [one_mul]
    refine Finset.sum_congr rfl (fun j _ => ?_)
    split_ifs
    · rfl
    · rw [zero_mul]
  have hdual : (fun a b : DualNumber ℝ => ∑ i : Fin N, ∑ j : Fin N,
        if i < j then TrivSqZeroExt.inl (x i) * TrivSqZeroExt.inl (x j)
          * TrivSqZeroExt.inl (F i j) * evD' (Dep i j) a b else 0)
      = fun a b => ∑ i : Fin N, TrivSqZeroExt.inl (1 : ℝ) * ∑ j : Fin N,
        TrivSqZeroExt.inl (if i < j then x i * x j * F i j else 0) * evD' (Dep i j) a b := by
    funext a b
    refine Finset.sum_congr rfl (fun i _ => ?_)
    rw [TrivSqZeroExt.inl_one, one_mul]
    refine Finset.sum_congr rfl (fun j _ => ?_)
    split_ifs
    · rw [TrivSqZeroExt.inl_mul, TrivSqZeroExt.inl_mul]
    · rw [TrivSqZeroExt.inl_zero, zero_mul]
  rw [hplain, hdual]
  refine forward_mode_sum (fun _ => 1) _ _ tau delta dtau ddelta t (fun i _ => ?_)
  refine forward_mode_sum _ (fun j => evD (Dep i j)) (fun j => evD' (Dep i j)) tau delta dtau
    ddelta t (fun j hj => ?_)
  have hij : i < j := by
    by_contra hcon
    exact hj (if_neg hcon)
  exact hD i j hij

theorem dual_number_eta (a : DualNumber ℝ) : dual_number a.fst a.snd = a := rfl

theorem dual_div_const_left (c T dT t : ℝ) (Tf : ℝ → ℝ) (hT : HasDerivAt Tf dT t)
    (hTt : Tf t = T) (hT0 : T ≠ 0) :
    (dual_div (TrivSqZeroExt.inl c) (dual_number T dT)).fst = c / T
      ∧ HasDerivAt (fun s => c / Tf s)
          (dual_div (TrivSqZeroExt.inl c) (dual_number T dT)).snd t := by
  subst hTt
  constructor
  · simp [dual_div, dual_number, TrivSqZeroExt.fst_mul, div_eq_mul_inv]
  · have h1 := (hT.inv hT0).const_mul c
    have h2 : (dual_div (TrivSqZeroExt.inl c) (dual_number (Tf t) dT)).snd
        = c * (-dT / Tf t ^ 2) := by
      simp [dual_div, dual_number, DualNumber.snd_mul, TrivSqZeroExt.snd_inv,
        TrivSqZeroExt.fst_inv]
      ring
    rw [h2]
    simpa [div_eq_mul_inv] using h1

theorem dual_div_const_right (c rho drho t : ℝ) (rhof : ℝ → ℝ) (hrho : HasDerivAt rhof drho t)
    (hrhot : rhof t = rho) :
    (dual_div (dual_number rho drho) (TrivSqZeroExt.inl c)).fst = rho / c
      ∧ HasDerivAt (fun s => rhof s / c)
          (dual_div (dual_number rho drho) (TrivSqZeroExt.inl c)).snd t := by
  subst hrhot
  constructor
  · simp [dual_div, dual_number, TrivSqZeroExt.fst_mul, div_eq_mul_inv]
  · have h1 := hrho.div_const c
    have h2 : (dual_div (dual_number (rhof t) drho) (TrivSqZeroExt.inl c)).snd = drho / c := by
      simp [dual_div, dual_number, DualNumber.snd_mul, TrivSqZeroExt.snd_inv,
        TrivSqZeroExt.fst_inv, div_eq_mul_inv]
    rw [h2]
    exact h1

theorem multifluid_forward_mode {E D : Type} (evE : E → ℝ → ℝ → ℝ)
    (evE' : E → DualNumber ℝ → DualNumber ℝ → DualNumber ℝ) (evD : D → ℝ → ℝ → ℝ)
    (evD' : D → DualNumber ℝ → DualNumber ℝ → DualNumber ℝ) (N : Nat) (EOS : Fin N → E)
    (F : Nat → Nat → ℝ) (Dep : Fin N → Fin N → D) (x : Fin N → ℝ)
    (hE : ∀ i, forward_mode (evE (EOS i)) (evE' (EOS i)))
    (hD : ∀ i j, i < j → forward_mode (evD (Dep i j)) (evD' (Dep i j)))
    (redfunc : ReducingFunctions ℝ) (redfunc' : ReducingFunctions (DualNumber ℝ))
    (T rho : ℝ → ℝ) (dT drho t : ℝ) (hT : HasDerivAt T dT t) (hrho : HasDerivAt rho drho t)
    (hT0 : T t ≠ 0)
    (hTr : redfunc'.get_Tr (List.ofFn fun i => TrivSqZeroExt.inl (x i))
      = TrivSqZeroExt.inl (redfunc.get_Tr (List.ofFn x)))
    (hrhor : redfunc'.get_rhor (List.ofFn fun i => TrivSqZeroExt.inl (x i))
      = TrivSqZeroExt.inl (redfunc.get_rhor (List.ofFn x))) :
    forward_mode_at
      (fun a b => ok_or (MultiFluid.alphar evE evD
        ⟨redfunc, ⟨List.ofFn EOS⟩, ⟨F, List.ofFn fun i => List.ofFn (Dep i)⟩⟩ a b
        (List.ofFn x)) 0)
      (fun a b => ok_or (MultiFluid.alphar evE' evD'
        ⟨redfunc', ⟨List.ofFn EOS⟩,
          ⟨fun i j => TrivSqZeroExt.inl (F i j), List.ofFn fun i => List.ofFn (Dep i)⟩⟩ a b
        (List.ofFn fun i => TrivSqZeroExt.inl (x i))) 0)
      T rho dT drho t := by
  obtain ⟨htau1, htau2⟩ := dual_div_const_left (redfunc.get_Tr (List.ofFn x)) (T t) dT t T hT
    rfl hT0
  obtain ⟨hdelta1, hdelta2⟩ := dual_div_const_right (redfunc.get_rhor (List.ofFn x)) (rho t)
    drho t rho hrho rfl
  have hplain : ∀ a b : ℝ, ok_or (MultiFluid.alphar evE evD
        ⟨redfunc, ⟨List.ofFn EOS⟩, ⟨F, List.ofFn fun i => List.ofFn (Dep i)⟩⟩ a b
        (List.ofFn x)) 0
      = ok_or (CorrespondingStatesContribution.alphar evE ⟨List.ofFn EOS⟩
          (redfunc.get_Tr (List.ofFn x) / a) (b / redfunc.get_rhor (List.ofFn x))
          (List.ofFn x)) 0
        + ok_or (DepartureContribution.alphar evD ⟨F, List.ofFn fun i => List.ofFn (Dep i)⟩
          (redfunc.get_Tr (List.ofFn x) / a) (b / redfunc.get_rhor (List.ofFn x))
          (List.ofFn x)) 0 := by
    intro a b
    unfold MultiFluid.alphar
    simp only [CorrespondingStatesContribution.size, List.length_ofFn, ne_eq,
      not_true_eq_false, if_false, corresponding_states_alphar_ofFn, departure_alphar_ofFn,
      ok_or]
    rfl
  have hdual : ∀ a b : DualNumber ℝ, ok_or (MultiFluid.alphar evE' evD'
        ⟨redfunc', ⟨List.ofFn EOS⟩,
          ⟨fun i j => TrivSqZeroExt.inl (F i j), List.ofFn fun i => List.ofFn (Dep i)⟩⟩ a b
        (List.ofFn fun i => TrivSqZeroExt.inl (x i))) 0
      = ok_or (CorrespondingStatesContribution.alphar evE' ⟨List.ofFn EOS⟩
          (dual_div (TrivSqZeroExt.inl (redfunc.get_Tr (List.ofFn x))) a)
          (dual_div b (TrivSqZeroExt.inl (redfunc.get_rhor (List.ofFn x))))
          (List.ofFn fun i => TrivSqZeroExt.inl (x i))) 0
        + ok_or (DepartureContribution.alphar evD'
          ⟨fun i j => TrivSqZeroExt.inl (F i j), List.ofFn fun i => List.ofFn (Dep i)⟩
          (dual_div (TrivSqZeroExt.inl (redfunc.get_Tr (List.ofFn x))) a)
          (dual_div b (TrivSqZeroExt.inl (redfunc.get_rhor (List.ofFn x))))
          (List.ofFn fun i => TrivSqZeroExt.inl (x i))) 0 := by
    intro a b
    unfold MultiFluid.alphar
    simp only [CorrespondingStatesContribution.size, List.length_ofFn, ne_eq,
      not_true_eq_false, if_false, corresponding_states_alphar_ofFn, departure_alphar_ofFn,
      ok_or, hTr, hrhor]
    rfl
  have hcs := corresponding_states_forward_mode evE evE' N EOS x
    (fun s => redfunc.get_Tr (List.ofFn x) / T s)
    (fun s => rho s / redfunc.get_rhor (List.ofFn x)) _ _ t
    (fun i => hE i _ _ _ _ t htau2 hdelta2)
  have hdep := departure_forward_mode evD evD' N F Dep x
    (fun s => redfunc.get_Tr (List.ofFn x) / T s)
    (fun s => rho s / redfunc.get_rhor (List.ofFn x)) _ _ t
    (fun i j hij => hD i j hij _ _ _ _ t htau2 hdelta2)
  unfold forward_mode_at at hcs hdep ⊢
  simp only [hplain, hdual]
  have e1 : dual_number (redfunc.get_Tr (List.ofFn x) / T t)
      (dual_div (TrivSqZeroExt.inl (redfunc.get_Tr (List.ofFn x))) (dual_number (T t) dT)).snd
      = dual_div (TrivSqZeroExt.inl (redfunc.get_Tr (List.ofFn x))) (dual_number (T t) dT) := by
    rw [← htau1]
    rfl
  have e2 : dual_number (rho t / redfunc.get_rhor (List.ofFn x))
      (dual_div (dual_number (rho t) drho)
        (TrivSqZeroExt.inl (redfunc.get_rhor (List.ofFn x)))).snd
      = dual_div (dual_number (rho t) drho)
        (TrivSqZeroExt.inl (redfunc.get_rhor (List.ofFn x))) := by
    rw [← hdelta1]
    rfl
  rw [e1, e2] at hcs hdep
  exact ⟨by rw [TrivSqZeroExt.fst_add, hcs.1, hdep.1],
    by rw [TrivSqZeroExt.snd_add]; exact hcs.2.add hdep.2⟩

theorem forward_mode_mul : forward_mode (fun a b => a * b) (fun a b => a * b) := by
  intro tau delta dtau ddelta t htau hdelta
  refine ⟨rfl, ?_⟩
  have h := htau.mul hdelta
  have e : (dual_number (tau t) dtau * dual_number (delta t) ddelta).snd
      = dtau * delta t + tau t * ddelta := by
    rw [DualNumber.snd_mul]
    show tau t * ddelta + dtau * delta t = _
    ring
  rw [e]
  exact h

theorem log_slope_limit (c : ℝ) :
    Filter.Tendsto (fun rho : ℝ => Real.log (1 - c * rho) / rho)
      (nhdsWithin 0 (Set.Ioi 0)) (nhds (-c)) := by
  have h1 : HasDerivAt (fun rho : ℝ => 1 - c * rho) (-c) 0 := by
    have := ((hasDerivAt_id (0 : ℝ)).const_mul c).const_sub 1
    simpa using this
  have h2 : HasDerivAt (fun rho : ℝ => Real.log (1 - c * rho)) (-c) 0 := by
    have := h1.log (by norm_num)
    simpa using this
  have h3 := h2.tendsto_slope_zero_right
  refine h3.congr (fun t => ?_)
  simp [div_eq_inv_mul]

/-- The general expression of `get_alphar_hs`, on `zeta[n] = c n * rho`, divided by
`zeta[3]`, tends to `1 + 3 c1 c2 / (c0 c3)` as the density tends to zero from above. -/
theorem hs_ratio_limit (c0 c1 c2 c3 : ℝ) (h0 : 0 < c0) (h3 : 0 < c3) :
    Filter.Tendsto (fun rho : ℝ =>
        (1 / (c0 * rho) * (3 * (c1 * rho) * (c2 * rho) / (1 - c3 * rho)
          + (c2 * rho) * (c2 * rho) * (c2 * rho) / (c3 * rho) / (1 - c3 * rho)
            / (1 - c3 * rho)
          + ((c2 * rho) * (c2 * rho) * (c2 * rho) / ((c3 * rho) * (c3 * rho)) - c0 * rho)
            * Real.log (1 - c3 * rho))) / (c3 * rho))
      (nhdsWithin 0 (Set.Ioi 0)) (nhds (1 + 3 * c1 * c2 / (c0 * c3))) := by
  have hlog := log_slope_limit c3
  have hU : Filter.Tendsto (fun rho : ℝ => 1 - c3 * rho) (nhdsWithin 0 (Set.Ioi 0))
      (nhds 1) := by
    have hc : Continuous (fun rho : ℝ => 1 - c3 * rho) := by continuity
    have := hc.tendsto 0
    simp only [mul_zero, sub_zero] at this
    exact this.mono_left nhdsWithin_le_nhds
  have hUinv : Filter.Tendsto (fun rho : ℝ => (1 - c3 * rho)⁻¹) (nhdsWithin 0 (Set.Ioi 0))
      (nhds 1) := by
    have := hU.inv₀ one_ne_zero
    simpa using this
  have hg : Filter.Tendsto (fun rho : ℝ =>
      1 / (c0 * c3) * (3 * c1 * c2 * (1 - c3 * rho)⁻¹
        + c2 ^ 3 / c3 * ((1 - c3 * rho)⁻¹ * (1 - c3 * rho)⁻¹)
        + (c2 ^ 3 / c3 ^ 2 - c0) * (Real.log (1 - c3 * rho) / rho)))
      (nhdsWithin 0 (Set.Ioi 0))
      (nhds (1 / (c0 * c3) * (3 * c1 * c2 * 1 + c2 ^ 3 / c3 * (1 * 1)
        + (c2 ^ 3 / c3 ^ 2 - c0) * (-c3)))) :=
    (((hUinv.const_mul _).add ((hUinv.mul hUinv).const_mul _)).add
      (hlog.const_mul _)).const_mul _
  have hval : 1 / (c0 * c3) * (3 * c1 * c2 * 1 + c2 ^ 3 / c3 * (1 * 1)
      + (c2 ^ 3 / c3 ^ 2 - c0) * (-c3)) = 1 + 3 * c1 * c2 / (c0 * c3) := by
    field_simp
    ring
  rw [hval] at hg
  refine hg.congr' ?_
  have hmem : Set.Ioo (0 : ℝ) (1 / c3) ∈ nhdsWithin (0 : ℝ) (Set.Ioi 0) :=
    Ioo_mem_nhdsWithin_Ioi (Set.left_mem_Ico.mpr (by positivity))
  filter_upwards [hmem] with rho hrho
  have hr : rho ≠ 0 := ne_of_gt hrho.1
  have hu : 1 - c3 * rho ≠ 0 := by
    have : c3 * rho < 1 := by
      have := (lt_div_iff₀ h3).mp hrho.2
      linarith
    linarith
  field_simp
  ring

/-- C22: for the mixture of two components with mole fractions 1/2, 1/2, segment numbers 1, 1
and diameters 1, 2, `get_alphar_hs` takes its zero-density branch `4 * zeta[3]` at density
zero, but its general expression divided by `zeta[3]` tends to 7/2, and not to 4, as the
density tends to zero from above. -/
theorem get_alphar_hs_mixture_low_density :
    get_alphar_hs Real.log (PCSAFT.zeta (Real.pi / 6) 0 [1 / 2, 1 / 2] [1, 1] [1, 2])
        = 4 * PCSAFT.zeta (Real.pi / 6) 0 [1 / 2, 1 / 2] [1, 1] [1, 2] 3
      ∧ Filter.Tendsto (fun rho : ℝ =>
          get_alphar_hs Real.log (PCSAFT.zeta (Real.pi / 6) rho [1 / 2, 1 / 2] [1, 1] [1, 2])
            / PCSAFT.zeta (Real.pi / 6) rho [1 / 2, 1 / 2] [1, 1] [1, 2] 3)
          (nhdsWithin 0 (Set.Ioi 0)) (nhds (7 / 2))
      ∧ ¬ Filter.Tendsto (fun rho : ℝ =>
          get_alphar_hs Real.log (PCSAFT.zeta (Real.pi / 6) rho [1 / 2, 1 / 2] [1, 1] [1, 2])
            / PCSAFT.zeta (Real.pi / 6) rho [1 / 2, 1 / 2] [1, 1] [1, 2] 3)
          (nhdsWithin 0 (Set.Ioi 0)) (nhds 4) := by
  have hpi : (0 : ℝ) < Real.pi / 6 := by positivity
  have hz0 : ∀ rho : ℝ, PCSAFT.zeta (Real.pi / 6) rho [1 / 2, 1 / 2] [1, 1] [1, 2] 0
      = Real.pi / 6 * 1 * rho := by
    intro rho
    simp [PCSAFT.zeta]
    ring
  have hz1 : ∀ rho : ℝ, PCSAFT.zeta (Real.pi / 6) rho [1 / 2, 1 / 2] [1, 1] [1, 2] 1
      = Real.pi / 6 * (3 / 2) * rho := by
    intro rho
    simp [PCSAFT.zeta]
    ring
  have hz2 : ∀ rho : ℝ, PCSAFT.zeta (Real.pi / 6) rho [1 / 2, 1 / 2] [1, 1] [1, 2] 2
      = Real.pi / 6 * (5 / 2) * rho := by
    intro rho
    simp [PCSAFT.zeta]
    ring
  have hz3 : ∀ rho : ℝ, PCSAFT.zeta (Real.pi / 6) rho [1 / 2, 1 / 2] [1, 1] [1, 2] 3
      = Real.pi / 6 * (9 / 2) * rho := by
    intro rho
    simp [PCSAFT.zeta]
    ring
  have hlim : Filter.Tendsto (fun rho : ℝ =>
      get_alphar_hs Real.log (PCSAFT.zeta (Real.pi / 6) rho [1 / 2, 1 / 2] [1, 1] [1, 2])
        / PCSAFT.zeta (Real.pi / 6) rho [1 / 2, 1 / 2] [1, 1] [1, 2] 3)
      (nhdsWithin 0 (Set.Ioi 0)) (nhds (7 / 2)) := by
    have h := hs_ratio_limit (Real.pi / 6 * 1) (Real.pi / 6 * (3 / 2)) (Real.pi / 6 * (5 / 2))
      (Real.pi / 6 * (9 / 2)) (by positivity) (by positivity)
    have hval : 1 + 3 * (Real.pi / 6 * (3 / 2)) * (Real.pi / 6 * (5 / 2))
        / (Real.pi / 6 * 1 * (Real.pi / 6 * (9 / 2))) = (7 / 2 : ℝ) := by
      field_simp
      ring
    rw [hval] at h
    refine h.congr' ?_
    filter_upwards [self_mem_nhdsWithin] with rho hrho
    have hr : rho ≠ 0 := ne_of_gt hrho
    have h3 : ¬ Real.pi / 6 * (9 / 2) * rho = 0 := by positivity
    simp only [get_alphar_hs, hz0, hz1, hz2, hz3, if_neg h3]
  refine ⟨?_, hlim, ?_⟩
  · unfold get_alphar_hs
    rw [if_pos (by rw [hz3 0]; ring)]
  · intro h4
    have := tendsto_nhds_unique hlim h4
    norm_num at this

/-! ### Polar contributions: the third-order quadrupolar term -/

theorem get_JDD_3ijk_zero_one : get_JDD_3ijk (0 : ℝ) 1 = ((-0.0646774 : ℚ) : ℝ) := by
  simp [get_JDD_3ijk, get_JDD_3ijk.c_0, get_JDD_3ijk.c_1, get_JDD_3ijk.c_2, List.range_succ]

theorem get_JQQ_3ijk_zero_one : get_JQQ_3ijk (0 : ℝ) 1 = ((0.5000437 : ℚ) : ℝ) := by
  simp [get_JQQ_3ijk, get_JQQ_3ijk.c_0, get_JQQ_3ijk.c_1, get_JQQ_3ijk.c_2, List.range_succ]

/-- C23: `get_alpha3QQ` is computed with the dipolar integral `get_JDD_3ijk`, not with the
quadrupolar integral `get_JQQ_3ijk`.  For one component with `m = sigma = epsilon/k = Q*2 =
nQ = 1` at `T = 1`, `rho = 1`, `eta = 0`, `x = 1` it returns
`-(4 pi^2 / 3) (3/4)^3 get_JDD_3ijk(0, 1)`, whereas the term of the specification is
`-(4 pi^2 / 3) (3/4)^3 get_JQQ_3ijk(0, 1)`, and the two differ. -/
theorem get_alpha3QQ_uses_dipolar_integral (cbrt : ℚ → ℚ) (hcbrt : cbrt 1 = 1) :
    QuadrupolarContributionGrossVrabec.get_alpha3QQ cbrt Real.pi
        ⟨[1], [1], [1], [1], [1], true⟩ (1 : ℝ) 1 0 [1]
      = Except.ok (-4 * Real.pi ^ 2 / 3 * (3 / 4) ^ 3 * get_JDD_3ijk (0 : ℝ) 1)
    ∧ alpha3QQ_spec cbrt Real.pi ⟨[1], [1], [1], [1], [1], true⟩ (1 : ℝ) 1 0 [1]
      = -4 * Real.pi ^ 2 / 3 * (3 / 4) ^ 3 * get_JQQ_3ijk (0 : ℝ) 1
    ∧ QuadrupolarContributionGrossVrabec.get_alpha3QQ cbrt Real.pi
        ⟨[1], [1], [1], [1], [1], true⟩ (1 : ℝ) 1 0 [1]
      ≠ Except.ok (alpha3QQ_spec cbrt Real.pi ⟨[1], [1], [1], [1], [1], true⟩ (1 : ℝ) 1 0 [1]) := by
  have hmin : min (cbrt 1) 2 = (1 : ℚ) := by
    rw [hcbrt]
    norm_num
  have h1 : QuadrupolarContributionGrossVrabec.get_alpha3QQ cbrt Real.pi
        ⟨[1], [1], [1], [1], [1], true⟩ (1 : ℝ) 1 0 [1]
      = Except.ok (-4 * Real.pi ^ 2 / 3 * (3 / 4) ^ 3 * get_JDD_3ijk (0 : ℝ) 1) := by
    simp [QuadrupolarContributionGrossVrabec.get_alpha3QQ, array_at, List.range_succ,
      bind, Except.bind, pure, Except.pure, hmin]
  have h2 : alpha3QQ_spec cbrt Real.pi ⟨[1], [1], [1], [1], [1], true⟩ (1 : ℝ) 1 0 [1]
      = -4 * Real.pi ^ 2 / 3 * (3 / 4) ^ 3 * get_JQQ_3ijk (0 : ℝ) 1 := by
    simp [alpha3QQ_spec, List.range_succ, hmin]
    ring
  refine ⟨h1, h2, ?_⟩
  rw [h1, h2, get_JDD_3ijk_zero_one, get_JQQ_3ijk_zero_one]
  intro h
  have h' := Except.ok.inj h
  have hpi : Real.pi ^ 2 ≠ 0 := pow_ne_zero 2 Real.pi_ne_zero
  have h3 : ((-0.0646774 : ℚ) : ℝ) = ((0.5000437 : ℚ) : ℝ) := by
    have h4 : (-4 * Real.pi ^ 2 / 3 * (3 / 4) ^ 3 : ℝ) ≠ 0 := by positivity
    exact mul_left_cancel₀ h4 h'
  norm_num at h3

/-- C23, with the identity in the place of the cube root, which it agrees with at 1. -/
theorem get_alpha3QQ_uses_dipolar_integral_witness :
    QuadrupolarContributionGrossVrabec.get_alpha3QQ (fun q => q) Real.pi
        ⟨[1], [1], [1], [1], [1], true⟩ (1 : ℝ) 1 0 [1]
      ≠ Except.ok (alpha3QQ_spec (fun q => q) Real.pi ⟨[1], [1], [1], [1], [1], true⟩
          (1 : ℝ) 1 0 [1]) :=
  (get_alpha3QQ_uses_dipolar_integral (fun q => q) rfl).2.2

/-! ### Plain terms from arrays `l` that are not zero -/

/-- C24: with `l = [-1, 1]` (and `n = t = d = [1, 1]`) both builders accept the description
and, the sum of `l` being zero, build one plain term and nothing else, although no entry of
`l` is zero: the entry with `l_i = 1` is evaluated without its damping factor.  At
`tau = delta = 1` the container evaluates to 2 and the damped term with the same arrays
(`c = [0, 1]`) to `1 + exp(-1)`, and the two differ. -/
theorem build_power_zero_sum_is_plain (rest : EOSTerm → ℝ → ℝ → ℝ) :
    get_EOS_terms [power_term "ResidualHelmholtzPower" [1, 1] [1, 1] [1, 1] [-1, 1]]
        = Except.ok [EOSTerm.JustPower ⟨[1, 1], [1, 1], [1, 1]⟩]
      ∧ build_departure_function (power_term "Exponential" [1, 1] [1, 1] [1, 1] [-1, 1])
        = Except.ok [EOSTerm.JustPower ⟨[1, 1], [1, 1], [1, 1]⟩]
      ∧ EOSTermContainer.alphar (fun x q => x ^ (q : ℝ)) Real.exp rest
          [EOSTerm.JustPower ⟨[1, 1], [1, 1], [1, 1]⟩] 1 1 = 2
      ∧ EOSTermContainer.alphar (fun x q => x ^ (q : ℝ)) Real.exp rest
          [EOSTerm.Power ⟨[1, 1], [1, 1], [1, 1], [0, 1], [-1, 1], [-1, 1]⟩] 1 1
          = 1 + Real.exp (-1)
      ∧ (2 : ℝ) ≠ 1 + Real.exp (-1) := by
  have hc : cast_int (-1) = -1 := by
    have := cast_int_intCast (-1) (by norm_num) (by norm_num)
    simpa using this
  have hc1 : cast_int 1 = 1 := by
    have := cast_int_intCast 1 (by norm_num) (by norm_num)
    simpa using this
  refine ⟨?_, ?_, ?_, ?_, ?_⟩
  · simp [get_EOS_terms, get_EOS_terms.check_types, get_EOS_terms.isallowed,
      get_EOS_terms.allowed_types, get_EOS_terms.add, Json.get_string,
      get_EOS_terms.build_power, power_term, member, List.lookup, Json.size, eigorzero,
      Json.empty, toeig, build_power.read_l, build_power.add_terms, non_integer_entry,
      hc, hc1, head, tail, add_term, bind, Except.bind, pure, Except.pure]
  · simp [build_departure_function, member_at, Json.get_string,
      build_departure_function.build_power, lengths_all_same, power_term, member, List.lookup,
      Json.size, eigorzero, Json.empty, toeig, build_power.read_l, build_power.add_terms,
      non_integer_entry, hc, hc1, head, tail, add_term, bind, Except.bind, pure,
      Except.pure]
  · simp [EOSTermContainer.alphar, EOSTerm.alphar, JustPowerEOSTerm.alphar,
      PowerEOSTerm.alphar, List.range_succ]
    norm_num
  · simp [EOSTermContainer.alphar, EOSTerm.alphar, JustPowerEOSTerm.alphar,
      PowerEOSTerm.alphar, List.range_succ]
  · have : Real.exp (-1) < 1 := by
      rw [Real.exp_lt_one_iff]
      norm_num
    linarith

/-! ### The lookup of a departure function by name or alias -/

/-- C25: in the collection whose one element has the `Name` `Methane-Ethane` and the alias
`C1-C2`, `get_departure_json` finds the element under the string `C1-C2`, by its second
pass.  The lambda `get_departure_json` of `get_departure_function_matrix` compares the string
with the `Name` only and throws, so the assembly of the matrix for two components whose
binary-interaction entry has the `function` `C1-C2` fails. -/
theorem departure_matrix_ignores_aliases :
    get_departure_json (fun _ => true)
        (fun _ => Except.ok (JsonValue.array [JsonValue.object
          [("Name", JsonValue.string "Methane-Ethane"),
            ("aliases", JsonValue.array [JsonValue.string "C1-C2"]),
            ("type", JsonValue.string "none")]])) "C1-C2" "departure.json"
      = Except.ok (JsonValue.object
          [("Name", JsonValue.string "Methane-Ethane"),
            ("aliases", JsonValue.array [JsonValue.string "C1-C2"]),
            ("type", JsonValue.string "none")])
    ∧ description_of (JsonValue.object
          [("Name", JsonValue.string "Methane-Ethane"),
            ("aliases", JsonValue.array [JsonValue.string "C1-C2"]),
            ("type", JsonValue.string "none")])
      = [("Name", Json.string "Methane-Ethane"), ("type", Json.string "none")]
    ∧ get_departure_function_matrix.get_departure_json
        [[("Name", Json.string "Methane-Ethane"), ("type", Json.string "none")]] "C1-C2"
      = Except.error (Failure.invalid_argument "Bad departure function name: C1-C2")
    ∧ get_departure_function_matrix
        [[("Name", Json.string "Methane-Ethane"), ("type", Json.string "none")]]
        (fun _ _ => Except.ok ([("function", Json.string "C1-C2")], false))
        ["Methane", "Ethane"]
      = Except.error (Failure.invalid_argument "Bad departure function name: C1-C2")
    ∧ get_departure_function_matrix
        [[("Name", Json.string "Methane-Ethane"), ("type", Json.string "none")]]
        (fun _ _ => Except.ok ([("function", Json.string "Methane-Ethane")], false))
        ["Methane", "Ethane"]
      = Except.ok [[[], [EOSTerm.Null]], [[EOSTerm.Null], []]] := by
  refine ⟨rfl, rfl, rfl, rfl, rfl⟩

/-! ### The recursion of `LJ126Johnson1993::get_Gi` -/

/-- A call of `get_Gi` with `i ≥ 1` returns exactly when `i` calls are allowed. -/
theorem get_Gi_isSome_iff {S : Type} [Field S] (powi : S → ℤ → S) (F rhostar : S) :
    ∀ (calls : Nat) (i : ℤ), 1 ≤ i →
      ((LJ126Johnson1993.get_Gi powi calls i F rhostar).isSome ↔ i ≤ (calls : ℤ)) := by
  intro calls
  induction calls with
  | zero =>
    intro i hi
    simp only [LJ126Johnson1993.get_Gi, Option.isSome_none, Nat.cast_zero]
    constructor
    · intro h; cases h
    · intro h; omega
  | succ n ih =>
    intro i hi
    unfold LJ126Johnson1993.get_Gi
    by_cases h1 : i = 1
    · rw [if_pos h1]
      simp only [Option.isSome_some, true_iff]
      push_cast
      omega
    · rw [if_neg h1]
      have hi2 : 1 ≤ i - 1 := by omega
      have := ih (i - 1) hi2
      cases hG : LJ126Johnson1993.get_Gi powi n (i - 1) F rhostar with
      | none =>
        rw [hG] at this
        simp only [Option.isSome_none] at this ⊢
        constructor
        · intro h; cases h
        · intro h
          push_cast at h
          have : i - 1 ≤ (n : ℤ) := by omega
          exact absurd (by assumption) (by
            intro h2
            have := (‹(false = true) ↔ i - 1 ≤ (n : ℤ)›).mpr h2
            cases this)
      | some G =>
        rw [hG] at this
        simp only [Option.isSome_some, true_iff] at this ⊢
        push_cast
        omega

/-- A call of `get_Gi` with `i ≤ 0` does not return, whatever the number of calls allowed. -/
theorem get_Gi_nonpositive {S : Type} [Field S] (powi : S → ℤ → S) (F rhostar : S) :
    ∀ (calls : Nat) (i : ℤ), i ≤ 0 → LJ126Johnson1993.get_Gi powi calls i F rhostar = none := by
  intro calls
  induction calls with
  | zero => intro i _; rfl
  | succ n ih =>
    intro i hi
    unfold LJ126Johnson1993.get_Gi
    rw [if_neg (by omega), ih (i - 1) (by omega)]

/-- Every index of the first loop of `get_alphar` is in the table of `get_ai`. -/
theorem get_ai_ok {S : Type} [Field S] (sqrt : S → S) (Tstar : S) (k : Nat)
    (hk : k ∈ List.range' 1 8) : ∃ a, LJ126Johnson1993.get_ai sqrt (k : ℤ) Tstar = Except.ok a := by
  simp only [List.mem_range'_1] at hk
  obtain ⟨h1, h2⟩ := hk
  interval_cases k <;> exact ⟨_, rfl⟩

/-- Every index of the second loop of `get_alphar` is in the table of `get_bi`. -/
theorem get_bi_ok {S : Type} [Field S] (Tstar : S) (k : Nat)
    (hk : k ∈ List.range' 1 6) : ∃ b, LJ126Johnson1993.get_bi (k : ℤ) Tstar = Except.ok b := by
  simp only [List.mem_range'_1] at hk
  obtain ⟨h1, h2⟩ := hk
  interval_cases k <;> exact ⟨_, rfl⟩

/-- The first loop of `get_alphar` returns when its indices are in the table of `get_ai`. -/
theorem get_alphar_loop_a_ok {S : Type} [Field S] (sqrt : S → S) (powi : S → ℤ → S)
    (Tstar rhostar : S) :
    ∀ (l : List Nat) (summer : S),
      (∀ k ∈ l, ∃ a, LJ126Johnson1993.get_ai sqrt (k : ℤ) Tstar = Except.ok a) →
      ∃ r, LJ126Johnson1993.get_alphar.loop_a sqrt powi Tstar rhostar l summer = Except.ok r := by
  intro l
  induction l with
  | nil => intro summer _; exact ⟨summer, rfl⟩
  | cons i rest ih =>
    intro summer h
    obtain ⟨a, ha⟩ := h i (List.mem_cons_self _ _)
    unfold LJ126Johnson1993.get_alphar.loop_a
    rw [ha]
    exact ih _ (fun k hk => h k (List.mem_cons_of_mem _ hk))

/-- The second loop of `get_alphar` returns when its indices are in the table of `get_bi`,
are at least 1 and are at most the number of calls allowed. -/
theorem get_alphar_loop_b_ok {S : Type} [Field S] (powi : S → ℤ → S) (calls : Nat)
    (Tstar F rhostar : S) :
    ∀ (l : List Nat) (summer : S),
      (∀ k ∈ l, 1 ≤ k ∧ k ≤ calls ∧
        ∃ b, LJ126Johnson1993.get_bi (k : ℤ) Tstar = (Except.ok b : Except Failure S)) →
      ∃ r, LJ126Johnson1993.get_alphar.loop_b powi calls Tstar F rhostar l summer
        = some (Except.ok r) := by
  intro l
  induction l with
  | nil => intro summer _; exact ⟨summer, rfl⟩
  | cons i rest ih =>
    intro summer h
    obtain ⟨h1, h2, b, hb⟩ := h i (List.mem_cons_self _ _)
    have hs := (get_Gi_isSome_iff powi F rhostar calls (i : ℤ) (by exact_mod_cast h1)).mpr
      (by exact_mod_cast h2)
    obtain ⟨G, hG⟩ := Option.isSome_iff_exists.mp hs
    unfold LJ126Johnson1993.get_alphar.loop_b
    rw [hb]
    simp only [hG]
    exact ih _ (fun k hk => h k (List.mem_cons_of_mem _ hk))

/-- C26: `get_Gi` is a recursion on `i` with the base case `i = 1`.  For `i ≥ 1` the call
returns exactly when `i` calls (the first and `i - 1` recursive ones) are allowed; `G_1` is
`(1 - F) / (2 gamma)` and, for `i ≥ 2`, `G_i` is
`(2 (i - 1) G_(i-1) - F rho^(2 (i - 1))) / (2 gamma)`.  The loops of `get_alphar` call
`get_ai` with the indices 1 to 8 and `get_bi`, `get_Gi` with the indices 1 to 6, all inside
the tables, so that `get_alphar` returns a number, with six calls allowed for each `get_Gi`. -/
theorem get_Gi_terminates {S : Type} [Field S] (sqrt ex : S → S) (powi : S → ℤ → S)
    (i : ℤ) (hi : 1 ≤ i) (F Tstar rhostar : S) :
    (∀ calls : Nat, (LJ126Johnson1993.get_Gi powi calls i F rhostar).isSome ↔ i ≤ (calls : ℤ))
    ∧ LJ126Johnson1993.get_Gi powi 1 1 F rhostar
        = some ((1 - F) / (2 * ((LJ126Johnson1993.gamma : ℚ) : S)))
    ∧ (2 ≤ i → ∃ G, LJ126Johnson1993.get_Gi powi (i - 1).toNat (i - 1) F rhostar = some G
        ∧ LJ126Johnson1993.get_Gi powi i.toNat i F rhostar
          = some ((2 * (((i - 1 : ℤ)) : S) * G - F * powi rhostar (2 * (i - 1)))
              / (2 * ((LJ126Johnson1993.gamma : ℚ) : S))))
    ∧ (∀ k ∈ List.range' 1 8, 1 ≤ k ∧ k ≤ 8
        ∧ ∃ a, LJ126Johnson1993.get_ai sqrt (k : ℤ) Tstar = Except.ok a)
    ∧ (∀ k ∈ List.range' 1 6, 1 ≤ k ∧ k ≤ 6
        ∧ (∃ b, LJ126Johnson1993.get_bi (k : ℤ) Tstar = (Except.ok b : Except Failure S))
        ∧ (LJ126Johnson1993.get_Gi powi k (k : ℤ) F rhostar).isSome)
    ∧ (∀ calls : Nat, 6 ≤ calls →
        ∃ r, LJ126Johnson1993.get_alphar sqrt ex powi calls Tstar rhostar
          = some (Except.ok r)) := by
  refine ⟨fun calls => get_Gi_isSome_iff powi F rhostar calls i hi, rfl, ?_, ?_, ?_, ?_⟩
  · intro h2
    have hs := (get_Gi_isSome_iff powi F rhostar (i - 1).toNat (i - 1) (by omega)).mpr
      (by rw [Int.toNat_of_nonneg (by omega)])
    obtain ⟨G, hG⟩ := Option.isSome_iff_exists.mp hs
    refine ⟨G, hG, ?_⟩
    have hn : i.toNat = (i - 1).toNat + 1 := by omega
    rw [hn]
    unfold LJ126Johnson1993.get_Gi
    rw [if_neg (by omega)]
    simp only [hG]
    congr 1
    ring
  · intro k hk
    have hk2 := hk
    simp only [List.mem_range'_1] at hk2
    exact ⟨hk2.1, by omega, get_ai_ok sqrt Tstar k hk⟩
  · intro k hk
    have hk2 := hk
    simp only [List.mem_range'_1] at hk2
    exact ⟨hk2.1, by omega, get_bi_ok Tstar k hk,
      (get_Gi_isSome_iff powi F rhostar k (k : ℤ) (by exact_mod_cast hk2.1)).mpr le_rfl⟩
  · intro calls hc
    unfold LJ126Johnson1993.get_alphar
    obtain ⟨s, hs⟩ := get_alphar_loop_a_ok sqrt powi Tstar rhostar (List.range' 1 8) 0
      (fun k hk => get_ai_ok sqrt Tstar k hk)
    simp only [hs]
    apply get_alphar_loop_b_ok
    intro k hk
    have hk2 := hk
    simp only [List.mem_range'_1] at hk2
    exact ⟨hk2.1, by omega, get_bi_ok Tstar k hk⟩

/-- The recursion at `i = 3` over the rationals, with `F = 1/2` and `rho = 2`. -/
theorem get_Gi_terminates_witness :
    (1 : ℤ) ≤ 3
    ∧ LJ126Johnson1993.get_Gi (fun (x : ℚ) n => x ^ n) 3 3 (1 / 2) 2 = some (-83 / 54)
    ∧ LJ126Johnson1993.get_Gi (fun (x : ℚ) n => x ^ n) 2 3 (1 / 2) 2 = none
    ∧ (∀ calls : Nat, 6 ≤ calls →
        ∃ r, LJ126Johnson1993.get_alphar (fun x => x) (fun x => x) (fun (x : ℚ) n => x ^ n)
          calls 1 2 = some (Except.ok r)) := by
  have h := get_Gi_terminates (fun x => x) (fun x => x) (fun (x : ℚ) n => x ^ n) 3
    (by decide) (1 / 2) 1 2
  refine ⟨by decide, ?_, ?_, h.2.2.2.2.2⟩
  · simp [LJ126Johnson1993.get_Gi, LJ126Johnson1993.gamma]
    norm_num
  · simp [LJ126Johnson1993.get_Gi]

/-! ### `C2` is the derivative of `C1` -/

/-- C27: for every `mbar` and every packing fraction `eta` other than 1 and 2 at which the
denominator of `C1` is not zero, `C2 eta mbar` is the derivative of `C1` with respect to
`eta` at `eta`, over the reals. -/
theorem C2_is_derivative_of_C1 (eta mbar : ℝ) (h1 : eta ≠ 1) (h2 : eta ≠ 2)
    (hD : 1 + mbar * (8 * eta - 2 * eta * eta) / (1 - eta) ^ 4
      + (1 - mbar) * (20 * eta - 27 * eta * eta + 12 * eta ^ 3 - 2 * eta ^ 4)
        / ((1 - eta) * (2 - eta)) ^ 2 ≠ 0) :
    HasDerivAt (fun e => C1 e mbar) (C2 eta mbar) eta := by
  have hid : HasDerivAt (fun e : ℝ => e) 1 eta := hasDerivAt_id eta
  have hone : HasDerivAt (fun _ : ℝ => (1 : ℝ)) 0 eta := hasDerivAt_const eta 1
  have hu : (1 : ℝ) - eta ≠ 0 := sub_ne_zero.mpr (Ne.symm h1)
  have hv : (2 : ℝ) - eta ≠ 0 := sub_ne_zero.mpr (Ne.symm h2)
  have hA : HasDerivAt (fun e : ℝ => mbar * (8 * e - 2 * e * e) / (1 - e) ^ 4)
      (mbar * (-4 * eta * eta + 20 * eta + 8) / (1 - eta) ^ 5) eta := by
    have hn : HasDerivAt (fun e : ℝ => mbar * (8 * e - 2 * e * e))
        (mbar * (8 - 4 * eta)) eta := by
      have := ((hid.const_mul 8).sub ((hid.const_mul 2).mul hid)).const_mul mbar
      convert this using 1
      ring
    have hd : HasDerivAt (fun e : ℝ => (1 - e) ^ 4) (-4 * (1 - eta) ^ 3) eta := by
      have := (hone.sub hid).pow 4
      convert this using 1
      simp only [show (4 : ℕ) - 1 = 3 from rfl, show (3 : ℕ) - 1 = 2 from rfl,
        show (2 : ℕ) - 1 = 1 from rfl]
      push_cast
      ring
    have := hn.div hd (pow_ne_zero 4 hu)
    convert this using 1
    field_simp
    ring
  have hB : HasDerivAt
      (fun e : ℝ => (1 - mbar) * (20 * e - 27 * e * e + 12 * e ^ 3 - 2 * e ^ 4)
        / ((1 - e) * (2 - e)) ^ 2)
      ((1 - mbar) * (2 * eta * eta * eta + 12 * eta * eta - 48 * eta + 40)
        / ((1 - eta) * (2 - eta)) ^ 3) eta := by
    have hn : HasDerivAt
        (fun e : ℝ => (1 - mbar) * (20 * e - 27 * e * e + 12 * e ^ 3 - 2 * e ^ 4))
        ((1 - mbar) * (20 - 54 * eta + 36 * eta ^ 2 - 8 * eta ^ 3)) eta := by
      have := ((((hid.const_mul 20).sub ((hid.const_mul 27).mul hid)).add
        ((hid.pow 3).const_mul 12)).sub ((hid.pow 4).const_mul 2)).const_mul (1 - mbar)
      convert this using 1
      simp only [show (4 : ℕ) - 1 = 3 from rfl, show (3 : ℕ) - 1 = 2 from rfl,
        show (2 : ℕ) - 1 = 1 from rfl]
      push_cast
      ring
    have hd : HasDerivAt (fun e : ℝ => ((1 - e) * (2 - e)) ^ 2)
        (2 * ((1 - eta) * (2 - eta)) * (2 * eta - 3)) eta := by
      have h2c : HasDerivAt (fun _ : ℝ => (2 : ℝ)) 0 eta := hasDerivAt_const eta 2
      have := ((hone.sub hid).mul (h2c.sub hid)).pow 2
      convert this using 1
      simp only [show (4 : ℕ) - 1 = 3 from rfl, show (3 : ℕ) - 1 = 2 from rfl,
        show (2 : ℕ) - 1 = 1 from rfl]
      push_cast
      ring
    have := hn.div hd (pow_ne_zero 2 (mul_ne_zero hu hv))
    convert this using 1
    field_simp
    ring
  have hsum := (hone.add hA).add hB
  have hinv := hsum.inv hD
  have hfun : (fun e : ℝ => C1 e mbar) = fun e : ℝ =>
      ((1 : ℝ) + mbar * (8 * e - 2 * e * e) / (1 - e) ^ 4
        + (1 - mbar) * (20 * e - 27 * e * e + 12 * e ^ 3 - 2 * e ^ 4)
          / ((1 - e) * (2 - e)) ^ 2)⁻¹ := by
    funext e
    unfold C1
    rw [one_div]
  rw [hfun]
  convert hinv using 1
  unfold C2 C1
  rw [one_div, inv_pow]
  ring

/-- The derivative at `eta = 0`, `mbar = 1`: `C1` is 1 there and `C2` is `-8`. -/
theorem C2_is_derivative_of_C1_witness :
    (0 : ℝ) ≠ 1 ∧ (0 : ℝ) ≠ 2 ∧ C1 (0 : ℝ) 1 = 1 ∧ C2 (0 : ℝ) 1 = -8
    ∧ HasDerivAt (fun e : ℝ => C1 e 1) (C2 0 1) 0 :=
  ⟨by norm_num, by norm_num, by norm_num [C1], by norm_num [C2, C1],
    C2_is_derivative_of_C1 0 1 (by norm_num) (by norm_num) (by norm_num)⟩

/-! ### The uuids that `build_model` returns -/

theorem to_long_long_of_is_long_long (z : ℤ) (h : is_long_long z) : to_long_long z = z := by
  unfold is_long_long at h
  unfold to_long_long
  norm_num at h ⊢
  omega

theorem to_key_natCast (n : ℕ) (h : (n : ℤ) < 2 ^ 64) : to_key (n : ℤ) = n := by
  unfold to_key
  rw [Int.emod_eq_of_lt (by omega) h]
  simp

/-- The invariant of the C interface while the counter has not wrapped around: from a state
whose counter is `n` and whose library has keys below `n` only, a sequence of calls with
`n` plus the number of parsed `build_model` calls below `2^63` returns increasing uuids, all
at least `n`, and ends in a state whose counter is `n` plus that number and whose library
has keys below the counter only. -/
theorem run_calls_counter {J M : Type} (env : Interface J M) :
    ∀ (calls : List Call) (before : Outcome M) (n : ℕ),
      before.globals.next_index = (n : ℤ) →
      (∀ kv ∈ before.globals.library, kv.1 < n) →
      n + parsed_calls env calls < 2 ^ 63 →
      (issued_uuids env before calls).Pairwise (fun a b => a < b)
        ∧ (∀ u ∈ issued_uuids env before calls, (n : ℤ) ≤ u)
        ∧ (run_calls env before calls).globals.next_index = ((n + parsed_calls env calls : ℕ) : ℤ)
        ∧ (∀ kv ∈ (run_calls env before calls).globals.library,
            kv.1 < n + parsed_calls env calls) := by
  intro calls
  induction calls with
  | nil =>
    intro before n hn hlib _
    refine ⟨List.Pairwise.nil, ?_, ?_, ?_⟩
    · intro u hu
      simp [issued_uuids] at hu
    · simpa [run_calls, parsed_calls] using hn
    · simpa [run_calls, parsed_calls] using hlib
  | cons call calls ih =>
    intro before n hn hlib hbound
    cases call with
    | build_model j =>
      have hrun : run_calls env before (Call.build_model j :: calls)
          = run_calls env ((Call.build_model j).run env before) calls := rfl
      rw [hrun]
      cases hp : env.parse j with
      | error what =>
        have hstate : ((Call.build_model j).run env before).globals = before.globals := by
          simp only [Call.run, build_model, hp]
        have hcode : ((Call.build_model j).run env before).errcode ≠ 0 := by
          simp [Call.run, build_model, hp, exception_handler]
        have hcount : parsed_calls env (Call.build_model j :: calls) = parsed_calls env calls := by
          simp [parsed_calls, hp]
        rw [hcount] at hbound ⊢
        have hiss : issued_uuids env before (Call.build_model j :: calls)
            = issued_uuids env ((Call.build_model j).run env before) calls := by
          simp only [issued_uuids]
          rw [if_neg hcode]
        rw [hiss]
        exact ih _ n (by rw [hstate]; exact hn) (by rw [hstate]; exact hlib) hbound
      | ok json =>
        have hcount : parsed_calls env (Call.build_model j :: calls)
            = 1 + parsed_calls env calls := by
          simp [parsed_calls, hp]
        rw [hcount] at hbound ⊢
        have hnext : to_long_long ((n : ℤ) + 1) = ((n + 1 : ℕ) : ℤ) := by
          rw [to_long_long_of_is_long_long]
          · push_cast; rfl
          · unfold is_long_long
            constructor
            · have : (0 : ℤ) ≤ (n : ℤ) := Int.natCast_nonneg n
              norm_num
              omega
            · have h2 : ((n + (1 + parsed_calls env calls) : ℕ) : ℤ) < 2 ^ 63 := by
                exact_mod_cast hbound
              push_cast at h2
              have : (0 : ℤ) ≤ (parsed_calls env calls : ℤ) := Int.natCast_nonneg _
              omega
        cases hm : env.make_model json with
        | error what =>
          have hcode : ((Call.build_model j).run env before).errcode ≠ 0 := by
            simp [Call.run, build_model, hp, hm, exception_handler]
          have hidx : ((Call.build_model j).run env before).globals.next_index
              = ((n + 1 : ℕ) : ℤ) := by
            simp only [Call.run, build_model, hp, hm]
            rw [hn, hnext]
          have hl : ((Call.build_model j).run env before).globals.library
              = before.globals.library := by
            simp only [Call.run, build_model, hp, hm]
          have hiss : issued_uuids env before (Call.build_model j :: calls)
              = issued_uuids env ((Call.build_model j).run env before) calls := by
            simp only [issued_uuids]
            rw [if_neg hcode]
          rw [hiss]
          obtain ⟨h1, h2, h3, h4⟩ := ih ((Call.build_model j).run env before) (n + 1) hidx
            (by rw [hl]; intro kv hkv; exact Nat.lt_succ_of_lt (hlib kv hkv))
            (by omega)
          refine ⟨h1, fun u hu => ?_, ?_, ?_⟩
          · have := h2 u hu
            push_cast at this
            omega
          · rw [h3, Nat.add_assoc]
          · intro kv hkv
            have := h4 kv hkv
            omega
        | ok model =>
          have hcode : ((Call.build_model j).run env before).errcode = 0 := by
            simp only [Call.run, build_model, hp, hm]
          have huuid : ((Call.build_model j).run env before).uuid = (n : ℤ) := by
            simp only [Call.run, build_model, hp, hm]
            exact hn
          have hidx : ((Call.build_model j).run env before).globals.next_index
              = ((n + 1 : ℕ) : ℤ) := by
            simp only [Call.run, build_model, hp, hm]
            rw [hn, hnext]
          have hl : ((Call.build_model j).run env before).globals.library
              = library_emplace before.globals.library n model := by
            simp only [Call.run, build_model, hp, hm]
            rw [hn, to_key_natCast]
            have h2 : ((n + (1 + parsed_calls env calls) : ℕ) : ℤ) < 2 ^ 63 := by
              exact_mod_cast hbound
            push_cast at h2
            have : (0 : ℤ) ≤ (parsed_calls env calls : ℤ) := Int.natCast_nonneg _
            norm_num at h2 ⊢
            omega
          have hiss : issued_uuids env before (Call.build_model j :: calls)
              = (n : ℤ) :: issued_uuids env ((Call.build_model j).run env before) calls := by
            simp only [issued_uuids]
            rw [if_pos hcode, huuid]
          rw [hiss]
          obtain ⟨h1, h2, h3, h4⟩ := ih ((Call.build_model j).run env before) (n + 1) hidx
            (by
              rw [hl]
              intro kv hkv
              unfold library_emplace at hkv
              split_ifs at hkv
              · exact Nat.lt_succ_of_lt (hlib kv hkv)
              · rcases List.mem_append.mp hkv with hkv | hkv
                · exact Nat.lt_succ_of_lt (hlib kv hkv)
                · rw [List.mem_singleton] at hkv
                  rw [hkv]
                  exact Nat.lt_succ_self n)
            (by omega)
          refine ⟨List.Pairwise.cons (fun u hu => ?_) h1, fun u hu => ?_, ?_, ?_⟩
          · have := h2 u hu
            push_cast at this
            omega
          · rcases List.mem_cons.mp hu with hu | hu
            · rw [hu]
            · have := h2 u hu
              push_cast at this
              omega
          · rw [h3, Nat.add_assoc]
          · intro kv hkv
            have := h4 kv hkv
            omega
    | free_model uuid =>
      have hrun : run_calls env before (Call.free_model uuid :: calls)
          = run_calls env ((Call.free_model uuid).run env before) calls := rfl
      have hiss : issued_uuids env before (Call.free_model uuid :: calls)
          = issued_uuids env ((Call.free_model uuid).run env before) calls := rfl
      have hcount : parsed_calls env (Call.free_model uuid :: calls) = parsed_calls env calls :=
        rfl
      rw [hrun, hiss, hcount]
      rw [hcount] at hbound
      refine ih _ n hn ?_ hbound
      intro kv hkv
      simp only [Call.run, free_model, library_erase] at hkv
      exact hlib kv (List.mem_of_mem_filter hkv)
    | get_Arxy uuid NT ND T rho molefrac =>
      have hrun : run_calls env before (Call.get_Arxy uuid NT ND T rho molefrac :: calls)
          = run_calls env ((Call.get_Arxy uuid NT ND T rho molefrac).run env before) calls := rfl
      have hiss : issued_uuids env before (Call.get_Arxy uuid NT ND T rho molefrac :: calls)
          = issued_uuids env ((Call.get_Arxy uuid NT ND T rho molefrac).run env before) calls :=
        rfl
      have hcount : parsed_calls env (Call.get_Arxy uuid NT ND T rho molefrac :: calls)
          = parsed_calls env calls := rfl
      rw [hrun, hiss, hcount]
      rw [hcount] at hbound
      have hg : ((Call.get_Arxy uuid NT ND T rho molefrac).run env before).globals
          = before.globals := by
        simp only [Call.run]
        exact get_Arxy_globals _ _ _ _ _ _ _ _ _ _ _
      exact ih _ n (by rw [hg]; exact hn) (by rw [hg]; exact hlib) hbound

theorem parsed_calls_replicate {J M : Type} (env : Interface J M) (j : String) (json : J)
    (hp : env.parse j = Except.ok json) (n : ℕ) :
    parsed_calls env (List.replicate n (Call.build_model j)) = n := by
  induction n with
  | zero => rfl
  | succ n ih =>
    rw [List.replicate_succ]
    simp only [parsed_calls, hp, ih]
    omega

/-- C28: from the start of the program, and as long as fewer than `2^63` calls of
`build_model` have had their JSON parsed, the uuids that the successful calls of
`build_model` return are strictly increasing (hence pairwise distinct) and not negative, a
first call that succeeds returns 0, the counter is the number of calls of `build_model`
whose JSON parsed (whether or not the model was then constructed), and every key of the
library is smaller than the counter.  In every state, `build_model` leaves a model that is
stored under a key where it is. -/
theorem build_model_uuids_increasing {J M : Type} (env : Interface J M) (start : Outcome M)
    (calls : List Call) (hstart : start.globals = Globals.init)
    (hcalls : parsed_calls env calls < 2 ^ 63) :
    (issued_uuids env start calls).Pairwise (fun a b => a < b)
      ∧ (∀ u ∈ issued_uuids env start calls, 0 ≤ u)
      ∧ (∀ j : String, ((Call.build_model j).run env start).errcode = 0 →
          ((Call.build_model j).run env start).uuid = 0)
      ∧ (run_calls env start calls).globals.next_index = (parsed_calls env calls : ℤ)
      ∧ (∀ kv ∈ (run_calls env start calls).globals.library,
          (kv.1 : ℤ) < (run_calls env start calls).globals.next_index)
      ∧ (∀ (g : Globals M) (j : String) (uuid : ℤ) (val : ℚ) (errmsg : String) (k : ℕ)
          (model : M), g.library.lookup k = some model →
          (build_model env g j uuid val errmsg).globals.library.lookup k = some model) := by
  obtain ⟨h1, h2, h3, h4⟩ := run_calls_counter env calls start 0
    (by rw [hstart]; rfl) (by rw [hstart]; intro kv hkv; cases hkv) (by omega)
  rw [Nat.zero_add] at h3 h4
  refine ⟨h1, fun u hu => by simpa using h2 u hu, ?_, h3, ?_, ?_⟩
  · intro j hcode
    simp only [Call.run] at hcode ⊢
    obtain ⟨_, _, _, _, heq⟩ := build_model_ok env start.globals j start.uuid start.val
      start.errmsg hcode
    rw [heq, hstart]
    rfl
  · intro kv hkv
    rw [h3]
    exact_mod_cast h4 kv hkv
  · intro g j uuid val errmsg k model hk
    rcases build_model_library env g j uuid val errmsg with hl | ⟨m, _, _, hl⟩
    · rw [hl]; exact hk
    · rw [hl]; exact lookup_emplace_some _ _ _ _ _ hk

/-- Three models built from the start of the program, the first freed before the third is
built: the uuids are 0, 1 and 2. -/
theorem build_model_uuids_increasing_witness :
    parsed_calls accepting_interface
        [Call.build_model "a", Call.build_model "b", Call.free_model 0, Call.build_model "c"]
      < 2 ^ 63
    ∧ issued_uuids accepting_interface ⟨Globals.init, 0, -1, -1, ""⟩
        [Call.build_model "a", Call.build_model "b", Call.free_model 0, Call.build_model "c"]
      = [0, 1, 2]
    ∧ (issued_uuids accepting_interface ⟨Globals.init, 0, -1, -1, ""⟩
        [Call.build_model "a", Call.build_model "b", Call.free_model 0,
          Call.build_model "c"]).Pairwise (fun a b => a < b) :=
  ⟨by simp [parsed_calls, accepting_interface],
    by simp [issued_uuids, Call.run, build_model, free_model, accepting_interface,
      Globals.init, to_long_long],
    (build_model_uuids_increasing accepting_interface ⟨Globals.init, 0, -1, -1, ""⟩
      [Call.build_model "a", Call.build_model "b", Call.free_model 0, Call.build_model "c"]
      rfl (by simp [parsed_calls, accepting_interface])).1⟩

/-- C28, the counter wrapped around: after `2^63 - 1` successful calls of `build_model`
from the start of the program the counter is `2^63 - 1`; the next call succeeds and returns
the uuid `2^63 - 1`, and the call after it succeeds and returns `-2^63`, which is smaller;
its key `2^63` in the library is not smaller than the counter `-2^63 + 1`. -/
theorem build_model_uuid_wraps :
    (run_calls accepting_interface ⟨Globals.init, 0, -1, -1, ""⟩
        (List.replicate (2 ^ 63 - 1) (Call.build_model "j"))).globals.next_index = 2 ^ 63 - 1
    ∧ ∀ before : Outcome Unit, before.globals.next_index = 2 ^ 63 - 1 →
        ((Call.build_model "j").run accepting_interface before).errcode = 0
        ∧ ((Call.build_model "j").run accepting_interface before).uuid = 2 ^ 63 - 1
        ∧ ((Call.build_model "j").run accepting_interface
            ((Call.build_model "j").run accepting_interface before)).errcode = 0
        ∧ ((Call.build_model "j").run accepting_interface
            ((Call.build_model "j").run accepting_interface before)).uuid = -2 ^ 63
        ∧ ((Call.build_model "j").run accepting_interface
            ((Call.build_model "j").run accepting_interface before)).globals.next_index
          = -2 ^ 63 + 1
        ∧ to_key (-2 ^ 63) = 2 ^ 63 := by
  constructor
  · have hp := parsed_calls_replicate accepting_interface "j" () rfl (2 ^ 63 - 1)
    obtain ⟨_, _, h3, _⟩ := run_calls_counter accepting_interface
      (List.replicate (2 ^ 63 - 1) (Call.build_model "j")) ⟨Globals.init, 0, -1, -1, ""⟩ 0
      rfl (by intro kv hkv; cases hkv) (by rw [hp]; norm_num)
    rw [h3, hp]
    norm_num
  · intro before hb
    have h1 : (Call.build_model "j").run accepting_interface before
        = ⟨⟨to_long_long (before.globals.next_index + 1),
            library_emplace before.globals.library (to_key before.globals.next_index) ()⟩,
          0, before.globals.next_index, before.val, before.errmsg⟩ := rfl
    have h2 : (Call.build_model "j").run accepting_interface
          ((Call.build_model "j").run accepting_interface before)
        = ⟨⟨to_long_long (to_long_long (before.globals.next_index + 1) + 1),
            library_emplace
              (library_emplace before.globals.library (to_key before.globals.next_index) ())
              (to_key (to_long_long (before.globals.next_index + 1))) ()⟩,
          0, to_long_long (before.globals.next_index + 1), before.val, before.errmsg⟩ := rfl
    rw [h2, h1, hb]
    refine ⟨rfl, rfl, rfl, ?_, ?_, ?_⟩
    · simp only [to_long_long]; norm_num
    · simp only [to_long_long]; norm_num
    · simp only [to_key]
      norm_num
      rfl

/-! ### `PCSAFTfactory` with both `names` and `coeffs` -/

theorem factory_names_first {Q : Type}
    (build_square_matrix : JsonValue → Except Failure ArrayXXd)
    (make_quadrupolar : List ℚ → List ℚ → List ℚ → List ℚ → List ℚ → Except Failure Q)
    (coeffs : JsonValue) :
    PCSAFTfactory build_square_matrix make_quadrupolar
        (JsonValue.object [("names", JsonValue.array [JsonValue.string "Methane"]),
          ("coeffs", coeffs)])
      = PCSAFTMixture.from_names make_quadrupolar ["Methane"] ArrayXXd.empty := by
  have hk := factory_kmat_omitted build_square_matrix
    [("names", JsonValue.array [JsonValue.string "Methane"]), ("coeffs", coeffs)] rfl
  unfold PCSAFTfactory
  rw [hk]
  rfl

theorem factory_names_only {Q : Type}
    (build_square_matrix : JsonValue → Except Failure ArrayXXd)
    (make_quadrupolar : List ℚ → List ℚ → List ℚ → List ℚ → List ℚ → Except Failure Q) :
    PCSAFTfactory build_square_matrix make_quadrupolar
        (JsonValue.object [("names", JsonValue.array [JsonValue.string "Methane"])])
      = PCSAFTMixture.from_names make_quadrupolar ["Methane"] ArrayXXd.empty := by
  have hk := factory_kmat_omitted build_square_matrix
    [("names", JsonValue.array [JsonValue.string "Methane"])] rfl
  unfold PCSAFTfactory
  rw [hk]
  rfl

theorem factory_neither {Q : Type}
    (build_square_matrix : JsonValue → Except Failure ArrayXXd)
    (make_quadrupolar : List ℚ → List ℚ → List ℚ → List ℚ → List ℚ → Except Failure Q)
    (spec : JsonValue) (hn : spec.contains "names" = false)
    (hc : spec.contains "coeffs" = false) (model : PCSAFTMixture Q) :
    PCSAFTfactory build_square_matrix make_quadrupolar spec ≠ Except.ok model := by
  intro h
  unfold PCSAFTfactory at h
  obtain ⟨kmat, _, h⟩ := (bind_eq_ok _ _ _).mp h
  rw [hn, hc] at h
  simp [throw, throwThe, MonadExceptOf.throw] at h

/-- C29: `PCSAFTfactory` looks for `names` first and for `coeffs` only when there are no
`names`.  The empty specification, which has neither, fails with the message "you must
provide names or coeffs, but not both".  The specification with the `names` `["Methane"]`
and, also, the `coeffs` of ethane is accepted: the model returned is the methane model of
the specification with these `names` alone, and the `coeffs` are not read (every value in
their place gives the same result). -/
theorem PCSAFTfactory_names_and_coeffs_accepted {Q : Type}
    (build_square_matrix : JsonValue → Except Failure ArrayXXd)
    (make_quadrupolar : List ℚ → List ℚ → List ℚ → List ℚ → List ℚ → Except Failure Q) :
    PCSAFTfactory build_square_matrix make_quadrupolar (JsonValue.object [])
        = Except.error
          (Failure.invalid_argument "you must provide names or coeffs, but not both")
      ∧ (∃ model : PCSAFTMixture Q,
          PCSAFTfactory build_square_matrix make_quadrupolar
              (JsonValue.object [("names", JsonValue.array [JsonValue.string "Methane"]),
                ("coeffs", JsonValue.array [JsonValue.object
                  [("name", JsonValue.string "Ethane"), ("m", JsonValue.number 1.6069),
                    ("sigma_Angstrom", JsonValue.number 3.5206),
                    ("epsilon_over_k", JsonValue.number 191.42),
                    ("BibTeXKey", JsonValue.string "Gross-IECR-2001")]])])
            = Except.ok model
          ∧ model.names = ["Methane"] ∧ model.m = [1.0000]
          ∧ PCSAFTfactory build_square_matrix make_quadrupolar
              (JsonValue.object [("names", JsonValue.array [JsonValue.string "Methane"])])
            = Except.ok model)
      ∧ (∀ coeffs : JsonValue,
          PCSAFTfactory build_square_matrix make_quadrupolar
              (JsonValue.object [("names", JsonValue.array [JsonValue.string "Methane"]),
                ("coeffs", coeffs)])
            = PCSAFTfactory build_square_matrix make_quadrupolar
              (JsonValue.object [("names", JsonValue.array [JsonValue.string "Methane"])])) := by
  refine ⟨?_, ?_, ?_⟩
  · have hk := factory_kmat_omitted build_square_matrix [] rfl
    unfold PCSAFTfactory
    rw [hk]
    rfl
  · obtain ⟨model, hmodel⟩ := (from_names_ok_iff make_quadrupolar ["Methane"]
      ArrayXXd.empty).1.mpr ⟨by simp, rfl, Or.inl rfl⟩
    refine ⟨model, ?_, ?_, ?_, ?_⟩
    · rw [factory_names_first]; exact hmodel
    · have h := hmodel
      unfold PCSAFTMixture.from_names at h
      obtain ⟨coeffs, hcoeffs, h⟩ := (bind_eq_ok _ _ _).mp h
      have hc : PCSAFTLibrary.get_coeffs ["Methane"]
          = Except.ok [⟨"Methane", 1.0000, 3.7039, 150.03, "Gross-IECR-2001", 0, 0, 0, 0⟩] :=
        rfl
      rw [hc] at hcoeffs
      rw [← Except.ok.inj hcoeffs] at h
      rw [((from_coeffs_ok_iff make_quadrupolar _ ArrayXXd.empty).2 model h).2.2.2]
      rfl
    · have h := hmodel
      unfold PCSAFTMixture.from_names at h
      obtain ⟨coeffs, hcoeffs, h⟩ := (bind_eq_ok _ _ _).mp h
      have hc : PCSAFTLibrary.get_coeffs ["Methane"]
          = Except.ok [⟨"Methane", 1.0000, 3.7039, 150.03, "Gross-IECR-2001", 0, 0, 0, 0⟩] :=
        rfl
      rw [hc] at hcoeffs
      rw [← Except.ok.inj hcoeffs] at h
      unfold PCSAFTMixture.from_coeffs at h
      obtain ⟨k, _, h⟩ := (bind_eq_ok _ _ _).mp h
      dsimp only at h
      obtain ⟨d, _, h⟩ := (bind_eq_ok _ _ _).mp h
      obtain ⟨q, _, h⟩ := (bind_eq_ok _ _ _).mp h
      simp only [pure, Except.pure, Except.ok.injEq] at h
      rw [← h]
      rfl
    · rw [factory_names_only]; exact hmodel
  · intro coeffs
    rw [factory_names_first, factory_names_only]

/-! ### The dipolar term of `MultipolarContributionGrossVrabec` -/

/-- With no negative `nmu_i`: when the sum of the `|mustar2_i * nmu_i|` is not zero, the sum
of the `nmu_i` and the sum of the `|mustar2_i|` are positive. -/
theorem dipolar_created_implies_evaluated :
    ∀ (mustar2 nmu : List ℚ), (∀ v ∈ nmu, 0 ≤ v) →
      ((List.zipWith (fun (a b : ℚ) => a * b) mustar2 nmu).map fun v => |v|).sum ≠ 0 →
      nmu.sum > 0 ∧ (mustar2.map fun v => |v|).sum > 0 := by
  intro mustar2
  induction mustar2 with
  | nil => intro nmu _ h; simp at h
  | cons a rest ih =>
    intro nmu hn h
    cases nmu with
    | nil => simp at h
    | cons b bs =>
      have hb : 0 ≤ b := hn b (List.mem_cons_self _ _)
      have hbs : ∀ v ∈ bs, 0 ≤ v := fun v hv => hn v (List.mem_cons_of_mem _ hv)
      have hsum_bs : 0 ≤ bs.sum := List.sum_nonneg hbs
      have hsum_rest : 0 ≤ (rest.map fun v => |v|).sum :=
        List.sum_nonneg (by
          intro v hv
          obtain ⟨w, _, rfl⟩ := List.mem_map.mp hv
          exact abs_nonneg w)
      simp only [List.zipWith_cons_cons, List.map_cons, List.sum_cons] at h ⊢
      by_cases hab : a * b = 0
      · rw [hab, abs_zero, zero_add] at h
        obtain ⟨h1, h2⟩ := ih bs hbs h
        have ha : 0 ≤ |a| := abs_nonneg a
        constructor
        · linarith
        · linarith
      · have ha : a ≠ 0 := left_ne_zero_of_mul hab
        have hb0 : b ≠ 0 := right_ne_zero_of_mul hab
        have hbpos : 0 < b := lt_of_le_of_ne hb (Ne.symm hb0)
        have hapos : 0 < |a| := abs_pos.mpr ha
        constructor
        · linarith
        · linarith

/-- C30: for the two components with `nmu = (1, 0)` and `(mu^*)^2 = (0, 1)`, where no
`nmu_i` is negative, the sum of the `nmu_i` and the sum of the `|mustar2_i|` are positive,
so the constructor of `MultipolarContributionGrossVrabec` builds the dipolar part, with
`has_a_polar` set, and `eval` evaluates the dipolar term.  The sum of the
`|mustar2_i * nmu_i|` is zero, so `PCSAFTMixture::build_dipolar` creates no dipolar
contribution.  No pair `(i, j)` has `nmu_i * nmu_j > 0` and `mustar2_i * mustar2_j ≠ 0`, and
`alpha2DD`, by which `eval` divides, is zero at every state. -/
theorem multipolar_dipolar_condition_differs {S : Type} [Field S] (sqrt cbrt : ℚ → ℚ)
    (pi T rho_A3 eta x0 x1 : S) :
    (∀ v ∈ ([1, 0] : List ℚ), 0 ≤ v)
    ∧ (∃ mp d, MultipolarContributionGrossVrabec.make [1, 1] [3, 3] [100, 100] [0, 1] [1, 0]
          [0, 0] [0, 0] = Except.ok mp
        ∧ mp.di = some d ∧ d.has_a_polar = true
        ∧ d.get_alpha2DD sqrt pi T rho_A3 eta [x0, x1] = Except.ok 0
        ∧ ∃ r, mp.eval_dipolar sqrt cbrt pi T rho_A3 eta [x0, x1] = Except.ok r ∧ r.1 = 0)
    ∧ PCSAFTMixture.build_dipolar [1, 1] [3, 3] [100, 100]
        [⟨"a", 1, 3, 100, "", 0, 1, 0, 0⟩, ⟨"b", 1, 3, 100, "", 1, 0, 0, 0⟩] = Except.ok none
    ∧ ((List.zipWith (fun (a b : ℚ) => a * b) [0, 1] [1, 0]).map fun v => |v|).sum = 0
    ∧ ¬ ∃ i j : Fin 2, ([1, 0] : List ℚ).getD i 0 * ([1, 0] : List ℚ).getD j 0 > 0
        ∧ ([0, 1] : List ℚ).getD i 0 * ([0, 1] : List ℚ).getD j 0 ≠ 0 := by
  have hmake : MultipolarContributionGrossVrabec.make [1, 1] [3, 3] [100, 100] [0, 1] [1, 0]
      [0, 0] [0, 0]
      = Except.ok ⟨some ⟨[1, 1], [3, 3], [100, 100], [0, 1], [1, 0], true⟩, none⟩ := by
    simp [MultipolarContributionGrossVrabec.make, DipolarContributionGrossVrabec.make,
      Except.map, bind, Except.bind, pure, Except.pure]
  have h2 : DipolarContributionGrossVrabec.get_alpha2DD sqrt pi
      ⟨[1, 1], [3, 3], [100, 100], [0, 1], [1, 0], true⟩ T rho_A3 eta [x0, x1]
      = Except.ok 0 := by
    simp [DipolarContributionGrossVrabec.get_alpha2DD, array_at, List.range_succ,
      bind, Except.bind, pure, Except.pure]
  have h3 : DipolarContributionGrossVrabec.get_alpha3DD cbrt pi
      ⟨[1, 1], [3, 3], [100, 100], [0, 1], [1, 0], true⟩ T rho_A3 eta [x0, x1]
      = Except.ok 0 := by
    simp [DipolarContributionGrossVrabec.get_alpha3DD, array_at, List.range_succ,
      bind, Except.bind, pure, Except.pure]
  refine ⟨?_, ⟨_, _, hmake, rfl, rfl, h2, ?_⟩, ?_, ?_, ?_⟩
  · intro v hv
    simp at hv
    rcases hv with rfl | rfl <;> norm_num
  · simp only [MultipolarContributionGrossVrabec.eval_dipolar, if_true, h2, h3, bind,
      Except.bind, pure, Except.pure]
    exact ⟨_, rfl, rfl⟩
  · simp [PCSAFTMixture.build_dipolar, pure, Except.pure]
  · simp
  · rintro ⟨i, j, h1, h2⟩
    fin_cases i <;> fin_cases j <;> simp at h1 h2

end teqp
